import Mathlib

/-!
# SimpleLooper: track engine and session mixdown

A shallow embedding of `Source/LoopTrack.cpp` / `Source/LoopTrack.h` (the per-track
state machine and circular-buffer engine) and of the bounce mixdown of
`Source/PluginProcessor.cpp`.

Modelling conventions.

* C++ `int` / `juce::int64` values are `Int`; `a % b` is `Int.tmod` and `a / b` is
  `Int.tdiv` (C++ truncating division).  Overflow of the machine integers is not
  modelled.
* `float` samples, gains and multipliers are rationals (`ℚ`), and sample arithmetic is
  exact.  The one float computation that decides a length, the product
  `(float) masterLoopLength * mult` of the slave target and of the capture length, is
  rounded to binary32 as the code does (`toFloat32`, `floatProduct`); the
  `static_cast<int>` of a float is truncation toward zero.
* A `juce::AudioBuffer<float>` is a channel count, a sample count and a total
  function from (channel, index) to sample; an access outside the allocated range,
  undefined in C++, reads or writes that function at the index given.
* `std::atomic` cells are plain fields: the engine runs on one thread.
* The pointer `mReplace.source` is modelled by the content of the buffer it
  points to (`none` is `nullptr`).
-/

namespace SimpleLooper

/-- Track states (`LoopTrack::State`). -/
inductive State where
  | Empty
  | Recording
  | Playing
  | Overdubbing
  | Stopped
  deriving DecidableEq, Repr

/-- Multichannel sample storage (`juce::AudioBuffer<float>`). -/
structure AudioBuffer where
  numChannels : Nat
  numSamples : Int
  data : Nat → Int → ℚ

namespace AudioBuffer

/-- Resize: `setSize (channels, samples)` followed by `clear ()` as in `prepareToPlay`. -/
def allocate (channels : Nat) (samples : Int) : AudioBuffer :=
  { numChannels := channels, numSamples := samples, data := fun _ _ => 0 }

/-- Zero every sample of the buffer: `clear ()`. -/
def clear (b : AudioBuffer) : AudioBuffer :=
  { b with data := fun ch i =>
      if ch < b.numChannels ∧ 0 ≤ i ∧ i < b.numSamples then 0 else b.data ch i }

/-- Zero a region of every channel: `clear (startSample, numSamples)`. -/
def clearRegion (b : AudioBuffer) (start num : Int) : AudioBuffer :=
  { b with data := fun ch i =>
      if ch < b.numChannels ∧ start ≤ i ∧ i < start + num then 0 else b.data ch i }

/-- Copy `num` samples of one channel: `copyFrom (destCh, destStart, src, srcCh, srcStart, num)`. -/
def copyFrom (dest : AudioBuffer) (destCh : Nat) (destStart : Int) (src : AudioBuffer)
    (srcCh : Nat) (srcStart num : Int) : AudioBuffer :=
  { dest with data := fun ch i =>
      if ch = destCh ∧ destStart ≤ i ∧ i < destStart + num
      then src.data srcCh (srcStart + (i - destStart))
      else dest.data ch i }

/-- Add `num` scaled samples of one channel:
`addFrom (destCh, destStart, src, srcCh, srcStart, num, gain)`. -/
def addFrom (dest : AudioBuffer) (destCh : Nat) (destStart : Int) (src : AudioBuffer)
    (srcCh : Nat) (srcStart num : Int) (gain : ℚ) : AudioBuffer :=
  { dest with data := fun ch i =>
      if ch = destCh ∧ destStart ≤ i ∧ i < destStart + num
      then dest.data ch i + gain * src.data srcCh (srcStart + (i - destStart))
      else dest.data ch i }

end AudioBuffer

/-- Channel loop `for (int ch = 0; ch < n; ++ch) body (ch)` threading a value. -/
def forCh {α : Type} (n : Nat) (body : Nat → α → α) (init : α) : α :=
  (List.range n).foldl (fun acc ch => body ch acc) init

/-- In-flight progressive replace (`LoopTrack::ProgressiveReplace`). -/
structure ProgressiveReplace where
  source : Option AudioBuffer
  length : Int
  cursor : Int
  remaining : Int
  active : Bool

/-- One loop track (`class LoopTrack`, the data members). -/
structure LoopTrack where
  mReplace : ProgressiveReplace
  loopBuffer : AudioBuffer
  undoBuffer : AudioBuffer
  fxCaptureBuffer : AudioBuffer
  fxCaptureSamplesWritten : Int
  currentState : State
  gain : ℚ
  isMuted : Bool
  isSolo : Bool
  playbackPosition : Int
  loopLengthSamples : Int
  recordingStartOffset : Int
  recordingStartGlobalSample : Int
  undoLoopLengthSamples : Int
  hasUndo : Bool
  targetMultiplier : ℚ
  recordedSamplesCurrent : Int

/-- Conversion `static_cast<int>` of a float value: truncation toward zero. -/
def truncToInt (x : ℚ) : Int := if 0 ≤ x then ⌊x⌋ else ⌈x⌉

/-- Rounding of a rational to the nearest integer, ties to the even one. -/
def roundHalfEven (x : ℚ) : Int :=
  let f := ⌊x⌋
  let r := x - (f : ℚ)
  if r < 1 / 2 then f
  else if 1 / 2 < r then f + 1
  else if f % 2 = 0 then f else f + 1

/-- Number of binary digits of `n`, by repeated halving (`fuel = n` steps always suffice). -/
def bitLength : Nat → Nat → Nat
  | 0, _ => 0
  | fuel + 1, n => if n = 0 then 0 else bitLength fuel (n / 2) + 1

/-- Binary exponent of a non-zero rational: the `e` with `2 ^ e <= |x| < 2 ^ (e + 1)`. -/
def binaryExponent (x : ℚ) : Int :=
  let d : Int := (bitLength x.num.natAbs x.num.natAbs : Int) - (bitLength x.den x.den : Int)
  if (2 : ℚ) ^ d ≤ |x| then d else d - 1

/-- The binary32 (`float`) value nearest to `x`: 24 significant bits, round to nearest, ties
to even, as the conversion `(float) n` of an `int` and the `float` product round.  The
exponent range is not modelled: the values this is applied to, an `int` and its product with
a multiplier in [1/64, 64], lie in the normal range of binary32. -/
def toFloat32 (x : ℚ) : ℚ :=
  if x = 0 then 0
  else
    let e := binaryExponent x - 23
    (roundHalfEven (x / (2 : ℚ) ^ e) : ℚ) * (2 : ℚ) ^ e

/-- Single-precision product `(float) n * mult` of an `int` and a `float`: the `int` is
converted to binary32, the product is rounded to binary32. -/
def floatProduct (n : Int) (mult : ℚ) : ℚ := toFloat32 (toFloat32 (n : ℚ) * mult)

/-- Multiplier clamp of `processBlock` (lines 71-73 and 147-149) and `setTargetMultiplier`. -/
def clampMultiplier (m : ℚ) : ℚ :=
  let mult := if m < 1 / 64 then 1 / 64 else m
  if mult > 64 then 64 else mult

/-- Target length of a recording slave, `processBlock` lines 71-76 and 147-151:
`static_cast<int> ((float) masterLoopLength * mult)`, computed in binary32 and raised to at
least 1.  `targetMultiplier` is the value of the `float` member. -/
def slaveTargetLen (masterLoopLength : Int) (targetMultiplier : ℚ) : Int :=
  let mult := clampMultiplier targetMultiplier
  let targetLen := truncToInt (floatProduct masterLoopLength mult)
  if targetLen < 1 then 1 else targetLen

/-- One iteration `i` of the crossfade loop on one channel (`applyCrossfade`, lines 804-812). -/
def crossfadeStep (loopLength fadeSamples : Int) (data : Int → ℚ) (i : Nat) : Int → ℚ :=
  let fadeIn : ℚ := (i : ℚ) / (fadeSamples : ℚ)
  let fadeOut : ℚ := 1 - fadeIn
  let headSample := data i
  let tailSample := data (loopLength - fadeSamples + i)
  let data1 := Function.update data (i : Int) (headSample * fadeIn + tailSample * fadeOut)
  Function.update data1 (loopLength - fadeSamples + i) (tailSample * fadeOut + headSample * fadeIn)

/-- Boundary crossfade `LoopTrack::applyCrossfade (buffer, loopLength, fadeSamples)`. -/
def applyCrossfade (buffer : AudioBuffer) (loopLength fadeSamples : Int) : AudioBuffer :=
  if loopLength ≤ 0 ∨ fadeSamples ≤ 0 then buffer
  else
    let fade := min fadeSamples (loopLength.tdiv 2)
    { buffer with data := fun ch =>
        if ch < buffer.numChannels
        then (List.range fade.toNat).foldl (crossfadeStep loopLength fade) (buffer.data ch)
        else buffer.data ch }

/-- Sample indices the crossfade loop accesses on each channel: `data[i]` and
`data[loopLength - fadeSamples + i]` for every `i` below the fade length (`applyCrossfade`,
lines 802-812). -/
def crossfadeIndices (loopLength fadeSamples : Int) : List Int :=
  if loopLength ≤ 0 ∨ fadeSamples ≤ 0 then []
  else
    let fade := min fadeSamples (loopLength.tdiv 2)
    (List.range fade.toNat).flatMap fun i => [(i : Int), loopLength - fade + (i : Int)]

/-- The chunking loop shared by `handlePlayback` (lines 597-622), `captureSidechain`
(lines 633-654) and `handleOverdub` (lines 694-723): the successive
(block offset, buffer position, chunk length) triples the loop body runs with.
Each iteration consumes at least one sample, so `samplesToDo` iterations of fuel suffice. -/
def wrapChunks : Nat → Int → Int → Int → Int → List (Int × Int × Int)
  | 0, _, _, _, _ => []
  | fuel + 1, samplesToDo, offset, localPos, loopEndRes =>
    if samplesToDo > 0 then
      let pos := if localPos ≥ loopEndRes then 0 else localPos
      let samplesToEnd := loopEndRes - pos
      let chunk := min samplesToDo samplesToEnd
      if chunk ≤ 0 then []
      else
        let next := pos + chunk
        (offset, pos, chunk) ::
          wrapChunks fuel (samplesToDo - chunk) (offset + chunk)
            (if next ≥ loopEndRes then 0 else next) loopEndRes
    else []

/-- Copy loop `copyRegion (startPos, count)` of `processReplaceChunk` (lines 759-771). -/
def copyRegion (numCh : Nat) (len : Int) (src : AudioBuffer) :
    Nat → AudioBuffer → Int → Int → AudioBuffer
  | 0, lb, _, _ => lb
  | fuel + 1, lb, pos, rem =>
    if rem > 0 then
      let p := if pos ≥ len then pos - len else pos
      let toEnd := len - p
      let chunk := min rem toEnd
      copyRegion numCh len src fuel
        (forCh numCh (fun ch acc => acc.copyFrom ch p src ch p chunk) lb) (p + chunk) (rem - chunk)
    else lb

/-- Wrapped additive write loop of `overdubFromBuffer` (lines 526-535), one channel. -/
def overdubLoop (ch : Nat) (input : AudioBuffer) (loopLen : Int) :
    Nat → AudioBuffer → Int → Int → Int → AudioBuffer
  | 0, lb, _, _, _ => lb
  | fuel + 1, lb, remaining, srcOffset, dstPos =>
    if remaining > 0 then
      let toEnd := loopLen - dstPos
      let chunk := min remaining toEnd
      let next := dstPos + chunk
      overdubLoop ch input loopLen fuel (lb.addFrom ch dstPos input ch srcOffset chunk 1)
        (remaining - chunk) (srcOffset + chunk) (if next ≥ loopLen then 0 else next)
    else lb

/-- Exchange of one sample of channel `ch` between the loop buffer (first component) and
the undo buffer (second component): `std::swap (d1[i], d2[i])`, `performUndo` line 340. -/
def swapSample (ch : Nat) (a : AudioBuffer × AudioBuffer) (i : Nat) : AudioBuffer × AudioBuffer :=
  let x := a.1.data ch i
  let y := a.2.data ch i
  ({ a.1 with data := Function.update a.1.data ch (Function.update (a.1.data ch) (i : Int) y) },
   { a.2 with data := Function.update a.2.data ch (Function.update (a.2.data ch) (i : Int) x) })

/-- Inner loop of `performUndo` (lines 336-341): swap samples `0 .. maxLen - 1` of channel `ch`. -/
def swapChannel (maxLen : Int) (ch : Nat) (acc : AudioBuffer × AudioBuffer) :
    AudioBuffer × AudioBuffer :=
  (List.range maxLen.toNat).foldl (swapSample ch) acc

namespace LoopTrack

/-- Accessor `hasLoop ()`. -/
def hasLoop (t : LoopTrack) : Bool := decide (t.loopLengthSamples > 0)

/-- Accessor `isReplacing ()`. -/
def isReplacing (t : LoopTrack) : Bool := t.mReplace.active

/-- Accessor `canUndo ()`. -/
def canUndo (t : LoopTrack) : Bool := t.hasUndo

/-- Accessor `isFxCaptureReady ()`. -/
def isFxCaptureReady (t : LoopTrack) : Bool :=
  decide (t.loopLengthSamples > 0 ∧ t.fxCaptureSamplesWritten ≥ t.loopLengthSamples)

/-- Setter `setTargetMultiplier (multiplier)`. -/
def setTargetMultiplier (t : LoopTrack) (multiplier : ℚ) : LoopTrack :=
  { t with targetMultiplier := clampMultiplier multiplier }

/-- Setter `setVolume (newVolume)`. -/
def setVolume (t : LoopTrack) (newVolume : ℚ) : LoopTrack := { t with gain := newVolume }

/-- Setter `setMuted (shouldBeMuted)`. -/
def setMuted (t : LoopTrack) (shouldBeMuted : Bool) : LoopTrack :=
  { t with isMuted := shouldBeMuted }

/-- Setter `setSolo (shouldBeSolo)`. -/
def setSolo (t : LoopTrack) (shouldBeSolo : Bool) : LoopTrack := { t with isSolo := shouldBeSolo }

/-- Reset `LoopTrack::clear ()`. -/
def clear (t : LoopTrack) : LoopTrack :=
  { t with
    currentState := State.Empty
    loopLengthSamples := 0
    playbackPosition := 0
    recordedSamplesCurrent := 0
    loopBuffer := t.loopBuffer.clear
    undoLoopLengthSamples := 0
    hasUndo := false
    targetMultiplier := 1
    recordingStartOffset := 0
    recordingStartGlobalSample := 0
    fxCaptureSamplesWritten := 0
    mReplace := { t.mReplace with active := false, source := none } }

/-- A freshly constructed track (the default member initialisers of `LoopTrack.h`). -/
def fresh : LoopTrack :=
  { mReplace := { source := none, length := 0, cursor := 0, remaining := 0, active := false }
    loopBuffer := AudioBuffer.allocate 0 0
    undoBuffer := AudioBuffer.allocate 0 0
    fxCaptureBuffer := AudioBuffer.allocate 0 0
    fxCaptureSamplesWritten := 0
    currentState := State.Empty
    gain := 1
    isMuted := false
    isSolo := false
    playbackPosition := 0
    loopLengthSamples := 0
    recordingStartOffset := 0
    recordingStartGlobalSample := 0
    undoLoopLengthSamples := 0
    hasUndo := false
    targetMultiplier := 1
    recordedSamplesCurrent := 0 }

/-- Allocation `prepareToPlay (sampleRate, samplesPerBlock)`: three stereo buffers of
`sampleRate * 300` samples, then `clear ()`. -/
def prepareToPlay (t : LoopTrack) (sampleRate : ℚ) : LoopTrack :=
  let totalSamples := truncToInt (sampleRate * 300)
  clear { t with
    loopBuffer := AudioBuffer.allocate 2 totalSamples
    undoBuffer := AudioBuffer.allocate 2 totalSamples
    fxCaptureBuffer := AudioBuffer.allocate 2 totalSamples }

/-- Backup `saveUndo ()`. -/
def saveUndo (t : LoopTrack) : LoopTrack :=
  let len := t.loopLengthSamples
  if len > 0 then
    { t with
      undoBuffer := forCh t.undoBuffer.numChannels
        (fun ch acc => acc.copyFrom ch 0 t.loopBuffer ch 0 len) t.undoBuffer
      undoLoopLengthSamples := len
      hasUndo := true }
  else t

/-- Transition `setRecording ()`. -/
def setRecording (t : LoopTrack) : LoopTrack :=
  if t.currentState = State.Empty then
    { t with
      playbackPosition := 0
      loopLengthSamples := 0
      recordedSamplesCurrent := 0
      currentState := State.Recording }
  else t

/-- Transition `setOverdubbing ()`. -/
def setOverdubbing (t : LoopTrack) : LoopTrack :=
  if t.loopLengthSamples > 0 then
    let t1 := if t.currentState ≠ State.Overdubbing then saveUndo t else t
    { t1 with currentState := State.Overdubbing }
  else t

/-- Transition `setPlaying ()`. -/
def setPlaying (t : LoopTrack) : LoopTrack :=
  let t1 :=
    if t.currentState = State.Recording then
      let t2 :=
        if t.playbackPosition > 0 then
          { t with loopLengthSamples := t.playbackPosition }
        else if t.recordedSamplesCurrent > 0 then
          if t.loopLengthSamples = 0 then
            { t with loopLengthSamples := t.recordedSamplesCurrent }
          else t
        else t
      { t2 with playbackPosition := 0 }
    else t
  if t1.loopLengthSamples > 0 then
    { t1 with
      loopBuffer := applyCrossfade t1.loopBuffer t1.loopLengthSamples 128
      currentState := State.Playing }
  else t1

/-- Transition `stop ()`. -/
def stop (t : LoopTrack) : LoopTrack :=
  let t1 :=
    if t.currentState = State.Recording then
      { t with loopLengthSamples := t.playbackPosition, playbackPosition := 0 }
    else t
  if t1.loopLengthSamples > 0 then
    { t1 with currentState := State.Stopped, playbackPosition := 0 }
  else t1

/-- Undo / redo toggle `performUndo ()`. -/
def performUndo (t : LoopTrack) : LoopTrack :=
  if t.hasUndo = true ∧ t.undoLoopLengthSamples > 0 then
    let t1 :=
      if t.currentState = State.Recording ∨ t.currentState = State.Overdubbing
      then setPlaying t else t
    let currentLen := t1.loopLengthSamples
    let restoredLen := t1.undoLoopLengthSamples
    let maxLen := max currentLen restoredLen
    let swapped := forCh t1.loopBuffer.numChannels (swapChannel maxLen)
      (t1.loopBuffer, t1.undoBuffer)
    { t1 with
      loopBuffer := swapped.1
      undoBuffer := swapped.2
      loopLengthSamples := restoredLen
      undoLoopLengthSamples := currentLen }
  else t

/-- Edit `multiplyLoop ()`. -/
def multiplyLoop (t : LoopTrack) : LoopTrack :=
  if t.loopLengthSamples ≤ 0 then
    { t with targetMultiplier := min 64 (t.targetMultiplier * 2) }
  else if t.loopLengthSamples * 2 > t.loopBuffer.numSamples then t
  else
    let t1 := saveUndo t
    let len := t1.loopLengthSamples
    { t1 with
      loopBuffer := forCh t1.loopBuffer.numChannels
        (fun ch acc => acc.copyFrom ch len acc ch 0 len) t1.loopBuffer
      loopLengthSamples := len * 2 }

/-- Edit `divideLoop ()`. -/
def divideLoop (t : LoopTrack) : LoopTrack :=
  if t.loopLengthSamples ≤ 0 then
    { t with targetMultiplier := max (1 / 64) (t.targetMultiplier / 2) }
  else if t.loopLengthSamples.tdiv 2 < 256 then t
  else
    let t1 := saveUndo t
    { t1 with loopLengthSamples := t1.loopLengthSamples.tdiv 2 }

/-- Install a mixed buffer: `setLoopFromMix (mixedBuffer, length, startOffset, startGlobalSample)`. -/
def setLoopFromMix (t : LoopTrack) (mixedBuffer : AudioBuffer) (length startOffset : Int)
    (startGlobalSample : Int) : LoopTrack :=
  if length ≤ 0 ∨ length > t.loopBuffer.numSamples then t
  else
    let t1 := saveUndo t
    let cleared := t1.loopBuffer.clear
    { t1 with
      loopBuffer := forCh (min cleared.numChannels mixedBuffer.numChannels)
        (fun ch acc => acc.copyFrom ch 0 mixedBuffer ch 0 length) cleared
      loopLengthSamples := length
      playbackPosition := 0
      recordedSamplesCurrent := length
      recordingStartOffset := startOffset
      recordingStartGlobalSample := startGlobalSample
      currentState := State.Playing }

/-- Additive merge `overdubFromBuffer (inputBuffer, inputLength, inputStartGlobalSample)`. -/
def overdubFromBuffer (t : LoopTrack) (inputBuffer : AudioBuffer) (inputLength : Int)
    (inputStartGlobalSample : Int) : LoopTrack :=
  if t.loopLengthSamples ≤ 0 ∨ inputLength ≤ 0 then t
  else
    let t1 := saveUndo t
    let elapsed0 := inputStartGlobalSample - t1.recordingStartGlobalSample
    let elapsed := if elapsed0 < 0 then 0 else elapsed0
    let writeStart := elapsed.tmod t1.loopLengthSamples
    let numCh := min t1.loopBuffer.numChannels inputBuffer.numChannels
    { t1 with
      loopBuffer := forCh numCh
        (fun ch acc =>
          overdubLoop ch inputBuffer t1.loopLengthSamples inputLength.toNat acc inputLength 0
            writeStart)
        t1.loopBuffer }

/-- Linear write `handleRecording (inputBuffer, numSamples, startWritePos)`. -/
def handleRecording (t : LoopTrack) (inputBuffer : AudioBuffer) (numSamples startWritePos : Int) :
    LoopTrack :=
  if startWritePos + numSamples ≥ t.loopBuffer.numSamples then setPlaying t
  else
    { t with
      loopBuffer := forCh (min inputBuffer.numChannels t.loopBuffer.numChannels)
        (fun ch acc => acc.copyFrom ch startWritePos inputBuffer ch 0 numSamples) t.loopBuffer }

/-- The buffer playback and overdub read from: the replace source while a replace is
active, the live loop buffer otherwise (lines 589-590 and 684-685). -/
def readBuf (t : LoopTrack) : AudioBuffer :=
  match t.mReplace.active, t.mReplace.source with
  | true, some src => src
  | _, _ => t.loopBuffer

/-- Output stage `handlePlayback (outputBuffer, numSamples, startReadPos, loopEndRes, shouldBeSilent)`. -/
def handlePlayback (t : LoopTrack) (outputBuffer : AudioBuffer) (numSamples startReadPos : Int)
    (loopEndRes : Int) (shouldBeSilent : Bool) : AudioBuffer :=
  if loopEndRes ≤ 0 then outputBuffer
  else if shouldBeSilent then outputBuffer
  else if t.isMuted then outputBuffer
  else
    let currentGain := t.gain
    let rb := readBuf t
    (wrapChunks numSamples.toNat numSamples 0 startReadPos loopEndRes).foldl
      (fun out c =>
        forCh (min out.numChannels rb.numChannels)
          (fun ch acc => acc.addFrom ch c.1 rb ch c.2.1 c.2.2 currentGain) out)
      outputBuffer

/-- Staging write `captureSidechain (sidechainBuffer, numSamples, startWritePos, loopEndRes)`. -/
def captureSidechain (t : LoopTrack) (sidechainBuffer : AudioBuffer) (numSamples : Int)
    (startWritePos loopEndRes : Int) : LoopTrack :=
  if loopEndRes ≤ 0 then t
  else
    (wrapChunks numSamples.toNat numSamples 0 startWritePos loopEndRes).foldl
      (fun (s : LoopTrack) c =>
        { s with
          fxCaptureBuffer := forCh (min sidechainBuffer.numChannels s.fxCaptureBuffer.numChannels)
            (fun ch acc => acc.copyFrom ch c.2.1 sidechainBuffer ch c.1 c.2.2) s.fxCaptureBuffer
          fxCaptureSamplesWritten := s.fxCaptureSamplesWritten + c.2.2 })
      t

/-- One-shot commit `applyFxReplace ()`. -/
def applyFxReplace (t : LoopTrack) : LoopTrack :=
  if t.loopLengthSamples ≤ 0 then t
  else if t.fxCaptureSamplesWritten < t.loopLengthSamples then t
  else
    let t1 := saveUndo t
    { t1 with
      loopBuffer := forCh (min t1.loopBuffer.numChannels t1.fxCaptureBuffer.numChannels)
        (fun ch acc => acc.copyFrom ch 0 t1.fxCaptureBuffer ch 0 t1.loopLengthSamples)
        t1.loopBuffer
      fxCaptureSamplesWritten := 0 }

/-- Combined play and record stage
`handleOverdub (outputBuffer, inputBuffer, numSamples, startReadPos, loopEndRes, shouldBeSilent)`. -/
def handleOverdub (t : LoopTrack) (outputBuffer inputBuffer : AudioBuffer) (numSamples : Int)
    (startReadPos loopEndRes : Int) (shouldBeSilent : Bool) : LoopTrack × AudioBuffer :=
  if loopEndRes ≤ 0 then (t, outputBuffer)
  else
    let muted := if shouldBeSilent then true else t.isMuted
    let currentGain := t.gain
    (wrapChunks numSamples.toNat numSamples 0 startReadPos loopEndRes).foldl
      (fun (s : LoopTrack × AudioBuffer) c =>
        forCh (min s.2.numChannels s.1.loopBuffer.numChannels)
          (fun ch (a : LoopTrack × AudioBuffer) =>
            let out := if muted then a.2
              else a.2.addFrom ch c.1 (readBuf a.1) ch c.2.1 c.2.2 currentGain
            ({ a.1 with loopBuffer := a.1.loopBuffer.addFrom ch c.2.1 inputBuffer ch c.1 c.2.2 1 },
             out))
          s)
      (t, outputBuffer)

/-- Start of a progressive replace
`beginProgressiveReplace (source, length, startOffset, startGlobal)`. -/
def beginProgressiveReplace (t : LoopTrack) (source : Option AudioBuffer) (length : Int)
    (startOffset : Int) (startGlobal : Int) : LoopTrack :=
  match source with
  | none => t
  | some src =>
    if length ≤ 0 ∨ length > t.loopBuffer.numSamples then t
    else
      let t1 := saveUndo t
      { t1 with
        mReplace := { source := some src, length := length, cursor := 0, remaining := length,
                      active := true }
        loopLengthSamples := length
        playbackPosition := 0
        recordedSamplesCurrent := length
        recordingStartOffset := startOffset
        recordingStartGlobalSample := startGlobal
        currentState := if t1.currentState = State.Empty then State.Playing else t1.currentState }

/-- Per-block copy step `processReplaceChunk (playheadPos, blockSize)`. -/
def processReplaceChunk (t : LoopTrack) (_playheadPos blockSize : Int) : LoopTrack :=
  match t.mReplace.source with
  | none => t
  | some src =>
    if t.mReplace.active = false then t
    else
      let numCh := min t.loopBuffer.numChannels src.numChannels
      let len := t.mReplace.length
      let budget := min (blockSize * 16) t.mReplace.remaining
      let t1 :=
        if budget > 0 then
          { t with
            loopBuffer := copyRegion numCh len src budget.toNat t.loopBuffer t.mReplace.cursor budget
            mReplace := { t.mReplace with
              cursor := (t.mReplace.cursor + budget).tmod len
              remaining := t.mReplace.remaining - budget } }
        else t
      if t1.mReplace.remaining ≤ 0 then
        { t1 with mReplace := { t1.mReplace with active := false, source := none } }
      else t1

/-- Solo / mute resolution of `processBlock` (lines 53-60, repeated at 177-184):
the statement only ever raises the flag. -/
def soloMute (t : LoopTrack) (anySoloActive : Bool) (shouldBeSilent : Bool) : Bool :=
  if anySoloActive then (if !t.isSolo then true else shouldBeSilent)
  else (if t.isMuted then true else shouldBeSilent)

/-- Auto-finish of a fixed-length slave recording, `processBlock` lines 66-94:
the track and the value of the local variable `state` afterwards. -/
def autoFinish (t : LoopTrack) (state : State) (isMasterTrack : Bool) (masterLoopLength : Int) :
    LoopTrack × State :=
  if state = State.Recording ∧ isMasterTrack = false then
    let targetLen := slaveTargetLen masterLoopLength t.targetMultiplier
    if t.recordedSamplesCurrent ≥ targetLen then
      (setPlaying { t with loopLengthSamples := targetLen }, State.Playing)
    else (t, state)
  else (t, state)

end LoopTrack

/-- Values of the locals `writePos`, `readPos`, `currentLoopLength` of `processBlock`
after lines 96-175, with the track as those lines leave it. -/
structure BlockPositions where
  track : LoopTrack
  writePos : Int
  readPos : Int
  currentLoopLength : Int

namespace LoopTrack

/-- Position computation of `processBlock`, lines 96-175. -/
def blockPositions (t : LoopTrack) (state : State) (globalTotalSamples : Int)
    (isMasterTrack : Bool) (masterLoopLength : Int) : BlockPositions :=
  if isMasterTrack then
    if state = State.Recording then
      { track := t, writePos := t.playbackPosition, readPos := 0,
        currentLoopLength := t.loopBuffer.numSamples }
    else if t.loopLengthSamples > 0 then
      let readPos := globalTotalSamples.tmod t.loopLengthSamples
      { track := t, writePos := readPos, readPos := readPos,
        currentLoopLength := t.loopLengthSamples }
    else { track := t, writePos := 0, readPos := 0, currentLoopLength := 0 }
  else
    if state = State.Recording then
      let t1 :=
        if t.recordedSamplesCurrent = 0 ∧ masterLoopLength > 0 then
          { t with
            recordingStartOffset := globalTotalSamples.tmod masterLoopLength
            recordingStartGlobalSample := globalTotalSamples }
        else t
      let targetLen := slaveTargetLen masterLoopLength t1.targetMultiplier
      let t2 := if t1.loopLengthSamples ≠ targetLen
        then { t1 with loopLengthSamples := targetLen } else t1
      { track := t2, writePos := t1.recordedSamplesCurrent, readPos := 0,
        currentLoopLength := t1.loopBuffer.numSamples }
    else if t.loopLengthSamples > 0 then
      let elapsed0 := globalTotalSamples - t.recordingStartGlobalSample
      let elapsed := if elapsed0 < 0 then 0 else elapsed0
      let readPos := elapsed.tmod t.loopLengthSamples
      { track := t, writePos := readPos, readPos := readPos,
        currentLoopLength := t.loopLengthSamples }
    else { track := t, writePos := 0, readPos := 0, currentLoopLength := masterLoopLength }

/-- Block processing `processBlock (outputBuffer, inputBuffer, sidechainBuffer,
globalTotalSamples, isMasterTrack, masterLoopLength, anySoloActive)`: the track and the
output buffer afterwards. -/
def processBlock (t : LoopTrack) (outputBuffer inputBuffer sidechainBuffer : AudioBuffer)
    (globalTotalSamples : Int) (isMasterTrack : Bool) (masterLoopLength : Int)
    (anySoloActive : Bool) : LoopTrack × AudioBuffer :=
  let numSamples := outputBuffer.numSamples
  let state0 := t.currentState
  if state0 = State.Stopped ∨ (state0 = State.Empty ∧ state0 ≠ State.Recording) then
    (t, outputBuffer)
  else
    let silent0 := soloMute t anySoloActive false
    let af := autoFinish t state0 isMasterTrack masterLoopLength
    let state := af.2
    let bp := blockPositions af.1 state globalTotalSamples isMasterTrack masterLoopLength
    let shouldBeSilent := soloMute bp.track anySoloActive silent0
    let t2 := if bp.track.mReplace.active then processReplaceChunk bp.track bp.readPos numSamples
      else bp.track
    match state with
    | State.Recording =>
      let t3 := handleRecording t2 inputBuffer numSamples bp.writePos
      if isMasterTrack then
        ({ t3 with playbackPosition := t3.playbackPosition + numSamples }, outputBuffer)
      else
        ({ t3 with recordedSamplesCurrent := t3.recordedSamplesCurrent + numSamples },
          outputBuffer)
    | State.Playing =>
      let t3 := if t2.loopLengthSamples > 0
        then captureSidechain t2 sidechainBuffer numSamples bp.readPos bp.currentLoopLength
        else t2
      (t3, handlePlayback t3 outputBuffer numSamples bp.readPos bp.currentLoopLength
        shouldBeSilent)
    | State.Overdubbing =>
      let t3 := if t2.loopLengthSamples > 0
        then captureSidechain t2 sidechainBuffer numSamples bp.readPos bp.currentLoopLength
        else t2
      handleOverdub t3 outputBuffer inputBuffer numSamples bp.readPos bp.currentLoopLength
        shouldBeSilent
    | _ => (t2, outputBuffer)

end LoopTrack

/-- Track states reachable from a freshly constructed track by any sequence of the public
operations of `LoopTrack` (`prepareToPlay` and `processBlock` included), with arbitrary
arguments.  The role `isMasterTrack` is fixed per track: the session passes `i == 0` for
track `i` in every `processBlock` call. -/
inductive Reachable (isMasterTrack : Bool) : LoopTrack → Prop where
  | constructed : Reachable isMasterTrack LoopTrack.fresh
  | prepareToPlay {t : LoopTrack} (sampleRate : ℚ) :
      Reachable isMasterTrack t → Reachable isMasterTrack (t.prepareToPlay sampleRate)
  | processBlock {t : LoopTrack} (outputBuffer inputBuffer sidechainBuffer : AudioBuffer)
      (globalTotalSamples : Int) (masterLoopLength : Int) (anySoloActive : Bool) :
      Reachable isMasterTrack t →
      Reachable isMasterTrack
        (t.processBlock outputBuffer inputBuffer sidechainBuffer globalTotalSamples
          isMasterTrack masterLoopLength anySoloActive).1
  | clear {t : LoopTrack} : Reachable isMasterTrack t → Reachable isMasterTrack t.clear
  | setRecording {t : LoopTrack} :
      Reachable isMasterTrack t → Reachable isMasterTrack t.setRecording
  | setOverdubbing {t : LoopTrack} :
      Reachable isMasterTrack t → Reachable isMasterTrack t.setOverdubbing
  | setPlaying {t : LoopTrack} : Reachable isMasterTrack t → Reachable isMasterTrack t.setPlaying
  | stop {t : LoopTrack} : Reachable isMasterTrack t → Reachable isMasterTrack t.stop
  | setVolume {t : LoopTrack} (v : ℚ) :
      Reachable isMasterTrack t → Reachable isMasterTrack (t.setVolume v)
  | setMuted {t : LoopTrack} (b : Bool) :
      Reachable isMasterTrack t → Reachable isMasterTrack (t.setMuted b)
  | setSolo {t : LoopTrack} (b : Bool) :
      Reachable isMasterTrack t → Reachable isMasterTrack (t.setSolo b)
  | setTargetMultiplier {t : LoopTrack} (m : ℚ) :
      Reachable isMasterTrack t → Reachable isMasterTrack (t.setTargetMultiplier m)
  | applyFxReplace {t : LoopTrack} :
      Reachable isMasterTrack t → Reachable isMasterTrack t.applyFxReplace
  | setLoopFromMix {t : LoopTrack} (mixedBuffer : AudioBuffer) (length startOffset : Int)
      (startGlobalSample : Int) :
      Reachable isMasterTrack t →
      Reachable isMasterTrack (t.setLoopFromMix mixedBuffer length startOffset startGlobalSample)
  | overdubFromBuffer {t : LoopTrack} (inputBuffer : AudioBuffer) (inputLength : Int)
      (inputStartGlobalSample : Int) :
      Reachable isMasterTrack t →
      Reachable isMasterTrack
        (t.overdubFromBuffer inputBuffer inputLength inputStartGlobalSample)
  | multiplyLoop {t : LoopTrack} :
      Reachable isMasterTrack t → Reachable isMasterTrack t.multiplyLoop
  | divideLoop {t : LoopTrack} : Reachable isMasterTrack t → Reachable isMasterTrack t.divideLoop
  | performUndo {t : LoopTrack} :
      Reachable isMasterTrack t → Reachable isMasterTrack t.performUndo
  | beginProgressiveReplace {t : LoopTrack} (source : Option AudioBuffer) (length : Int)
      (startOffset : Int) (startGlobal : Int) :
      Reachable isMasterTrack t →
      Reachable isMasterTrack
        (t.beginProgressiveReplace source length startOffset startGlobal)
  | processReplaceChunk {t : LoopTrack} (playheadPos blockSize : Int) :
      Reachable isMasterTrack t →
      Reachable isMasterTrack (t.processReplaceChunk playheadPos blockSize)

/-- States a track reaches from construction through `prepareToPlay`, the public operations
and `processBlock` calls whose block holds at least one sample. -/
inductive ReachableNonEmpty (isMasterTrack : Bool) : LoopTrack → Prop where
  | constructed : ReachableNonEmpty isMasterTrack LoopTrack.fresh
  | prepareToPlay {t : LoopTrack} (sampleRate : ℚ) :
      ReachableNonEmpty isMasterTrack t →
      ReachableNonEmpty isMasterTrack (t.prepareToPlay sampleRate)
  | processBlock {t : LoopTrack} (outputBuffer inputBuffer sidechainBuffer : AudioBuffer)
      (globalTotalSamples : Int) (masterLoopLength : Int) (anySoloActive : Bool) :
      0 < outputBuffer.numSamples →
      ReachableNonEmpty isMasterTrack t →
      ReachableNonEmpty isMasterTrack
        (t.processBlock outputBuffer inputBuffer sidechainBuffer globalTotalSamples
          isMasterTrack masterLoopLength anySoloActive).1
  | clear {t : LoopTrack} :
      ReachableNonEmpty isMasterTrack t → ReachableNonEmpty isMasterTrack t.clear
  | setRecording {t : LoopTrack} :
      ReachableNonEmpty isMasterTrack t → ReachableNonEmpty isMasterTrack t.setRecording
  | setOverdubbing {t : LoopTrack} :
      ReachableNonEmpty isMasterTrack t → ReachableNonEmpty isMasterTrack t.setOverdubbing
  | setPlaying {t : LoopTrack} :
      ReachableNonEmpty isMasterTrack t → ReachableNonEmpty isMasterTrack t.setPlaying
  | stop {t : LoopTrack} :
      ReachableNonEmpty isMasterTrack t → ReachableNonEmpty isMasterTrack t.stop
  | setVolume {t : LoopTrack} (v : ℚ) :
      ReachableNonEmpty isMasterTrack t → ReachableNonEmpty isMasterTrack (t.setVolume v)
  | setMuted {t : LoopTrack} (b : Bool) :
      ReachableNonEmpty isMasterTrack t → ReachableNonEmpty isMasterTrack (t.setMuted b)
  | setSolo {t : LoopTrack} (b : Bool) :
      ReachableNonEmpty isMasterTrack t → ReachableNonEmpty isMasterTrack (t.setSolo b)
  | setTargetMultiplier {t : LoopTrack} (m : ℚ) :
      ReachableNonEmpty isMasterTrack t →
      ReachableNonEmpty isMasterTrack (t.setTargetMultiplier m)
  | applyFxReplace {t : LoopTrack} :
      ReachableNonEmpty isMasterTrack t → ReachableNonEmpty isMasterTrack t.applyFxReplace
  | setLoopFromMix {t : LoopTrack} (mixedBuffer : AudioBuffer) (length startOffset : Int)
      (startGlobalSample : Int) :
      ReachableNonEmpty isMasterTrack t →
      ReachableNonEmpty isMasterTrack
        (t.setLoopFromMix mixedBuffer length startOffset startGlobalSample)
  | overdubFromBuffer {t : LoopTrack} (inputBuffer : AudioBuffer) (inputLength : Int)
      (inputStartGlobalSample : Int) :
      ReachableNonEmpty isMasterTrack t →
      ReachableNonEmpty isMasterTrack
        (t.overdubFromBuffer inputBuffer inputLength inputStartGlobalSample)
  | multiplyLoop {t : LoopTrack} :
      ReachableNonEmpty isMasterTrack t → ReachableNonEmpty isMasterTrack t.multiplyLoop
  | divideLoop {t : LoopTrack} :
      ReachableNonEmpty isMasterTrack t → ReachableNonEmpty isMasterTrack t.divideLoop
  | performUndo {t : LoopTrack} :
      ReachableNonEmpty isMasterTrack t → ReachableNonEmpty isMasterTrack t.performUndo
  | beginProgressiveReplace {t : LoopTrack} (source : Option AudioBuffer) (length : Int)
      (startOffset : Int) (startGlobal : Int) :
      ReachableNonEmpty isMasterTrack t →
      ReachableNonEmpty isMasterTrack
        (t.beginProgressiveReplace source length startOffset startGlobal)
  | processReplaceChunk {t : LoopTrack} (playheadPos blockSize : Int) :
      ReachableNonEmpty isMasterTrack t →
      ReachableNonEmpty isMasterTrack (t.processReplaceChunk playheadPos blockSize)

/-- The three mixer setters `handleParameterChanges` applies to a track in every cycle
(lines 625-635): `setVolume`, `setMuted`, `setSolo`. -/
def LoopTrack.withMixer (t : LoopTrack) (gain : ℚ) (muted solo : Bool) : LoopTrack :=
  ((t.setVolume gain).setMuted muted).setSolo solo

/-- Per-call arguments of `LoopTrack::processBlock` other than the track itself. -/
structure BlockArgs where
  outputBuffer : AudioBuffer
  inputBuffer : AudioBuffer
  sidechainBuffer : AudioBuffer
  globalTotalSamples : Int
  masterLoopLength : Int
  anySoloActive : Bool

/-- Successive `processBlock` calls on one track, one per element of `blocks`; only the
track is threaded (each call gets its own output buffer). -/
def runBlocks (isMasterTrack : Bool) (t : LoopTrack) (blocks : List BlockArgs) : LoopTrack :=
  blocks.foldl
    (fun s a => (s.processBlock a.outputBuffer a.inputBuffer a.sidechainBuffer
      a.globalTotalSamples isMasterTrack a.masterLoopLength a.anySoloActive).1)
    t

/-- Session / transport state (`class SimpleLooperAudioProcessor`, the members the
engine uses).  A track whose `mReplace.source` is set points at `mWorkBuffer`. -/
structure Session where
  mIsFirstLoop : Bool
  mBpm : ℚ
  mPrimaryLoopLengthSamples : Int
  mGlobalPlaybackPosition : Int
  mGlobalTotalSamples : Int
  mTracks : List LoopTrack
  mRetrospectiveBuffer : AudioBuffer
  mRetroWritePos : Int
  mRetroBufferSize : Int
  mWorkBuffer : AudioBuffer
  mPendingBounce : Bool
  mPendingAfterLoop : Int

/-- Crossfade length constant `CROSSFADE_SAMPLES`. -/
def CROSSFADE_SAMPLES : Int := 128

/-- Wrapped additive copy of one channel of a track into the work buffer
(`performBounceBack`, lines 802-815). -/
def bounceLoop (ch : Nat) (lb : AudioBuffer) (trackLen : Int) :
    Nat → AudioBuffer → Int → Int → Int → AudioBuffer
  | 0, work, _, _, _ => work
  | fuel + 1, work, remaining, dstPos, srcPos =>
    if remaining > 0 then
      let toLoopEnd := trackLen - srcPos
      let chunk := min remaining toLoopEnd
      let next := srcPos + chunk
      bounceLoop ch lb trackLen fuel (work.addFrom ch dstPos lb ch srcPos chunk 1)
        (remaining - chunk) (dstPos + chunk) (if next ≥ trackLen then 0 else next)
    else work

/-- Longest loop across the tracks (`performBounceBack`, lines 773-778). -/
def bounceLength (masterLen : Int) (tracks : List LoopTrack) : Int :=
  tracks.foldl (fun b t => if t.hasLoop then max b t.loopLengthSamples else b) masterLen

/-- Phase of a track at bounce sample 0 (`performBounceBack`, lines 796-797). -/
def bounceReadStart (t : LoopTrack) : Int :=
  let trackLen := t.loopLengthSamples
  let elapsedAtZero := - t.recordingStartGlobalSample
  ((elapsedAtZero.tmod trackLen) + trackLen).tmod trackLen

/-- Mix of one track into the work buffer (`performBounceBack`, body of the loop at
lines 785-817). -/
def bounceMixTrack (bounceLen : Int) (work : AudioBuffer) (t : LoopTrack) : AudioBuffer :=
  if !t.hasLoop then work
  else
    let lb := t.loopBuffer
    let trackLen := t.loopLengthSamples
    let numCh := min 2 lb.numChannels
    let readStart := bounceReadStart t
    forCh numCh
      (fun ch acc => bounceLoop ch lb trackLen bounceLen.toNat acc bounceLen 0 readStart) work

namespace Session

/-- Bounce mixdown `SimpleLooperAudioProcessor::performBounceBack ()`. -/
def performBounceBack (s : Session) : Session :=
  let masterLen := s.mPrimaryLoopLengthSamples
  if masterLen ≤ 0 then s
  else
    let bounceLen := bounceLength masterLen s.mTracks
    if bounceLen > s.mWorkBuffer.numSamples then s
    else
      let cleared := s.mWorkBuffer.clearRegion 0 bounceLen
      let mixed := s.mTracks.foldl (bounceMixTrack bounceLen) cleared
      let work := applyCrossfade mixed bounceLen CROSSFADE_SAMPLES
      let tracks :=
        match s.mTracks with
        | [] => []
        | t0 :: rest =>
          t0.beginProgressiveReplace (some work) bounceLen 0 0 :: rest.map LoopTrack.clear
      { s with
        mWorkBuffer := work
        mTracks := tracks
        mPrimaryLoopLengthSamples := bounceLen }

end Session

/-- First loop of `calculateBpm` (`while (rawBpm < 70.0) rawBpm *= 2.0`), lines 529-532,
with one unit of fuel per loop test; `none` when the fuel runs out. -/
def bpmRaise : Nat → ℚ → Option ℚ
  | 0, _ => none
  | fuel + 1, rawBpm => if rawBpm < 70 then bpmRaise fuel (rawBpm * 2) else some rawBpm

/-- Second loop of `calculateBpm` (`while (rawBpm > 140.0) rawBpm /= 2.0`), lines 534-537,
with one unit of fuel per loop test; `none` when the fuel runs out. -/
def bpmLower : Nat → ℚ → Option ℚ
  | 0, _ => none
  | fuel + 1, rawBpm => if rawBpm > 140 then bpmLower fuel (rawBpm / 2) else some rawBpm

/-- Loop tests that suffice for both loops of `calculateBpm` on the raw tempo `rawBpm`. -/
def bpmFuel (rawBpm : ℚ) : Nat := max ⌈70 / rawBpm⌉.toNat ⌈rawBpm / 140⌉.toNat + 1

namespace Session

/-- Tempo estimate `calculateBpm (lengthSamples, sampleRate)` with `fuel` loop tests
available to each loop; `none` when a loop runs out of fuel. -/
def calculateBpmWith (fuel : Nat) (s : Session) (lengthSamples : Int) (sampleRate : ℚ) :
    Option Session :=
  if lengthSamples ≤ 0 ∨ sampleRate ≤ 0 then some s
  else
    let durationSecs := (lengthSamples : ℚ) / sampleRate
    let rawBpm := 60 / durationSecs
    match bpmRaise fuel rawBpm with
    | none => none
    | some raised =>
      match bpmLower fuel raised with
      | none => none
      | some lowered => some { s with mBpm := lowered }

/-- Tempo estimate `calculateBpm (lengthSamples, sampleRate)`, run with the fuel `bpmFuel`
of its raw tempo (shown in the tempo section to be enough for both loops). -/
def calculateBpm (s : Session) (lengthSamples : Int) (sampleRate : ℚ) : Session :=
  (calculateBpmWith (bpmFuel (60 / ((lengthSamples : ℚ) / sampleRate))) s lengthSamples
    sampleRate).getD s

end Session

/-- Track count `NUM_TRACKS`. -/
def NUM_TRACKS : Nat := 6

/-- Parameter values of one track as `handleParameterChanges` and the dispatch loop load
them (`mParam...[i]->load ()`); `outSelect` is the rounded output choice. -/
structure TrackParams where
  vol : ℚ
  recPlay : ℚ
  mute : ℚ
  stop : ℚ
  solo : ℚ
  afterLoop : ℚ
  clear : ℚ
  undo : ℚ
  mul : ℚ
  div : ℚ
  outSelect : Int
  resample : ℚ

/-- Previous trigger states of one track (`mPrev...[i]`), kept for edge detection. -/
structure TrackPrev where
  mPrevRecPlay : Bool
  mPrevStop : Bool
  mPrevAfterLoop : Bool
  mPrevClear : Bool
  mPrevUndo : Bool
  mPrevMul : Bool
  mPrevDiv : Bool
  mPrevResample : Bool

/-- The processor: the session members together with the trigger memory of
`handleParameterChanges` and the host sample rate (`getSampleRate ()`).  The lists `mPrev`
and the per-cycle parameter list run parallel to `mTracks`. -/
structure Processor extends Session where
  mPrev : List TrackPrev
  mPrevBounce : Bool
  mPrevReset : Bool
  sampleRate : ℚ

/-- What the host hands to one `processBlock` call: the block size, the snapshot of the main
input (what `mInputCache` holds after the snapshot), the FX return inputs per track (`none`
when the bus is absent or disabled), the output buses (enabled flag and channel count) and
the parameter values. -/
structure CycleInput where
  numSamples : Int
  mainInput : AudioBuffer
  fxReturns : List (Option AudioBuffer)
  outputBuses : List (Bool × Nat)
  params : List TrackParams
  paramBounce : ℚ
  paramReset : ℚ

/-- Trigger reading `load () >= 0.5f`. -/
def paramOn (v : ℚ) : Bool := decide (v ≥ 1 / 2)

/-- Body of the track loop of `handleParameterChanges` (lines 625-714) for one track:
the track afterwards, its new trigger memory, and whether an After Loop edge was seen. -/
def handleTrackParams (t : LoopTrack) (prev : TrackPrev) (p : TrackParams) :
    LoopTrack × TrackPrev × Bool :=
  let t1 := ((t.setVolume p.vol).setMuted (paramOn p.mute)).setSolo (paramOn p.solo)
  let t2 := if paramOn p.resample ≠ prev.mPrevResample then t1.applyFxReplace else t1
  let t3 :=
    if paramOn p.recPlay ≠ prev.mPrevRecPlay then
      match t2.currentState with
      | State.Empty => t2.setRecording
      | State.Recording => t2.setPlaying
      | State.Playing => t2.setOverdubbing
      | State.Overdubbing => t2.setPlaying
      | State.Stopped => t2.setPlaying
    else t2
  let t4 := if paramOn p.stop ≠ prev.mPrevStop then t3.stop else t3
  let t5 := if paramOn p.clear ≠ prev.mPrevClear then t4.clear else t4
  let t6 := if paramOn p.undo ≠ prev.mPrevUndo then t5.performUndo else t5
  let t7 :=
    if paramOn p.mul ≠ prev.mPrevMul then
      if t6.currentState = State.Empty then
        t6.setTargetMultiplier
          (if t6.targetMultiplier * 2 > 64 then 64 else t6.targetMultiplier * 2)
      else t6.multiplyLoop
    else t6
  let t8 :=
    if paramOn p.div ≠ prev.mPrevDiv then
      if t7.currentState = State.Empty then
        t7.setTargetMultiplier
          (if t7.targetMultiplier / 2 < 1 / 64 then 1 / 64 else t7.targetMultiplier / 2)
      else t7.divideLoop
    else t7
  (t8,
   { mPrevRecPlay := paramOn p.recPlay
     mPrevStop := paramOn p.stop
     mPrevAfterLoop := paramOn p.afterLoop
     mPrevClear := paramOn p.clear
     mPrevUndo := paramOn p.undo
     mPrevMul := paramOn p.mul
     mPrevDiv := paramOn p.div
     mPrevResample := paramOn p.resample },
   paramOn p.afterLoop != prev.mPrevAfterLoop)

/-- The track loop of `handleParameterChanges` from track index `i` on
(`i < mTracks.size () && i < NUM_TRACKS`): tracks, trigger memory and the pending After Loop
index (`mPendingAfterLoop.store (i)` at every After Loop edge). -/
def handleParamsFrom : Nat → List LoopTrack → List TrackPrev → List TrackParams → Int →
    List LoopTrack × List TrackPrev × Int
  | i, t :: ts, pv :: pvs, pr :: prs, pending =>
    if i < NUM_TRACKS then
      let r := handleTrackParams t pv pr
      let rest := handleParamsFrom (i + 1) ts pvs prs (if r.2.2 then (i : Int) else pending)
      (r.1 :: rest.1, r.2.1 :: rest.2.1, rest.2.2)
    else (t :: ts, pv :: pvs, pending)
  | _, ts, pvs, _, pending => (ts, pvs, pending)

namespace Session

/-- Reset `resetAllInternal ()`. -/
def resetAllInternal (s : Session) : Session :=
  { s with
    mTracks := s.mTracks.map LoopTrack.clear
    mIsFirstLoop := true
    mPrimaryLoopLengthSamples := 0
    mGlobalPlaybackPosition := 0
    mGlobalTotalSamples := 0
    mBpm := 0 }

/-- Circular write of the block into the retrospective buffer (`processBlock`,
lines 324-343). -/
def writeRetrospective (s : Session) (c : CycleInput) : Session :=
  if s.mRetroBufferSize > 0 then
    let numSamples := c.numSamples
    let retroCh := min c.mainInput.numChannels s.mRetrospectiveBuffer.numChannels
    let toEnd := s.mRetroBufferSize - s.mRetroWritePos
    { s with
      mRetrospectiveBuffer := forCh retroCh
        (fun ch acc =>
          if numSamples ≤ toEnd then
            acc.copyFrom ch s.mRetroWritePos c.mainInput ch 0 numSamples
          else
            (acc.copyFrom ch s.mRetroWritePos c.mainInput ch 0 toEnd).copyFrom ch 0
              c.mainInput ch toEnd (numSamples - toEnd))
        s.mRetrospectiveBuffer
      mRetroWritePos := (s.mRetroWritePos + numSamples).tmod s.mRetroBufferSize }
  else s

/-- Store a new content of the work buffer.  Every replace source in the program is the
pointer `&mWorkBuffer` handed over by `performBounceBack`, so a track whose source is set
sees the new content. -/
def setWorkBuffer (s : Session) (work : AudioBuffer) : Session :=
  { s with
    mWorkBuffer := work
    mTracks := s.mTracks.map (fun t =>
      match t.mReplace.source with
      | some _ => { t with mReplace := { t.mReplace with source := some work } }
      | none => t) }

/-- Retrospective capture `performCaptureAfterLoop (trackIndex)`. -/
def performCaptureAfterLoop (s : Session) (trackIndex : Int) : Session :=
  let masterLen := s.mPrimaryLoopLengthSamples
  if masterLen ≤ 0 ∨ s.mRetroBufferSize ≤ 0 then s
  else if trackIndex < 0 ∨ trackIndex ≥ (s.mTracks.length : Int) then s
  else
    match s.mTracks.get? trackIndex.toNat with
    | none => s
    | some track =>
      let captureLen :=
        truncToInt (floatProduct masterLen (clampMultiplier track.targetMultiplier))
      if captureLen ≤ 0 then s
      else if captureLen > s.mRetroBufferSize then s
      else if captureLen > s.mWorkBuffer.numSamples then s
      else
        let retroReadStart :=
          (s.mRetroWritePos - captureLen + s.mRetroBufferSize).tmod s.mRetroBufferSize
        let cleared := s.mWorkBuffer.clearRegion 0 captureLen
        let retroCh := min 2 s.mRetrospectiveBuffer.numChannels
        let toEnd := s.mRetroBufferSize - retroReadStart
        let copied := forCh retroCh
          (fun ch acc =>
            if captureLen ≤ toEnd then
              acc.copyFrom ch 0 s.mRetrospectiveBuffer ch retroReadStart captureLen
            else
              (acc.copyFrom ch 0 s.mRetrospectiveBuffer ch retroReadStart toEnd).copyFrom ch
                toEnd s.mRetrospectiveBuffer ch 0 (captureLen - toEnd))
          cleared
        let globalNow := s.mGlobalTotalSamples
        let captureStartGlobal := if globalNow - captureLen < 0 then 0 else globalNow - captureLen
        let work := applyCrossfade copied captureLen CROSSFADE_SAMPLES
        let s1 := s.setWorkBuffer work
        match s1.mTracks.get? trackIndex.toNat with
        | none => s1
        | some tr =>
          let tr1 :=
            if !tr.hasLoop then
              tr.setLoopFromMix work captureLen (captureStartGlobal.tmod masterLen)
                captureStartGlobal
            else tr.overdubFromBuffer work captureLen captureStartGlobal
          { s1 with mTracks := s1.mTracks.set trackIndex.toNat tr1 }

/-- Deferred operations `executePendingOperations ()`. -/
def executePendingOperations (s : Session) : Session :=
  let pendingAL := s.mPendingAfterLoop
  let pendingBn := s.mPendingBounce
  if pendingBn = false ∧ pendingAL < 0 then s
  else
    let s1 := if pendingBn = true then performBounceBack { s with mPendingBounce := false } else s
    if pendingAL ≥ 0 then
      performCaptureAfterLoop { s1 with mPendingAfterLoop := -1 } pendingAL
    else s1

end Session

/-- Sidechain snapshot `mFxReturnCache[i]` of a cycle for track `i`: silence, overwritten by
up to two channels of the track's FX return bus when that bus is enabled (lines 290-303);
tracks past `NUM_TRACKS` use cache 0 (line 429). -/
def fxCache (c : CycleInput) (i : Nat) : AudioBuffer :=
  let cleared := AudioBuffer.allocate 2 c.numSamples
  match c.fxReturns.getD (if i < NUM_TRACKS then i else 0) none with
  | none => cleared
  | some fx =>
    forCh (min 2 fx.numChannels) (fun ch acc => acc.copyFrom ch 0 fx ch 0 c.numSamples) cleared

/-- Output bus buffers before the tracks run (lines 305-323): every bus cleared, the main
input copied to bus 0 for monitoring. -/
def initialOutputs (c : CycleInput) : List AudioBuffer :=
  match c.outputBuses with
  | [] => []
  | main :: others =>
    let mainOut := AudioBuffer.allocate main.2 c.numSamples
    forCh (min c.mainInput.numChannels mainOut.numChannels)
        (fun ch acc => acc.copyFrom ch 0 c.mainInput ch 0 c.numSamples) mainOut
      :: others.map (fun b => AudioBuffer.allocate b.2 c.numSamples)

/-- Output bus of track `i` (lines 418-425): the chosen bus, or the main output when the
choice is out of range or disabled. -/
def targetBus (c : CycleInput) (i : Nat) : Nat :=
  let outChoice : Int :=
    if i < NUM_TRACKS then
      match c.params.get? i with
      | some p => p.outSelect
      | none => 0
    else 0
  if outChoice < 0 ∨ outChoice ≥ (c.outputBuses.length : Int)
      ∨ (c.outputBuses.getD outChoice.toNat (false, 0)).1 = false
  then 0 else outChoice.toNat

/-- The dispatch loop (lines 401-431) from track index `i` on, with the master length the
loop has settled on: each track runs `processBlock` on its output bus. -/
def dispatchTracks (c : CycleInput) (currentGlobalTotal masterLength : Int) (anySolo : Bool) :
    Nat → List LoopTrack → List AudioBuffer → List LoopTrack × List AudioBuffer
  | _, [], outs => ([], outs)
  | i, t :: rest, outs =>
    let r := t.processBlock (outs.getD (targetBus c i) (AudioBuffer.allocate 0 c.numSamples))
      c.mainInput (fxCache c i) currentGlobalTotal (decide (i = 0)) masterLength anySolo
    let tail := dispatchTracks c currentGlobalTotal masterLength anySolo (i + 1) rest
      (outs.set (targetBus c i) r.2)
    (r.1 :: tail.1, tail.2)

namespace Processor

/-- Parameter handling `handleParameterChanges ()`. -/
def handleParameterChanges (p : Processor) (c : CycleInput) : Processor :=
  let r := handleParamsFrom 0 p.mTracks p.mPrev c.params p.mPendingAfterLoop
  let p1 : Processor :=
    { p with
      mTracks := r.1
      mPrev := r.2.1
      mPendingAfterLoop := r.2.2 }
  let p2 : Processor :=
    if paramOn c.paramBounce ≠ p.mPrevBounce then { p1 with mPendingBounce := true } else p1
  let p3 : Processor := { p2 with mPrevBounce := paramOn c.paramBounce }
  let p4 : Processor :=
    if paramOn c.paramReset ≠ p.mPrevReset
    then { p3 with toSession := p3.toSession.resetAllInternal } else p3
  { p4 with mPrevReset := paramOn c.paramReset }

/-- First-loop detection (`processBlock`, lines 350-383). -/
def firstLoopLogic (p : Processor) : Processor :=
  match p.mTracks with
  | [] => p
  | track1 :: _ =>
    if p.mIsFirstLoop = true then
      if track1.currentState = State.Playing ∧ track1.loopLengthSamples > 0 then
        let len := track1.loopLengthSamples
        let s1 : Session := { p.toSession with mPrimaryLoopLengthSamples := len }
        let s2 := s1.calculateBpm len p.sampleRate
        { p with
          toSession := { s2 with mIsFirstLoop := false, mGlobalPlaybackPosition := 0 } }
      else p
    else p

/-- Master length the dispatch loop works with (lines 385 and 403-415): the cached length,
replaced by the master track's current length when that differs, past the first loop. -/
def dispatchMasterLength (p : Processor) : Int :=
  let masterLength := p.mPrimaryLoopLengthSamples
  match p.mTracks with
  | [] => masterLength
  | master :: _ =>
    if masterLength > 0 ∧ p.mIsFirstLoop = false then
      if master.loopLengthSamples > 0 ∧ master.loopLengthSamples ≠ masterLength
      then master.loopLengthSamples else masterLength
    else masterLength

/-- Track dispatch and transport update (`processBlock`, lines 385-440). -/
def dispatch (p : Processor) (c : CycleInput) : Processor × List AudioBuffer :=
  let isFirstLoopPhase := p.mIsFirstLoop
  let currentGlobalTotal := p.mGlobalTotalSamples
  let anySolo := p.mTracks.any (fun t => t.isSolo)
  let masterLength := p.dispatchMasterLength
  let r := dispatchTracks c currentGlobalTotal masterLength anySolo 0 p.mTracks
    (initialOutputs c)
  let p1 : Processor :=
    { p with
      mTracks := r.1
      mPrimaryLoopLengthSamples := masterLength }
  if isFirstLoopPhase = false ∧ masterLength > 0 then
    ({ p1 with
        mGlobalPlaybackPosition := (p1.mGlobalPlaybackPosition + c.numSamples).tmod masterLength
        mGlobalTotalSamples := currentGlobalTotal + c.numSamples },
      r.2)
  else (p1, r.2)

/-- Start of a processing cycle (`processBlock`, lines 271-346): the retrospective write,
then `handleParameterChanges ()`.  The input snapshots and the clearing of the output buses
are in `fxCache` and `initialOutputs`. -/
def enterCycle (p : Processor) (c : CycleInput) : Processor :=
  handleParameterChanges { p with toSession := p.toSession.writeRetrospective c } c

/-- One processing cycle `processBlock (buffer, midiMessages)` up to and including the
deferred operations.  The MIDI clock output that follows (lines 443-490) reads `mBpm` and
writes only the clock members, which are not part of this model. -/
def processBlock (p : Processor) (c : CycleInput) : Processor × List AudioBuffer :=
  let r := (p.enterCycle c).firstLoopLogic.dispatch c
  ({ r.1 with toSession := r.1.toSession.executePendingOperations }, r.2)

end Processor

/-- State invariant: a track that is Playing, Overdubbing or Stopped has a loop. -/
def loopInvariant (t : LoopTrack) : Prop :=
  (t.currentState = State.Playing ∨ t.currentState = State.Overdubbing ∨
    t.currentState = State.Stopped) → 0 < t.loopLengthSamples

/-- State invariant of a slave track: while it is Recording its `playbackPosition` is 0
(only the master advances it). -/
def slaveRecordingInvariant (t : LoopTrack) : Prop :=
  t.currentState = State.Recording → t.playbackPosition = 0

/-- State invariant: the stored multiplier lies between 1/64 and 64. -/
def multiplierInvariant (t : LoopTrack) : Prop :=
  1 / 64 ≤ t.targetMultiplier ∧ t.targetMultiplier ≤ 64

/-- A single `performUndo` on `u` brings back what `t` held: the loop length of `t`, and
the loop samples `[0, loopLength)` of `t` on every channel the loop and undo buffers share. -/
def undoRestores (t u : LoopTrack) : Prop :=
  u.performUndo.loopLengthSamples = t.loopLengthSamples ∧
  ∀ (c : Nat) (j : Int), c < t.loopBuffer.numChannels → c < t.undoBuffer.numChannels →
    0 ≤ j → j < t.loopLengthSamples →
    u.performUndo.loopBuffer.data c j = t.loopBuffer.data c j

/-- Session invariant of the first-loop phase: while the first-loop flag is set the cached
master length and the global sample counter are 0. -/
def firstLoopInvariant (s : Session) : Prop :=
  s.mIsFirstLoop = true → s.mPrimaryLoopLengthSamples = 0 ∧ s.mGlobalTotalSamples = 0

/-- No trigger edge that acts on the track itself in this cycle: the Resample, Rec/Play,
Stop, Clear, Undo, Multiply and Divide readings all equal the remembered ones. -/
def quietTrack (prev : TrackPrev) (p : TrackParams) : Prop :=
  paramOn p.resample = prev.mPrevResample ∧ paramOn p.recPlay = prev.mPrevRecPlay ∧
  paramOn p.stop = prev.mPrevStop ∧ paramOn p.clear = prev.mPrevClear ∧
  paramOn p.undo = prev.mPrevUndo ∧ paramOn p.mul = prev.mPrevMul ∧
  paramOn p.div = prev.mPrevDiv

/-- Ring invariant of the retrospective buffer. `fed ch k` is the `k`-th sample of channel
`ch` that the host has handed to `processBlock` since the buffer was prepared and `T` the
number of samples handed over so far: the write position is `T` modulo the ring size, and
on the first `nch` channels the ring holds every sample of the last ring-size samples at its
index modulo the ring size. -/
def ringHolds (s : Session) (nch : Nat) (fed : Nat → Int → ℚ) (T : Int) : Prop :=
  0 ≤ T ∧ s.mRetroWritePos = T % s.mRetroBufferSize ∧
  ∀ (ch : Nat) (k : Int), ch < nch → 0 ≤ k → T - s.mRetroBufferSize ≤ k → k < T →
    s.mRetrospectiveBuffer.data ch (k % s.mRetroBufferSize) = fed ch k

/-- What the specification says the tracks play at unity gain at global sample count `g`,
on channel `c`: the sum, over the tracks that have a loop, of
`loopBuffer_t[(g - S_t) mod len_t]` with `S_t` the track's anchor and `len_t` its loop
length.  This follows the words of the specification, not the code. -/
def specHeardSum (tracks : List LoopTrack) (c : Nat) (g : Int) : ℚ :=
  ((tracks.filter (fun t => t.hasLoop)).map (fun t =>
    t.loopBuffer.data c ((g - t.recordingStartGlobalSample) % t.loopLengthSamples))).sum

/-- State invariant: an Empty track has no loop and no undo state. -/
def emptyInvariant (t : LoopTrack) : Prop :=
  t.currentState = State.Empty → t.loopLengthSamples = 0 ∧ t.hasUndo = false

/-- State invariants that hold between any two steps of `processBlock`: an Empty track has
no loop and no undo state, a saved undo state has a positive length, the counters and the
loop length are not negative, and a Playing, Overdubbing or Stopped track has a loop. -/
def undoInvariantBase (t : LoopTrack) : Prop :=
  (t.currentState = State.Empty → t.loopLengthSamples = 0 ∧ t.hasUndo = false) ∧
  (t.hasUndo = true → 0 < t.undoLoopLengthSamples) ∧
  0 ≤ t.playbackPosition ∧ 0 ≤ t.recordedSamplesCurrent ∧ 0 ≤ t.loopLengthSamples ∧
  ((t.currentState = State.Playing ∨ t.currentState = State.Overdubbing ∨
    t.currentState = State.Stopped) → 0 < t.loopLengthSamples)

/-- State invariants behind `canUndo ()`: those of `undoInvariantBase`, and a Recording
track that has an undo state or a loop length has recorded at least one sample. -/
def undoInvariant (t : LoopTrack) : Prop :=
  (t.currentState = State.Empty → t.loopLengthSamples = 0 ∧ t.hasUndo = false) ∧
  (t.hasUndo = true → 0 < t.undoLoopLengthSamples) ∧
  0 ≤ t.playbackPosition ∧ 0 ≤ t.recordedSamplesCurrent ∧ 0 ≤ t.loopLengthSamples ∧
  (t.currentState = State.Recording → (t.hasUndo = true ∨ t.loopLengthSamples ≠ 0) →
    0 < t.playbackPosition ∨ 0 < t.recordedSamplesCurrent) ∧
  ((t.currentState = State.Playing ∨ t.currentState = State.Overdubbing ∨
    t.currentState = State.Stopped) → 0 < t.loopLengthSamples)

/-- How a recording that runs into the end of the buffer finishes (`handleRecording`, lines
548-555, then `setPlaying`): the loop buffer `after` is `before` with the boundary crossfade
over `len` applied and nothing else; size and channel count are kept; every index the
crossfade accesses lies in `[0, len)` and inside the buffer; no sample outside the buffer and
no sample at an index the crossfade does not access is changed. -/
def overflowFinish (before after : AudioBuffer) (len : Int) : Prop :=
  after = applyCrossfade before len 128 ∧
  after.numSamples = before.numSamples ∧
  after.numChannels = before.numChannels ∧
  (∀ j ∈ crossfadeIndices len 128, 0 ≤ j ∧ j < len ∧ j < before.numSamples) ∧
  (∀ (c : Nat) (i : Int), (before.numChannels ≤ c ∨ i < 0 ∨ before.numSamples ≤ i) →
    after.data c i = before.data c i) ∧
  (∀ (c : Nat) (i : Int), i ∉ crossfadeIndices len 128 → after.data c i = before.data c i)

/-! ## Example states -/

/-- A track as `prepareToPlay` leaves it when `sampleRate * 300 = capacity`: three cleared
stereo buffers of `capacity` samples and the state written by `clear ()`. -/
def preparedTrack (capacity : Int) : LoopTrack :=
  { LoopTrack.fresh with
    loopBuffer := AudioBuffer.allocate 2 capacity
    undoBuffer := AudioBuffer.allocate 2 capacity
    fxCaptureBuffer := AudioBuffer.allocate 2 capacity }

/-- A block-sized buffer of silence (two channels, `n` samples). -/
def silentBlock (n : Int) : AudioBuffer := AudioBuffer.allocate 2 n

/-- A Playing slave with anchor 5 and an 8-sample loop. -/
def demoSlavePlaying : LoopTrack :=
  { preparedTrack 1000 with
    currentState := State.Playing
    loopLengthSamples := 8
    recordingStartGlobalSample := 5 }

/-- Arguments of a `processBlock` call with silent `n`-sample buffers at global time `g`. -/
def silentArgs (n g masterLoopLength : Int) : BlockArgs :=
  { outputBuffer := silentBlock n
    inputBuffer := silentBlock n
    sidechainBuffer := silentBlock n
    globalTotalSamples := g
    masterLoopLength := masterLoopLength
    anySoloActive := false }

/-- A two-channel buffer of `n` samples whose sample `i` of every channel is `f i`. -/
def patternBuffer (n : Int) (f : Int → ℚ) : AudioBuffer :=
  { numChannels := 2, numSamples := n, data := fun _ i => f i }

/-- A track prepared at 48 kHz into which `setLoopFromMix` installed the first `length`
samples of `mixedBuffer`, anchored at global sample `anchor`. -/
def demoSeededTrack (mixedBuffer : AudioBuffer) (length anchor : Int) : LoopTrack :=
  (LoopTrack.fresh.prepareToPlay 48000).setLoopFromMix mixedBuffer length 0 anchor

/-- A Playing track prepared at 48 kHz (capacity 14400000) holding a 100-sample loop. -/
def demoShortLoop : LoopTrack := demoSeededTrack (patternBuffer 100 (fun _ => 1)) 100 0

/-- A Playing track prepared at 48 kHz (capacity 14400000) holding a 1000-sample loop. -/
def demoLoop1000 : LoopTrack := demoSeededTrack (patternBuffer 1000 (fun _ => 1)) 1000 0

/-- A Playing master prepared at 48 kHz holding a 4-sample loop of ones (installed by
`setLoopFromMix`), gain 1, whose mute flag and solo flag were then both set. -/
def demoSoloMuted : LoopTrack :=
  ((demoSeededTrack (patternBuffer 4 (fun _ => 1)) 4 0).setMuted true).setSolo true

/-- The same track as `demoSoloMuted` after clearing the mute flag. -/
def demoSoloUnmuted : LoopTrack := demoSoloMuted.setMuted false

/-- A Playing track of capacity 1000 with an 8-sample loop of zeros. -/
def demoReplaceTarget : LoopTrack :=
  { preparedTrack 1000 with
    currentState := State.Playing
    loopLengthSamples := 8 }

/-- A 40-sample source for a progressive replace: sample `i` is `i + 1`. -/
def demoReplaceSource : AudioBuffer := patternBuffer 1000 (fun i => (i : ℚ) + 1)

/-- A Playing track of capacity `capacity` whose loop of `len` samples holds the constant
`v`, anchored at global sample `anchor`. -/
def constantLoopTrack (capacity len anchor : Int) (v : ℚ) : LoopTrack :=
  { preparedTrack capacity with
    currentState := State.Playing
    loopLengthSamples := len
    recordedSamplesCurrent := len
    recordingStartGlobalSample := anchor
    loopBuffer := patternBuffer capacity (fun i => if 0 ≤ i ∧ i < len then v else 0) }

/-- A session past its first loop with the given tracks, master length and buffer capacity
(work and retrospective buffers cleared, nothing pending). -/
def sessionWith (capacity masterLen : Int) (tracks : List LoopTrack) : Session :=
  { mIsFirstLoop := false
    mBpm := 120
    mPrimaryLoopLengthSamples := masterLen
    mGlobalPlaybackPosition := 0
    mGlobalTotalSamples := 0
    mTracks := tracks
    mRetrospectiveBuffer := AudioBuffer.allocate 2 capacity
    mRetroWritePos := 0
    mRetroBufferSize := capacity
    mWorkBuffer := AudioBuffer.allocate 2 capacity
    mPendingBounce := false
    mPendingAfterLoop := -1 }

/-- Two tracks of equal length 1000 at 44.1 kHz: the master holds ones (anchor 0), the slave
holds twos (anchor 300). -/
def demoBounceSession : Session :=
  sessionWith 13230000 1000
    [constantLoopTrack 13230000 1000 0 1, constantLoopTrack 13230000 1000 300 2]

/-- A slave armed for recording: constructed, prepared at 48 kHz (capacity 14400000), its
multiplier set to `multiplier`, then `setRecording ()`. -/
def demoArmedSlave (multiplier : ℚ) : LoopTrack :=
  ((LoopTrack.fresh.prepareToPlay 48000).setTargetMultiplier multiplier).setRecording

/-- A Playing track holding a 4-sample loop of twos whose undo buffer holds the 4-sample
loop of ones installed before it (two successive `setLoopFromMix` calls). -/
def demoUndoTrack : LoopTrack :=
  (demoSeededTrack (patternBuffer 4 (fun _ => 1)) 4 0).setLoopFromMix
    (patternBuffer 4 (fun _ => 2)) 4 0 0

/-- The `k` successive silent 480-sample blocks a track sees from global sample `2 * L` on
while the master loop is `L` samples long. -/
def demoSlaveBlocks (k : Nat) (L : Int) : List BlockArgs :=
  (List.range k).map (fun (j : Nat) => silentArgs 480 (2 * L + 480 * (j : Int)) L)

/-- The armed slave `demoArmedSlave multiplier` after the `k` blocks `demoSlaveBlocks k L`. -/
def demoSlaveAfter (multiplier : ℚ) (k : Nat) (L : Int) : LoopTrack :=
  runBlocks false (demoArmedSlave multiplier) (demoSlaveBlocks k L)

/-- A session at 48 kHz (work buffer and track buffers of 14400000 samples) with two tracks.
The master holds a 480000-sample loop of ones installed by `setLoopFromMix`. The slave was
armed with multiplier 64 (target length 30720000) and recorded silence in blocks of 480
samples until, in its 30000th block, its buffer was full and the recording ended. -/
def demoBounceOverflow : Session :=
  sessionWith 14400000 480000
    [demoSeededTrack (patternBuffer 480000 (fun _ => 1)) 480000 0,
      demoSlaveAfter 64 30000 480000]

/-- A master armed for its first recording: constructed, prepared at 48 kHz (capacity
14400000), then `setRecording ()`. -/
def demoArmedMaster : LoopTrack := (LoopTrack.fresh.prepareToPlay 48000).setRecording

/-- The armed master after `k` silent blocks of 480 samples of the first-loop phase (global
sample count 0, master length 0). -/
def demoMasterAfter (k : Nat) : LoopTrack :=
  runBlocks true demoArmedMaster (List.replicate k (silentArgs 480 0 0))

/-- Trigger memory of a track none of whose triggers has been touched. -/
def demoPrevIdle : TrackPrev :=
  { mPrevRecPlay := false
    mPrevStop := false
    mPrevAfterLoop := false
    mPrevClear := false
    mPrevUndo := false
    mPrevMul := false
    mPrevDiv := false
    mPrevResample := false }

/-- Parameter values of a track with unit volume and every trigger at 0. -/
def demoParamsIdle : TrackParams :=
  { vol := 1
    recPlay := 0
    mute := 0
    stop := 0
    solo := 0
    afterLoop := 0
    clear := 0
    undo := 0
    mul := 0
    div := 0
    outSelect := 0
    resample := 0 }

/-- A processor at 48 kHz in its first-loop phase: six tracks, of which the five slaves are
as `prepareToPlay` left them, nothing pending, no Bounce or Reset trigger touched; the master
track, the master's trigger memory and the retrospective write position are given. -/
def demoFirstLoopProcessor (master : LoopTrack) (masterPrev : TrackPrev) (retroPos : Int) :
    Processor :=
  { mIsFirstLoop := true
    mBpm := 120
    mPrimaryLoopLengthSamples := 0
    mGlobalPlaybackPosition := 0
    mGlobalTotalSamples := 0
    mTracks := master :: List.replicate 5 (LoopTrack.fresh.prepareToPlay 48000)
    mRetrospectiveBuffer := AudioBuffer.allocate 2 14400000
    mRetroWritePos := retroPos
    mRetroBufferSize := 14400000
    mWorkBuffer := AudioBuffer.allocate 2 14400000
    mPendingBounce := false
    mPendingAfterLoop := -1
    mPrev := masterPrev :: List.replicate 5 demoPrevIdle
    mPrevBounce := false
    mPrevReset := false
    sampleRate := 48000 }

/-- A cycle of 480 silent samples with a stereo main output, no FX return bus, the given
parameter values for the master and idle parameters for the slaves. -/
def demoCycle (masterParams : TrackParams) : CycleInput :=
  { numSamples := 480
    mainInput := silentBlock 480
    fxReturns := List.replicate 6 none
    outputBuses := [(true, 2)]
    params := masterParams :: List.replicate 5 demoParamsIdle
    paramBounce := 0
    paramReset := 0 }

/-- Trigger memory of a track whose Rec/Play trigger is on and no other was touched. -/
def demoPrevRecOn : TrackPrev :=
  { mPrevRecPlay := true
    mPrevStop := false
    mPrevAfterLoop := false
    mPrevClear := false
    mPrevUndo := false
    mPrevMul := false
    mPrevDiv := false
    mPrevResample := false }

/-- Parameter values of a track with unit volume, the Rec/Play trigger (still) on and the
Stop trigger on. -/
def demoParamsStop : TrackParams :=
  { vol := 1
    recPlay := 1
    mute := 0
    stop := 1
    solo := 0
    afterLoop := 0
    clear := 0
    undo := 0
    mul := 0
    div := 0
    outSelect := 0
    resample := 0 }

/-- The master whose Rec/Play trigger armed it and which has recorded 10 blocks of 480
samples; the trigger is still on. -/
def demoRecordingProcessor : Processor :=
  demoFirstLoopProcessor (demoMasterAfter 10) demoPrevRecOn 4800

/-- The armed master after the block in which its buffer ran full: it recorded 29999 blocks
of 480 samples and the 30000th ended the recording. -/
def demoFullMaster : LoopTrack := demoMasterAfter 30000

/-- The processor whose master recorded until its buffer was full (`demoFullMaster`), with
the Rec/Play trigger still on; the first-loop check has not seen the master Playing yet. -/
def demoFullProcessor : Processor := demoFirstLoopProcessor demoFullMaster demoPrevRecOn 0

/-- The 1000-sample example loop with a progressive replace of 800 samples of threes in
flight (started by `beginProgressiveReplace`, no chunk copied yet). -/
def demoReplacing : LoopTrack :=
  demoLoop1000.beginProgressiveReplace (some (patternBuffer 800 (fun _ => 3))) 800 0 0

/-- The 1000-sample example loop after one Playing block of 1000 samples whose sidechain
holds sevens: the staging buffer then holds one full loop. -/
def demoStaged : LoopTrack :=
  runBlocks true demoLoop1000
    [{ outputBuffer := silentBlock 1000
       inputBuffer := silentBlock 1000
       sidechainBuffer := patternBuffer 1000 (fun _ => 7)
       globalTotalSamples := 0
       masterLoopLength := 1000
       anySoloActive := false }]

/-- A session at 48 kHz past its first loop with cached master length 1000 whose master
track was cleared after the first loop (the 1000-sample example loop, then `clear ()`) and
whose slave holds a 500-sample loop of twos. -/
def demoClearedMasterSession : Session :=
  sessionWith 14400000 1000
    [demoLoop1000.clear, demoSeededTrack (patternBuffer 500 (fun _ => 2)) 500 0]

/-- Parameter values of a track with unit volume whose Rec/Play trigger is (still) on. -/
def demoParamsRecOn : TrackParams :=
  { vol := 1
    recPlay := 1
    mute := 0
    stop := 0
    solo := 0
    afterLoop := 0
    clear := 0
    undo := 0
    mul := 0
    div := 0
    outSelect := 0
    resample := 0 }

/-- Parameter values of a track with unit volume whose Multiply trigger has gone on. -/
def demoParamsMul : TrackParams :=
  { vol := 1
    recPlay := 0
    mute := 0
    stop := 0
    solo := 0
    afterLoop := 0
    clear := 0
    undo := 0
    mul := 1
    div := 0
    outSelect := 0
    resample := 0 }

/-- A processor at 48 kHz past its first loop, at global sample 2480: the master holds the
1000-sample example loop (cached master length 1000), the first slave was armed by its
Rec/Play trigger with multiplier 1 and has recorded one block of 480 samples from global
sample 2000 on, the other four tracks are as `prepareToPlay` left them. -/
def demoLoopingProcessor : Processor :=
  { mIsFirstLoop := false
    mBpm := 90
    mPrimaryLoopLengthSamples := 1000
    mGlobalPlaybackPosition := 480
    mGlobalTotalSamples := 2480
    mTracks := demoLoop1000 :: demoSlaveAfter 1 1 1000 ::
      List.replicate 4 (LoopTrack.fresh.prepareToPlay 48000)
    mRetrospectiveBuffer := AudioBuffer.allocate 2 14400000
    mRetroWritePos := 2480
    mRetroBufferSize := 14400000
    mWorkBuffer := AudioBuffer.allocate 2 14400000
    mPendingBounce := false
    mPendingAfterLoop := -1
    mPrev := demoPrevIdle :: demoPrevRecOn :: List.replicate 4 demoPrevIdle
    mPrevBounce := false
    mPrevReset := false
    sampleRate := 48000 }

/-- A cycle of 480 silent samples in which the master's Multiply trigger goes on and the
first slave's Rec/Play trigger stays on. -/
def demoMultiplyCycle : CycleInput :=
  { numSamples := 480
    mainInput := silentBlock 480
    fxReturns := List.replicate 6 none
    outputBuses := [(true, 2)]
    params := demoParamsMul :: demoParamsRecOn :: List.replicate 4 demoParamsIdle
    paramBounce := 0
    paramReset := 0 }

/-- The input stream handed over by a list of blocks: sample `k` of channel `ch`, counted
from the first sample of the first block. -/
def fedStream : List CycleInput → Nat → Int → ℚ
  | [], _, _ => 0
  | b :: bs, ch, k =>
    if k < b.numSamples then b.mainInput.data ch k else fedStream bs ch (k - b.numSamples)

/-- Number of samples handed over by a list of blocks. -/
def totalFed (blocks : List CycleInput) : Int := (blocks.map CycleInput.numSamples).sum

/-- The retrospective writes of a run of processing cycles, one per block. -/
def feedRetrospective (s : Session) (blocks : List CycleInput) : Session :=
  blocks.foldl Session.writeRetrospective s

/-- A 480-sample block whose main input holds the ramp 0, 1, 2, ... on both channels. -/
def demoFeedBlock : CycleInput :=
  { numSamples := 480
    mainInput := patternBuffer 480 (fun i => (i : ℚ))
    fxReturns := List.replicate 6 none
    outputBuses := [(true, 2)]
    params := List.replicate 6 demoParamsIdle
    paramBounce := 0
    paramReset := 0 }

/-- A session prepared at 48 kHz whose master holds a 1000-sample loop and whose second
track is empty. -/
def demoCaptureSession : Session :=
  sessionWith 14400000 1000 [demoLoop1000, LoopTrack.fresh.prepareToPlay 48000]

/-- A Playing track prepared at 48 kHz holding the 1000-sample ramp 0, 1, 2, ... -/
def demoRamp1000 : LoopTrack :=
  demoSeededTrack (patternBuffer 1000 (fun i => (i : ℚ))) 1000 0

/-- The ramp loop after `stop ()` and `setPlaying ()`: Playing, its loop boundary crossfaded. -/
def demoFadedLoop : LoopTrack := demoRamp1000.stop.setPlaying

/-- The ramp loop after `setOverdubbing ()`: Overdubbing, its previous content saved. -/
def demoOverdubbingRamp : LoopTrack := demoRamp1000.setOverdubbing

/-- A Playing track prepared at 48 kHz holding a 1000-sample loop anchored at global sample
500, as `setLoopFromMix` installs it. -/
def demoAnchoredLoop : LoopTrack := demoSeededTrack (patternBuffer 1000 (fun _ => 1)) 1000 500

/-- A session past its first loop (cached master length 1000, global sample count 1500, the
retrospective ring written up to position 1500) whose master track has been cleared, with
an After Loop capture pending for track 0. -/
def demoMasterCaptureSession : Session :=
  { mIsFirstLoop := false
    mBpm := 120
    mPrimaryLoopLengthSamples := 1000
    mGlobalPlaybackPosition := 500
    mGlobalTotalSamples := 1500
    mTracks := [demoLoop1000.clear, LoopTrack.fresh.prepareToPlay 48000]
    mRetrospectiveBuffer := AudioBuffer.allocate 2 14400000
    mRetroWritePos := 1500
    mRetroBufferSize := 14400000
    mWorkBuffer := AudioBuffer.allocate 2 14400000
    mPendingBounce := false
    mPendingAfterLoop := 0 }

/-- A session past its first loop at 44.1 kHz (cached master length 1000, global sample
count 1500, the retrospective ring silent and written up to position 1500): the master
holds a 1000-sample loop of ones, track 1 a 1000-sample loop of twos, and both a bounce and
an After Loop capture into track 1 are pending. -/
def demoBounceCaptureSession : Session :=
  { mIsFirstLoop := false
    mBpm := 120
    mPrimaryLoopLengthSamples := 1000
    mGlobalPlaybackPosition := 500
    mGlobalTotalSamples := 1500
    mTracks := [constantLoopTrack 13230000 1000 0 1, constantLoopTrack 13230000 1000 300 2]
    mRetrospectiveBuffer := AudioBuffer.allocate 2 13230000
    mRetroWritePos := 1500
    mRetroBufferSize := 13230000
    mWorkBuffer := AudioBuffer.allocate 2 13230000
    mPendingBounce := true
    mPendingAfterLoop := 1 }

/-- A processor at 48 kHz in its first-loop phase (the master track as `prepareToPlay` left
it, cached master length 0, global sample count 0) whose first slave was armed by its
Rec/Play trigger in the previous cycle and recorded that cycle's 480 samples; the trigger is
still on. -/
def demoFirstLoopSlaveProcessor : Processor :=
  { mIsFirstLoop := true
    mBpm := 120
    mPrimaryLoopLengthSamples := 0
    mGlobalPlaybackPosition := 0
    mGlobalTotalSamples := 0
    mTracks := LoopTrack.fresh.prepareToPlay 48000 :: demoSlaveAfter 1 1 0 ::
      List.replicate 4 (LoopTrack.fresh.prepareToPlay 48000)
    mRetrospectiveBuffer := AudioBuffer.allocate 2 14400000
    mRetroWritePos := 480
    mRetroBufferSize := 14400000
    mWorkBuffer := AudioBuffer.allocate 2 14400000
    mPendingBounce := false
    mPendingAfterLoop := -1
    mPrev := demoPrevIdle :: demoPrevRecOn :: List.replicate 4 demoPrevIdle
    mPrevBounce := false
    mPrevReset := false
    sampleRate := 48000 }

/-- A cycle of 480 silent samples in which no trigger changes: the first slave's Rec/Play
trigger stays on, every other trigger stays off. -/
def demoSlaveHoldCycle : CycleInput :=
  { numSamples := 480
    mainInput := silentBlock 480
    fxReturns := List.replicate 6 none
    outputBuses := [(true, 2)]
    params := demoParamsIdle :: demoParamsRecOn :: List.replicate 4 demoParamsIdle
    paramBounce := 0
    paramReset := 0 }

/-- A slave prepared at 48 kHz and armed by `setRecording ()` that is handed one block of
zero samples while the master loop is 1000 samples long, then `multiplyLoop ()`, `stop ()`
and `performUndo ()`. -/
def demoEmptyBlockUndo : LoopTrack :=
  ((((demoArmedSlave 1).processBlock (silentBlock 0) (silentBlock 0) (silentBlock 0) 0 false
    1000 false).1.multiplyLoop).stop).performUndo

/-- The 1000-sample example loop after `multiplyLoop ()`. -/
def demoMultipliedLoop : LoopTrack := demoLoop1000.multiplyLoop

/-- A Playing track prepared at 48 kHz holding the 1000-sample ramp `0, 1, 2, ...`, anchored
at global sample 500, as an After Loop capture at global sample count 1500 installs it. -/
def demoAnchoredRamp : LoopTrack :=
  demoSeededTrack (patternBuffer 1000 (fun i => (i : ℚ))) 1000 500

/-- A session at 48 kHz past its first loop (cached master length 1000) whose only track,
the master, is `demoAnchoredRamp`. -/
def demoAnchoredRampSession : Session := sessionWith 14400000 1000 [demoAnchoredRamp]

/-! ## Frame lemmas -/

theorem forCh_zero {α : Type} (body : Nat → α → α) (init : α) : forCh 0 body init = init := by
  simp [forCh]

theorem forCh_succ {α : Type} (n : Nat) (body : Nat → α → α) (init : α) :
    forCh (n + 1) body init = body n (forCh n body init) := by
  simp [forCh, List.range_succ, List.foldl_append]

theorem forCh_preserves {α : Type} (P : α → Prop) (n : Nat) (body : Nat → α → α) (init : α)
    (h0 : P init) (hstep : ∀ ch a, P a → P (body ch a)) : P (forCh n body init) := by
  induction n with
  | zero => simpa [forCh_zero] using h0
  | succ k ih => rw [forCh_succ]; exact hstep _ _ ih

theorem foldl_preserves {α β : Type} (P : β → Prop) (f : β → α → β) (l : List α) (init : β)
    (h0 : P init) (hstep : ∀ b a, P b → P (f b a)) : P (l.foldl f init) := by
  induction l generalizing init with
  | nil => simpa using h0
  | cons x xs ih => exact ih _ (hstep _ _ h0)

namespace LoopTrack

theorem processReplaceChunk_frame (t : LoopTrack) (p n : Int) :
    ∃ lb r, t.processReplaceChunk p n = { t with loopBuffer := lb, mReplace := r } := by
  unfold processReplaceChunk
  cases hs : t.mReplace.source with
  | none => exact ⟨t.loopBuffer, t.mReplace, rfl⟩
  | some src =>
    dsimp only
    split
    · exact ⟨t.loopBuffer, t.mReplace, rfl⟩
    · split <;> split <;> exact ⟨_, _, rfl⟩

theorem captureSidechain_frame (t : LoopTrack) (sc : AudioBuffer) (n p len : Int) :
    ∃ b w, t.captureSidechain sc n p len =
      { t with fxCaptureBuffer := b, fxCaptureSamplesWritten := w } := by
  unfold captureSidechain
  split
  · exact ⟨_, _, rfl⟩
  · apply foldl_preserves
      (fun s : LoopTrack => ∃ b w, s = { t with fxCaptureBuffer := b, fxCaptureSamplesWritten := w })
    · exact ⟨_, _, rfl⟩
    · rintro s c ⟨b, w, rfl⟩
      exact ⟨_, _, rfl⟩

theorem handleOverdub_frame (t : LoopTrack) (out inp : AudioBuffer) (n p len : Int) (silent : Bool) :
    ∃ lb, (t.handleOverdub out inp n p len silent).1 = { t with loopBuffer := lb } := by
  unfold handleOverdub
  split
  · exact ⟨_, rfl⟩
  · apply foldl_preserves
      (fun s : LoopTrack × AudioBuffer => ∃ lb, s.1 = { t with loopBuffer := lb })
    · exact ⟨_, rfl⟩
    · rintro s c ⟨lb, hs⟩
      apply forCh_preserves (fun s : LoopTrack × AudioBuffer => ∃ lb, s.1 = { t with loopBuffer := lb })
      · exact ⟨lb, hs⟩
      · rintro ch a ⟨lb2, ha⟩
        dsimp only
        rw [ha]
        exact ⟨_, rfl⟩

theorem autoFinish_not_recording (t : LoopTrack) (st : State) (im : Bool) (L : Int)
    (h : st ≠ State.Recording) :
    autoFinish t st im L = (t, st) := by
  simp [autoFinish, h]

theorem autoFinish_master (t : LoopTrack) (st : State) (L : Int) :
    autoFinish t st true L = (t, st) := by
  simp [autoFinish]

theorem blockPositions_slave_loop (t : LoopTrack) (st : State) (g L : Int)
    (hst : st ≠ State.Recording) (hlen : 0 < t.loopLengthSamples) :
    blockPositions t st g false L =
      { track := t
        writePos := (if g - t.recordingStartGlobalSample < 0 then 0
          else g - t.recordingStartGlobalSample).tmod t.loopLengthSamples
        readPos := (if g - t.recordingStartGlobalSample < 0 then 0
          else g - t.recordingStartGlobalSample).tmod t.loopLengthSamples
        currentLoopLength := t.loopLengthSamples } := by
  simp [blockPositions, hst, hlen]

theorem blockPositions_master_loop (t : LoopTrack) (st : State) (g L : Int)
    (hst : st ≠ State.Recording) (hlen : 0 < t.loopLengthSamples) :
    blockPositions t st g true L =
      { track := t
        writePos := g.tmod t.loopLengthSamples
        readPos := g.tmod t.loopLengthSamples
        currentLoopLength := t.loopLengthSamples } := by
  simp [blockPositions, hst, hlen]

theorem processBlock_slave_loop_indep (t : LoopTrack) (out inp sc : AudioBuffer) (g L L2 : Int)
    (solo : Bool) (hst : t.currentState ≠ State.Recording) (hlen : 0 < t.loopLengthSamples) :
    t.processBlock out inp sc g false L solo = t.processBlock out inp sc g false L2 solo := by
  unfold processBlock
  simp only [autoFinish_not_recording t _ false _ hst,
    blockPositions_slave_loop t t.currentState g _ hst hlen]

end LoopTrack

/-- C2. For a slave track that is Playing or Overdubbing, with anchor
`S = recordingStartGlobalSample` and loop length `Len > 0`, the start position that
`processBlock` computes for reading and for writing at global time `g ≥ S` is
`(g - S) mod Len`, the modulus it hands to the handlers is `Len`, and the whole result of
`processBlock` is the same for every value of the `masterLoopLength` argument. -/
theorem slave_phase_lock (t : LoopTrack) (out inp sc : AudioBuffer) (g L : Int) (solo : Bool)
    (hst : t.currentState = State.Playing ∨ t.currentState = State.Overdubbing)
    (hlen : 0 < t.loopLengthSamples) (hg : t.recordingStartGlobalSample ≤ g) :
    (LoopTrack.blockPositions (LoopTrack.autoFinish t t.currentState false L).1
        (LoopTrack.autoFinish t t.currentState false L).2 g false L).readPos
      = (g - t.recordingStartGlobalSample) % t.loopLengthSamples ∧
    (LoopTrack.blockPositions (LoopTrack.autoFinish t t.currentState false L).1
        (LoopTrack.autoFinish t t.currentState false L).2 g false L).writePos
      = (g - t.recordingStartGlobalSample) % t.loopLengthSamples ∧
    (LoopTrack.blockPositions (LoopTrack.autoFinish t t.currentState false L).1
        (LoopTrack.autoFinish t t.currentState false L).2 g false L).currentLoopLength
      = t.loopLengthSamples ∧
    ∀ L2 : Int, t.processBlock out inp sc g false L solo
      = t.processBlock out inp sc g false L2 solo := by
  have hne : t.currentState ≠ State.Recording := by
    rcases hst with h | h <;> simp [h]
  have hnn : ¬ (g - t.recordingStartGlobalSample < 0) := by omega
  rw [LoopTrack.autoFinish_not_recording t _ false L hne,
    LoopTrack.blockPositions_slave_loop t t.currentState g L hne hlen]
  refine ⟨?_, ?_, rfl,
    fun L2 => LoopTrack.processBlock_slave_loop_indep t out inp sc g L L2 solo hne hlen⟩
  · simp only [hnn, if_false]
    exact Int.tmod_eq_emod (by omega) (by omega)
  · simp only [hnn, if_false]
    exact Int.tmod_eq_emod (by omega) (by omega)

/-- Witness for `slave_phase_lock`: a Playing slave with anchor 5 and length 8 at global
time 30, master length 16. -/
theorem slave_phase_lock_witness :
    (demoSlavePlaying.currentState = State.Playing ∨
      demoSlavePlaying.currentState = State.Overdubbing) ∧
    0 < demoSlavePlaying.loopLengthSamples ∧
    demoSlavePlaying.recordingStartGlobalSample ≤ 30 ∧
    (LoopTrack.blockPositions
        (LoopTrack.autoFinish demoSlavePlaying demoSlavePlaying.currentState false 16).1
        (LoopTrack.autoFinish demoSlavePlaying demoSlavePlaying.currentState false 16).2
        30 false 16).readPos = 1 :=
  ⟨Or.inl rfl, by decide, by decide,
    (slave_phase_lock demoSlavePlaying (silentBlock 4) (silentBlock 4) (silentBlock 4) 30 16 false
      (Or.inl rfl) (by decide) (by decide)).1.trans (by decide)⟩

/-! ## Single-precision rounding -/

theorem bitLength_spec : ∀ (fuel n : Nat), n ≤ fuel → 0 < n →
    1 ≤ bitLength fuel n ∧ 2 ^ (bitLength fuel n - 1) ≤ n ∧ n < 2 ^ bitLength fuel n := by
  intro fuel
  induction fuel with
  | zero => intro n h1 h2; omega
  | succ k ih =>
    intro n h1 h2
    rw [bitLength, if_neg (by omega)]
    by_cases h : n / 2 = 0
    · have hn : n = 1 := by omega
      subst hn
      cases k with
      | zero => simp [bitLength]
      | succ m => simp [bitLength]
    · obtain ⟨a, b, c⟩ := ih (n / 2) (by omega) (by omega)
      refine ⟨by omega, ?_, ?_⟩
      · rw [Nat.add_sub_cancel]
        have e : bitLength k (n / 2) = (bitLength k (n / 2) - 1) + 1 := by omega
        rw [e, pow_succ]
        omega
      · rw [pow_succ]
        omega

theorem natPow_cast_zpow (P : Nat) (hP : 1 ≤ P) :
    (((2 ^ (P - 1) : Nat) : ℚ) = (2 : ℚ) ^ ((P : Int) - 1)) ∧
    (((2 ^ P : Nat) : ℚ) = (2 : ℚ) ^ (P : Int)) := by
  constructor
  · have e : ((P : Int) - 1) = ((P - 1 : Nat) : Int) := by omega
    rw [e, zpow_natCast]
    push_cast
    rfl
  · rw [zpow_natCast]
    push_cast
    rfl

theorem binaryExponent_bounds (x : ℚ) (hx : x ≠ 0) :
    (2 : ℚ) ^ binaryExponent x ≤ |x| ∧ |x| < (2 : ℚ) ^ (binaryExponent x + 1) := by
  have hp : 0 < x.num.natAbs := Int.natAbs_pos.mpr (Rat.num_ne_zero.mpr hx)
  have hq : 0 < x.den := x.den_pos
  obtain ⟨a1, a2, a3⟩ := bitLength_spec x.num.natAbs x.num.natAbs (le_refl _) hp
  obtain ⟨b1, b2, b3⟩ := bitLength_spec x.den x.den (le_refl _) hq
  have habs : |x| = (x.num.natAbs : ℚ) / (x.den : ℚ) := by
    have h1 : |x| = |(x.num : ℚ)| / (x.den : ℚ) := by
      conv_lhs => rw [← Rat.num_div_den x]
      rw [abs_div, abs_of_pos (by exact_mod_cast hq : (0 : ℚ) < (x.den : ℚ))]
    rw [h1, ← Int.cast_abs, Int.abs_eq_natAbs, Int.cast_natCast]
  have hqq : (0 : ℚ) < (x.den : ℚ) := by exact_mod_cast hq
  have two : (2 : ℚ) ≠ 0 := by norm_num
  obtain ⟨ea1, ea2⟩ := natPow_cast_zpow _ a1
  obtain ⟨eb1, eb2⟩ := natPow_cast_zpow _ b1
  have hA1 : (2 : ℚ) ^ ((bitLength x.num.natAbs x.num.natAbs : Int) - 1)
      ≤ (x.num.natAbs : ℚ) := by
    rw [← ea1]; exact_mod_cast a2
  have hA2 : (x.num.natAbs : ℚ) < (2 : ℚ) ^ (bitLength x.num.natAbs x.num.natAbs : Int) := by
    rw [← ea2]; exact_mod_cast a3
  have hB1 : (2 : ℚ) ^ ((bitLength x.den x.den : Int) - 1) ≤ (x.den : ℚ) := by
    rw [← eb1]; exact_mod_cast b2
  have hB2 : (x.den : ℚ) < (2 : ℚ) ^ (bitLength x.den x.den : Int) := by
    rw [← eb2]; exact_mod_cast b3
  unfold binaryExponent
  dsimp only
  rw [habs]
  generalize (bitLength x.num.natAbs x.num.natAbs : Int) = a at *
  generalize (bitLength x.den x.den : Int) = b at *
  generalize (x.num.natAbs : ℚ) = p at *
  generalize (x.den : ℚ) = q at *
  split_ifs with h
  · refine ⟨h, ?_⟩
    rw [div_lt_iff₀ hqq]
    calc p < (2 : ℚ) ^ a := hA2
      _ = (2 : ℚ) ^ (a - b + 1) * (2 : ℚ) ^ (b - 1) := by
        rw [← zpow_add₀ two]; congr 1; ring
      _ ≤ (2 : ℚ) ^ (a - b + 1) * q :=
        mul_le_mul_of_nonneg_left hB1 (zpow_pos (by norm_num) _).le
  · refine ⟨?_, ?_⟩
    · rw [le_div_iff₀ hqq]
      calc (2 : ℚ) ^ (a - b - 1) * q ≤ (2 : ℚ) ^ (a - b - 1) * (2 : ℚ) ^ b :=
          mul_le_mul_of_nonneg_left hB2.le (zpow_pos (by norm_num) _).le
        _ = (2 : ℚ) ^ (a - 1) := by
          rw [← zpow_add₀ two]; congr 1; ring
        _ ≤ p := hA1
    · have e : a - b - 1 + 1 = a - b := by ring
      rw [e]
      exact lt_of_not_le h

theorem binaryExponent_eq_log (x : ℚ) (hx : x ≠ 0) : binaryExponent x = Int.log 2 |x| := by
  obtain ⟨h1, h2⟩ := binaryExponent_bounds x hx
  have hpos : 0 < |x| := abs_pos.mpr hx
  apply le_antisymm
  · exact (Int.zpow_le_iff_le_log (by norm_num) hpos).mp (by exact_mod_cast h1)
  · have := (Int.lt_zpow_iff_log_lt (b := 2) (by norm_num) hpos).mp (by exact_mod_cast h2)
    omega

theorem roundHalfEven_intCast (k : Int) : roundHalfEven (k : ℚ) = k := by
  unfold roundHalfEven
  simp

theorem roundHalfEven_nonneg (x : ℚ) (hx : 0 ≤ x) : 0 ≤ roundHalfEven x := by
  have hf : 0 ≤ ⌊x⌋ := Int.floor_nonneg.mpr hx
  unfold roundHalfEven
  dsimp only
  split_ifs <;> omega

theorem toFloat32_nonneg (x : ℚ) (hx : 0 ≤ x) : 0 ≤ toFloat32 x := by
  unfold toFloat32
  split
  · exact le_refl _
  · dsimp only
    have hp : (0 : ℚ) < (2 : ℚ) ^ (binaryExponent x - 23) := zpow_pos (by norm_num) _
    have h1 : 0 ≤ roundHalfEven (x / (2 : ℚ) ^ (binaryExponent x - 23)) :=
      roundHalfEven_nonneg _ (div_nonneg hx hp.le)
    exact mul_nonneg (by exact_mod_cast h1) hp.le

/-- A value with at most 24 significant bits is a binary32 value. -/
theorem toFloat32_exact (k j : Int) (hk : |k| < 2 ^ 24) :
    toFloat32 ((k : ℚ) * (2 : ℚ) ^ j) = (k : ℚ) * (2 : ℚ) ^ j := by
  by_cases hk0 : k = 0
  · subst hk0
    simp [toFloat32]
  have h2 : (0 : ℚ) < (2 : ℚ) ^ j := zpow_pos (by norm_num) _
  have hx0 : (k : ℚ) * (2 : ℚ) ^ j ≠ 0 :=
    mul_ne_zero (by exact_mod_cast hk0) h2.ne'
  have habs : |(k : ℚ) * (2 : ℚ) ^ j| = (|k| : ℚ) * (2 : ℚ) ^ j := by
    rw [abs_mul, abs_of_pos h2]
  have hlo := (binaryExponent_bounds _ hx0).1
  have hkq : (|k| : ℚ) < (2 : ℚ) ^ (24 : Int) := by
    have : ((|k| : Int) : ℚ) < ((2 ^ 24 : Int) : ℚ) := by exact_mod_cast hk
    rw [Int.cast_abs] at this
    calc (|(k : ℚ)|) < ((2 ^ 24 : Int) : ℚ) := this
      _ = (2 : ℚ) ^ (24 : Int) := by norm_num
  have hup : |(k : ℚ) * (2 : ℚ) ^ j| < (2 : ℚ) ^ (24 + j) := by
    rw [habs, zpow_add₀ (by norm_num : (2 : ℚ) ≠ 0)]
    exact mul_lt_mul_of_pos_right hkq h2
  have hE : binaryExponent ((k : ℚ) * (2 : ℚ) ^ j) < 24 + j := by
    have := lt_of_le_of_lt hlo hup
    exact (zpow_lt_zpow_iff_right₀ (by norm_num : (1 : ℚ) < 2)).mp this
  unfold toFloat32
  rw [if_neg hx0]
  dsimp only
  generalize binaryExponent ((k : ℚ) * (2 : ℚ) ^ j) = E at hE
  obtain ⟨n, hn⟩ : ∃ n : Nat, (n : Int) = j + 23 - E := ⟨(j + 23 - E).toNat, by omega⟩
  have hdiv : (k : ℚ) * (2 : ℚ) ^ j / (2 : ℚ) ^ (E - 23) = ((k * 2 ^ n : Int) : ℚ) := by
    rw [div_eq_mul_inv, ← zpow_neg, mul_assoc, ← zpow_add₀ (by norm_num : (2 : ℚ) ≠ 0)]
    have : j + -(E - 23) = (n : Int) := by omega
    rw [this, zpow_natCast]
    push_cast
    ring
  rw [hdiv, roundHalfEven_intCast]
  push_cast
  rw [mul_assoc, ← zpow_natCast, ← zpow_add₀ (by norm_num : (2 : ℚ) ≠ 0)]
  have : (n : Int) + (E - 23) = j := by omega
  rw [this]

theorem toFloat32_intCast (k : Int) (hk : |k| < 2 ^ 24) : toFloat32 (k : ℚ) = (k : ℚ) := by
  have h := toFloat32_exact k 0 hk
  rwa [zpow_zero, mul_one] at h

theorem floatProduct_nonneg (L : Int) (m : ℚ) (hL : 0 ≤ L) (hm : 0 ≤ m) :
    0 ≤ floatProduct L m := by
  unfold floatProduct
  exact toFloat32_nonneg _
    (mul_nonneg (toFloat32_nonneg _ (by exact_mod_cast hL)) hm)

/-- The single-precision product is the exact product when the `int` has fewer than 25 bits
and the exact product has at most 24 significant bits. -/
theorem floatProduct_exact (L : Int) (m : ℚ) (k j : Int) (hL : |L| < 2 ^ 24)
    (hk : |k| < 2 ^ 24) (hprod : (L : ℚ) * m = (k : ℚ) * (2 : ℚ) ^ j) :
    floatProduct L m = (L : ℚ) * m := by
  unfold floatProduct
  rw [toFloat32_intCast L hL, hprod, toFloat32_exact k j hk]

theorem floatProduct_zpow (L : Int) (e : Int) (hL : |L| < 2 ^ 24) :
    floatProduct L ((2 : ℚ) ^ e) = (L : ℚ) * (2 : ℚ) ^ e :=
  floatProduct_exact L _ L e hL hL rfl

theorem floatProduct_one (L : Int) (hL : |L| < 2 ^ 24) : floatProduct L 1 = (L : ℚ) := by
  have h := floatProduct_zpow L 0 hL
  rwa [zpow_zero, mul_one] at h

theorem floatProduct_zero (m : ℚ) : floatProduct 0 m = 0 := by
  unfold floatProduct toFloat32
  simp

/-! ## Slave recording: target length and promotion -/

theorem clampMultiplier_of_mem (m : ℚ) (h1 : 1 / 64 ≤ m) (h2 : m ≤ 64) : clampMultiplier m = m := by
  unfold clampMultiplier
  have a : ¬ m < 1 / 64 := not_lt.mpr h1
  have b : ¬ m > 64 := not_lt.mpr h2
  simp only [a, b, if_false]

theorem slaveTargetLen_pos (L : Int) (m : ℚ) : 1 ≤ slaveTargetLen L m := by
  unfold slaveTargetLen
  dsimp only
  split <;> omega

/-- The target as the code computes it: the integer part of the single-precision product,
raised to at least 1. -/
theorem slaveTargetLen_eq_float (L : Int) (m : ℚ) (hL : 0 ≤ L) (h1 : 1 / 64 ≤ m)
    (h2 : m ≤ 64) : slaveTargetLen L m = max 1 ⌊floatProduct L m⌋ := by
  unfold slaveTargetLen truncToInt
  rw [clampMultiplier_of_mem m h1 h2]
  have hm : (0 : ℚ) ≤ m := le_trans (by norm_num) h1
  have hnn : (0 : ℚ) ≤ floatProduct L m := floatProduct_nonneg L m hL hm
  simp only [hnn, if_true]
  split
  · rw [max_eq_left (by omega)]
  · rw [max_eq_right (by omega)]

/-- Single precision shows in the target: a master length of 2^24 + 1 samples is rounded by
the conversion to `float`, and with the multiplier `0.7f` (the binary32 value nearest to 7/10,
below 7/10) the product of 10 rounds up to 7 where the exact product truncates to 6. -/
theorem slaveTargetLen_single_precision :
    slaveTargetLen 16777217 1 = 16777216 ∧
    toFloat32 (7 / 10) = 11744051 / 16777216 ∧
    slaveTargetLen 10 (toFloat32 (7 / 10)) = 7 ∧
    ⌊((10 : Int) : ℚ) * toFloat32 (7 / 10)⌋ = 6 := by
  refine ⟨by decide!, by decide!, by decide!, by decide!⟩

theorem slaveTargetLen_eq_floor (L : Int) (m : ℚ) (hL : 0 ≤ L) (h1 : 1 / 64 ≤ m) (h2 : m ≤ 64)
    (k j : Int) (hL24 : L < 2 ^ 24) (hk : |k| < 2 ^ 24)
    (hprod : (L : ℚ) * m = (k : ℚ) * (2 : ℚ) ^ j) :
    slaveTargetLen L m = max 1 ⌊(L : ℚ) * m⌋ := by
  rw [slaveTargetLen_eq_float L m hL h1 h2,
    floatProduct_exact L m k j (by rw [abs_of_nonneg hL]; exact hL24) hk hprod]

theorem setPlaying_recording_of_pos (t : LoopTrack) (hrec : t.currentState = State.Recording)
    (hpp : t.playbackPosition ≤ 0) (hlen : 0 < t.loopLengthSamples) :
    t.setPlaying = { t with
      playbackPosition := 0
      loopBuffer := applyCrossfade t.loopBuffer t.loopLengthSamples 128
      currentState := State.Playing } := by
  have h1 : ¬ t.playbackPosition > 0 := by omega
  have h2 : ¬ t.loopLengthSamples = 0 := by omega
  unfold LoopTrack.setPlaying
  simp only [hrec, h1, h2, if_true, if_false, ite_self, hlen]

theorem forCh_copyFrom_shape (n : Nat) (lb : AudioBuffer)
    (f : Nat → AudioBuffer → AudioBuffer)
    (hf : ∀ ch a, (f ch a).numSamples = a.numSamples ∧ (f ch a).numChannels = a.numChannels) :
    (forCh n f lb).numSamples = lb.numSamples ∧ (forCh n f lb).numChannels = lb.numChannels := by
  apply forCh_preserves
    (fun b : AudioBuffer => b.numSamples = lb.numSamples ∧ b.numChannels = lb.numChannels)
  · exact ⟨rfl, rfl⟩
  · rintro ch a ⟨h1, h2⟩
    exact ⟨(hf ch a).1.trans h1, (hf ch a).2.trans h2⟩

theorem copyRegion_shape (numCh : Nat) (len : Int) (src : AudioBuffer) :
    ∀ (fuel : Nat) (lb : AudioBuffer) (pos rem : Int),
      (copyRegion numCh len src fuel lb pos rem).numSamples = lb.numSamples ∧
      (copyRegion numCh len src fuel lb pos rem).numChannels = lb.numChannels := by
  intro fuel
  induction fuel with
  | zero => intro lb pos rem; exact ⟨rfl, rfl⟩
  | succ k ih =>
    intro lb pos rem
    unfold copyRegion
    split
    · dsimp only
      have h := ih (forCh numCh (fun ch acc => acc.copyFrom ch
          (if pos ≥ len then pos - len else pos) src ch (if pos ≥ len then pos - len else pos)
          (min rem (len - if pos ≥ len then pos - len else pos))) lb)
        ((if pos ≥ len then pos - len else pos) +
          min rem (len - if pos ≥ len then pos - len else pos))
        (rem - min rem (len - if pos ≥ len then pos - len else pos))
      have h2 := forCh_copyFrom_shape numCh lb (fun ch acc => acc.copyFrom ch
          (if pos ≥ len then pos - len else pos) src ch (if pos ≥ len then pos - len else pos)
          (min rem (len - if pos ≥ len then pos - len else pos))) (fun ch a => ⟨rfl, rfl⟩)
      exact ⟨h.1.trans h2.1, h.2.trans h2.2⟩
    · exact ⟨rfl, rfl⟩

theorem processReplaceChunk_shape (t : LoopTrack) (p n : Int) :
    (t.processReplaceChunk p n).loopBuffer.numSamples = t.loopBuffer.numSamples ∧
    (t.processReplaceChunk p n).loopBuffer.numChannels = t.loopBuffer.numChannels := by
  unfold LoopTrack.processReplaceChunk
  cases hs : t.mReplace.source with
  | none => exact ⟨rfl, rfl⟩
  | some src =>
    dsimp only
    split
    · exact ⟨rfl, rfl⟩
    · split <;> split <;> first | exact ⟨rfl, rfl⟩ | exact copyRegion_shape _ _ _ _ _ _ _

theorem blockPositions_track_of_ne (t : LoopTrack) (st : State) (g L : Int) (im : Bool)
    (hst : st ≠ State.Recording) : (LoopTrack.blockPositions t st g im L).track = t := by
  unfold LoopTrack.blockPositions
  cases im <;> simp [hst] <;> split <;> rfl

theorem processBlock_playing_eq (t : LoopTrack) (out inp sc : AudioBuffer) (g L : Int)
    (im solo : Bool) (h : t.currentState = State.Playing) :
    t.processBlock out inp sc g im L solo =
      ((if 0 < (if t.mReplace.active = true
            then t.processReplaceChunk (LoopTrack.blockPositions t State.Playing g im L).readPos
              out.numSamples
            else t).loopLengthSamples
        then LoopTrack.captureSidechain
          (if t.mReplace.active = true
            then t.processReplaceChunk (LoopTrack.blockPositions t State.Playing g im L).readPos
              out.numSamples
            else t) sc out.numSamples
          (LoopTrack.blockPositions t State.Playing g im L).readPos
          (LoopTrack.blockPositions t State.Playing g im L).currentLoopLength
        else (if t.mReplace.active = true
            then t.processReplaceChunk (LoopTrack.blockPositions t State.Playing g im L).readPos
              out.numSamples
            else t)),
       LoopTrack.handlePlayback
        (if 0 < (if t.mReplace.active = true
            then t.processReplaceChunk (LoopTrack.blockPositions t State.Playing g im L).readPos
              out.numSamples
            else t).loopLengthSamples
        then LoopTrack.captureSidechain
          (if t.mReplace.active = true
            then t.processReplaceChunk (LoopTrack.blockPositions t State.Playing g im L).readPos
              out.numSamples
            else t) sc out.numSamples
          (LoopTrack.blockPositions t State.Playing g im L).readPos
          (LoopTrack.blockPositions t State.Playing g im L).currentLoopLength
        else (if t.mReplace.active = true
            then t.processReplaceChunk (LoopTrack.blockPositions t State.Playing g im L).readPos
              out.numSamples
            else t))
        out out.numSamples
        (LoopTrack.blockPositions t State.Playing g im L).readPos
        (LoopTrack.blockPositions t State.Playing g im L).currentLoopLength
        (LoopTrack.soloMute t solo (LoopTrack.soloMute t solo false))) := by
  have hne : State.Playing ≠ State.Recording := by decide
  unfold LoopTrack.processBlock
  rw [h]
  simp only [LoopTrack.autoFinish_not_recording t _ im L hne,
    blockPositions_track_of_ne t _ g L im hne]
  simp only [reduceCtorEq, false_and, or_false, false_or, if_false, gt_iff_lt]

theorem processBlock_playing_frame (t : LoopTrack) (out inp sc : AudioBuffer) (g L : Int)
    (im solo : Bool) (h : t.currentState = State.Playing) :
    ∃ lb r b w, (t.processBlock out inp sc g im L solo).1 =
      { t with loopBuffer := lb, mReplace := r, fxCaptureBuffer := b,
               fxCaptureSamplesWritten := w } := by
  rw [processBlock_playing_eq t out inp sc g L im solo h]
  dsimp only
  obtain ⟨lb, r, h2⟩ := LoopTrack.processReplaceChunk_frame t
    (LoopTrack.blockPositions t State.Playing g im L).readPos out.numSamples
  rcases Bool.eq_false_or_eq_true t.mReplace.active with ha | ha
  · simp only [ha, if_true]
    rw [h2]
    split
    · obtain ⟨b, w, h3⟩ := LoopTrack.captureSidechain_frame
        { t with loopBuffer := lb, mReplace := r } sc out.numSamples
        (LoopTrack.blockPositions t State.Playing g im L).readPos
        (LoopTrack.blockPositions t State.Playing g im L).currentLoopLength
      rw [h3]
      exact ⟨_, _, _, _, rfl⟩
    · exact ⟨_, _, _, _, rfl⟩
  · simp only [ha, Bool.false_eq_true, if_false]
    split
    · obtain ⟨b, w, h3⟩ := LoopTrack.captureSidechain_frame t sc out.numSamples
        (LoopTrack.blockPositions t State.Playing g im L).readPos
        (LoopTrack.blockPositions t State.Playing g im L).currentLoopLength
      rw [h3]
      exact ⟨_, _, _, _, rfl⟩
    · exact ⟨_, _, _, _, rfl⟩

theorem soloMute_congr (t u : LoopTrack) (hs : u.isSolo = t.isSolo) (hm : u.isMuted = t.isMuted)
    (solo b : Bool) : LoopTrack.soloMute u solo b = LoopTrack.soloMute t solo b := by
  unfold LoopTrack.soloMute
  rw [hs, hm]

/-- A slave block that starts with the recorded-sample counter at or above the target
length behaves as a Playing block of the promoted track. -/
theorem processBlock_promote_eq (t : LoopTrack) (out inp sc : AudioBuffer) (g L : Int)
    (solo : Bool) (hrec : t.currentState = State.Recording) (hpp : t.playbackPosition ≤ 0)
    (hge : slaveTargetLen L t.targetMultiplier ≤ t.recordedSamplesCurrent) :
    t.processBlock out inp sc g false L solo =
      LoopTrack.processBlock
        { t with
          loopLengthSamples := slaveTargetLen L t.targetMultiplier
          playbackPosition := 0
          loopBuffer := applyCrossfade t.loopBuffer (slaveTargetLen L t.targetMultiplier) 128
          currentState := State.Playing }
        out inp sc g false L solo := by
  have hpos := slaveTargetLen_pos L t.targetMultiplier
  have hsp := setPlaying_recording_of_pos
    { t with loopLengthSamples := slaveTargetLen L t.targetMultiplier } hrec hpp
    (by show 0 < slaveTargetLen L t.targetMultiplier; omega)
  have haf : LoopTrack.autoFinish t State.Recording false L =
      ({ t with
          loopLengthSamples := slaveTargetLen L t.targetMultiplier
          playbackPosition := 0
          loopBuffer := applyCrossfade t.loopBuffer (slaveTargetLen L t.targetMultiplier) 128
          currentState := State.Playing }, State.Playing) := by
    unfold LoopTrack.autoFinish
    simp only [hge, ge_iff_le, and_self, if_true, hsp]
  have hne : State.Playing ≠ State.Recording := by decide
  rw [processBlock_playing_eq
    { t with
      loopLengthSamples := slaveTargetLen L t.targetMultiplier
      playbackPosition := 0
      loopBuffer := applyCrossfade t.loopBuffer (slaveTargetLen L t.targetMultiplier) 128
      currentState := State.Playing } out inp sc g L false solo rfl]
  unfold LoopTrack.processBlock
  rw [hrec]
  simp only [haf, blockPositions_track_of_ne _ _ g L false hne]
  simp only [reduceCtorEq, false_and, or_false, false_or, if_false, gt_iff_lt]
  rfl

theorem processBlock_recording_eq (t : LoopTrack) (out inp sc : AudioBuffer) (g L : Int)
    (im solo : Bool) (hrec : t.currentState = State.Recording)
    (hno : im = true ∨ t.recordedSamplesCurrent < slaveTargetLen L t.targetMultiplier) :
    t.processBlock out inp sc g im L solo =
      (if im = true then
        { LoopTrack.handleRecording
            (if (LoopTrack.blockPositions t State.Recording g im L).track.mReplace.active = true
              then LoopTrack.processReplaceChunk
                (LoopTrack.blockPositions t State.Recording g im L).track
                (LoopTrack.blockPositions t State.Recording g im L).readPos out.numSamples
              else (LoopTrack.blockPositions t State.Recording g im L).track)
            inp out.numSamples (LoopTrack.blockPositions t State.Recording g im L).writePos with
          playbackPosition := (LoopTrack.handleRecording
            (if (LoopTrack.blockPositions t State.Recording g im L).track.mReplace.active = true
              then LoopTrack.processReplaceChunk
                (LoopTrack.blockPositions t State.Recording g im L).track
                (LoopTrack.blockPositions t State.Recording g im L).readPos out.numSamples
              else (LoopTrack.blockPositions t State.Recording g im L).track)
            inp out.numSamples
            (LoopTrack.blockPositions t State.Recording g im L).writePos).playbackPosition
              + out.numSamples }
       else
        { LoopTrack.handleRecording
            (if (LoopTrack.blockPositions t State.Recording g im L).track.mReplace.active = true
              then LoopTrack.processReplaceChunk
                (LoopTrack.blockPositions t State.Recording g im L).track
                (LoopTrack.blockPositions t State.Recording g im L).readPos out.numSamples
              else (LoopTrack.blockPositions t State.Recording g im L).track)
            inp out.numSamples (LoopTrack.blockPositions t State.Recording g im L).writePos with
          recordedSamplesCurrent := (LoopTrack.handleRecording
            (if (LoopTrack.blockPositions t State.Recording g im L).track.mReplace.active = true
              then LoopTrack.processReplaceChunk
                (LoopTrack.blockPositions t State.Recording g im L).track
                (LoopTrack.blockPositions t State.Recording g im L).readPos out.numSamples
              else (LoopTrack.blockPositions t State.Recording g im L).track)
            inp out.numSamples
            (LoopTrack.blockPositions t State.Recording g im L).writePos).recordedSamplesCurrent
              + out.numSamples },
       out) := by
  have haf : LoopTrack.autoFinish t State.Recording im L = (t, State.Recording) := by
    unfold LoopTrack.autoFinish
    rcases hno with h | h
    · simp [h]
    · have : ¬ t.recordedSamplesCurrent ≥ slaveTargetLen L t.targetMultiplier := by omega
      simp [this]
  unfold LoopTrack.processBlock
  rw [hrec]
  simp only [haf]
  simp only [reduceCtorEq, false_and, or_false, false_or, if_false]
  split <;> rfl

theorem blockPositions_slave_recording (t : LoopTrack) (g L : Int) :
    LoopTrack.blockPositions t State.Recording g false L =
      { track :=
          { (if t.recordedSamplesCurrent = 0 ∧ L > 0 then
              { t with
                recordingStartOffset := g.tmod L
                recordingStartGlobalSample := g }
             else t) with
            loopLengthSamples := slaveTargetLen L t.targetMultiplier }
        writePos := t.recordedSamplesCurrent
        readPos := 0
        currentLoopLength := t.loopBuffer.numSamples } := by
  unfold LoopTrack.blockPositions
  simp only [Bool.false_eq_true, if_false, if_true]
  by_cases h : t.recordedSamplesCurrent = 0 ∧ L > 0
  · simp only [h, and_self, if_true]
    split
    · rfl
    · rename_i h2
      simp only [ne_eq, not_not] at h2
      simp only [← h2]
  · simp only [h, if_false]
    split
    · rfl
    · rename_i h2
      simp only [ne_eq, not_not] at h2
      simp only [← h2]

theorem blockPositions_master_recording (t : LoopTrack) (g L : Int) :
    LoopTrack.blockPositions t State.Recording g true L =
      { track := t, writePos := t.playbackPosition, readPos := 0,
        currentLoopLength := t.loopBuffer.numSamples } := by
  unfold LoopTrack.blockPositions
  simp only [if_true]

theorem replaceStage_frame (u : LoopTrack) (p n : Int) :
    ∃ lb r, (if u.mReplace.active = true then u.processReplaceChunk p n else u) =
        { u with loopBuffer := lb, mReplace := r } ∧
      lb.numSamples = u.loopBuffer.numSamples ∧ lb.numChannels = u.loopBuffer.numChannels := by
  split
  · obtain ⟨lb, r, h⟩ := LoopTrack.processReplaceChunk_frame u p n
    have hs := processReplaceChunk_shape u p n
    rw [h] at hs
    exact ⟨lb, r, h, hs.1, hs.2⟩
  · exact ⟨u.loopBuffer, u.mReplace, rfl, rfl, rfl⟩

theorem handleRecording_room (u : LoopTrack) (inp : AudioBuffer) (n w : Int)
    (h : w + n < u.loopBuffer.numSamples) :
    ∃ lb, u.handleRecording inp n w = { u with loopBuffer := lb } ∧
      lb.numSamples = u.loopBuffer.numSamples := by
  unfold LoopTrack.handleRecording
  have hn : ¬ w + n ≥ u.loopBuffer.numSamples := by omega
  simp only [hn, if_false]
  exact ⟨_, rfl, (forCh_copyFrom_shape (min inp.numChannels u.loopBuffer.numChannels)
    u.loopBuffer (fun ch acc => acc.copyFrom ch w inp ch 0 n) (fun ch a => ⟨rfl, rfl⟩)).1⟩

/-- A slave recording block that starts below the target length and has room in the buffer
leaves the track Recording, whatever the counter is afterwards. -/
theorem processBlock_slave_continue (t : LoopTrack) (out inp sc : AudioBuffer) (g L : Int)
    (solo : Bool) (hrec : t.currentState = State.Recording)
    (hlt : t.recordedSamplesCurrent < slaveTargetLen L t.targetMultiplier)
    (hroom : t.recordedSamplesCurrent + out.numSamples < t.loopBuffer.numSamples) :
    (t.processBlock out inp sc g false L solo).1.currentState = State.Recording ∧
    (t.processBlock out inp sc g false L solo).1.loopLengthSamples
      = slaveTargetLen L t.targetMultiplier ∧
    (t.processBlock out inp sc g false L solo).1.recordedSamplesCurrent
      = t.recordedSamplesCurrent + out.numSamples ∧
    (t.processBlock out inp sc g false L solo).1.playbackPosition = t.playbackPosition ∧
    (t.processBlock out inp sc g false L solo).1.targetMultiplier = t.targetMultiplier ∧
    (t.processBlock out inp sc g false L solo).1.loopBuffer.numSamples
      = t.loopBuffer.numSamples := by
  rw [processBlock_recording_eq t out inp sc g L false solo hrec (Or.inr hlt),
    blockPositions_slave_recording]
  simp only [Bool.false_eq_true, if_false]
  obtain ⟨lb, r, h1, h2, -⟩ := replaceStage_frame
    { (if t.recordedSamplesCurrent = 0 ∧ L > 0 then
        { t with recordingStartOffset := g.tmod L, recordingStartGlobalSample := g }
       else t) with
      loopLengthSamples := slaveTargetLen L t.targetMultiplier } 0 out.numSamples
  rw [h1]
  have hcap : lb.numSamples = t.loopBuffer.numSamples := by
    rw [h2]; split <;> rfl
  obtain ⟨lb2, h3, h4⟩ := handleRecording_room
    { (if t.recordedSamplesCurrent = 0 ∧ L > 0 then
        { t with recordingStartOffset := g.tmod L, recordingStartGlobalSample := g }
       else t) with
      loopLengthSamples := slaveTargetLen L t.targetMultiplier, loopBuffer := lb, mReplace := r }
    inp out.numSamples t.recordedSamplesCurrent (by show _ < lb.numSamples; omega)
  rw [h3]
  refine ⟨?_, rfl, ?_, ?_, ?_, ?_⟩
  · show (if _ then _ else t).currentState = _
    split <;> exact hrec
  · show (if _ then _ else t).recordedSamplesCurrent + _ = _
    split <;> rfl
  · show (if _ then _ else t).playbackPosition = _
    split <;> rfl
  · show (if _ then _ else t).targetMultiplier = _
    split <;> rfl
  · show lb2.numSamples = _
    rw [h4]; exact hcap

/-- A master recording block with room in the buffer advances the linear position by the
block size and leaves the track Recording. -/
theorem processBlock_master_continue (t : LoopTrack) (out inp sc : AudioBuffer) (g L : Int)
    (solo : Bool) (hrec : t.currentState = State.Recording)
    (hroom : t.playbackPosition + out.numSamples < t.loopBuffer.numSamples) :
    (t.processBlock out inp sc g true L solo).1.currentState = State.Recording ∧
    (t.processBlock out inp sc g true L solo).1.playbackPosition
      = t.playbackPosition + out.numSamples ∧
    (t.processBlock out inp sc g true L solo).1.loopBuffer.numSamples
      = t.loopBuffer.numSamples := by
  rw [processBlock_recording_eq t out inp sc g L true solo hrec (Or.inl rfl),
    blockPositions_master_recording]
  simp only [if_true]
  obtain ⟨lb, r, h1, h2, -⟩ := replaceStage_frame t 0 out.numSamples
  rw [h1]
  obtain ⟨lb2, h3, h4⟩ := handleRecording_room
    { t with loopBuffer := lb, mReplace := r }
    inp out.numSamples t.playbackPosition (by show _ < lb.numSamples; omega)
  rw [h3]
  refine ⟨hrec, rfl, ?_⟩
  show lb2.numSamples = _
  rw [h4]; exact h2

theorem runBlocks_cons (im : Bool) (t : LoopTrack) (a : BlockArgs) (rest : List BlockArgs) :
    runBlocks im t (a :: rest) =
      runBlocks im (t.processBlock a.outputBuffer a.inputBuffer a.sidechainBuffer
        a.globalTotalSamples im a.masterLoopLength a.anySoloActive).1 rest := by
  simp [runBlocks]

theorem runBlocks_master_recording (n : Int) (hn : 0 ≤ n) :
    ∀ (blocks : List BlockArgs) (t : LoopTrack),
      (∀ b ∈ blocks, b.outputBuffer.numSamples = n) →
      t.currentState = State.Recording →
      t.playbackPosition + (blocks.length : Int) * n < t.loopBuffer.numSamples →
      (runBlocks true t blocks).currentState = State.Recording ∧
      (runBlocks true t blocks).playbackPosition = t.playbackPosition + (blocks.length : Int) * n
      := by
  intro blocks
  induction blocks with
  | nil => intro t _ hrec _; simp [runBlocks, hrec]
  | cons a rest ih =>
    intro t hb hrec hroom
    have ha : a.outputBuffer.numSamples = n := hb a (List.mem_cons_self _ _)
    have hlen : (((a :: rest).length : Nat) : Int) = (rest.length : Int) + 1 := by
      simp
    rw [hlen] at hroom ⊢
    have hnn : 0 ≤ (rest.length : Int) * n := mul_nonneg (by omega) hn
    have hstep := processBlock_master_continue t a.outputBuffer a.inputBuffer a.sidechainBuffer
      a.globalTotalSamples a.masterLoopLength a.anySoloActive hrec (by rw [ha]; nlinarith)
    rw [runBlocks_cons]
    have := ih _ (fun b hb2 => hb b (List.mem_cons_of_mem _ hb2)) hstep.1
      (by rw [hstep.2.1, hstep.2.2, ha]; nlinarith)
    refine ⟨this.1, ?_⟩
    rw [this.2, hstep.2.1, ha]; ring

theorem setPlaying_recording_master (t : LoopTrack) (hrec : t.currentState = State.Recording)
    (hpp : 0 < t.playbackPosition) :
    t.setPlaying.currentState = State.Playing ∧
    t.setPlaying.loopLengthSamples = t.playbackPosition := by
  unfold LoopTrack.setPlaying
  simp only [hrec, if_true, gt_iff_lt, hpp]
  exact ⟨trivial, trivial⟩

/-- C10. For the master track, after `setRecording` from Empty followed by `k` `processBlock`
calls of `n` samples each that stay below the buffer capacity (`0 < k * n < capacity`),
`setPlaying` leaves the track Playing with `loopLength = k * n`, the number of samples
linearly written. -/
theorem master_length_is_samples_written (t : LoopTrack) (blocks : List BlockArgs) (n : Int)
    (hempty : t.currentState = State.Empty)
    (hblocks : ∀ b ∈ blocks, b.outputBuffer.numSamples = n)
    (hpos : 0 < (blocks.length : Int) * n)
    (hcap : (blocks.length : Int) * n < t.loopBuffer.numSamples) :
    (LoopTrack.setPlaying (runBlocks true t.setRecording blocks)).currentState = State.Playing ∧
    (LoopTrack.setPlaying (runBlocks true t.setRecording blocks)).loopLengthSamples
      = (blocks.length : Int) * n := by
  have hn : 0 ≤ n := by
    by_contra hneg
    have h1 : (blocks.length : Int) * n ≤ 0 :=
      mul_nonpos_of_nonneg_of_nonpos (by omega) (by omega)
    omega
  have hsr : t.setRecording =
      { t with
        playbackPosition := 0
        loopLengthSamples := 0
        recordedSamplesCurrent := 0
        currentState := State.Recording } := by
    unfold LoopTrack.setRecording
    simp only [hempty, if_true]
  have hrun := runBlocks_master_recording n hn blocks t.setRecording hblocks
    (by rw [hsr]) (by rw [hsr]; show 0 + _ < t.loopBuffer.numSamples; omega)
  have hpp : (runBlocks true t.setRecording blocks).playbackPosition
      = (blocks.length : Int) * n := by
    rw [hrun.2, hsr]; show 0 + _ = _; omega
  have hfin := setPlaying_recording_master _ hrun.1 (by rw [hpp]; exact hpos)
  exact ⟨hfin.1, hfin.2.trans hpp⟩

/-- Witness for `master_length_is_samples_written`: two blocks of 4 samples on a prepared
track of capacity 1000 give a Playing master of length 8. -/
theorem master_length_is_samples_written_witness :
    (preparedTrack 1000).currentState = State.Empty ∧
    (∀ b ∈ [silentArgs 4 0 0, silentArgs 4 0 0], b.outputBuffer.numSamples = 4) ∧
    (LoopTrack.setPlaying (runBlocks true (preparedTrack 1000).setRecording
      [silentArgs 4 0 0, silentArgs 4 0 0])).loopLengthSamples = 8 :=
  ⟨rfl, by simp [silentArgs, silentBlock, AudioBuffer.allocate],
    (master_length_is_samples_written (preparedTrack 1000) [silentArgs 4 0 0, silentArgs 4 0 0] 4
      rfl (by simp [silentArgs, silentBlock, AudioBuffer.allocate]) (by decide)
      (by decide)).2.trans (by decide)⟩

theorem handleRecording_loopLength (u : LoopTrack) (inp : AudioBuffer) (n w : Int)
    (hrec : u.currentState = State.Recording) (hpp : u.playbackPosition ≤ 0)
    (hlen : 0 < u.loopLengthSamples) :
    (u.handleRecording inp n w).loopLengthSamples = u.loopLengthSamples := by
  unfold LoopTrack.handleRecording
  split
  · rw [setPlaying_recording_of_pos u hrec hpp hlen]
  · rfl

/-- The loop length a slave recording block stores is the target length computed from the
master length and the multiplier. -/
theorem processBlock_slave_loopLength (t : LoopTrack) (out inp sc : AudioBuffer) (g L : Int)
    (solo : Bool) (hrec : t.currentState = State.Recording) (hpp : t.playbackPosition ≤ 0) :
    (t.processBlock out inp sc g false L solo).1.loopLengthSamples
      = slaveTargetLen L t.targetMultiplier := by
  have hpos := slaveTargetLen_pos L t.targetMultiplier
  by_cases hge : slaveTargetLen L t.targetMultiplier ≤ t.recordedSamplesCurrent
  · rw [processBlock_promote_eq t out inp sc g L solo hrec hpp hge]
    obtain ⟨lb, r, b, w, h⟩ := processBlock_playing_frame
      { t with
        loopLengthSamples := slaveTargetLen L t.targetMultiplier
        playbackPosition := 0
        loopBuffer := applyCrossfade t.loopBuffer (slaveTargetLen L t.targetMultiplier) 128
        currentState := State.Playing } out inp sc g L false solo rfl
    rw [h]
  · rw [processBlock_recording_eq t out inp sc g L false solo hrec (Or.inr (by omega)),
      blockPositions_slave_recording]
    simp only [Bool.false_eq_true, if_false]
    obtain ⟨lb, r, h1, -, -⟩ := replaceStage_frame
      { (if t.recordedSamplesCurrent = 0 ∧ L > 0 then
          { t with recordingStartOffset := g.tmod L, recordingStartGlobalSample := g }
         else t) with
        loopLengthSamples := slaveTargetLen L t.targetMultiplier } 0 out.numSamples
    rw [h1]
    show (LoopTrack.handleRecording _ inp out.numSamples t.recordedSamplesCurrent).loopLengthSamples
      = _
    rw [handleRecording_loopLength]
    · show (if _ then _ else t).currentState = _
      split <;> exact hrec
    · show LoopTrack.playbackPosition (if _ then _ else t) ≤ (0 : Int)
      split <;> exact hpp
    · show 0 < slaveTargetLen L t.targetMultiplier
      omega

/-- Two consecutive slave blocks around the target length: the first, which starts below the
target, returns Recording; the second returns Playing with the target length. -/
theorem slave_promotion_two_blocks (t : LoopTrack) (out1 inp1 sc1 out2 inp2 sc2 : AudioBuffer)
    (g1 g2 L : Int) (solo1 solo2 : Bool)
    (hrec : t.currentState = State.Recording) (hpp : t.playbackPosition = 0)
    (hlt : t.recordedSamplesCurrent < slaveTargetLen L t.targetMultiplier)
    (hreach : slaveTargetLen L t.targetMultiplier ≤ t.recordedSamplesCurrent + out1.numSamples)
    (hroom : t.recordedSamplesCurrent + out1.numSamples < t.loopBuffer.numSamples) :
    (t.processBlock out1 inp1 sc1 g1 false L solo1).1.currentState = State.Recording ∧
    (t.processBlock out1 inp1 sc1 g1 false L solo1).1.recordedSamplesCurrent
      = t.recordedSamplesCurrent + out1.numSamples ∧
    (LoopTrack.processBlock (t.processBlock out1 inp1 sc1 g1 false L solo1).1
      out2 inp2 sc2 g2 false L solo2).1.currentState = State.Playing ∧
    (LoopTrack.processBlock (t.processBlock out1 inp1 sc1 g1 false L solo1).1
      out2 inp2 sc2 g2 false L solo2).1.loopLengthSamples
      = slaveTargetLen L t.targetMultiplier := by
  obtain ⟨h1, -, h3, h4, h5, -⟩ :=
    processBlock_slave_continue t out1 inp1 sc1 g1 L solo1 hrec hlt hroom
  have hpp2 : (t.processBlock out1 inp1 sc1 g1 false L solo1).1.playbackPosition ≤ 0 := by
    rw [h4, hpp]
  have hge : slaveTargetLen L (t.processBlock out1 inp1 sc1 g1 false L solo1).1.targetMultiplier
      ≤ (t.processBlock out1 inp1 sc1 g1 false L solo1).1.recordedSamplesCurrent := by
    rw [h5, h3]; exact hreach
  refine ⟨h1, h3, ?_, ?_⟩
  · rw [processBlock_promote_eq _ out2 inp2 sc2 g2 L solo2 h1 hpp2 hge]
    obtain ⟨lb, r, b, w, h⟩ := processBlock_playing_frame
      { (t.processBlock out1 inp1 sc1 g1 false L solo1).1 with
        loopLengthSamples := slaveTargetLen L
          (t.processBlock out1 inp1 sc1 g1 false L solo1).1.targetMultiplier
        playbackPosition := 0
        loopBuffer := applyCrossfade (t.processBlock out1 inp1 sc1 g1 false L solo1).1.loopBuffer
          (slaveTargetLen L (t.processBlock out1 inp1 sc1 g1 false L solo1).1.targetMultiplier) 128
        currentState := State.Playing } out2 inp2 sc2 g2 L false solo2 rfl
    rw [h]
  · rw [processBlock_slave_loopLength _ out2 inp2 sc2 g2 L solo2 h1 hpp2, h5]

theorem demo_target_half : slaveTargetLen 48000 (1 / 2) = 24000 := by
  rw [slaveTargetLen_eq_floor _ _ (by norm_num) (by norm_num) (by norm_num) 24000 0
    (by norm_num) (by norm_num) (by norm_num)]
  have h : ⌊((48000 : Int) : ℚ) * (1 / 2)⌋ = 24000 := by
    rw [Int.floor_eq_iff]; constructor <;> norm_num
  rw [h]; rfl

theorem saveUndo_frame (t : LoopTrack) :
    ∃ ub ul hu, t.saveUndo =
      { t with undoBuffer := ub, undoLoopLengthSamples := ul, hasUndo := hu } := by
  unfold LoopTrack.saveUndo
  dsimp only
  split
  · exact ⟨_, _, _, rfl⟩
  · exact ⟨_, _, _, rfl⟩

theorem multiplyLoop_loopLength (t : LoopTrack) (hlen : 0 < t.loopLengthSamples) :
    t.multiplyLoop.loopLengthSamples =
      if t.loopLengthSamples * 2 > t.loopBuffer.numSamples then t.loopLengthSamples
      else t.loopLengthSamples * 2 := by
  unfold LoopTrack.multiplyLoop
  have h0 : ¬ t.loopLengthSamples ≤ 0 := by omega
  simp only [h0, if_false]
  split
  · rfl
  · obtain ⟨ub, ul, hu, h⟩ := saveUndo_frame t
    rw [h]

theorem divideLoop_loopLength (t : LoopTrack) (hlen : 0 < t.loopLengthSamples) :
    t.divideLoop.loopLengthSamples =
      if t.loopLengthSamples / 2 < 256 then t.loopLengthSamples
      else t.loopLengthSamples / 2 := by
  unfold LoopTrack.divideLoop
  have h0 : ¬ t.loopLengthSamples ≤ 0 := by omega
  have hd : t.loopLengthSamples.tdiv 2 = t.loopLengthSamples / 2 :=
    Int.tdiv_eq_ediv (by omega) (by omega)
  simp only [h0, if_false, hd]
  split
  · rfl
  · obtain ⟨ub, ul, hu, h⟩ := saveUndo_frame t
    rw [h]
    exact hd

/-- What multiply followed by divide does to the loop length, in all cases. -/
theorem multiply_divide_loopLength (t : LoopTrack) (hlen : 0 < t.loopLengthSamples) :
    t.multiplyLoop.divideLoop.loopLengthSamples =
      if t.loopLengthSamples * 2 ≤ t.loopBuffer.numSamples then
        (if t.loopLengthSamples < 256 then t.loopLengthSamples * 2 else t.loopLengthSamples)
      else
        (if t.loopLengthSamples / 2 < 256 then t.loopLengthSamples
         else t.loopLengthSamples / 2) := by
  have hm := multiplyLoop_loopLength t hlen
  have hpos : 0 < t.multiplyLoop.loopLengthSamples := by
    rw [hm]; split <;> omega
  rw [divideLoop_loopLength _ hpos, hm]
  by_cases hfit : t.loopLengthSamples * 2 ≤ t.loopBuffer.numSamples
  · have h1 : ¬ t.loopLengthSamples * 2 > t.loopBuffer.numSamples := by omega
    simp only [h1, hfit, if_true, if_false]
    have h2 : t.loopLengthSamples * 2 / 2 = t.loopLengthSamples := by omega
    rw [h2]
  · have h1 : t.loopLengthSamples * 2 > t.loopBuffer.numSamples := by omega
    simp only [h1, hfit, if_true, if_false]

/-- C5 (amended). For every track with loop length `len ≥ 256` whose doubled length fits
the buffer (`2 * len ≤ capacity`), `multiplyLoop` followed immediately by `divideLoop`
leaves `loopLength` equal to `len`. -/
theorem multiply_then_divide_restores_length (t : LoopTrack)
    (hmin : 256 ≤ t.loopLengthSamples)
    (hfit : t.loopLengthSamples * 2 ≤ t.loopBuffer.numSamples) :
    t.multiplyLoop.divideLoop.loopLengthSamples = t.loopLengthSamples := by
  rw [multiply_divide_loopLength t (by omega)]
  have h1 : ¬ t.loopLengthSamples < 256 := by omega
  simp only [hfit, h1, if_true, if_false]

/-! ## Undo / redo -/

theorem swapSample_fst_data (ch : Nat) (a : AudioBuffer × AudioBuffer) (i : Nat) (c : Nat)
    (j : Int) :
    (swapSample ch a i).1.data c j =
      if c = ch ∧ j = (i : Int) then a.2.data c j else a.1.data c j := by
  unfold swapSample
  simp only [Function.update_apply]
  by_cases hc : c = ch
  · subst hc
    by_cases hj : j = (i : Int)
    · subst hj; simp
    · simp [hj]
  · simp [hc]

theorem swapSample_snd_data (ch : Nat) (a : AudioBuffer × AudioBuffer) (i : Nat) (c : Nat)
    (j : Int) :
    (swapSample ch a i).2.data c j =
      if c = ch ∧ j = (i : Int) then a.1.data c j else a.2.data c j := by
  unfold swapSample
  simp only [Function.update_apply]
  by_cases hc : c = ch
  · subst hc
    by_cases hj : j = (i : Int)
    · subst hj; simp
    · simp [hj]
  · simp [hc]

theorem swapSamples_spec (ch : Nat) (A B : AudioBuffer) (m : Nat) :
    ((List.range m).foldl (swapSample ch) (A, B)).1.numChannels = A.numChannels ∧
    ((List.range m).foldl (swapSample ch) (A, B)).1.numSamples = A.numSamples ∧
    ((List.range m).foldl (swapSample ch) (A, B)).2.numChannels = B.numChannels ∧
    ((List.range m).foldl (swapSample ch) (A, B)).2.numSamples = B.numSamples ∧
    (∀ c j, ((List.range m).foldl (swapSample ch) (A, B)).1.data c j =
      if c = ch ∧ 0 ≤ j ∧ j < (m : Int) then B.data c j else A.data c j) ∧
    (∀ c j, ((List.range m).foldl (swapSample ch) (A, B)).2.data c j =
      if c = ch ∧ 0 ≤ j ∧ j < (m : Int) then A.data c j else B.data c j) := by
  induction m with
  | zero =>
    refine ⟨rfl, rfl, rfl, rfl, ?_, ?_⟩ <;>
    · intro c j
      have : ¬ (c = ch ∧ 0 ≤ j ∧ j < ((0 : Nat) : Int)) := by omega
      simp only [List.range_zero, List.foldl_nil, this, if_false]
  | succ k ih =>
    obtain ⟨h1, h2, h3, h4, h5, h6⟩ := ih
    rw [List.range_succ, List.foldl_append]
    simp only [List.foldl_cons, List.foldl_nil]
    refine ⟨h1, h2, h3, h4, ?_, ?_⟩
    · intro c j
      rw [swapSample_fst_data, h5, h6]
      split_ifs <;> first | rfl | (exfalso; omega)
    · intro c j
      rw [swapSample_snd_data, h5, h6]
      split_ifs <;> first | rfl | (exfalso; omega)

theorem swapChannels_spec (maxLen : Int) (A B : AudioBuffer) (n : Nat) :
    (forCh n (swapChannel maxLen) (A, B)).1.numChannels = A.numChannels ∧
    (forCh n (swapChannel maxLen) (A, B)).1.numSamples = A.numSamples ∧
    (forCh n (swapChannel maxLen) (A, B)).2.numChannels = B.numChannels ∧
    (forCh n (swapChannel maxLen) (A, B)).2.numSamples = B.numSamples ∧
    (∀ c j, (forCh n (swapChannel maxLen) (A, B)).1.data c j =
      if c < n ∧ 0 ≤ j ∧ j < maxLen then B.data c j else A.data c j) ∧
    (∀ c j, (forCh n (swapChannel maxLen) (A, B)).2.data c j =
      if c < n ∧ 0 ≤ j ∧ j < maxLen then A.data c j else B.data c j) := by
  induction n with
  | zero =>
    refine ⟨rfl, rfl, rfl, rfl, ?_, ?_⟩ <;>
    · intro c j
      have : ¬ (c < 0 ∧ 0 ≤ j ∧ j < maxLen) := by omega
      simp only [forCh_zero, this, if_false]
  | succ k ih =>
    obtain ⟨h1, h2, h3, h4, h5, h6⟩ := ih
    rw [forCh_succ]
    obtain ⟨g1, g2, g3, g4, g5, g6⟩ := swapSamples_spec k
      (forCh k (swapChannel maxLen) (A, B)).1 (forCh k (swapChannel maxLen) (A, B)).2
      maxLen.toNat
    have e : swapChannel maxLen k (forCh k (swapChannel maxLen) (A, B)) =
        List.foldl (swapSample k) ((forCh k (swapChannel maxLen) (A, B)).1,
          (forCh k (swapChannel maxLen) (A, B)).2) (List.range maxLen.toNat) := rfl
    rw [e]
    refine ⟨g1.trans h1, g2.trans h2, g3.trans h3, g4.trans h4, ?_, ?_⟩
    · intro c j
      rw [g5, h5, h6]
      split_ifs <;> first | rfl | (exfalso; omega)
    · intro c j
      rw [g6, h5, h6]
      split_ifs <;> first | rfl | (exfalso; omega)

theorem AudioBuffer.eq_of_data (a b : AudioBuffer) (h1 : a.numChannels = b.numChannels)
    (h2 : a.numSamples = b.numSamples) (h3 : ∀ c j, a.data c j = b.data c j) : a = b := by
  cases a
  cases b
  simp only [AudioBuffer.mk.injEq]
  exact ⟨h1, h2, funext fun c => funext fun j => h3 c j⟩

theorem performUndo_eq (t : LoopTrack)
    (hst : t.currentState = State.Playing ∨ t.currentState = State.Stopped)
    (hu : t.hasUndo = true) (hul : 0 < t.undoLoopLengthSamples) :
    t.performUndo =
      { t with
        loopBuffer := (forCh t.loopBuffer.numChannels
          (swapChannel (max t.loopLengthSamples t.undoLoopLengthSamples))
          (t.loopBuffer, t.undoBuffer)).1
        undoBuffer := (forCh t.loopBuffer.numChannels
          (swapChannel (max t.loopLengthSamples t.undoLoopLengthSamples))
          (t.loopBuffer, t.undoBuffer)).2
        loopLengthSamples := t.undoLoopLengthSamples
        undoLoopLengthSamples := t.loopLengthSamples } := by
  have h1 : ¬ (t.currentState = State.Recording ∨ t.currentState = State.Overdubbing) := by
    rcases hst with h | h <;> simp [h]
  unfold LoopTrack.performUndo
  simp only [hu, hul, h1, gt_iff_lt, and_self, if_true, if_false]

/-- Two successive swaps of a track with a loop and a saved undo state cancel. -/
theorem undo_twice_of_loop (t : LoopTrack)
    (hst : t.currentState = State.Playing ∨ t.currentState = State.Stopped)
    (hlen : 0 < t.loopLengthSamples)
    (hu : t.hasUndo = true) (hul : 0 < t.undoLoopLengthSamples) :
    t.performUndo.performUndo.loopBuffer = t.loopBuffer ∧
    t.performUndo.performUndo.loopLengthSamples = t.loopLengthSamples ∧
    t.performUndo.performUndo.undoBuffer = t.undoBuffer ∧
    t.performUndo.performUndo.undoLoopLengthSamples = t.undoLoopLengthSamples ∧
    t.performUndo.performUndo = t := by
  have e1 := performUndo_eq t hst hu hul
  obtain ⟨a1, a2, a3, a4, a5, a6⟩ := swapChannels_spec
    (max t.loopLengthSamples t.undoLoopLengthSamples) t.loopBuffer t.undoBuffer
    t.loopBuffer.numChannels
  have e2 := performUndo_eq t.performUndo (by rw [e1]; exact hst) (by rw [e1]; exact hu)
    (by rw [e1]; exact hlen)
  obtain ⟨b1, b2, b3, b4, b5, b6⟩ := swapChannels_spec
    (max t.performUndo.loopLengthSamples t.performUndo.undoLoopLengthSamples)
    t.performUndo.loopBuffer t.performUndo.undoBuffer t.performUndo.loopBuffer.numChannels
  have hmax : max t.performUndo.loopLengthSamples t.performUndo.undoLoopLengthSamples
      = max t.loopLengthSamples t.undoLoopLengthSamples := by
    rw [e1]; exact max_comm _ _
  have hch : t.performUndo.loopBuffer.numChannels = t.loopBuffer.numChannels := by
    rw [e1]; exact a1
  have hd1 : ∀ c j, t.performUndo.loopBuffer.data c j =
      if c < t.loopBuffer.numChannels ∧ 0 ≤ j ∧
        j < max t.loopLengthSamples t.undoLoopLengthSamples
      then t.undoBuffer.data c j else t.loopBuffer.data c j := by
    rw [e1]; exact a5
  have hd2 : ∀ c j, t.performUndo.undoBuffer.data c j =
      if c < t.loopBuffer.numChannels ∧ 0 ≤ j ∧
        j < max t.loopLengthSamples t.undoLoopLengthSamples
      then t.loopBuffer.data c j else t.undoBuffer.data c j := by
    rw [e1]; exact a6
  have hL : t.performUndo.performUndo.loopBuffer = t.loopBuffer := by
    rw [e2]
    apply AudioBuffer.eq_of_data
    · exact b1.trans hch
    · refine b2.trans ?_
      rw [e1]; exact a2
    · intro c j
      show (forCh _ (swapChannel _) (_, _)).1.data c j = _
      rw [b5, hmax, hch, hd1, hd2]
      split_ifs <;> rfl
  have hU : t.performUndo.performUndo.undoBuffer = t.undoBuffer := by
    rw [e2]
    apply AudioBuffer.eq_of_data
    · refine b3.trans ?_
      rw [e1]; exact a3
    · refine b4.trans ?_
      rw [e1]; exact a4
    · intro c j
      show (forCh _ (swapChannel _) (_, _)).2.data c j = _
      rw [b6, hmax, hch, hd1, hd2]
      split_ifs <;> rfl
  have hlen2 : t.performUndo.performUndo.loopLengthSamples = t.loopLengthSamples := by
    rw [e2, e1]
  have hul2 : t.performUndo.performUndo.undoLoopLengthSamples = t.undoLoopLengthSamples := by
    rw [e2, e1]
  refine ⟨hL, hlen2, hU, hul2, ?_⟩
  have hrest : t.performUndo.performUndo =
      { t with
        loopBuffer := t.performUndo.performUndo.loopBuffer
        undoBuffer := t.performUndo.performUndo.undoBuffer
        loopLengthSamples := t.performUndo.performUndo.loopLengthSamples
        undoLoopLengthSamples := t.performUndo.performUndo.undoLoopLengthSamples } := by
    conv_lhs => rw [e2, e1]
    rw [e2, e1]
  rw [hrest, hL, hU, hlen2, hul2]

/-! ## Mute / solo -/

theorem processBlock_overdub_eq (t : LoopTrack) (out inp sc : AudioBuffer) (g L : Int)
    (im solo : Bool) (h : t.currentState = State.Overdubbing) :
    t.processBlock out inp sc g im L solo =
      LoopTrack.handleOverdub
        (if 0 < (if t.mReplace.active = true
            then t.processReplaceChunk (LoopTrack.blockPositions t State.Overdubbing g im L).readPos
              out.numSamples
            else t).loopLengthSamples
        then LoopTrack.captureSidechain
          (if t.mReplace.active = true
            then t.processReplaceChunk (LoopTrack.blockPositions t State.Overdubbing g im L).readPos
              out.numSamples
            else t) sc out.numSamples
          (LoopTrack.blockPositions t State.Overdubbing g im L).readPos
          (LoopTrack.blockPositions t State.Overdubbing g im L).currentLoopLength
        else (if t.mReplace.active = true
            then t.processReplaceChunk (LoopTrack.blockPositions t State.Overdubbing g im L).readPos
              out.numSamples
            else t))
        out inp out.numSamples
        (LoopTrack.blockPositions t State.Overdubbing g im L).readPos
        (LoopTrack.blockPositions t State.Overdubbing g im L).currentLoopLength
        (LoopTrack.soloMute t solo (LoopTrack.soloMute t solo false)) := by
  have hne : State.Overdubbing ≠ State.Recording := by decide
  unfold LoopTrack.processBlock
  rw [h]
  simp only [LoopTrack.autoFinish_not_recording t _ im L hne,
    blockPositions_track_of_ne t _ g L im hne]
  simp only [reduceCtorEq, false_and, or_false, false_or, if_false, gt_iff_lt]

/-- The track the output stage of a Playing or Overdubbing block runs on carries the
mute flag of the track the block started with. -/
theorem captureStage_isMuted (t : LoopTrack) (sc : AudioBuffer) (n p len : Int) :
    (if 0 < (if t.mReplace.active = true then t.processReplaceChunk p n else t).loopLengthSamples
      then LoopTrack.captureSidechain
        (if t.mReplace.active = true then t.processReplaceChunk p n else t) sc n p len
      else (if t.mReplace.active = true then t.processReplaceChunk p n else t)).isMuted
      = t.isMuted := by
  obtain ⟨lb, r, h1, -, -⟩ := replaceStage_frame t p n
  rw [h1]
  split
  · obtain ⟨b, w, h2⟩ := LoopTrack.captureSidechain_frame
      { t with loopBuffer := lb, mReplace := r } sc n p len
    rw [h2]
  · rfl

theorem handlePlayback_of_muted (t : LoopTrack) (out : AudioBuffer) (n p len : Int)
    (silent : Bool) (h : silent = true ∨ t.isMuted = true) :
    t.handlePlayback out n p len silent = out := by
  unfold LoopTrack.handlePlayback
  rcases h with h | h
  · simp [h]
  · simp [h]

theorem handleOverdub_of_muted (t : LoopTrack) (out inp : AudioBuffer) (n p len : Int)
    (silent : Bool) (h : silent = true ∨ t.isMuted = true) :
    (t.handleOverdub out inp n p len silent).2 = out := by
  have hm : (if silent = true then true else t.isMuted) = true := by
    rcases h with h | h
    · simp [h]
    · simp [h]
  unfold LoopTrack.handleOverdub
  split
  · rfl
  · simp only [hm, if_true]
    apply foldl_preserves (fun s : LoopTrack × AudioBuffer => s.2 = out)
    · rfl
    · intro s c hs
      apply forCh_preserves (fun s : LoopTrack × AudioBuffer => s.2 = out)
      · exact hs
      · intro ch a ha
        exact ha

/-- A Playing or Overdubbing block adds nothing to the output whenever the track's own
mute flag is set, whatever the solo flags are. -/
theorem processBlock_muted_output (t : LoopTrack) (out inp sc : AudioBuffer) (g L : Int)
    (im solo : Bool)
    (hst : t.currentState = State.Playing ∨ t.currentState = State.Overdubbing)
    (hm : t.isMuted = true) :
    (t.processBlock out inp sc g im L solo).2 = out := by
  rcases hst with h | h
  · rw [processBlock_playing_eq t out inp sc g L im solo h]
    exact handlePlayback_of_muted _ _ _ _ _ _
      (Or.inr ((captureStage_isMuted t sc out.numSamples _ _).trans hm))
  · rw [processBlock_overdub_eq t out inp sc g L im solo h]
    exact handleOverdub_of_muted _ _ _ _ _ _ _
      (Or.inr ((captureStage_isMuted t sc out.numSamples _ _).trans hm))

/-! ## Example tracks built through the public operations -/

theorem truncToInt_capacity : truncToInt ((48000 : ℚ) * 300) = 14400000 := by
  unfold truncToInt
  rw [if_pos (by norm_num)]
  rw [Int.floor_eq_iff]
  constructor <;> norm_num

theorem prepared_48000 : LoopTrack.fresh.prepareToPlay 48000 = preparedTrack 14400000 := by
  unfold LoopTrack.prepareToPlay
  rw [truncToInt_capacity]
  simp [preparedTrack, LoopTrack.clear, LoopTrack.fresh, AudioBuffer.clear, AudioBuffer.allocate]

theorem demoSeededTrack_fields (mixedBuffer : AudioBuffer) (length anchor : Int)
    (h1 : 0 < length) (h2 : length ≤ 14400000) :
    (demoSeededTrack mixedBuffer length anchor).currentState = State.Playing ∧
    (demoSeededTrack mixedBuffer length anchor).loopLengthSamples = length ∧
    (demoSeededTrack mixedBuffer length anchor).recordingStartGlobalSample = anchor := by
  unfold demoSeededTrack
  rw [prepared_48000]
  unfold LoopTrack.setLoopFromMix
  have hg : ¬ (length ≤ 0 ∨ length > (preparedTrack 14400000).loopBuffer.numSamples) := by
    show ¬ (length ≤ 0 ∨ length > 14400000)
    omega
  rw [if_neg hg]
  exact ⟨rfl, rfl, rfl⟩

theorem demoSeededTrack_capacity (mixedBuffer : AudioBuffer) (length anchor : Int) :
    (demoSeededTrack mixedBuffer length anchor).loopBuffer.numSamples = 14400000 := by
  unfold demoSeededTrack
  rw [prepared_48000]
  unfold LoopTrack.setLoopFromMix
  split
  · rfl
  · dsimp only
    rw [(forCh_copyFrom_shape
      (min (preparedTrack 14400000).saveUndo.loopBuffer.clear.numChannels mixedBuffer.numChannels)
      (preparedTrack 14400000).saveUndo.loopBuffer.clear
      (fun ch acc => acc.copyFrom ch 0 mixedBuffer ch 0 length) (fun ch a => ⟨rfl, rfl⟩)).1]
    obtain ⟨ub, ul, hu, e⟩ := saveUndo_frame (preparedTrack 14400000)
    rw [e]
    rfl

theorem demoSeededTrack_reachable (im : Bool) (mixedBuffer : AudioBuffer)
    (length anchor : Int) : Reachable im (demoSeededTrack mixedBuffer length anchor) :=
  Reachable.setLoopFromMix _ _ _ _ (Reachable.prepareToPlay 48000 Reachable.constructed)

/-- C8 (behaviour at the failing input). A reachable Playing track with a 4-sample loop of
ones and gain 1 whose solo flag and mute flag are both set, processed with
`anySoloActive = true`, adds nothing to the output: the output buffer is returned unchanged,
although the loop holds non-zero samples and the track is soloed.  The same track with the
mute flag cleared does add its loop (output sample 0 becomes 1). -/
theorem soloed_muted_track_adds_nothing :
    Reachable true demoSoloMuted ∧
    demoSoloMuted.isSolo = true ∧ demoSoloMuted.isMuted = true ∧
    demoSoloMuted.currentState = State.Playing ∧
    0 < demoSoloMuted.loopLengthSamples ∧
    demoSoloMuted.gain = 1 ∧ demoSoloMuted.loopBuffer.data 0 0 = 1 ∧
    (demoSoloMuted.processBlock (silentBlock 4) (silentBlock 4) (silentBlock 4) 0 true 4 true).2
      = silentBlock 4 ∧
    (demoSoloUnmuted.processBlock (silentBlock 4) (silentBlock 4) (silentBlock 4) 0 true 4
      true).2.data 0 0 = 1 := by
  obtain ⟨f1, f2, -⟩ := demoSeededTrack_fields (patternBuffer 4 (fun _ => 1)) 4 0
    (by decide) (by decide)
  have hst : demoSoloMuted.currentState = State.Playing := f1
  have hst2 : demoSoloUnmuted.currentState = State.Playing := f1
  have hlen : demoSoloMuted.loopLengthSamples = 4 := f2
  refine ⟨Reachable.setSolo true (Reachable.setMuted true
      (Reachable.setLoopFromMix _ _ _ _ (Reachable.prepareToPlay 48000 Reachable.constructed))),
    rfl, rfl, hst, by rw [hlen]; decide, ?_, ?_,
    processBlock_muted_output demoSoloMuted (silentBlock 4) (silentBlock 4) (silentBlock 4) 0 4
      true true (Or.inl hst) rfl, ?_⟩
  · unfold demoSoloMuted demoSeededTrack
    rw [prepared_48000]
    simp [LoopTrack.setSolo, LoopTrack.setMuted, LoopTrack.setLoopFromMix, LoopTrack.saveUndo,
      preparedTrack, LoopTrack.fresh, AudioBuffer.allocate]
  · unfold demoSoloMuted demoSeededTrack
    rw [prepared_48000]
    simp [LoopTrack.setSolo, LoopTrack.setMuted, LoopTrack.setLoopFromMix, LoopTrack.saveUndo,
      preparedTrack, LoopTrack.fresh, AudioBuffer.allocate, AudioBuffer.clear,
      AudioBuffer.copyFrom, patternBuffer, forCh, List.range_succ]
  · rw [processBlock_playing_eq demoSoloUnmuted _ _ _ _ _ _ _ hst2]
    unfold demoSoloUnmuted demoSoloMuted demoSeededTrack
    rw [prepared_48000]
    simp [LoopTrack.setSolo, LoopTrack.setMuted, LoopTrack.setLoopFromMix, LoopTrack.saveUndo,
      preparedTrack, LoopTrack.fresh, silentBlock,
      AudioBuffer.allocate, AudioBuffer.clear, patternBuffer, LoopTrack.blockPositions,
      LoopTrack.handlePlayback, LoopTrack.captureSidechain, LoopTrack.soloMute, wrapChunks, forCh,
      LoopTrack.readBuf, AudioBuffer.addFrom, AudioBuffer.copyFrom, List.range_succ,
      LoopTrack.processReplaceChunk]

/-! ## Read / write positions stay inside the loop -/

theorem wrapChunks_bounds (len : Int) (hlen : 0 < len) :
    ∀ (fuel : Nat) (samplesToDo offset localPos : Int), 0 ≤ localPos →
      ∀ c ∈ wrapChunks fuel samplesToDo offset localPos len,
        0 ≤ c.2.1 ∧ 0 < c.2.2 ∧ c.2.1 + c.2.2 ≤ len := by
  intro fuel
  induction fuel with
  | zero => intro _ _ _ _ c hc; simp [wrapChunks] at hc
  | succ k ih =>
    intro samplesToDo offset localPos hpos c hc
    have hp : 0 ≤ (if localPos ≥ len then 0 else localPos) ∧
        (if localPos ≥ len then 0 else localPos) < len := by
      split <;> omega
    rw [wrapChunks] at hc
    by_cases htodo : samplesToDo > 0
    · simp only [htodo, if_true] at hc
      by_cases hchunk : min samplesToDo (len - if localPos ≥ len then 0 else localPos) ≤ 0
      · simp only [hchunk, if_true] at hc
        simp at hc
      · simp only [hchunk, if_false] at hc
        rcases List.mem_cons.mp hc with h | h
        · subst h
          dsimp only
          omega
        · refine ih _ _ _ ?_ c h
          split <;> omega
    · simp only [htodo, if_false] at hc
      simp at hc

theorem wrapChunks_total (len : Int) (hlen : 0 < len) :
    ∀ (fuel : Nat) (samplesToDo offset localPos : Int), 0 ≤ localPos →
      samplesToDo ≤ (fuel : Int) →
      ((wrapChunks fuel samplesToDo offset localPos len).map (fun c => c.2.2)).sum
        = max samplesToDo 0 := by
  intro fuel
  induction fuel with
  | zero =>
    intro samplesToDo _ _ _ hf
    have : max samplesToDo 0 = 0 := max_eq_right (by simpa using hf)
    simp [wrapChunks, this]
  | succ k ih =>
    intro samplesToDo offset localPos hpos hf
    have hp : 0 ≤ (if localPos ≥ len then 0 else localPos) ∧
        (if localPos ≥ len then 0 else localPos) < len := by
      split <;> omega
    rw [wrapChunks]
    by_cases htodo : samplesToDo > 0
    · have hchunk : ¬ min samplesToDo (len - if localPos ≥ len then 0 else localPos) ≤ 0 := by
        omega
      simp only [htodo, if_true, hchunk, if_false, List.map_cons, List.sum_cons]
      rw [ih _ _ _ (by split <;> omega) (by push_cast at hf; omega)]
      omega
    · have : max samplesToDo 0 = 0 := max_eq_right (by omega)
      simp only [htodo, if_false, List.map_nil, List.sum_nil, this]

/-- Loop length and state after `setPlaying` on a Recording track. -/
theorem setPlaying_recording_fields (t : LoopTrack) (hrec : t.currentState = State.Recording) :
    t.setPlaying.loopLengthSamples =
      (if t.playbackPosition > 0 then t.playbackPosition
       else if t.recordedSamplesCurrent > 0 ∧ t.loopLengthSamples = 0
         then t.recordedSamplesCurrent else t.loopLengthSamples) ∧
    t.setPlaying.currentState =
      (if (if t.playbackPosition > 0 then t.playbackPosition
           else if t.recordedSamplesCurrent > 0 ∧ t.loopLengthSamples = 0
             then t.recordedSamplesCurrent else t.loopLengthSamples) > 0
       then State.Playing else State.Recording) := by
  by_cases h1 : t.playbackPosition > 0
  · unfold LoopTrack.setPlaying
    simp only [hrec, h1, if_true]; exact ⟨trivial, trivial⟩
  · by_cases h2 : t.recordedSamplesCurrent > 0
    · by_cases h3 : t.loopLengthSamples = 0
      · unfold LoopTrack.setPlaying
        simp only [hrec, h1, h2, h3, if_true, if_false, and_self]
      · by_cases h4 : t.loopLengthSamples > 0
        · unfold LoopTrack.setPlaying
          simp only [hrec, h1, h2, h3, h4, if_true, if_false, and_false]; exact ⟨trivial, trivial⟩
        · unfold LoopTrack.setPlaying
          simp only [hrec, h1, h2, h3, h4, if_true, if_false, and_false]; exact ⟨trivial, trivial⟩
    · by_cases h4 : t.loopLengthSamples > 0
      · unfold LoopTrack.setPlaying
        simp only [hrec, h1, h2, h4, if_true, if_false, false_and]; exact ⟨trivial, trivial⟩
      · unfold LoopTrack.setPlaying
        simp only [hrec, h1, h2, h4, if_true, if_false, false_and]; exact ⟨trivial, trivial⟩

theorem setPlaying_playing_pos (t : LoopTrack) (hrec : t.currentState = State.Recording)
    (h : t.setPlaying.currentState = State.Playing) : 0 < t.setPlaying.loopLengthSamples := by
  obtain ⟨h1, h2⟩ := setPlaying_recording_fields t hrec
  rw [h1]
  rw [h2] at h
  by_contra hneg
  simp only [gt_iff_lt, hneg, if_false] at h
  exact absurd h (by decide)

theorem setPlaying_frame (t : LoopTrack) :
    ∃ len pp lb st, t.setPlaying =
      { t with loopLengthSamples := len, playbackPosition := pp, loopBuffer := lb,
               currentState := st } := by
  unfold LoopTrack.setPlaying
  dsimp only
  split_ifs <;> exact ⟨_, _, _, _, rfl⟩

/-- A slave block that starts with the recorded-sample counter at or above the target
length runs as a Playing block of the track that `setPlaying` produces. -/
theorem processBlock_promote_eq_setPlaying (t : LoopTrack) (out inp sc : AudioBuffer)
    (g L : Int) (solo : Bool) (hrec : t.currentState = State.Recording)
    (hge : slaveTargetLen L t.targetMultiplier ≤ t.recordedSamplesCurrent) :
    (LoopTrack.setPlaying
      { t with loopLengthSamples := slaveTargetLen L t.targetMultiplier }).currentState
        = State.Playing ∧
    0 < (LoopTrack.setPlaying
      { t with loopLengthSamples := slaveTargetLen L t.targetMultiplier }).loopLengthSamples ∧
    t.processBlock out inp sc g false L solo =
      LoopTrack.processBlock
        (LoopTrack.setPlaying { t with loopLengthSamples := slaveTargetLen L t.targetMultiplier })
        out inp sc g false L solo := by
  have hpos := slaveTargetLen_pos L t.targetMultiplier
  obtain ⟨f1, f2⟩ := setPlaying_recording_fields
    { t with loopLengthSamples := slaveTargetLen L t.targetMultiplier } hrec
  have hnew : 0 < (if t.playbackPosition > 0 then t.playbackPosition
       else if t.recordedSamplesCurrent > 0 ∧ slaveTargetLen L t.targetMultiplier = 0
         then t.recordedSamplesCurrent else slaveTargetLen L t.targetMultiplier) := by
    split_ifs <;> omega
  have hst : (LoopTrack.setPlaying
      { t with loopLengthSamples := slaveTargetLen L t.targetMultiplier }).currentState
        = State.Playing := by
    rw [f2]
    exact if_pos hnew
  have hlen : 0 < (LoopTrack.setPlaying
      { t with loopLengthSamples := slaveTargetLen L t.targetMultiplier }).loopLengthSamples := by
    rw [f1]; exact hnew
  refine ⟨hst, hlen, ?_⟩
  have haf : LoopTrack.autoFinish t State.Recording false L =
      (LoopTrack.setPlaying { t with loopLengthSamples := slaveTargetLen L t.targetMultiplier },
        State.Playing) := by
    unfold LoopTrack.autoFinish
    simp only [hge, ge_iff_le, and_self, if_true]
  have hne : State.Playing ≠ State.Recording := by decide
  have hsm : ∀ b, LoopTrack.soloMute
      (LoopTrack.setPlaying { t with loopLengthSamples := slaveTargetLen L t.targetMultiplier })
      solo b = LoopTrack.soloMute t solo b := by
    intro b
    apply soloMute_congr
    · obtain ⟨a1, a2, a3, a4, h⟩ := setPlaying_frame
        { t with loopLengthSamples := slaveTargetLen L t.targetMultiplier }
      rw [h]
    · obtain ⟨a1, a2, a3, a4, h⟩ := setPlaying_frame
        { t with loopLengthSamples := slaveTargetLen L t.targetMultiplier }
      rw [h]
  generalize LoopTrack.setPlaying
    { t with loopLengthSamples := slaveTargetLen L t.targetMultiplier } = U at hst haf hsm ⊢
  rw [processBlock_playing_eq _ out inp sc g L false solo hst]
  unfold LoopTrack.processBlock
  rw [hrec]
  simp only [haf, blockPositions_track_of_ne _ _ g L false hne, hsm]
  simp only [reduceCtorEq, false_and, or_false, false_or, if_false, gt_iff_lt]

/-- Whenever a `processBlock` call takes a Recording track to Playing, the loop length it
leaves is positive. -/
theorem processBlock_recording_to_playing_pos (t : LoopTrack) (out inp sc : AudioBuffer)
    (g L : Int) (im solo : Bool) (hrec : t.currentState = State.Recording)
    (h : (t.processBlock out inp sc g im L solo).1.currentState = State.Playing) :
    0 < (t.processBlock out inp sc g im L solo).1.loopLengthSamples := by
  by_cases hprom : im = false ∧ slaveTargetLen L t.targetMultiplier ≤ t.recordedSamplesCurrent
  · obtain ⟨him, hge⟩ := hprom
    subst him
    obtain ⟨hst, hlen, e⟩ := processBlock_promote_eq_setPlaying t out inp sc g L solo hrec hge
    rw [e]
    obtain ⟨lb, r, b, w, hf⟩ := processBlock_playing_frame
      (LoopTrack.setPlaying { t with loopLengthSamples := slaveTargetLen L t.targetMultiplier })
      out inp sc g L false solo hst
    rw [hf]
    exact hlen
  · have hno : im = true ∨ t.recordedSamplesCurrent < slaveTargetLen L t.targetMultiplier := by
      cases im
      · right
        have : ¬ slaveTargetLen L t.targetMultiplier ≤ t.recordedSamplesCurrent := by
          intro hh; exact hprom ⟨rfl, hh⟩
        omega
      · left; rfl
    have hbp : (LoopTrack.blockPositions t State.Recording g im L).track.currentState
        = State.Recording := by
      cases im
      · rw [blockPositions_slave_recording]
        show (if _ then _ else t).currentState = _
        split <;> exact hrec
      · rw [blockPositions_master_recording]
        exact hrec
    obtain ⟨lb, r, h1, -, -⟩ := replaceStage_frame
      (LoopTrack.blockPositions t State.Recording g im L).track
      (LoopTrack.blockPositions t State.Recording g im L).readPos out.numSamples
    rw [processBlock_recording_eq t out inp sc g L im solo hrec hno] at h ⊢
    rw [h1] at h ⊢
    have hT : ({ (LoopTrack.blockPositions t State.Recording g im L).track with
        loopBuffer := lb, mReplace := r } : LoopTrack).currentState = State.Recording := hbp
    have hstate : (LoopTrack.handleRecording
        { (LoopTrack.blockPositions t State.Recording g im L).track with
          loopBuffer := lb, mReplace := r } inp out.numSamples
        (LoopTrack.blockPositions t State.Recording g im L).writePos).currentState
          = State.Playing := by
      revert h
      split <;> exact id
    have hgoal : 0 < (LoopTrack.handleRecording
        { (LoopTrack.blockPositions t State.Recording g im L).track with
          loopBuffer := lb, mReplace := r } inp out.numSamples
        (LoopTrack.blockPositions t State.Recording g im L).writePos).loopLengthSamples := by
      unfold LoopTrack.handleRecording at hstate ⊢
      split at hstate
      · rename_i hov
        simp only [hov, if_true]
        exact setPlaying_playing_pos _ hT hstate
      · rw [show ({ ({ (LoopTrack.blockPositions t State.Recording g im L).track with
            loopBuffer := lb, mReplace := r } : LoopTrack) with
            loopBuffer := _ } : LoopTrack).currentState = State.Recording from hbp] at hstate
        exact absurd hstate (by decide)
    split <;> exact hgoal

theorem blockPositions_loop_range (t : LoopTrack) (st : State) (g L : Int) (im : Bool)
    (hst : st ≠ State.Recording) (hlen : 0 < t.loopLengthSamples) (hg : 0 ≤ g) :
    (LoopTrack.blockPositions t st g im L).currentLoopLength = t.loopLengthSamples ∧
    0 ≤ (LoopTrack.blockPositions t st g im L).readPos ∧
    (LoopTrack.blockPositions t st g im L).readPos < t.loopLengthSamples ∧
    (LoopTrack.blockPositions t st g im L).writePos
      = (LoopTrack.blockPositions t st g im L).readPos := by
  cases im
  · rw [LoopTrack.blockPositions_slave_loop t st g L hst hlen]
    refine ⟨rfl, ?_, ?_, rfl⟩
    · exact Int.tmod_nonneg _ (by split <;> omega)
    · exact Int.tmod_lt_of_pos _ hlen
  · rw [LoopTrack.blockPositions_master_loop t st g L hst hlen]
    exact ⟨rfl, Int.tmod_nonneg _ hg, Int.tmod_lt_of_pos _ hlen, rfl⟩

/-- Handler positions of a Playing or Overdubbing block on a track with a loop. -/
theorem positions_inside_of_loop (t : LoopTrack) (out inp sc : AudioBuffer) (g L : Int)
    (im solo : Bool)
    (hst : t.currentState = State.Playing ∨ t.currentState = State.Overdubbing)
    (hlen : 0 < t.loopLengthSamples) (hg : 0 ≤ g) :
    (∀ u : LoopTrack, u.currentState = State.Recording →
      u.setPlaying.currentState = State.Playing → 0 < u.setPlaying.loopLengthSamples) ∧
    (∀ (u : LoopTrack) (o i s : AudioBuffer) (g2 L2 : Int) (m b : Bool),
      u.currentState = State.Recording →
      (u.processBlock o i s g2 m L2 b).1.currentState = State.Playing →
      0 < (u.processBlock o i s g2 m L2 b).1.loopLengthSamples) ∧
    (LoopTrack.blockPositions t t.currentState g im L).currentLoopLength
      = t.loopLengthSamples ∧
    0 ≤ (LoopTrack.blockPositions t t.currentState g im L).readPos ∧
    (LoopTrack.blockPositions t t.currentState g im L).readPos < t.loopLengthSamples ∧
    (∃ (u : LoopTrack) (silent : Bool), u.loopLengthSamples = t.loopLengthSamples ∧
      (t.currentState = State.Playing →
        t.processBlock out inp sc g im L solo =
          (u.captureSidechain sc out.numSamples
              (LoopTrack.blockPositions t t.currentState g im L).readPos
              (LoopTrack.blockPositions t t.currentState g im L).currentLoopLength,
            LoopTrack.handlePlayback
              (u.captureSidechain sc out.numSamples
                (LoopTrack.blockPositions t t.currentState g im L).readPos
                (LoopTrack.blockPositions t t.currentState g im L).currentLoopLength)
              out out.numSamples
              (LoopTrack.blockPositions t t.currentState g im L).readPos
              (LoopTrack.blockPositions t t.currentState g im L).currentLoopLength silent)) ∧
      (t.currentState = State.Overdubbing →
        t.processBlock out inp sc g im L solo =
          LoopTrack.handleOverdub
            (u.captureSidechain sc out.numSamples
              (LoopTrack.blockPositions t t.currentState g im L).readPos
              (LoopTrack.blockPositions t t.currentState g im L).currentLoopLength)
            out inp out.numSamples
            (LoopTrack.blockPositions t t.currentState g im L).readPos
            (LoopTrack.blockPositions t t.currentState g im L).currentLoopLength silent)) ∧
    ((wrapChunks out.numSamples.toNat out.numSamples 0
        (LoopTrack.blockPositions t t.currentState g im L).readPos
        (LoopTrack.blockPositions t t.currentState g im L).currentLoopLength).map
      (fun c => c.2.2)).sum = max out.numSamples 0 ∧
    (∀ c ∈ wrapChunks out.numSamples.toNat out.numSamples 0
        (LoopTrack.blockPositions t t.currentState g im L).readPos
        (LoopTrack.blockPositions t t.currentState g im L).currentLoopLength,
      ∀ i : Int, c.2.1 ≤ i → i < c.2.1 + c.2.2 → 0 ≤ i ∧ i < t.loopLengthSamples) := by
  have hne : t.currentState ≠ State.Recording := by
    rcases hst with h | h <;> simp [h]
  obtain ⟨p1, p2, p3, -⟩ := blockPositions_loop_range t t.currentState g L im hne hlen hg
  refine ⟨setPlaying_playing_pos, processBlock_recording_to_playing_pos, p1, p2, p3, ?_, ?_, ?_⟩
  · obtain ⟨lb, r, h1, -, -⟩ := replaceStage_frame t
      (LoopTrack.blockPositions t t.currentState g im L).readPos out.numSamples
    refine ⟨{ t with loopBuffer := lb, mReplace := r },
      LoopTrack.soloMute t solo (LoopTrack.soloMute t solo false), rfl, ?_, ?_⟩
    · intro h
      rw [processBlock_playing_eq t out inp sc g L im solo h]
      rw [h] at h1
      rw [h, h1]
      have hpos : 0 < ({ t with loopBuffer := lb, mReplace := r } : LoopTrack).loopLengthSamples :=
        hlen
      simp only [hpos, if_true]
    · intro h
      rw [processBlock_overdub_eq t out inp sc g L im solo h]
      rw [h] at h1
      rw [h, h1]
      have hpos : 0 < ({ t with loopBuffer := lb, mReplace := r } : LoopTrack).loopLengthSamples :=
        hlen
      simp only [hpos, if_true]
  · rw [p1]
    exact wrapChunks_total _ hlen _ _ _ _ p2 (by omega)
  · intro c hc i hi1 hi2
    rw [p1] at hc
    obtain ⟨b1, b2, b3⟩ := wrapChunks_bounds _ hlen _ _ _ _ p2 c hc
    omega

/-! ## Progressive replace -/

theorem AudioBuffer.copyFrom_data (dest : AudioBuffer) (dc : Nat) (ds : Int) (src : AudioBuffer)
    (sc : Nat) (ss num : Int) (c : Nat) (i : Int) :
    (dest.copyFrom dc ds src sc ss num).data c i =
      if c = dc ∧ ds ≤ i ∧ i < ds + num then src.data sc (ss + (i - ds)) else dest.data c i :=
  rfl

theorem AudioBuffer.addFrom_data (dest : AudioBuffer) (dc : Nat) (ds : Int) (src : AudioBuffer)
    (sc : Nat) (ss num : Int) (gain : ℚ) (c : Nat) (i : Int) :
    (dest.addFrom dc ds src sc ss num gain).data c i =
      if c = dc ∧ ds ≤ i ∧ i < ds + num
      then dest.data c i + gain * src.data sc (ss + (i - ds)) else dest.data c i :=
  rfl

theorem forCh_copyFrom_data (n : Nat) (lb src : AudioBuffer) (ds ss num : Int) (c : Nat)
    (i : Int) :
    (forCh n (fun ch acc => acc.copyFrom ch ds src ch ss num) lb).data c i =
      if c < n ∧ ds ≤ i ∧ i < ds + num then src.data c (ss + (i - ds)) else lb.data c i := by
  induction n with
  | zero =>
    have : ¬ (c < 0 ∧ ds ≤ i ∧ i < ds + num) := by omega
    simp only [forCh_zero, this, if_false]
  | succ k ih =>
    rw [forCh_succ]
    show ((forCh k (fun ch acc => acc.copyFrom ch ds src ch ss num) lb).copyFrom
      k ds src k ss num).data c i = _
    rw [AudioBuffer.copyFrom_data, ih]
    split_ifs with h1 h2 h3 h4 <;> first | rfl | (exfalso; omega) | (rw [h1.1])

theorem copyRegion_done (numCh : Nat) (len : Int) (src : AudioBuffer) (fuel : Nat)
    (lb : AudioBuffer) (pos rem : Int) (h : rem ≤ 0) :
    copyRegion numCh len src fuel lb pos rem = lb := by
  cases fuel with
  | zero => rfl
  | succ k =>
    have : ¬ rem > 0 := by omega
    rw [copyRegion]
    simp only [this, if_false]

/-- With the cursor inside the loop and a budget that does not pass the end, the copy loop
is a single chunk copy at the cursor. -/
theorem copyRegion_single (numCh : Nat) (len : Int) (src : AudioBuffer) (fuel : Nat)
    (lb : AudioBuffer) (pos rem : Int) (hf : 0 < fuel) (hpos : pos < len) (hrem : 0 < rem)
    (hfit : rem ≤ len - pos) :
    copyRegion numCh len src fuel lb pos rem =
      forCh numCh (fun ch acc => acc.copyFrom ch pos src ch pos rem) lb := by
  cases fuel with
  | zero => omega
  | succ k =>
    have h1 : rem > 0 := hrem
    have h2 : ¬ pos ≥ len := by omega
    rw [copyRegion]
    simp only [h1, h2, if_true, if_false]
    have h3 : min rem (len - pos) = rem := min_eq_left hfit
    rw [h3]
    exact copyRegion_done _ _ _ _ _ _ _ (by omega)

/-- One copy step of an in-flight replace whose cursor is `copied`, with `copied` samples
already equal to the source: afterwards `min len (copied + 16 n)` samples are equal, and
the replace is still active exactly when `copied + 16 n < len`. -/
theorem processReplaceChunk_step (t : LoopTrack) (src : AudioBuffer) (len copied n p : Int)
    (hact : t.mReplace.active = true) (hsrc : t.mReplace.source = some src)
    (hlen : t.mReplace.length = len) (hcur : t.mReplace.cursor = copied)
    (hrem : t.mReplace.remaining = len - copied) (h0 : 0 ≤ copied) (h1 : copied < len)
    (hn : 0 < n)
    (hdata : ∀ c i, c < min t.loopBuffer.numChannels src.numChannels → 0 ≤ i → i < copied →
      t.loopBuffer.data c i = src.data c i) :
    (∀ c i, c < min t.loopBuffer.numChannels src.numChannels → 0 ≤ i →
      i < min len (copied + 16 * n) →
      (t.processReplaceChunk p n).loopBuffer.data c i = src.data c i) ∧
    (copied + 16 * n < len →
      (t.processReplaceChunk p n).mReplace.active = true ∧
      (t.processReplaceChunk p n).mReplace.source = some src ∧
      (t.processReplaceChunk p n).mReplace.length = len ∧
      (t.processReplaceChunk p n).mReplace.cursor = copied + 16 * n ∧
      (t.processReplaceChunk p n).mReplace.remaining = len - (copied + 16 * n)) ∧
    (len ≤ copied + 16 * n → (t.processReplaceChunk p n).mReplace.active = false) := by
  have hbpos : 0 < min (n * 16) (len - copied) := by
    rcases le_total (n * 16) (len - copied) with h | h
    · rw [min_eq_left h]; omega
    · rw [min_eq_right h]; omega
  have hcopy : copyRegion (min t.loopBuffer.numChannels src.numChannels) len src
      (min (n * 16) (len - copied)).toNat t.loopBuffer copied (min (n * 16) (len - copied)) =
      forCh (min t.loopBuffer.numChannels src.numChannels)
        (fun ch acc => acc.copyFrom ch copied src ch copied (min (n * 16) (len - copied)))
        t.loopBuffer :=
    copyRegion_single _ _ _ _ _ _ _ (by omega) h1 hbpos (min_le_right _ _)
  have hdata2 : ∀ c i, c < min t.loopBuffer.numChannels src.numChannels → 0 ≤ i →
      i < copied + min (n * 16) (len - copied) →
      (forCh (min t.loopBuffer.numChannels src.numChannels)
        (fun ch acc => acc.copyFrom ch copied src ch copied (min (n * 16) (len - copied)))
        t.loopBuffer).data c i = src.data c i := by
    intro c i hc hi0 hi1
    rw [forCh_copyFrom_data]
    by_cases hin : copied ≤ i
    · have hcond : c < min t.loopBuffer.numChannels src.numChannels ∧ copied ≤ i ∧
          i < copied + min (n * 16) (len - copied) := ⟨hc, hin, hi1⟩
      simp only [hcond, and_self, if_true]
      have e : copied + (i - copied) = i := by omega
      rw [e]
    · have hcond : ¬ (c < min t.loopBuffer.numChannels src.numChannels ∧ copied ≤ i ∧
          i < copied + min (n * 16) (len - copied)) := by
        rintro ⟨-, h, -⟩; exact hin h
      simp only [hcond, if_false]
      exact hdata c i hc hi0 (by omega)
  unfold LoopTrack.processReplaceChunk
  rw [hsrc]
  simp only [hact, hlen, hcur, hrem, Bool.true_eq_false, if_false, gt_iff_lt, hbpos, if_true,
    hcopy]
  by_cases hcase : copied + 16 * n < len
  · have hb : min (n * 16) (len - copied) = n * 16 := min_eq_left (by omega)
    have hr : ¬ (len - copied - min (n * 16) (len - copied) ≤ 0) := by rw [hb]; omega
    simp only [hr, if_false]
    refine ⟨?_, ?_, ?_⟩
    · intro c i hc hi0 hi1
      exact hdata2 c i hc hi0 (by rw [hb]; have := min_le_right len (copied + 16 * n); omega)
    · intro _
      refine ⟨trivial, hsrc, trivial, ?_, ?_⟩
      · show (copied + min (n * 16) (len - copied)).tmod len = _
        rw [hb, Int.tmod_eq_emod (by omega) (by omega), Int.emod_eq_of_lt (by omega) (by omega)]
        ring
      · show len - copied - min (n * 16) (len - copied) = _
        rw [hb]; ring
    · intro h; omega
  · have hb : min (n * 16) (len - copied) = len - copied := min_eq_right (by omega)
    have hr : len - copied - min (n * 16) (len - copied) ≤ 0 := by rw [hb]; omega
    simp only [hr, if_true]
    refine ⟨?_, ?_, ?_⟩
    · intro c i hc hi0 hi1
      exact hdata2 c i hc hi0 (by rw [hb]; have := min_le_left len (copied + 16 * n); omega)
    · intro h; omega
    · intro _; trivial

/-- In a Playing block only the replace stage touches the loop buffer and the replace
state. -/
theorem processBlock_playing_replace (t : LoopTrack) (out inp sc : AudioBuffer) (g L : Int)
    (im solo : Bool) (h : t.currentState = State.Playing) :
    (t.processBlock out inp sc g im L solo).1.currentState = State.Playing ∧
    (t.processBlock out inp sc g im L solo).1.loopLengthSamples = t.loopLengthSamples ∧
    (t.mReplace.active = true → ∃ p,
      (t.processBlock out inp sc g im L solo).1.loopBuffer
        = (t.processReplaceChunk p out.numSamples).loopBuffer ∧
      (t.processBlock out inp sc g im L solo).1.mReplace
        = (t.processReplaceChunk p out.numSamples).mReplace) ∧
    (t.mReplace.active = false →
      (t.processBlock out inp sc g im L solo).1.loopBuffer = t.loopBuffer ∧
      (t.processBlock out inp sc g im L solo).1.mReplace = t.mReplace) := by
  obtain ⟨lb, r, b, w, hf⟩ := processBlock_playing_frame t out inp sc g L im solo h
  refine ⟨by rw [hf]; exact h, by rw [hf], ?_, ?_⟩
  · intro hact
    refine ⟨(LoopTrack.blockPositions t State.Playing g im L).readPos, ?_⟩
    rw [processBlock_playing_eq t out inp sc g L im solo h]
    simp only [hact, if_true]
    split
    · obtain ⟨b2, w2, h3⟩ := LoopTrack.captureSidechain_frame
        (t.processReplaceChunk (LoopTrack.blockPositions t State.Playing g im L).readPos
          out.numSamples) sc out.numSamples
        (LoopTrack.blockPositions t State.Playing g im L).readPos
        (LoopTrack.blockPositions t State.Playing g im L).currentLoopLength
      rw [h3]
      exact ⟨rfl, rfl⟩
    · exact ⟨rfl, rfl⟩
  · intro hact
    rw [processBlock_playing_eq t out inp sc g L im solo h]
    simp only [hact, Bool.false_eq_true, if_false]
    split
    · obtain ⟨b2, w2, h3⟩ := LoopTrack.captureSidechain_frame t sc out.numSamples
        (LoopTrack.blockPositions t State.Playing g im L).readPos
        (LoopTrack.blockPositions t State.Playing g im L).currentLoopLength
      rw [h3]
      exact ⟨rfl, rfl⟩
    · exact ⟨rfl, rfl⟩

/-- Progress of an in-flight replace over a run of Playing blocks of `n` samples. -/
theorem runBlocks_replace (src : AudioBuffer) (len n : Int) (hn : 0 < n) (im : Bool) :
    ∀ (blocks : List BlockArgs) (t : LoopTrack) (copied : Int),
      (∀ b ∈ blocks, b.outputBuffer.numSamples = n) →
      t.currentState = State.Playing →
      t.mReplace.active = true → t.mReplace.source = some src →
      t.mReplace.length = len → t.mReplace.cursor = copied →
      t.mReplace.remaining = len - copied → 0 ≤ copied → copied < len →
      (∀ c i, c < min t.loopBuffer.numChannels src.numChannels → 0 ≤ i → i < copied →
        t.loopBuffer.data c i = src.data c i) →
      (blocks ≠ [] → copied + 16 * n * ((blocks.length : Int) - 1) < len) →
      (runBlocks im t blocks).currentState = State.Playing ∧
      (runBlocks im t blocks).loopLengthSamples = t.loopLengthSamples ∧
      (runBlocks im t blocks).loopBuffer.numChannels = t.loopBuffer.numChannels ∧
      (∀ c i, c < min t.loopBuffer.numChannels src.numChannels → 0 ≤ i →
        i < min len (copied + 16 * n * (blocks.length : Int)) →
        (runBlocks im t blocks).loopBuffer.data c i = src.data c i) ∧
      ((runBlocks im t blocks).mReplace.active = true ↔
        copied + 16 * n * (blocks.length : Int) < len) := by
  intro blocks
  induction blocks with
  | nil =>
    intro t copied _ hst hact _ _ _ _ _ h1 hdata _
    refine ⟨hst, rfl, rfl, ?_, ?_⟩
    · intro c i hc hi0 hi1
      have := min_le_right len (copied + 16 * n * ((([] : List BlockArgs).length : Nat) : Int))
      simp only [List.length_nil, Nat.cast_zero, mul_zero, add_zero] at this hi1
      exact hdata c i hc hi0 (by omega)
    · simp only [List.length_nil, Nat.cast_zero, mul_zero, add_zero]
      exact ⟨fun _ => h1, fun _ => hact⟩
  | cons a rest ih =>
    intro t copied hb hst hact hsrc hlen hcur hrem h0 h1 hdata hk
    have ha : a.outputBuffer.numSamples = n := hb a (List.mem_cons_self _ _)
    have hl : (((a :: rest).length : Nat) : Int) = (rest.length : Int) + 1 := by simp
    have hm : (0 : Int) ≤ (rest.length : Int) := by omega
    obtain ⟨q1, q2, q3, -⟩ := processBlock_playing_replace t a.outputBuffer a.inputBuffer
      a.sidechainBuffer a.globalTotalSamples a.masterLoopLength im a.anySoloActive hst
    obtain ⟨p, e1, e2⟩ := q3 hact
    rw [ha] at e1 e2
    obtain ⟨s1, s2, s3⟩ := processReplaceChunk_step t src len copied n p hact hsrc hlen hcur hrem
      h0 h1 hn hdata
    have hch := (processReplaceChunk_shape t p n).2
    rw [runBlocks_cons, hl]
    have hk1 := hk (List.cons_ne_nil _ _)
    rw [hl] at hk1
    by_cases hcase : copied + 16 * n < len
    · obtain ⟨r1, r2, r3, r4, r5⟩ := s2 hcase
      have hchan : (t.processBlock a.outputBuffer a.inputBuffer a.sidechainBuffer
          a.globalTotalSamples im a.masterLoopLength a.anySoloActive).1.loopBuffer.numChannels
          = t.loopBuffer.numChannels := by rw [e1]; exact hch
      obtain ⟨i1, i2, i3, i4, i5⟩ := ih
        (t.processBlock a.outputBuffer a.inputBuffer a.sidechainBuffer
          a.globalTotalSamples im a.masterLoopLength a.anySoloActive).1 (copied + 16 * n)
        (fun b hb2 => hb b (List.mem_cons_of_mem _ hb2)) q1
        (by rw [e2]; exact r1) (by rw [e2]; exact r2) (by rw [e2]; exact r3)
        (by rw [e2]; exact r4) (by rw [e2]; exact r5) (by omega) hcase
        (by
          intro c i hc hi0 hi1
          rw [hchan] at hc
          rw [e1]
          exact s1 c i hc hi0 (by rw [min_eq_right (by omega)]; exact hi1))
        (by
          intro _
          have : copied + 16 * n + 16 * n * ((rest.length : Int) - 1)
              = copied + 16 * n * ((rest.length : Int) + 1 - 1) := by ring
          rw [this]; exact hk1)
      have hsum : copied + 16 * n + 16 * n * (rest.length : Int)
          = copied + 16 * n * ((rest.length : Int) + 1) := by ring
      rw [hsum, hchan] at i4
      rw [hsum] at i5
      exact ⟨i1, i2.trans q2, i3.trans hchan, i4, i5⟩
    · have hrest : rest = [] := by
        by_contra hne
        have hpos : 1 ≤ (rest.length : Int) := by
          have := List.length_pos.mpr hne
          omega
        have : 16 * n ≤ 16 * n * ((rest.length : Int) + 1 - 1) := by nlinarith
        omega
      subst hrest
      simp only [runBlocks, List.foldl_nil, List.length_nil, Nat.cast_zero, zero_add, mul_one]
      refine ⟨q1, q2, by rw [e1]; exact hch, ?_, ?_⟩
      · intro c i hc hi0 hi1
        rw [e1]
        exact s1 c i hc hi0 hi1
      · rw [e2, s3 (by omega)]
        constructor
        · intro h; exact absurd h (by decide)
        · intro h; exact absurd h hcase

theorem beginProgressiveReplace_fields (t : LoopTrack) (src : AudioBuffer)
    (length startOffset startGlobal : Int) (hlen : 0 < length)
    (hcap : length ≤ t.loopBuffer.numSamples) :
    (t.beginProgressiveReplace (some src) length startOffset startGlobal).mReplace =
      { source := some src, length := length, cursor := 0, remaining := length, active := true } ∧
    (t.beginProgressiveReplace (some src) length startOffset startGlobal).loopBuffer
      = t.loopBuffer ∧
    (t.beginProgressiveReplace (some src) length startOffset startGlobal).loopLengthSamples
      = length ∧
    (t.beginProgressiveReplace (some src) length startOffset startGlobal).currentState =
      (if t.currentState = State.Empty then State.Playing else t.currentState) := by
  obtain ⟨ub, ul, hu, h⟩ := saveUndo_frame t
  have hg : ¬ (length ≤ 0 ∨ length > t.loopBuffer.numSamples) := by omega
  unfold LoopTrack.beginProgressiveReplace
  simp only [hg, if_false, h]
  exact ⟨trivial, trivial, trivial, trivial⟩

theorem ceilDiv_bounds (a d : Int) (hd : 0 < d) :
    d * ((a + d - 1) / d - 1) < a ∧ a ≤ d * ((a + d - 1) / d) := by
  have h1 := Int.ediv_mul_le (a + d - 1) (ne_of_gt hd)
  have h2 := Int.lt_ediv_add_one_mul_self (a + d - 1) hd
  constructor <;> nlinarith

/-- C6. After `beginProgressiveReplace (source, length)` on a Playing track (non-null
source, `0 < length ≤ capacity`), and with only `processBlock` calls of `n > 0` samples in
between: after `ceil (length / (16 n))` calls every live-buffer sample `i` in `[0, length)`
of every channel the two buffers share equals source sample `i` and `isReplacing ()` is
false; after any smaller number of calls `isReplacing ()` is still true. -/
theorem progressive_replace_completes (t : LoopTrack) (src : AudioBuffer)
    (length startOffset startGlobal n : Int) (blocks : List BlockArgs) (im : Bool)
    (hst : t.currentState = State.Playing) (hlen : 0 < length)
    (hcap : length ≤ t.loopBuffer.numSamples) (hn : 0 < n)
    (hb : ∀ b ∈ blocks, b.outputBuffer.numSamples = n) :
    ((blocks.length : Int) = (length + 16 * n - 1) / (16 * n) →
      (∀ c i, c < min t.loopBuffer.numChannels src.numChannels → 0 ≤ i → i < length →
        (runBlocks im (t.beginProgressiveReplace (some src) length startOffset startGlobal)
          blocks).loopBuffer.data c i = src.data c i) ∧
      (runBlocks im (t.beginProgressiveReplace (some src) length startOffset startGlobal)
        blocks).isReplacing = false) ∧
    ((blocks.length : Int) < (length + 16 * n - 1) / (16 * n) →
      (runBlocks im (t.beginProgressiveReplace (some src) length startOffset startGlobal)
        blocks).isReplacing = true) := by
  obtain ⟨f1, f2, -, f4⟩ := beginProgressiveReplace_fields t src length startOffset startGlobal
    hlen hcap
  have hst0 : (t.beginProgressiveReplace (some src) length startOffset startGlobal).currentState
      = State.Playing := by
    rw [f4, hst]; rfl
  obtain ⟨c1, c2⟩ := ceilDiv_bounds length (16 * n) (by omega)
  have hm : (0 : Int) ≤ (blocks.length : Int) := by omega
  have run := fun hk => runBlocks_replace src length n hn im blocks
    (t.beginProgressiveReplace (some src) length startOffset startGlobal) 0 hb hst0
    (by rw [f1]) (by rw [f1]) (by rw [f1]) (by rw [f1])
    (by rw [f1]; show length = length - 0; omega) (le_refl 0) hlen
    (by intro c i _ h0 h1; omega) hk
  constructor
  · intro hk
    have hk2 : blocks ≠ [] → 0 + 16 * n * ((blocks.length : Int) - 1) < length := by
      intro _
      rw [hk]
      linarith
    obtain ⟨-, -, -, r4, r5⟩ := run hk2
    rw [f2] at r4
    have hdone : ¬ (0 + 16 * n * (blocks.length : Int) < length) := by
      rw [hk]; linarith
    refine ⟨?_, ?_⟩
    · intro c i hc h0 h1
      apply r4 c i hc h0
      rw [min_eq_left (by rw [hk]; linarith)]
      exact h1
    · show (runBlocks im _ blocks).mReplace.active = false
      cases hact : (runBlocks im
        (t.beginProgressiveReplace (some src) length startOffset startGlobal)
        blocks).mReplace.active with
      | false => rfl
      | true => exact absurd (r5.mp hact) hdone
  · intro hk
    have hprod : 16 * n * (blocks.length : Int) ≤ 16 * n * ((length + 16 * n - 1) / (16 * n) - 1) :=
      by
      apply mul_le_mul_of_nonneg_left
      · omega
      · omega
    have hk2 : blocks ≠ [] → 0 + 16 * n * ((blocks.length : Int) - 1) < length := by
      intro _
      nlinarith
    obtain ⟨-, -, -, -, r5⟩ := run hk2
    exact r5.mpr (by linarith)

/-- Witness for `progressive_replace_completes`: an 8-sample replace with blocks of 1 sample
(16 samples copied per block) completes in one block. -/
theorem progressive_replace_completes_witness :
    demoReplaceTarget.currentState = State.Playing ∧
    (8 : Int) ≤ demoReplaceTarget.loopBuffer.numSamples ∧
    (∀ b ∈ [silentArgs 1 0 8], b.outputBuffer.numSamples = 1) ∧
    (runBlocks true (demoReplaceTarget.beginProgressiveReplace (some demoReplaceSource) 8 0 0)
      [silentArgs 1 0 8]).isReplacing = false :=
  ⟨rfl, by decide, by simp [silentArgs, silentBlock, AudioBuffer.allocate],
    ((progressive_replace_completes demoReplaceTarget demoReplaceSource 8 0 0 1
      [silentArgs 1 0 8] true rfl (by decide) (by decide) (by decide)
      (by simp [silentArgs, silentBlock, AudioBuffer.allocate])).1 (by decide)).2⟩

/-! ## Bounce mixdown -/

/-- The wrapped copy loop of the bounce adds, to each of the `remaining` work samples from
`dstPos` on, the track sample at the wrapped position. -/
theorem bounceLoop_data (ch : Nat) (lb : AudioBuffer) (trackLen : Int) (hT : 0 < trackLen) :
    ∀ (fuel : Nat) (work : AudioBuffer) (remaining dstPos srcPos : Int),
      remaining ≤ (fuel : Int) → 0 ≤ srcPos → srcPos < trackLen →
      (bounceLoop ch lb trackLen fuel work remaining dstPos srcPos).numChannels
        = work.numChannels ∧
      (bounceLoop ch lb trackLen fuel work remaining dstPos srcPos).numSamples
        = work.numSamples ∧
      ∀ c i, (bounceLoop ch lb trackLen fuel work remaining dstPos srcPos).data c i =
        if c = ch ∧ dstPos ≤ i ∧ i < dstPos + remaining
        then work.data c i + lb.data ch ((srcPos + (i - dstPos)) % trackLen)
        else work.data c i := by
  intro fuel
  induction fuel with
  | zero =>
    intro work remaining dstPos srcPos hf _ _
    refine ⟨rfl, rfl, ?_⟩
    intro c i
    have : ¬ (c = ch ∧ dstPos ≤ i ∧ i < dstPos + remaining) := by
      simp only [Nat.cast_zero] at hf
      omega
    simp only [bounceLoop, this, if_false]
  | succ k ih =>
    intro work remaining dstPos srcPos hf hs0 hs1
    rw [bounceLoop]
    by_cases hrem : remaining > 0
    · simp only [hrem, if_true]
      have hchunk1 : 1 ≤ min remaining (trackLen - srcPos) := by
        rcases le_total remaining (trackLen - srcPos) with h | h
        · rw [min_eq_left h]; omega
        · rw [min_eq_right h]; omega
      have hchunk2 : min remaining (trackLen - srcPos) ≤ remaining := min_le_left _ _
      have hchunk3 : min remaining (trackLen - srcPos) ≤ trackLen - srcPos := min_le_right _ _
      generalize min remaining (trackLen - srcPos) = chunk at hchunk1 hchunk2 hchunk3
      obtain ⟨i1, i2, i3⟩ := ih (work.addFrom ch dstPos lb ch srcPos chunk 1)
        (remaining - chunk) (dstPos + chunk)
        (if srcPos + chunk ≥ trackLen then 0 else srcPos + chunk)
        (by push_cast at hf; omega) (by split <;> omega) (by split <;> omega)
      refine ⟨i1, i2, ?_⟩
      intro c i
      rw [i3, AudioBuffer.addFrom_data]
      by_cases hB : c = ch ∧ dstPos ≤ i ∧ i < dstPos + chunk
      · have hA : ¬ (c = ch ∧ dstPos + chunk ≤ i ∧ i < dstPos + chunk + (remaining - chunk)) := by
          omega
        have hC : c = ch ∧ dstPos ≤ i ∧ i < dstPos + remaining := by omega
        have e5 : (srcPos + (i - dstPos)) % trackLen = srcPos + (i - dstPos) :=
          Int.emod_eq_of_lt (by omega) (by omega)
        rw [if_neg hA, if_pos hB, if_pos hC, one_mul, e5]
      · by_cases hA : c = ch ∧ dstPos + chunk ≤ i ∧ i < dstPos + chunk + (remaining - chunk)
        · have hC : c = ch ∧ dstPos ≤ i ∧ i < dstPos + remaining := by omega
          rw [if_pos hA, if_neg hB, if_pos hC]
          by_cases hwrap : srcPos + chunk ≥ trackLen
          · rw [if_pos hwrap]
            have e4 : srcPos + (i - dstPos) = 0 + (i - (dstPos + chunk)) + trackLen := by omega
            rw [e4, Int.add_emod_self]
          · rw [if_neg hwrap]
            have e4 : srcPos + chunk + (i - (dstPos + chunk)) = srcPos + (i - dstPos) := by
              omega
            rw [e4]
        · have hC : ¬ (c = ch ∧ dstPos ≤ i ∧ i < dstPos + remaining) := by omega
          rw [if_neg hA, if_neg hB, if_neg hC]
    · rw [if_neg hrem]
      refine ⟨rfl, rfl, ?_⟩
      intro c i
      have : ¬ (c = ch ∧ dstPos ≤ i ∧ i < dstPos + remaining) := by omega
      simp only [this, if_false]

theorem tmod_gt_neg (a b : Int) (hb : 0 < b) : -b < a.tmod b := by
  obtain ⟨n, rfl⟩ := Int.eq_ofNat_of_zero_le (le_of_lt hb)
  cases a with
  | ofNat m =>
    have : 0 ≤ (Int.ofNat m).tmod ↑n := Int.tmod_nonneg _ (Int.ofNat_nonneg m)
    omega
  | negSucc m =>
    show -(n : Int) < -(((m + 1) % n : Nat) : Int)
    have hn : 0 < n := by omega
    have := Nat.mod_lt (m + 1) hn
    omega

/-- The start phase the bounce computes with two truncating remainders is the
mathematical residue of `-recordingStartGlobalSample` modulo the loop length. -/
theorem bounceReadStart_eq (t : LoopTrack) (hlen : 0 < t.loopLengthSamples) :
    bounceReadStart t = (- t.recordingStartGlobalSample) % t.loopLengthSamples := by
  unfold bounceReadStart
  dsimp only
  have h1 := tmod_gt_neg (- t.recordingStartGlobalSample) t.loopLengthSamples hlen
  have h2 := Int.tmod_lt_of_pos (- t.recordingStartGlobalSample) hlen
  have h3 := Int.tmod_add_tdiv (- t.recordingStartGlobalSample) t.loopLengthSamples
  rw [Int.tmod_eq_emod (by omega) (by omega), Int.add_emod_self]
  conv_rhs => rw [← h3]
  rw [Int.add_mul_emod_self_left]

theorem bounceMixChannels_data (lb : AudioBuffer) (trackLen bounceLen r : Int)
    (hT : 0 < trackLen) (hr0 : 0 ≤ r) (hr1 : r < trackLen) (work : AudioBuffer) (n : Nat) :
    (forCh n (fun ch acc => bounceLoop ch lb trackLen bounceLen.toNat acc bounceLen 0 r)
      work).numChannels = work.numChannels ∧
    (forCh n (fun ch acc => bounceLoop ch lb trackLen bounceLen.toNat acc bounceLen 0 r)
      work).numSamples = work.numSamples ∧
    ∀ c i, (forCh n (fun ch acc => bounceLoop ch lb trackLen bounceLen.toNat acc bounceLen 0 r)
      work).data c i =
        if c < n ∧ 0 ≤ i ∧ i < bounceLen
        then work.data c i + lb.data c ((r + i) % trackLen) else work.data c i := by
  induction n with
  | zero =>
    refine ⟨rfl, rfl, ?_⟩
    intro c i
    have : ¬ (c < 0 ∧ 0 ≤ i ∧ i < bounceLen) := by omega
    rw [forCh_zero, if_neg this]
  | succ k ih =>
    obtain ⟨a1, a2, a3⟩ := ih
    obtain ⟨b1, b2, b3⟩ := bounceLoop_data k lb trackLen hT bounceLen.toNat
      (forCh k (fun ch acc => bounceLoop ch lb trackLen bounceLen.toNat acc bounceLen 0 r) work)
      bounceLen 0 r (Int.self_le_toNat bounceLen) hr0 hr1
    rw [forCh_succ]
    refine ⟨b1.trans a1, b2.trans a2, ?_⟩
    intro c i
    show (bounceLoop k lb trackLen bounceLen.toNat _ bounceLen 0 r).data c i = _
    rw [b3, a3]
    have e : r + (i - 0) = r + i := by omega
    rw [e]
    by_cases hck : c = k
    · subst hck
      by_cases hi : 0 ≤ i ∧ i < bounceLen
      · have c1 : c = c ∧ 0 ≤ i ∧ i < 0 + bounceLen := by omega
        have c2 : ¬ (c < c ∧ 0 ≤ i ∧ i < bounceLen) := by omega
        have c3 : c < c + 1 ∧ 0 ≤ i ∧ i < bounceLen := by omega
        rw [if_pos c1, if_neg c2, if_pos c3]
      · have c1 : ¬ (c = c ∧ 0 ≤ i ∧ i < 0 + bounceLen) := by omega
        have c2 : ¬ (c < c ∧ 0 ≤ i ∧ i < bounceLen) := by omega
        have c3 : ¬ (c < c + 1 ∧ 0 ≤ i ∧ i < bounceLen) := by omega
        rw [if_neg c1, if_neg c2, if_neg c3]
    · have c1 : ¬ (c = k ∧ 0 ≤ i ∧ i < 0 + bounceLen) := by omega
      rw [if_neg c1]
      by_cases hc2 : c < k ∧ 0 ≤ i ∧ i < bounceLen
      · have c3 : c < k + 1 ∧ 0 ≤ i ∧ i < bounceLen := by omega
        rw [if_pos hc2, if_pos c3]
      · have c3 : ¬ (c < k + 1 ∧ 0 ≤ i ∧ i < bounceLen) := by omega
        rw [if_neg hc2, if_neg c3]

/-- Mix of one track into the work buffer, sample by sample. -/
theorem bounceMixTrack_data (bounceLen : Int) (work : AudioBuffer) (t : LoopTrack) :
    (bounceMixTrack bounceLen work t).numChannels = work.numChannels ∧
    (bounceMixTrack bounceLen work t).numSamples = work.numSamples ∧
    ∀ c i, (bounceMixTrack bounceLen work t).data c i =
      if t.hasLoop = true ∧ c < min 2 t.loopBuffer.numChannels ∧ 0 ≤ i ∧ i < bounceLen
      then work.data c i + t.loopBuffer.data c
        (((- t.recordingStartGlobalSample) % t.loopLengthSamples + i) % t.loopLengthSamples)
      else work.data c i := by
  unfold bounceMixTrack
  by_cases hl : t.hasLoop = true
  · have hlen : 0 < t.loopLengthSamples := by
      unfold LoopTrack.hasLoop at hl
      exact of_decide_eq_true hl
    have hr := bounceReadStart_eq t hlen
    have hr0 : 0 ≤ bounceReadStart t := by
      rw [hr]; exact Int.emod_nonneg _ (by omega)
    have hr1 : bounceReadStart t < t.loopLengthSamples := by
      rw [hr]; exact Int.emod_lt_of_pos _ hlen
    obtain ⟨a1, a2, a3⟩ := bounceMixChannels_data t.loopBuffer t.loopLengthSamples bounceLen
      (bounceReadStart t) hlen hr0 hr1 work (min 2 t.loopBuffer.numChannels)
    simp only [hl, Bool.not_true, Bool.false_eq_true, if_false, true_and]
    refine ⟨a1, a2, ?_⟩
    intro c i
    rw [a3, hr]
  · have hl2 : t.hasLoop = false := by
      cases h : t.hasLoop
      · rfl
      · exact absurd h hl
    simp only [hl2, Bool.not_false, if_true, Bool.false_eq_true, false_and, if_false]
    exact ⟨trivial, trivial, fun _ _ => trivial⟩

theorem bounceMix_fold_data (bounceLen : Int) (c : Nat) (i : Int) :
    ∀ (tracks : List LoopTrack) (work : AudioBuffer),
      (tracks.foldl (bounceMixTrack bounceLen) work).data c i =
        work.data c i +
          (tracks.map (fun t =>
            if t.hasLoop = true ∧ c < min 2 t.loopBuffer.numChannels ∧ 0 ≤ i ∧ i < bounceLen
            then t.loopBuffer.data c
              (((- t.recordingStartGlobalSample) % t.loopLengthSamples + i)
                % t.loopLengthSamples)
            else 0)).sum := by
  intro tracks
  induction tracks with
  | nil => intro work; simp
  | cons t rest ih =>
    intro work
    rw [List.foldl_cons, ih, (bounceMixTrack_data bounceLen work t).2.2, List.map_cons,
      List.sum_cons]
    split_ifs <;> ring

theorem bounce_sum_filter (c : Nat) (i bounceLen : Int) (hc : c < 2) (hi0 : 0 ≤ i)
    (hi1 : i < bounceLen) :
    ∀ (tracks : List LoopTrack), (∀ t ∈ tracks, 2 ≤ t.loopBuffer.numChannels) →
      (tracks.map (fun t =>
        if t.hasLoop = true ∧ c < min 2 t.loopBuffer.numChannels ∧ 0 ≤ i ∧ i < bounceLen
        then t.loopBuffer.data c
          (((- t.recordingStartGlobalSample) % t.loopLengthSamples + i) % t.loopLengthSamples)
        else 0)).sum =
      ((tracks.filter (fun t => t.hasLoop)).map (fun t =>
        t.loopBuffer.data c
          (((- t.recordingStartGlobalSample) % t.loopLengthSamples + i)
            % t.loopLengthSamples))).sum := by
  intro tracks
  induction tracks with
  | nil => intro _; simp
  | cons t rest ih =>
    intro h
    have hch := h t (List.mem_cons_self _ _)
    have ih2 := ih (fun u hu => h u (List.mem_cons_of_mem _ hu))
    rw [List.map_cons, List.sum_cons, ih2]
    by_cases hl : t.hasLoop = true
    · have hcond : t.hasLoop = true ∧ c < min 2 t.loopBuffer.numChannels ∧ 0 ≤ i ∧
          i < bounceLen := ⟨hl, by omega, hi0, hi1⟩
      rw [if_pos hcond, List.filter_cons_of_pos hl, List.map_cons, List.sum_cons]
    · have hcond : ¬ (t.hasLoop = true ∧ c < min 2 t.loopBuffer.numChannels ∧ 0 ≤ i ∧
          i < bounceLen) := fun hh => hl hh.1
      rw [if_neg hcond, List.filter_cons_of_neg hl, zero_add]

theorem crossfade_fold_outside (len f : Int) (j : Int) (hj0 : f ≤ j) (hj1 : j < len - f) :
    ∀ (m : Nat) (d : Int → ℚ), (m : Int) ≤ f →
      ((List.range m).foldl (crossfadeStep len f) d) j = d j := by
  intro m
  induction m with
  | zero => intro d _; rfl
  | succ k ih =>
    intro d hk
    rw [List.range_succ, List.foldl_append, List.foldl_cons, List.foldl_nil]
    unfold crossfadeStep
    dsimp only
    have h1 : j ≠ len - f + (k : Int) := by push_cast at hk; omega
    have h2 : j ≠ (k : Int) := by push_cast at hk; omega
    rw [Function.update_noteq h1, Function.update_noteq h2]
    exact ih d (by push_cast at hk; omega)

/-- Samples outside the faded head and tail are not touched by the crossfade. -/
theorem applyCrossfade_middle (b : AudioBuffer) (len fs : Int) (c : Nat) (j : Int)
    (hj0 : min fs (len.tdiv 2) ≤ j) (hj1 : j < len - min fs (len.tdiv 2)) :
    (applyCrossfade b len fs).data c j = b.data c j := by
  unfold applyCrossfade
  split
  · rfl
  · rename_i hg
    dsimp only
    split
    · have hfs : 0 < fs := by omega
      have hlen : 0 < len := by omega
      have hd : 0 ≤ len.tdiv 2 := by
        rw [Int.tdiv_eq_ediv (by omega) (by omega)]; omega
      have hf : 0 ≤ min fs (len.tdiv 2) := le_min (by omega) hd
      exact crossfade_fold_outside len (min fs (len.tdiv 2)) j hj0 hj1 _ _
        (by rw [Int.toNat_of_nonneg hf])
    · rfl

theorem bounceLength_ge (masterLen : Int) (tracks : List LoopTrack) :
    masterLen ≤ bounceLength masterLen tracks := by
  unfold bounceLength
  induction tracks generalizing masterLen with
  | nil => exact le_refl _
  | cons t rest ih =>
    rw [List.foldl_cons]
    split
    · exact le_trans (le_max_left _ _) (ih _)
    · exact ih _

theorem foldl_bounceMix_shape (bounceLen : Int) :
    ∀ (tracks : List LoopTrack) (work : AudioBuffer),
      (tracks.foldl (bounceMixTrack bounceLen) work).numChannels = work.numChannels := by
  intro tracks
  induction tracks with
  | nil => intro _; rfl
  | cons t rest ih =>
    intro work
    rw [List.foldl_cons, ih, (bounceMixTrack_data bounceLen work t).1]

/-- The work buffer a bounce leaves when its guards pass. -/
theorem performBounceBack_work (s : Session) (hmaster : 0 < s.mPrimaryLoopLengthSamples)
    (hfit : bounceLength s.mPrimaryLoopLengthSamples s.mTracks ≤ s.mWorkBuffer.numSamples) :
    s.performBounceBack.mWorkBuffer =
      applyCrossfade
        (s.mTracks.foldl (bounceMixTrack (bounceLength s.mPrimaryLoopLengthSamples s.mTracks))
          (s.mWorkBuffer.clearRegion 0 (bounceLength s.mPrimaryLoopLengthSamples s.mTracks)))
        (bounceLength s.mPrimaryLoopLengthSamples s.mTracks) CROSSFADE_SAMPLES := by
  have h1 : ¬ s.mPrimaryLoopLengthSamples ≤ 0 := by omega
  have h2 : ¬ bounceLength s.mPrimaryLoopLengthSamples s.mTracks > s.mWorkBuffer.numSamples := by
    omega
  unfold Session.performBounceBack
  simp only [h1, h2, if_false]

/-- C7 (amended). For every session with `masterLoopLength > 0` whose longest loop
`bounceLen` fits the work buffer (otherwise `performBounceBack` does nothing), after
`performBounceBack` the work buffer satisfies, for each of its two channels `c` and every
index `i` outside the crossfaded head `[0, f)` and tail `[bounceLen - f, bounceLen)` with
`f = min (128, bounceLen / 2)`:
`work[c][i] = sum over the tracks that have a loop of loopBuffer_t[c][(r_t + i) mod len_t]`
with `r_t = (-recordingStartGlobalSample_t) mod len_t` (track buffers are stereo, as
`prepareToPlay` allocates them). -/
theorem bounce_mix_is_phase_aligned_sum (s : Session) (c : Nat) (i : Int)
    (hmaster : 0 < s.mPrimaryLoopLengthSamples)
    (hfit : bounceLength s.mPrimaryLoopLengthSamples s.mTracks ≤ s.mWorkBuffer.numSamples)
    (hc : c < 2) (hwork : c < s.mWorkBuffer.numChannels)
    (htracks : ∀ t ∈ s.mTracks, 2 ≤ t.loopBuffer.numChannels)
    (hi0 : min 128 (bounceLength s.mPrimaryLoopLengthSamples s.mTracks / 2) ≤ i)
    (hi1 : i < bounceLength s.mPrimaryLoopLengthSamples s.mTracks
      - min 128 (bounceLength s.mPrimaryLoopLengthSamples s.mTracks / 2)) :
    s.performBounceBack.mWorkBuffer.data c i =
      ((s.mTracks.filter (fun t => t.hasLoop)).map (fun t =>
        t.loopBuffer.data c
          (((- t.recordingStartGlobalSample) % t.loopLengthSamples + i)
            % t.loopLengthSamples))).sum := by
  have hge := bounceLength_ge s.mPrimaryLoopLengthSamples s.mTracks
  have hdiv : (bounceLength s.mPrimaryLoopLengthSamples s.mTracks).tdiv 2
      = bounceLength s.mPrimaryLoopLengthSamples s.mTracks / 2 :=
    Int.tdiv_eq_ediv (by omega) (by omega)
  have hf0 : 0 ≤ min 128 (bounceLength s.mPrimaryLoopLengthSamples s.mTracks / 2) :=
    le_min (by omega) (by omega)
  rw [performBounceBack_work s hmaster hfit,
    applyCrossfade_middle _ _ _ c i
      (by unfold CROSSFADE_SAMPLES; rw [hdiv]; exact hi0)
      (by unfold CROSSFADE_SAMPLES; rw [hdiv]; exact hi1),
    bounceMix_fold_data,
    bounce_sum_filter c i _ hc (by omega) (by omega) s.mTracks htracks]
  have hclear : (s.mWorkBuffer.clearRegion 0
      (bounceLength s.mPrimaryLoopLengthSamples s.mTracks)).data c i = 0 := by
    unfold AudioBuffer.clearRegion
    have hcond : c < s.mWorkBuffer.numChannels ∧ 0 ≤ i ∧
        i < 0 + bounceLength s.mPrimaryLoopLengthSamples s.mTracks := ⟨hwork, by omega, by omega⟩
    simp only [hcond, and_self, if_true]
  rw [hclear, zero_add]

theorem demoBounceSession_length :
    bounceLength demoBounceSession.mPrimaryLoopLengthSamples demoBounceSession.mTracks = 1000 := by
  decide

/-- Witness for `bounce_mix_is_phase_aligned_sum`: two tracks of equal length 1000 holding
ones and twos; the bounced sample 500 of channel 0 is their sum 3. -/
theorem bounce_mix_is_phase_aligned_sum_witness :
    0 < demoBounceSession.mPrimaryLoopLengthSamples ∧
    bounceLength demoBounceSession.mPrimaryLoopLengthSamples demoBounceSession.mTracks
      ≤ demoBounceSession.mWorkBuffer.numSamples ∧
    (∀ t ∈ demoBounceSession.mTracks, 2 ≤ t.loopBuffer.numChannels) ∧
    demoBounceSession.performBounceBack.mWorkBuffer.data 0 500 = 3 := by
  have hlen := demoBounceSession_length
  have ht : ∀ t ∈ demoBounceSession.mTracks, 2 ≤ t.loopBuffer.numChannels := by
    intro t h
    simp only [demoBounceSession, sessionWith, List.mem_cons, List.mem_singleton,
      List.not_mem_nil, or_false] at h
    rcases h with h | h <;> subst h <;> decide
  have hfit : bounceLength demoBounceSession.mPrimaryLoopLengthSamples demoBounceSession.mTracks
      ≤ demoBounceSession.mWorkBuffer.numSamples := by rw [hlen]; decide
  refine ⟨by decide, hfit, ht, ?_⟩
  rw [bounce_mix_is_phase_aligned_sum demoBounceSession 0 500 (by decide) hfit (by decide)
    (by decide) ht (by rw [hlen]; decide) (by rw [hlen]; decide)]
  simp [demoBounceSession, sessionWith, constantLoopTrack, preparedTrack, LoopTrack.fresh,
    patternBuffer, LoopTrack.hasLoop]
  norm_num

/-! ## Reachable states: a Playing, Overdubbing or Stopped track has a loop -/

theorem loopInvariant_of_pos (u : LoopTrack) (h : 0 < u.loopLengthSamples) : loopInvariant u :=
  fun _ => h

theorem loopInvariant_of_idle (u : LoopTrack)
    (h : u.currentState = State.Empty ∨ u.currentState = State.Recording) : loopInvariant u := by
  intro hs
  rcases h with h | h <;> rw [h] at hs <;> simp at hs

theorem loopInvariant_of_eq (t u : LoopTrack) (hs : u.currentState = t.currentState)
    (hl : u.loopLengthSamples = t.loopLengthSamples) (h : loopInvariant t) :
    loopInvariant u := by
  intro hu
  rw [hs] at hu
  rw [hl]
  exact h hu

theorem loopInvariant_setPlaying (t : LoopTrack) (h : loopInvariant t) :
    loopInvariant t.setPlaying := by
  by_cases hrec : t.currentState = State.Recording
  · obtain ⟨f1, f2⟩ := setPlaying_recording_fields t hrec
    by_cases hpos : 0 < t.setPlaying.loopLengthSamples
    · exact loopInvariant_of_pos _ hpos
    · apply loopInvariant_of_idle
      right
      rw [f2]
      rw [f1] at hpos
      exact if_neg hpos
  · unfold LoopTrack.setPlaying
    simp only [hrec, if_false]
    split
    · rename_i hl
      exact loopInvariant_of_pos _ hl
    · exact h

theorem loopInvariant_stop (t : LoopTrack) (h : loopInvariant t) : loopInvariant t.stop := by
  unfold LoopTrack.stop
  dsimp only
  by_cases hrec : t.currentState = State.Recording
  · simp only [hrec, if_true]
    split
    · rename_i hl
      exact loopInvariant_of_pos _ hl
    · exact loopInvariant_of_idle _ (Or.inr rfl)
  · simp only [hrec, if_false]
    split
    · rename_i hl
      exact loopInvariant_of_pos _ hl
    · exact h

theorem loopInvariant_saveUndo (t : LoopTrack) (h : loopInvariant t) :
    loopInvariant t.saveUndo := by
  obtain ⟨ub, ul, hu, e⟩ := saveUndo_frame t
  rw [e]
  exact loopInvariant_of_eq t _ rfl rfl h

theorem loopInvariant_performUndo (t : LoopTrack) (h : loopInvariant t) :
    loopInvariant t.performUndo := by
  unfold LoopTrack.performUndo
  split
  · rename_i hg
    apply loopInvariant_of_pos
    show (0 : Int) < LoopTrack.undoLoopLengthSamples (if _ then t.setPlaying else t)
    split
    · obtain ⟨a1, a2, a3, a4, e⟩ := setPlaying_frame t
      rw [e]
      exact hg.2
    · exact hg.2
  · exact h

theorem processBlock_idle (t : LoopTrack) (out inp sc : AudioBuffer) (g L : Int)
    (im solo : Bool) (h : t.currentState = State.Empty ∨ t.currentState = State.Stopped) :
    t.processBlock out inp sc g im L solo = (t, out) := by
  unfold LoopTrack.processBlock
  rcases h with h | h <;> simp [h]

theorem processBlock_overdub_frame (t : LoopTrack) (out inp sc : AudioBuffer) (g L : Int)
    (im solo : Bool) (h : t.currentState = State.Overdubbing) :
    ∃ lb r b w, (t.processBlock out inp sc g im L solo).1 =
      { t with loopBuffer := lb, mReplace := r, fxCaptureBuffer := b,
               fxCaptureSamplesWritten := w } := by
  rw [processBlock_overdub_eq t out inp sc g L im solo h]
  obtain ⟨lb, r, h1, -, -⟩ := replaceStage_frame t
    (LoopTrack.blockPositions t State.Overdubbing g im L).readPos out.numSamples
  rw [h1]
  split
  · obtain ⟨b, w, h3⟩ := LoopTrack.captureSidechain_frame
      { t with loopBuffer := lb, mReplace := r } sc out.numSamples
      (LoopTrack.blockPositions t State.Overdubbing g im L).readPos
      (LoopTrack.blockPositions t State.Overdubbing g im L).currentLoopLength
    rw [h3]
    obtain ⟨lb2, h4⟩ := LoopTrack.handleOverdub_frame
      { t with loopBuffer := lb, mReplace := r, fxCaptureBuffer := b,
               fxCaptureSamplesWritten := w } out inp out.numSamples
      (LoopTrack.blockPositions t State.Overdubbing g im L).readPos
      (LoopTrack.blockPositions t State.Overdubbing g im L).currentLoopLength
      (LoopTrack.soloMute t solo (LoopTrack.soloMute t solo false))
    rw [h4]
    exact ⟨_, _, _, _, rfl⟩
  · obtain ⟨lb2, h4⟩ := LoopTrack.handleOverdub_frame
      { t with loopBuffer := lb, mReplace := r } out inp out.numSamples
      (LoopTrack.blockPositions t State.Overdubbing g im L).readPos
      (LoopTrack.blockPositions t State.Overdubbing g im L).currentLoopLength
      (LoopTrack.soloMute t solo (LoopTrack.soloMute t solo false))
    rw [h4]
    exact ⟨_, _, _, _, rfl⟩

theorem ite_state_cases (p : Prop) [Decidable p] :
    (if p then State.Playing else State.Recording) = State.Recording ∨
    (if p then State.Playing else State.Recording) = State.Playing := by
  by_cases h : p
  · right; rw [if_pos h]
  · left; rw [if_neg h]

/-- A block that starts in Recording ends in Recording or in Playing. -/
theorem processBlock_recording_state (t : LoopTrack) (out inp sc : AudioBuffer)
    (g L : Int) (im solo : Bool) (hrec : t.currentState = State.Recording) :
    (t.processBlock out inp sc g im L solo).1.currentState = State.Recording ∨
    (t.processBlock out inp sc g im L solo).1.currentState = State.Playing := by
  by_cases hprom : im = false ∧ slaveTargetLen L t.targetMultiplier ≤ t.recordedSamplesCurrent
  · obtain ⟨him, hge⟩ := hprom
    subst him
    obtain ⟨hst, -, e⟩ := processBlock_promote_eq_setPlaying t out inp sc g L solo hrec hge
    right
    rw [e]
    exact (processBlock_playing_replace _ out inp sc g L false solo hst).1
  · have hno : im = true ∨ t.recordedSamplesCurrent < slaveTargetLen L t.targetMultiplier := by
      cases im
      · right
        have : ¬ slaveTargetLen L t.targetMultiplier ≤ t.recordedSamplesCurrent := by
          intro hh; exact hprom ⟨rfl, hh⟩
        omega
      · left; rfl
    have hbp : (LoopTrack.blockPositions t State.Recording g im L).track.currentState
        = State.Recording := by
      cases im
      · rw [blockPositions_slave_recording]
        show (if _ then _ else t).currentState = _
        split <;> exact hrec
      · rw [blockPositions_master_recording]
        exact hrec
    obtain ⟨lb, r, h1, -, -⟩ := replaceStage_frame
      (LoopTrack.blockPositions t State.Recording g im L).track
      (LoopTrack.blockPositions t State.Recording g im L).readPos out.numSamples
    rw [processBlock_recording_eq t out inp sc g L im solo hrec hno, h1]
    have hT : ({ (LoopTrack.blockPositions t State.Recording g im L).track with
        loopBuffer := lb, mReplace := r } : LoopTrack).currentState = State.Recording := hbp
    have hcases : (LoopTrack.handleRecording
        { (LoopTrack.blockPositions t State.Recording g im L).track with
          loopBuffer := lb, mReplace := r } inp out.numSamples
        (LoopTrack.blockPositions t State.Recording g im L).writePos).currentState
          = State.Recording ∨
        (LoopTrack.handleRecording
        { (LoopTrack.blockPositions t State.Recording g im L).track with
          loopBuffer := lb, mReplace := r } inp out.numSamples
        (LoopTrack.blockPositions t State.Recording g im L).writePos).currentState
          = State.Playing := by
      unfold LoopTrack.handleRecording
      split
      · rw [(setPlaying_recording_fields _ hT).2]
        exact ite_state_cases _
      · left; exact hbp
    split <;> exact hcases

theorem loopInvariant_processBlock (t : LoopTrack) (out inp sc : AudioBuffer) (g L : Int)
    (im solo : Bool) (h : loopInvariant t) :
    loopInvariant (t.processBlock out inp sc g im L solo).1 := by
  cases hs : t.currentState with
  | Empty => rw [processBlock_idle t out inp sc g L im solo (Or.inl hs)]; exact h
  | Stopped => rw [processBlock_idle t out inp sc g L im solo (Or.inr hs)]; exact h
  | Playing =>
    obtain ⟨lb, r, b, w, e⟩ := processBlock_playing_frame t out inp sc g L im solo hs
    rw [e]
    exact loopInvariant_of_eq t _ rfl rfl h
  | Overdubbing =>
    obtain ⟨lb, r, b, w, e⟩ := processBlock_overdub_frame t out inp sc g L im solo hs
    rw [e]
    exact loopInvariant_of_eq t _ rfl rfl h
  | Recording =>
    rcases processBlock_recording_state t out inp sc g L im solo hs with h1 | h1
    · exact loopInvariant_of_idle _ (Or.inr h1)
    · exact loopInvariant_of_pos _
        (processBlock_recording_to_playing_pos t out inp sc g L im solo hs h1)

theorem loopInvariant_clear (t : LoopTrack) : loopInvariant t.clear :=
  loopInvariant_of_idle _ (Or.inl rfl)

theorem loopInvariant_setRecording (t : LoopTrack) (h : loopInvariant t) :
    loopInvariant t.setRecording := by
  unfold LoopTrack.setRecording
  split
  · exact loopInvariant_of_idle _ (Or.inr rfl)
  · exact h

theorem loopInvariant_setOverdubbing (t : LoopTrack) (h : loopInvariant t) :
    loopInvariant t.setOverdubbing := by
  unfold LoopTrack.setOverdubbing
  split
  · rename_i hl
    apply loopInvariant_of_pos
    show (0 : Int) < LoopTrack.loopLengthSamples (if _ then t.saveUndo else t)
    split
    · obtain ⟨ub, ul, hu, e⟩ := saveUndo_frame t
      rw [e]
      exact hl
    · exact hl
  · exact h

theorem loopInvariant_multiplyLoop (t : LoopTrack) (h : loopInvariant t) :
    loopInvariant t.multiplyLoop := by
  by_cases hl : 0 < t.loopLengthSamples
  · apply loopInvariant_of_pos
    rw [multiplyLoop_loopLength t hl]
    split <;> omega
  · unfold LoopTrack.multiplyLoop
    have h0 : t.loopLengthSamples ≤ 0 := by omega
    simp only [h0, if_true]
    exact loopInvariant_of_eq t _ rfl rfl h

theorem loopInvariant_divideLoop (t : LoopTrack) (h : loopInvariant t) :
    loopInvariant t.divideLoop := by
  by_cases hl : 0 < t.loopLengthSamples
  · apply loopInvariant_of_pos
    rw [divideLoop_loopLength t hl]
    split <;> omega
  · unfold LoopTrack.divideLoop
    have h0 : t.loopLengthSamples ≤ 0 := by omega
    simp only [h0, if_true]
    exact loopInvariant_of_eq t _ rfl rfl h

theorem loopInvariant_setLoopFromMix (t : LoopTrack) (mixed : AudioBuffer)
    (length off start : Int) (h : loopInvariant t) :
    loopInvariant (t.setLoopFromMix mixed length off start) := by
  unfold LoopTrack.setLoopFromMix
  split
  · exact h
  · rename_i hg
    apply loopInvariant_of_pos
    show 0 < length
    omega

theorem loopInvariant_overdubFromBuffer (t : LoopTrack) (input : AudioBuffer)
    (len start : Int) (h : loopInvariant t) :
    loopInvariant (t.overdubFromBuffer input len start) := by
  unfold LoopTrack.overdubFromBuffer
  split
  · exact h
  · obtain ⟨ub, ul, hu, e⟩ := saveUndo_frame t
    rw [e]
    exact loopInvariant_of_eq t _ rfl rfl h

theorem loopInvariant_applyFxReplace (t : LoopTrack) (h : loopInvariant t) :
    loopInvariant t.applyFxReplace := by
  unfold LoopTrack.applyFxReplace
  split
  · exact h
  · split
    · exact h
    · obtain ⟨ub, ul, hu, e⟩ := saveUndo_frame t
      rw [e]
      exact loopInvariant_of_eq t _ rfl rfl h

theorem loopInvariant_beginProgressiveReplace (t : LoopTrack) (source : Option AudioBuffer)
    (length off start : Int) (h : loopInvariant t) :
    loopInvariant (t.beginProgressiveReplace source length off start) := by
  unfold LoopTrack.beginProgressiveReplace
  cases source with
  | none => exact h
  | some src =>
    dsimp only
    split
    · exact h
    · rename_i hg
      apply loopInvariant_of_pos
      show 0 < length
      omega

/-- In every reachable track state, a Playing, Overdubbing or Stopped track has
`loopLength > 0`. -/
theorem reachable_loopInvariant (im : Bool) (t : LoopTrack) (h : Reachable im t) :
    loopInvariant t := by
  induction h with
  | constructed => exact loopInvariant_of_idle _ (Or.inl rfl)
  | prepareToPlay sr _ _ => exact loopInvariant_clear _
  | processBlock out inp sc g L solo _ ih =>
    exact loopInvariant_processBlock _ out inp sc g L im solo ih
  | clear _ _ => exact loopInvariant_clear _
  | setRecording _ ih => exact loopInvariant_setRecording _ ih
  | setOverdubbing _ ih => exact loopInvariant_setOverdubbing _ ih
  | setPlaying _ ih => exact loopInvariant_setPlaying _ ih
  | stop _ ih => exact loopInvariant_stop _ ih
  | setVolume v _ ih => exact loopInvariant_of_eq _ _ rfl rfl ih
  | setMuted b _ ih => exact loopInvariant_of_eq _ _ rfl rfl ih
  | setSolo b _ ih => exact loopInvariant_of_eq _ _ rfl rfl ih
  | setTargetMultiplier m _ ih => exact loopInvariant_of_eq _ _ rfl rfl ih
  | applyFxReplace _ ih => exact loopInvariant_applyFxReplace _ ih
  | setLoopFromMix mixed len off start _ ih => exact loopInvariant_setLoopFromMix _ _ _ _ _ ih
  | overdubFromBuffer input len start _ ih => exact loopInvariant_overdubFromBuffer _ _ _ _ ih
  | multiplyLoop _ ih => exact loopInvariant_multiplyLoop _ ih
  | divideLoop _ ih => exact loopInvariant_divideLoop _ ih
  | performUndo _ ih => exact loopInvariant_performUndo _ ih
  | beginProgressiveReplace source len off start _ ih =>
    exact loopInvariant_beginProgressiveReplace _ _ _ _ _ ih
  | processReplaceChunk p n _ ih =>
    obtain ⟨lb, r, e⟩ := LoopTrack.processReplaceChunk_frame _ p n
    rw [e]
    exact loopInvariant_of_eq _ _ rfl rfl ih

/-! ## Reachable slave states: a Recording slave has playback position 0 -/

theorem sri_of_not_recording (u : LoopTrack) (h : u.currentState ≠ State.Recording) :
    slaveRecordingInvariant u := fun hs => absurd hs h

theorem sri_of_pp (u : LoopTrack) (h : u.playbackPosition = 0) : slaveRecordingInvariant u :=
  fun _ => h

theorem sri_of_eq (t u : LoopTrack) (hs : u.currentState = t.currentState)
    (hp : u.playbackPosition = t.playbackPosition) (h : slaveRecordingInvariant t) :
    slaveRecordingInvariant u := by
  intro hu
  rw [hs] at hu
  rw [hp]
  exact h hu

theorem setPlaying_recording_pp (t : LoopTrack) (hrec : t.currentState = State.Recording) :
    t.setPlaying.playbackPosition = 0 := by
  by_cases h1 : t.playbackPosition > 0
  · unfold LoopTrack.setPlaying
    simp only [hrec, h1, if_true]
  · by_cases h2 : t.recordedSamplesCurrent > 0
    · by_cases h3 : t.loopLengthSamples = 0
      · unfold LoopTrack.setPlaying
        simp only [hrec, h1, h2, h3, if_true, if_false]
      · by_cases h4 : t.loopLengthSamples > 0
        · unfold LoopTrack.setPlaying
          simp only [hrec, h1, h2, h3, h4, if_true, if_false]
        · unfold LoopTrack.setPlaying
          simp only [hrec, h1, h2, h3, h4, if_true, if_false]
    · by_cases h4 : t.loopLengthSamples > 0
      · unfold LoopTrack.setPlaying
        simp only [hrec, h1, h2, h4, if_true, if_false]
      · unfold LoopTrack.setPlaying
        simp only [hrec, h1, h2, h4, if_true, if_false]

theorem setPlaying_not_recording (t : LoopTrack) (hrec : t.currentState ≠ State.Recording) :
    t.setPlaying.currentState ≠ State.Recording := by
  unfold LoopTrack.setPlaying
  simp only [hrec, if_false]
  split
  · show State.Playing ≠ State.Recording
    decide
  · exact hrec

theorem sri_setPlaying (t : LoopTrack) : slaveRecordingInvariant t.setPlaying := by
  by_cases hrec : t.currentState = State.Recording
  · exact sri_of_pp _ (setPlaying_recording_pp t hrec)
  · exact sri_of_not_recording _ (setPlaying_not_recording t hrec)

theorem sri_stop (t : LoopTrack) (h : slaveRecordingInvariant t) :
    slaveRecordingInvariant t.stop := by
  unfold LoopTrack.stop
  dsimp only
  by_cases hrec : t.currentState = State.Recording
  · simp only [hrec, if_true]
    split <;> exact sri_of_pp _ rfl
  · simp only [hrec, if_false]
    split
    · exact sri_of_pp _ rfl
    · exact h

theorem sri_performUndo (t : LoopTrack) (h : slaveRecordingInvariant t) :
    slaveRecordingInvariant t.performUndo := by
  unfold LoopTrack.performUndo
  split
  · have key : slaveRecordingInvariant
        (if t.currentState = State.Recording ∨ t.currentState = State.Overdubbing
          then t.setPlaying else t) := by
      split
      · exact sri_setPlaying t
      · exact h
    exact sri_of_eq _ _ rfl rfl key
  · exact h

theorem sri_setRecording (t : LoopTrack) (h : slaveRecordingInvariant t) :
    slaveRecordingInvariant t.setRecording := by
  unfold LoopTrack.setRecording
  split
  · exact sri_of_pp _ rfl
  · exact h

theorem sri_setOverdubbing (t : LoopTrack) (h : slaveRecordingInvariant t) :
    slaveRecordingInvariant t.setOverdubbing := by
  unfold LoopTrack.setOverdubbing
  split
  · apply sri_of_not_recording
    show State.Overdubbing ≠ State.Recording
    decide
  · exact h

theorem sri_saveUndo (t : LoopTrack) (h : slaveRecordingInvariant t) :
    slaveRecordingInvariant t.saveUndo := by
  obtain ⟨ub, ul, hu, e⟩ := saveUndo_frame t
  rw [e]
  exact sri_of_eq t _ rfl rfl h

theorem sri_multiplyLoop (t : LoopTrack) (h : slaveRecordingInvariant t) :
    slaveRecordingInvariant t.multiplyLoop := by
  unfold LoopTrack.multiplyLoop
  split
  · exact sri_of_eq t _ rfl rfl h
  · split
    · exact h
    · exact sri_of_eq _ _ rfl rfl (sri_saveUndo t h)

theorem sri_divideLoop (t : LoopTrack) (h : slaveRecordingInvariant t) :
    slaveRecordingInvariant t.divideLoop := by
  unfold LoopTrack.divideLoop
  split
  · exact sri_of_eq t _ rfl rfl h
  · split
    · exact h
    · exact sri_of_eq _ _ rfl rfl (sri_saveUndo t h)

theorem sri_setLoopFromMix (t : LoopTrack) (mixed : AudioBuffer) (length off start : Int)
    (h : slaveRecordingInvariant t) :
    slaveRecordingInvariant (t.setLoopFromMix mixed length off start) := by
  unfold LoopTrack.setLoopFromMix
  split
  · exact h
  · exact sri_of_pp _ rfl

theorem sri_overdubFromBuffer (t : LoopTrack) (input : AudioBuffer) (len start : Int)
    (h : slaveRecordingInvariant t) :
    slaveRecordingInvariant (t.overdubFromBuffer input len start) := by
  unfold LoopTrack.overdubFromBuffer
  split
  · exact h
  · exact sri_of_eq _ _ rfl rfl (sri_saveUndo t h)

theorem sri_applyFxReplace (t : LoopTrack) (h : slaveRecordingInvariant t) :
    slaveRecordingInvariant t.applyFxReplace := by
  unfold LoopTrack.applyFxReplace
  split
  · exact h
  · split
    · exact h
    · exact sri_of_eq _ _ rfl rfl (sri_saveUndo t h)

theorem sri_beginProgressiveReplace (t : LoopTrack) (source : Option AudioBuffer)
    (length off start : Int) (h : slaveRecordingInvariant t) :
    slaveRecordingInvariant (t.beginProgressiveReplace source length off start) := by
  unfold LoopTrack.beginProgressiveReplace
  cases source with
  | none => exact h
  | some src =>
    dsimp only
    split
    · exact h
    · exact sri_of_pp _ rfl

theorem sri_processBlock (t : LoopTrack) (out inp sc : AudioBuffer) (g L : Int) (solo : Bool)
    (h : slaveRecordingInvariant t) :
    slaveRecordingInvariant (t.processBlock out inp sc g false L solo).1 := by
  cases hs : t.currentState with
  | Empty => rw [processBlock_idle t out inp sc g L false solo (Or.inl hs)]; exact h
  | Stopped => rw [processBlock_idle t out inp sc g L false solo (Or.inr hs)]; exact h
  | Playing =>
    obtain ⟨lb, r, b, w, e⟩ := processBlock_playing_frame t out inp sc g L false solo hs
    rw [e]
    exact sri_of_eq t _ rfl rfl h
  | Overdubbing =>
    obtain ⟨lb, r, b, w, e⟩ := processBlock_overdub_frame t out inp sc g L false solo hs
    rw [e]
    exact sri_of_eq t _ rfl rfl h
  | Recording =>
    by_cases hge : slaveTargetLen L t.targetMultiplier ≤ t.recordedSamplesCurrent
    · obtain ⟨hst, -, e⟩ := processBlock_promote_eq_setPlaying t out inp sc g L solo hs hge
      apply sri_of_not_recording
      rw [e, (processBlock_playing_replace _ out inp sc g L false solo hst).1]
      decide
    · have hbp : (LoopTrack.blockPositions t State.Recording g false L).track.currentState
          = State.Recording ∧
          (LoopTrack.blockPositions t State.Recording g false L).track.playbackPosition = 0 := by
        rw [blockPositions_slave_recording]
        constructor
        · show (if _ then _ else t).currentState = _
          split <;> exact hs
        · show LoopTrack.playbackPosition (if _ then _ else t) = 0
          split <;> exact h hs
      obtain ⟨lb, r, h1, -, -⟩ := replaceStage_frame
        (LoopTrack.blockPositions t State.Recording g false L).track
        (LoopTrack.blockPositions t State.Recording g false L).readPos out.numSamples
      rw [processBlock_recording_eq t out inp sc g L false solo hs (Or.inr (by omega)), h1]
      simp only [Bool.false_eq_true, if_false]
      apply sri_of_pp
      show (LoopTrack.handleRecording _ inp out.numSamples _).playbackPosition = 0
      unfold LoopTrack.handleRecording
      split
      · exact setPlaying_recording_pp _ hbp.1
      · exact hbp.2

/-- In every reachable state of a slave track, a Recording track has `playbackPosition = 0`. -/
theorem reachable_slaveRecordingInvariant (t : LoopTrack) (h : Reachable false t) :
    slaveRecordingInvariant t := by
  induction h with
  | constructed => exact sri_of_pp _ rfl
  | prepareToPlay sr _ _ => exact sri_of_pp _ rfl
  | processBlock out inp sc g L solo _ ih => exact sri_processBlock _ out inp sc g L solo ih
  | clear _ _ => exact sri_of_pp _ rfl
  | setRecording _ ih => exact sri_setRecording _ ih
  | setOverdubbing _ ih => exact sri_setOverdubbing _ ih
  | setPlaying _ _ => exact sri_setPlaying _
  | stop _ ih => exact sri_stop _ ih
  | setVolume v _ ih => exact sri_of_eq _ _ rfl rfl ih
  | setMuted b _ ih => exact sri_of_eq _ _ rfl rfl ih
  | setSolo b _ ih => exact sri_of_eq _ _ rfl rfl ih
  | setTargetMultiplier m _ ih => exact sri_of_eq _ _ rfl rfl ih
  | applyFxReplace _ ih => exact sri_applyFxReplace _ ih
  | setLoopFromMix mixed len off start _ ih => exact sri_setLoopFromMix _ _ _ _ _ ih
  | overdubFromBuffer input len start _ ih => exact sri_overdubFromBuffer _ _ _ _ ih
  | multiplyLoop _ ih => exact sri_multiplyLoop _ ih
  | divideLoop _ ih => exact sri_divideLoop _ ih
  | performUndo _ ih => exact sri_performUndo _ ih
  | beginProgressiveReplace source len off start _ ih =>
    exact sri_beginProgressiveReplace _ _ _ _ _ ih
  | processReplaceChunk p n _ ih =>
    obtain ⟨lb, r, e⟩ := LoopTrack.processReplaceChunk_frame _ p n
    rw [e]
    exact sri_of_eq _ _ rfl rfl ih

/-! ## Reachable multipliers -/

theorem clampMultiplier_mem (m : ℚ) : 1 / 64 ≤ clampMultiplier m ∧ clampMultiplier m ≤ 64 := by
  unfold clampMultiplier
  dsimp only
  by_cases h1 : m < 1 / 64
  · rw [if_pos h1]
    rw [if_neg (by norm_num)]
    norm_num
  · rw [if_neg h1]
    by_cases h2 : m > 64
    · rw [if_pos h2]
      norm_num
    · rw [if_neg h2]
      exact ⟨not_lt.mp h1, not_lt.mp h2⟩

theorem mi_of_eq (t u : LoopTrack) (hm : u.targetMultiplier = t.targetMultiplier)
    (h : multiplierInvariant t) : multiplierInvariant u := by
  unfold multiplierInvariant at h ⊢
  rw [hm]
  exact h

theorem mi_of_one (u : LoopTrack) (hm : u.targetMultiplier = 1) : multiplierInvariant u := by
  unfold multiplierInvariant
  rw [hm]
  norm_num

theorem mi_setPlaying (t : LoopTrack) (h : multiplierInvariant t) :
    multiplierInvariant t.setPlaying := by
  obtain ⟨a1, a2, a3, a4, e⟩ := setPlaying_frame t
  rw [e]
  exact mi_of_eq t _ rfl h

theorem mi_stop (t : LoopTrack) (h : multiplierInvariant t) : multiplierInvariant t.stop := by
  unfold LoopTrack.stop
  dsimp only
  by_cases hrec : t.currentState = State.Recording
  · simp only [hrec, if_true]
    split <;> exact mi_of_eq t _ rfl h
  · simp only [hrec, if_false]
    split
    · exact mi_of_eq t _ rfl h
    · exact h

theorem mi_saveUndo (t : LoopTrack) (h : multiplierInvariant t) :
    multiplierInvariant t.saveUndo := by
  obtain ⟨ub, ul, hu, e⟩ := saveUndo_frame t
  rw [e]
  exact mi_of_eq t _ rfl h

theorem mi_performUndo (t : LoopTrack) (h : multiplierInvariant t) :
    multiplierInvariant t.performUndo := by
  unfold LoopTrack.performUndo
  split
  · have key : multiplierInvariant
        (if t.currentState = State.Recording ∨ t.currentState = State.Overdubbing
          then t.setPlaying else t) := by
      split
      · exact mi_setPlaying t h
      · exact h
    exact mi_of_eq _ _ rfl key
  · exact h

theorem mi_setRecording (t : LoopTrack) (h : multiplierInvariant t) :
    multiplierInvariant t.setRecording := by
  unfold LoopTrack.setRecording
  split
  · exact mi_of_eq t _ rfl h
  · exact h

theorem mi_setOverdubbing (t : LoopTrack) (h : multiplierInvariant t) :
    multiplierInvariant t.setOverdubbing := by
  unfold LoopTrack.setOverdubbing
  split
  · dsimp only
    split
    · exact mi_of_eq _ _ rfl (mi_saveUndo t h)
    · exact mi_of_eq t _ rfl h
  · exact h

theorem mi_multiplyLoop (t : LoopTrack) (h : multiplierInvariant t) :
    multiplierInvariant t.multiplyLoop := by
  unfold LoopTrack.multiplyLoop
  split
  · unfold multiplierInvariant at h ⊢
    show 1 / 64 ≤ min 64 (t.targetMultiplier * 2) ∧ min 64 (t.targetMultiplier * 2) ≤ 64
    refine ⟨le_min (by norm_num) (by linarith [h.1]), min_le_left _ _⟩
  · split
    · exact h
    · exact mi_of_eq _ _ rfl (mi_saveUndo t h)

theorem mi_divideLoop (t : LoopTrack) (h : multiplierInvariant t) :
    multiplierInvariant t.divideLoop := by
  unfold LoopTrack.divideLoop
  split
  · unfold multiplierInvariant at h ⊢
    show 1 / 64 ≤ max (1 / 64) (t.targetMultiplier / 2) ∧
      max (1 / 64) (t.targetMultiplier / 2) ≤ 64
    refine ⟨le_max_left _ _, max_le (by norm_num) (by linarith [h.2])⟩
  · split
    · exact h
    · exact mi_of_eq _ _ rfl (mi_saveUndo t h)

theorem mi_setLoopFromMix (t : LoopTrack) (mixed : AudioBuffer) (length off start : Int)
    (h : multiplierInvariant t) :
    multiplierInvariant (t.setLoopFromMix mixed length off start) := by
  unfold LoopTrack.setLoopFromMix
  split
  · exact h
  · exact mi_of_eq _ _ rfl (mi_saveUndo t h)

theorem mi_overdubFromBuffer (t : LoopTrack) (input : AudioBuffer) (len start : Int)
    (h : multiplierInvariant t) :
    multiplierInvariant (t.overdubFromBuffer input len start) := by
  unfold LoopTrack.overdubFromBuffer
  split
  · exact h
  · exact mi_of_eq _ _ rfl (mi_saveUndo t h)

theorem mi_applyFxReplace (t : LoopTrack) (h : multiplierInvariant t) :
    multiplierInvariant t.applyFxReplace := by
  unfold LoopTrack.applyFxReplace
  split
  · exact h
  · split
    · exact h
    · exact mi_of_eq _ _ rfl (mi_saveUndo t h)

theorem mi_beginProgressiveReplace (t : LoopTrack) (source : Option AudioBuffer)
    (length off start : Int) (h : multiplierInvariant t) :
    multiplierInvariant (t.beginProgressiveReplace source length off start) := by
  unfold LoopTrack.beginProgressiveReplace
  cases source with
  | none => exact h
  | some src =>
    dsimp only
    split
    · exact h
    · exact mi_of_eq _ _ rfl (mi_saveUndo t h)

theorem mi_processBlock (t : LoopTrack) (out inp sc : AudioBuffer) (g L : Int) (im solo : Bool)
    (h : multiplierInvariant t) :
    multiplierInvariant (t.processBlock out inp sc g im L solo).1 := by
  cases hs : t.currentState with
  | Empty => rw [processBlock_idle t out inp sc g L im solo (Or.inl hs)]; exact h
  | Stopped => rw [processBlock_idle t out inp sc g L im solo (Or.inr hs)]; exact h
  | Playing =>
    obtain ⟨lb, r, b, w, e⟩ := processBlock_playing_frame t out inp sc g L im solo hs
    rw [e]
    exact mi_of_eq t _ rfl h
  | Overdubbing =>
    obtain ⟨lb, r, b, w, e⟩ := processBlock_overdub_frame t out inp sc g L im solo hs
    rw [e]
    exact mi_of_eq t _ rfl h
  | Recording =>
    by_cases hprom : im = false ∧ slaveTargetLen L t.targetMultiplier ≤ t.recordedSamplesCurrent
    · obtain ⟨him, hge⟩ := hprom
      subst him
      obtain ⟨hst, -, e⟩ := processBlock_promote_eq_setPlaying t out inp sc g L solo hs hge
      rw [e]
      obtain ⟨lb, r, b, w, e2⟩ := processBlock_playing_frame _ out inp sc g L false solo hst
      rw [e2]
      exact mi_of_eq _ _ rfl (mi_setPlaying _ (mi_of_eq t _ rfl h))
    · have hno : im = true ∨ t.recordedSamplesCurrent < slaveTargetLen L t.targetMultiplier := by
        cases im
        · right
          have : ¬ slaveTargetLen L t.targetMultiplier ≤ t.recordedSamplesCurrent := by
            intro hh; exact hprom ⟨rfl, hh⟩
          omega
        · left; rfl
      have hbp : multiplierInvariant (LoopTrack.blockPositions t State.Recording g im L).track := by
        cases im
        · rw [blockPositions_slave_recording]
          apply mi_of_eq t _ _ h
          show (if _ then _ else t).targetMultiplier = _
          split <;> rfl
        · rw [blockPositions_master_recording]
          exact h
      obtain ⟨lb, r, h1, -, -⟩ := replaceStage_frame
        (LoopTrack.blockPositions t State.Recording g im L).track
        (LoopTrack.blockPositions t State.Recording g im L).readPos out.numSamples
      rw [processBlock_recording_eq t out inp sc g L im solo hs hno, h1]
      have hcases : multiplierInvariant (LoopTrack.handleRecording
          { (LoopTrack.blockPositions t State.Recording g im L).track with
            loopBuffer := lb, mReplace := r } inp out.numSamples
          (LoopTrack.blockPositions t State.Recording g im L).writePos) := by
        unfold LoopTrack.handleRecording
        split
        · exact mi_setPlaying _ (mi_of_eq _ _ rfl hbp)
        · exact mi_of_eq _ _ rfl hbp
      split <;> exact hcases

/-- In every reachable state of a track the stored multiplier lies between 1/64 and 64. -/
theorem reachable_multiplierInvariant (im : Bool) (t : LoopTrack) (h : Reachable im t) :
    multiplierInvariant t := by
  induction h with
  | constructed => exact mi_of_one _ rfl
  | prepareToPlay sr _ _ => exact mi_of_one _ rfl
  | processBlock out inp sc g L solo _ ih => exact mi_processBlock _ out inp sc g L im solo ih
  | clear _ _ => exact mi_of_one _ rfl
  | setRecording _ ih => exact mi_setRecording _ ih
  | setOverdubbing _ ih => exact mi_setOverdubbing _ ih
  | setPlaying _ ih => exact mi_setPlaying _ ih
  | stop _ ih => exact mi_stop _ ih
  | setVolume v _ ih => exact mi_of_eq _ _ rfl ih
  | setMuted b _ ih => exact mi_of_eq _ _ rfl ih
  | setSolo b _ ih => exact mi_of_eq _ _ rfl ih
  | setTargetMultiplier m _ _ => exact clampMultiplier_mem m
  | applyFxReplace _ ih => exact mi_applyFxReplace _ ih
  | setLoopFromMix mixed len off start _ ih => exact mi_setLoopFromMix _ _ _ _ _ ih
  | overdubFromBuffer input len start _ ih => exact mi_overdubFromBuffer _ _ _ _ ih
  | multiplyLoop _ ih => exact mi_multiplyLoop _ ih
  | divideLoop _ ih => exact mi_divideLoop _ ih
  | performUndo _ ih => exact mi_performUndo _ ih
  | beginProgressiveReplace source len off start _ ih =>
    exact mi_beginProgressiveReplace _ _ _ _ _ ih
  | processReplaceChunk p n _ ih =>
    obtain ⟨lb, r, e⟩ := LoopTrack.processReplaceChunk_frame _ p n
    rw [e]
    exact mi_of_eq _ _ rfl ih

/-! ## Reachable example states -/

theorem demoArmedSlave_reachable (im : Bool) (m : ℚ) : Reachable im (demoArmedSlave m) :=
  Reachable.setRecording (Reachable.setTargetMultiplier m (Reachable.prepareToPlay 48000 Reachable.constructed))

theorem demoArmedSlave_fields (m : ℚ) :
    (demoArmedSlave m).currentState = State.Recording ∧
    (demoArmedSlave m).recordedSamplesCurrent = 0 ∧
    (demoArmedSlave m).loopLengthSamples = 0 ∧
    (demoArmedSlave m).targetMultiplier = clampMultiplier m ∧
    (demoArmedSlave m).loopBuffer.numSamples = 14400000 := by
  refine ⟨rfl, rfl, rfl, rfl, ?_⟩
  show truncToInt ((48000 : ℚ) * 300) = 14400000
  exact truncToInt_capacity

theorem reachable_runBlocks (im : Bool) :
    ∀ (blocks : List BlockArgs) (t : LoopTrack),
      Reachable im t → Reachable im (runBlocks im t blocks) := by
  intro blocks
  induction blocks with
  | nil => intro t h; exact h
  | cons a rest ih =>
    intro t h
    rw [runBlocks_cons]
    exact ih _ (Reachable.processBlock _ _ _ _ _ _ h)

/-- Slave recording blocks that each start below the target length and fit the buffer leave
the track Recording and advance the recorded-sample counter by the block size. -/
theorem runBlocks_slave_recording (n L : Int) (hn : 0 ≤ n) :
    ∀ (blocks : List BlockArgs) (t : LoopTrack),
      (∀ b ∈ blocks, b.outputBuffer.numSamples = n ∧ b.masterLoopLength = L) →
      t.currentState = State.Recording →
      t.recordedSamplesCurrent + ((blocks.length : Int) - 1) * n
        < slaveTargetLen L t.targetMultiplier →
      t.recordedSamplesCurrent + (blocks.length : Int) * n < t.loopBuffer.numSamples →
      (runBlocks false t blocks).currentState = State.Recording ∧
      (runBlocks false t blocks).recordedSamplesCurrent
        = t.recordedSamplesCurrent + (blocks.length : Int) * n ∧
      (runBlocks false t blocks).targetMultiplier = t.targetMultiplier ∧
      (runBlocks false t blocks).loopBuffer.numSamples = t.loopBuffer.numSamples := by
  intro blocks
  induction blocks with
  | nil =>
    intro t _ hrec _ _
    refine ⟨hrec, ?_, rfl, rfl⟩
    show t.recordedSamplesCurrent = t.recordedSamplesCurrent + ((0 : Nat) : Int) * n
    simp
  | cons a rest ih =>
    intro t hb hrec hlt hroom
    obtain ⟨ha, haL⟩ := hb a (List.mem_cons_self _ _)
    have hlen : (((a :: rest).length : Nat) : Int) = (rest.length : Int) + 1 := by
      simp
    rw [hlen] at hlt hroom ⊢
    have hnn : 0 ≤ (rest.length : Int) * n := mul_nonneg (by omega) hn
    obtain ⟨s1, -, s3, -, s5, s6⟩ := processBlock_slave_continue t a.outputBuffer a.inputBuffer
      a.sidechainBuffer a.globalTotalSamples L a.anySoloActive hrec (by nlinarith)
      (by rw [ha]; nlinarith)
    rw [runBlocks_cons, haL]
    obtain ⟨r1, r2, r3, r4⟩ := ih _ (fun b hb2 => hb b (List.mem_cons_of_mem _ hb2)) s1
      (by rw [s3, s5, ha]; nlinarith) (by rw [s3, s6, ha]; nlinarith)
    refine ⟨r1, ?_, r3.trans s5, r4.trans s6⟩
    rw [r2, s3, ha]; ring

theorem demoSlaveBlocks_spec (k : Nat) (L : Int) :
    ((demoSlaveBlocks k L).length : Int) = (k : Int) ∧
    ∀ b ∈ demoSlaveBlocks k L, b.outputBuffer.numSamples = 480 ∧ b.masterLoopLength = L := by
  constructor
  · unfold demoSlaveBlocks
    rw [List.length_map, List.length_range]
  · intro b hb
    unfold demoSlaveBlocks at hb
    rw [List.mem_map] at hb
    obtain ⟨j, -, rfl⟩ := hb
    exact ⟨rfl, rfl⟩

theorem demoSlaveAfter_reachable (m : ℚ) (k : Nat) (L : Int) :
    Reachable false (demoSlaveAfter m k L) :=
  reachable_runBlocks false _ _ (demoArmedSlave_reachable false m)

/-- The armed slave is still Recording after `k` blocks of 480 samples as long as the last
of them starts below the target length; its counter is then `480 * k`. -/
theorem demoSlaveAfter_fields (m : ℚ) (k : Nat) (L : Int)
    (hlt : ((k : Int) - 1) * 480 < slaveTargetLen L (clampMultiplier m))
    (hcap : (k : Int) * 480 < 14400000) :
    (demoSlaveAfter m k L).currentState = State.Recording ∧
    (demoSlaveAfter m k L).recordedSamplesCurrent = (k : Int) * 480 ∧
    (demoSlaveAfter m k L).targetMultiplier = clampMultiplier m ∧
    (demoSlaveAfter m k L).loopBuffer.numSamples = 14400000 := by
  obtain ⟨f1, f2, -, f4, f5⟩ := demoArmedSlave_fields m
  obtain ⟨b1, b2⟩ := demoSlaveBlocks_spec k L
  obtain ⟨r1, r2, r3, r4⟩ := runBlocks_slave_recording 480 L (by norm_num)
    (demoSlaveBlocks k L) (demoArmedSlave m) b2 f1
    (by rw [f2, f4, b1]; omega) (by rw [f2, f5, b1]; omega)
  refine ⟨r1, ?_, r3.trans f4, r4.trans f5⟩
  show (runBlocks false (demoArmedSlave m) (demoSlaveBlocks k L)).recordedSamplesCurrent = _
  rw [r2, f2, b1]; omega

theorem demo_target_half_clamped : slaveTargetLen 48000 (clampMultiplier (1 / 2)) = 24000 := by
  rw [clampMultiplier_of_mem _ (by norm_num) (by norm_num)]
  exact demo_target_half

/-! ## Slave promotion and target length on reachable tracks -/

/-- C1 (amended). For every reachable slave track in Recording with master length `L` and
multiplier `m`: the `processBlock` call whose recording brings the linear recorded-sample
counter from below the target length to the target length or beyond (with room left in the
buffer) returns with the track still Recording, and the next `processBlock` call returns with
the track Playing and `loopLength` equal to the target length. The promotion happens in the
call after the one in which the counter reaches the target, not in that call. -/
theorem slave_promoted_on_next_block (t : LoopTrack) (out1 inp1 sc1 out2 inp2 sc2 : AudioBuffer)
    (g1 g2 L : Int) (solo1 solo2 : Bool)
    (hreachable : Reachable false t)
    (hrec : t.currentState = State.Recording)
    (hlt : t.recordedSamplesCurrent < slaveTargetLen L t.targetMultiplier)
    (hreach : slaveTargetLen L t.targetMultiplier ≤ t.recordedSamplesCurrent + out1.numSamples)
    (hroom : t.recordedSamplesCurrent + out1.numSamples < t.loopBuffer.numSamples) :
    (t.processBlock out1 inp1 sc1 g1 false L solo1).1.currentState = State.Recording ∧
    (t.processBlock out1 inp1 sc1 g1 false L solo1).1.recordedSamplesCurrent
      = t.recordedSamplesCurrent + out1.numSamples ∧
    (LoopTrack.processBlock (t.processBlock out1 inp1 sc1 g1 false L solo1).1
      out2 inp2 sc2 g2 false L solo2).1.currentState = State.Playing ∧
    (LoopTrack.processBlock (t.processBlock out1 inp1 sc1 g1 false L solo1).1
      out2 inp2 sc2 g2 false L solo2).1.loopLengthSamples
      = slaveTargetLen L t.targetMultiplier :=
  slave_promotion_two_blocks t out1 inp1 sc1 out2 inp2 sc2 g1 g2 L solo1 solo2 hrec
    (reachable_slaveRecordingInvariant t hreachable hrec) hlt hreach hroom

/-- Witness for `slave_promoted_on_next_block`: a slave prepared at 48 kHz with multiplier 1/2
and master length 48000 has recorded 49 blocks of 480 samples (counter 23520, target 24000);
the 50th block returns Recording with the counter at 24000 and the 51st returns Playing with
`loopLength = 24000`. -/
theorem slave_promoted_on_next_block_witness :
    Reachable false (demoSlaveAfter (1 / 2) 49 48000) ∧
    (demoSlaveAfter (1 / 2) 49 48000).currentState = State.Recording ∧
    (demoSlaveAfter (1 / 2) 49 48000).recordedSamplesCurrent = 23520 ∧
    slaveTargetLen 48000 (demoSlaveAfter (1 / 2) 49 48000).targetMultiplier = 24000 ∧
    ((demoSlaveAfter (1 / 2) 49 48000).processBlock (silentBlock 480) (silentBlock 480)
      (silentBlock 480) 119520 false 48000 false).1.currentState = State.Recording ∧
    ((demoSlaveAfter (1 / 2) 49 48000).processBlock (silentBlock 480) (silentBlock 480)
      (silentBlock 480) 119520 false 48000 false).1.recordedSamplesCurrent = 24000 ∧
    (LoopTrack.processBlock
      ((demoSlaveAfter (1 / 2) 49 48000).processBlock (silentBlock 480) (silentBlock 480)
        (silentBlock 480) 119520 false 48000 false).1
      (silentBlock 480) (silentBlock 480) (silentBlock 480) 120000 false 48000 false).1.currentState
        = State.Playing ∧
    (LoopTrack.processBlock
      ((demoSlaveAfter (1 / 2) 49 48000).processBlock (silentBlock 480) (silentBlock 480)
        (silentBlock 480) 119520 false 48000 false).1
      (silentBlock 480) (silentBlock 480) (silentBlock 480) 120000 false 48000
        false).1.loopLengthSamples = 24000 := by
  obtain ⟨f1, f2, f3, f4⟩ := demoSlaveAfter_fields (1 / 2) 49 48000
    (by rw [demo_target_half_clamped]; decide) (by decide)
  have ht : slaveTargetLen 48000 (demoSlaveAfter (1 / 2) 49 48000).targetMultiplier = 24000 := by
    rw [f3]; exact demo_target_half_clamped
  have f2n : (demoSlaveAfter (1 / 2) 49 48000).recordedSamplesCurrent = 23520 := by
    rw [f2]; decide
  have hn : (silentBlock 480).numSamples = 480 := rfl
  obtain ⟨c1, c2, c3, c4⟩ := slave_promoted_on_next_block (demoSlaveAfter (1 / 2) 49 48000)
    (silentBlock 480) (silentBlock 480) (silentBlock 480)
    (silentBlock 480) (silentBlock 480) (silentBlock 480) 119520 120000 48000 false false
    (demoSlaveAfter_reachable (1 / 2) 49 48000) f1
    (by rw [ht, f2n]; decide) (by rw [ht, f2n, hn]; decide) (by rw [f2n, f4, hn]; decide)
  refine ⟨demoSlaveAfter_reachable (1 / 2) 49 48000, f1, f2n, ht, c1, ?_, c3, ?_⟩
  · rw [c2, f2n, hn]; decide
  · rw [c4, ht]

/-- C1 (as stated) fails: a slave prepared at 48 kHz with multiplier 1/2 records against a
master of 48000 samples in blocks of 480 samples. After 49 calls its counter is 23520, below
the target 24000; the 50th call brings the counter to 24000, and when that call returns the
track is still Recording, not Playing. -/
theorem slave_still_recording_when_target_reached :
    slaveTargetLen 48000 (demoArmedSlave (1 / 2)).targetMultiplier = 24000 ∧
    (demoSlaveAfter (1 / 2) 49 48000).recordedSamplesCurrent = 23520 ∧
    (demoSlaveAfter (1 / 2) 50 48000).recordedSamplesCurrent = 24000 ∧
    (demoSlaveAfter (1 / 2) 50 48000).currentState = State.Recording ∧
    (demoSlaveAfter (1 / 2) 50 48000).currentState ≠ State.Playing := by
  obtain ⟨f1, f2, -, -⟩ := demoSlaveAfter_fields (1 / 2) 49 48000
    (by rw [demo_target_half_clamped]; decide) (by decide)
  obtain ⟨e1, e2, -, -⟩ := demoSlaveAfter_fields (1 / 2) 50 48000
    (by rw [demo_target_half_clamped]; decide) (by decide)
  refine ⟨?_, ?_, ?_, e1, ?_⟩
  · rw [(demoArmedSlave_fields (1 / 2)).2.2.2.1]; exact demo_target_half_clamped
  · rw [f2]; decide
  · rw [e2]; decide
  · rw [e1]; decide

theorem performUndo_of_no_undo (t : LoopTrack)
    (h : ¬ (t.hasUndo = true ∧ t.undoLoopLengthSamples > 0)) : t.performUndo = t := by
  unfold LoopTrack.performUndo
  rw [if_neg h]

/-- C3. For every reachable track that is Playing or Stopped, two successive `performUndo`
calls with nothing in between restore the loop buffer, `loopLength`, the undo buffer and the
undo length (indeed the whole track state) to what they were before the first call; this
covers every track with a saved undo state (without one both calls change nothing). -/
theorem undo_twice_restores (im : Bool) (t : LoopTrack) (hreachable : Reachable im t)
    (hst : t.currentState = State.Playing ∨ t.currentState = State.Stopped) :
    t.performUndo.performUndo.loopBuffer = t.loopBuffer ∧
    t.performUndo.performUndo.loopLengthSamples = t.loopLengthSamples ∧
    t.performUndo.performUndo.undoBuffer = t.undoBuffer ∧
    t.performUndo.performUndo.undoLoopLengthSamples = t.undoLoopLengthSamples ∧
    t.performUndo.performUndo = t := by
  by_cases hg : t.hasUndo = true ∧ t.undoLoopLengthSamples > 0
  · have hlen : 0 < t.loopLengthSamples := by
      apply reachable_loopInvariant im t hreachable
      rcases hst with h | h
      · exact Or.inl h
      · exact Or.inr (Or.inr h)
    exact undo_twice_of_loop t hst hlen hg.1 hg.2
  · rw [performUndo_of_no_undo t hg, performUndo_of_no_undo t hg]
    exact ⟨rfl, rfl, rfl, rfl, rfl⟩

theorem demoUndoTrack_fields :
    demoUndoTrack.currentState = State.Playing ∧
    demoUndoTrack.hasUndo = true ∧
    demoUndoTrack.undoLoopLengthSamples = 4 ∧
    demoUndoTrack.loopLengthSamples = 4 ∧
    demoUndoTrack.loopBuffer.data 0 0 = 2 ∧
    demoUndoTrack.undoBuffer.data 0 0 = 1 ∧
    demoUndoTrack.loopBuffer.numChannels = 2 := by
  unfold demoUndoTrack demoSeededTrack
  rw [prepared_48000]
  simp [LoopTrack.setLoopFromMix, LoopTrack.saveUndo, preparedTrack, LoopTrack.fresh,
    AudioBuffer.allocate, AudioBuffer.clear, AudioBuffer.copyFrom, patternBuffer, forCh,
    List.range_succ]

theorem demoUndoTrack_reachable (im : Bool) : Reachable im demoUndoTrack :=
  Reachable.setLoopFromMix _ _ _ _ (Reachable.setLoopFromMix _ _ _ _ (Reachable.prepareToPlay 48000 Reachable.constructed))

/-- Witness for `undo_twice_restores`: a track into which two loops were installed in turn
(first all ones, then all twos) holds the twos in the loop buffer and the ones in the undo
buffer; one `performUndo` brings the ones back, a second one restores the track. -/
theorem undo_twice_restores_witness :
    Reachable true demoUndoTrack ∧
    demoUndoTrack.currentState = State.Playing ∧
    demoUndoTrack.hasUndo = true ∧
    demoUndoTrack.loopBuffer.data 0 0 = 2 ∧
    demoUndoTrack.performUndo.loopBuffer.data 0 0 = 1 ∧
    demoUndoTrack.performUndo.performUndo.loopBuffer.data 0 0 = 2 ∧
    demoUndoTrack.performUndo.performUndo = demoUndoTrack := by
  obtain ⟨f1, f2, f3, f4, f5, f6, f7⟩ := demoUndoTrack_fields
  have h := undo_twice_restores true demoUndoTrack (demoUndoTrack_reachable true) (Or.inl f1)
  refine ⟨demoUndoTrack_reachable true, f1, f2, f5, ?_, ?_, h.2.2.2.2⟩
  · rw [performUndo_eq demoUndoTrack (Or.inl f1) f2 (by rw [f3]; decide)]
    show (forCh _ (swapChannel _) (_, _)).1.data 0 0 = 1
    rw [(swapChannels_spec _ _ _ _).2.2.2.2.1, f3, f4, f7, if_pos (by decide), f6]
  · rw [h.1, f5]

/-- C9. For every reachable track (master or slave): a `setPlaying` call or a `processBlock`
call that takes a Recording track to Playing leaves `loopLength > 0`; a track that is Playing
or Overdubbing has `loopLength > 0`; and in every `processBlock` call on it, with global
sample count `g >= 0` and any block size, the start position lies in `[0, loopLength)`, the
handlers run with that position and `loopLength` as the wrap length, and every chunk index
at which playback, overdub or sidechain capture touches the loop-side buffers lies in
`[0, loopLength)`; the chunks together cover the whole block. -/
theorem positions_stay_inside_loop (im : Bool) (t : LoopTrack) (out inp sc : AudioBuffer)
    (g L : Int) (solo : Bool) (hreachable : Reachable im t)
    (hst : t.currentState = State.Playing ∨ t.currentState = State.Overdubbing)
    (hg : 0 ≤ g) :
    0 < t.loopLengthSamples ∧
    (∀ u : LoopTrack, u.currentState = State.Recording →
      u.setPlaying.currentState = State.Playing → 0 < u.setPlaying.loopLengthSamples) ∧
    (∀ (u : LoopTrack) (o i s : AudioBuffer) (g2 L2 : Int) (m b : Bool),
      u.currentState = State.Recording →
      (u.processBlock o i s g2 m L2 b).1.currentState = State.Playing →
      0 < (u.processBlock o i s g2 m L2 b).1.loopLengthSamples) ∧
    (LoopTrack.blockPositions t t.currentState g im L).currentLoopLength
      = t.loopLengthSamples ∧
    0 ≤ (LoopTrack.blockPositions t t.currentState g im L).readPos ∧
    (LoopTrack.blockPositions t t.currentState g im L).readPos < t.loopLengthSamples ∧
    (∃ (u : LoopTrack) (silent : Bool), u.loopLengthSamples = t.loopLengthSamples ∧
      (t.currentState = State.Playing →
        t.processBlock out inp sc g im L solo =
          (u.captureSidechain sc out.numSamples
              (LoopTrack.blockPositions t t.currentState g im L).readPos
              (LoopTrack.blockPositions t t.currentState g im L).currentLoopLength,
            LoopTrack.handlePlayback
              (u.captureSidechain sc out.numSamples
                (LoopTrack.blockPositions t t.currentState g im L).readPos
                (LoopTrack.blockPositions t t.currentState g im L).currentLoopLength)
              out out.numSamples
              (LoopTrack.blockPositions t t.currentState g im L).readPos
              (LoopTrack.blockPositions t t.currentState g im L).currentLoopLength silent)) ∧
      (t.currentState = State.Overdubbing →
        t.processBlock out inp sc g im L solo =
          LoopTrack.handleOverdub
            (u.captureSidechain sc out.numSamples
              (LoopTrack.blockPositions t t.currentState g im L).readPos
              (LoopTrack.blockPositions t t.currentState g im L).currentLoopLength)
            out inp out.numSamples
            (LoopTrack.blockPositions t t.currentState g im L).readPos
            (LoopTrack.blockPositions t t.currentState g im L).currentLoopLength silent)) ∧
    ((wrapChunks out.numSamples.toNat out.numSamples 0
        (LoopTrack.blockPositions t t.currentState g im L).readPos
        (LoopTrack.blockPositions t t.currentState g im L).currentLoopLength).map
      (fun c => c.2.2)).sum = max out.numSamples 0 ∧
    (∀ c ∈ wrapChunks out.numSamples.toNat out.numSamples 0
        (LoopTrack.blockPositions t t.currentState g im L).readPos
        (LoopTrack.blockPositions t t.currentState g im L).currentLoopLength,
      ∀ i : Int, c.2.1 ≤ i → i < c.2.1 + c.2.2 → 0 ≤ i ∧ i < t.loopLengthSamples) := by
  have hlen : 0 < t.loopLengthSamples := by
    apply reachable_loopInvariant im t hreachable
    rcases hst with h | h
    · exact Or.inl h
    · exact Or.inr (Or.inl h)
  exact ⟨hlen, positions_inside_of_loop t out inp sc g L im solo hst hlen hg⟩

/-- Witness for `positions_stay_inside_loop`: a slave holding an 8-sample loop anchored at
global sample 5 starts the block at global sample 16 at position 3, inside `[0, 8)`. -/
theorem positions_stay_inside_loop_witness :
    Reachable false (demoSeededTrack (patternBuffer 8 (fun _ => 1)) 8 5) ∧
    (demoSeededTrack (patternBuffer 8 (fun _ => 1)) 8 5).currentState = State.Playing ∧
    (demoSeededTrack (patternBuffer 8 (fun _ => 1)) 8 5).loopLengthSamples = 8 ∧
    (LoopTrack.blockPositions (demoSeededTrack (patternBuffer 8 (fun _ => 1)) 8 5)
      State.Playing 16 false 8).readPos = 3 ∧
    0 ≤ (LoopTrack.blockPositions (demoSeededTrack (patternBuffer 8 (fun _ => 1)) 8 5)
      State.Playing 16 false 8).readPos ∧
    (LoopTrack.blockPositions (demoSeededTrack (patternBuffer 8 (fun _ => 1)) 8 5)
      State.Playing 16 false 8).readPos < 8 := by
  obtain ⟨f1, f2, f3⟩ := demoSeededTrack_fields (patternBuffer 8 (fun _ => 1)) 8 5
    (by decide) (by decide)
  have hr : Reachable false (demoSeededTrack (patternBuffer 8 (fun _ => 1)) 8 5) :=
    Reachable.setLoopFromMix _ _ _ _ (Reachable.prepareToPlay 48000 Reachable.constructed)
  obtain ⟨-, -, -, -, c1, c2, -⟩ := positions_stay_inside_loop false
    (demoSeededTrack (patternBuffer 8 (fun _ => 1)) 8 5)
    (silentBlock 4) (silentBlock 4) (silentBlock 4) 16 8 false hr (Or.inl f1)
    (by decide)
  rw [f1] at c1 c2
  rw [f2] at c2
  refine ⟨hr, f1, f2, ?_, c1, c2⟩
  rw [LoopTrack.blockPositions_slave_loop _ State.Playing 16 8 (by decide) (by rw [f2]; decide),
    f2, f3]
  decide

/-! ## A slave whose target length exceeds the buffer -/

theorem forCh_copyFrom_zero (n : Nat) (w num : Int) (inp lb : AudioBuffer)
    (hz : ∀ c i, lb.data c i = 0) (hin : ∀ c i, inp.data c i = 0) :
    ∀ c i, (forCh n (fun ch acc => acc.copyFrom ch w inp ch 0 num) lb).data c i = 0 := by
  apply forCh_preserves (fun b : AudioBuffer => ∀ c i, b.data c i = 0)
  · exact hz
  · intro ch a ha c i
    rw [AudioBuffer.copyFrom_data]
    split
    · exact hin _ _
    · exact ha _ _

theorem crossfadeStep_zero (loopLength fade : Int) (d : Int → ℚ) (k : Nat)
    (hd : ∀ i, d i = 0) : ∀ i, crossfadeStep loopLength fade d k i = 0 := by
  intro i
  unfold crossfadeStep
  simp only [Function.update_apply, hd, zero_mul, add_zero, ite_self]

theorem applyCrossfade_zero (b : AudioBuffer) (loopLength fade : Int)
    (hz : ∀ c i, b.data c i = 0) : ∀ c i, (applyCrossfade b loopLength fade).data c i = 0 := by
  intro c i
  unfold applyCrossfade
  split
  · exact hz c i
  · show (if c < b.numChannels then _ else b.data c) i = 0
    split
    · exact foldl_preserves (fun d : Int → ℚ => ∀ i, d i = 0) _ _ _ (hz c)
        (fun d k hd => crossfadeStep_zero _ _ d k hd) i
    · exact hz c i

/-- A slave recording block with silent input, below the target and with room in the buffer,
leaves a silent loop buffer silent and starts no replace. -/
theorem processBlock_slave_continue_silent (t : LoopTrack) (out inp sc : AudioBuffer)
    (g L : Int) (solo : Bool) (hrec : t.currentState = State.Recording)
    (hlt : t.recordedSamplesCurrent < slaveTargetLen L t.targetMultiplier)
    (hroom : t.recordedSamplesCurrent + out.numSamples < t.loopBuffer.numSamples)
    (hact : t.mReplace.active = false) (hz : ∀ c i, t.loopBuffer.data c i = 0)
    (hin : ∀ c i, inp.data c i = 0) :
    (t.processBlock out inp sc g false L solo).1.mReplace.active = false ∧
    ∀ c i, (t.processBlock out inp sc g false L solo).1.loopBuffer.data c i = 0 := by
  rw [processBlock_recording_eq t out inp sc g L false solo hrec (Or.inr hlt),
    blockPositions_slave_recording]
  simp only [Bool.false_eq_true, if_false]
  have hU : ∃ U : LoopTrack, U =
      { (if t.recordedSamplesCurrent = 0 ∧ L > 0 then
          { t with recordingStartOffset := g.tmod L, recordingStartGlobalSample := g }
         else t) with
        loopLengthSamples := slaveTargetLen L t.targetMultiplier } := ⟨_, rfl⟩
  obtain ⟨U, hUdef⟩ := hU
  have hUa : U.mReplace.active = false := by
    rw [hUdef]
    show (if _ then _ else t).mReplace.active = false
    split <;> exact hact
  have hUb : U.loopBuffer = t.loopBuffer := by
    rw [hUdef]
    show (if _ then _ else t).loopBuffer = _
    split <;> rfl
  rw [← hUdef]
  have hna : ¬ (if t.recordedSamplesCurrent = 0 ∧ L > 0 then
      ({ t with recordingStartOffset := g.tmod L, recordingStartGlobalSample := g } : LoopTrack)
      else t).mReplace.active = true := by
    split <;> simp [hact]
  rw [if_neg hna]
  unfold LoopTrack.handleRecording
  have hn : ¬ t.recordedSamplesCurrent + out.numSamples ≥ U.loopBuffer.numSamples := by
    rw [hUb]; omega
  rw [if_neg hn]
  refine ⟨hUa, ?_⟩
  intro c i
  show (forCh _ (fun ch acc => acc.copyFrom ch t.recordedSamplesCurrent inp ch 0 out.numSamples)
    U.loopBuffer).data c i = 0
  exact forCh_copyFrom_zero _ _ _ _ _ (by rw [hUb]; exact hz) hin c i

/-- A slave recording block that starts below the target length with no room left in the
buffer ends the recording: `handleRecording` calls `setPlaying`, which keeps the target
length as the loop length, whether or not it fits the buffer. -/
theorem processBlock_slave_overflow (t : LoopTrack) (out inp sc : AudioBuffer)
    (g L : Int) (solo : Bool) (hrec : t.currentState = State.Recording)
    (hpp : t.playbackPosition = 0)
    (hlt : t.recordedSamplesCurrent < slaveTargetLen L t.targetMultiplier)
    (hfull : t.loopBuffer.numSamples ≤ t.recordedSamplesCurrent + out.numSamples)
    (hact : t.mReplace.active = false) (hz : ∀ c i, t.loopBuffer.data c i = 0) :
    (t.processBlock out inp sc g false L solo).1.currentState = State.Playing ∧
    (t.processBlock out inp sc g false L solo).1.loopLengthSamples
      = slaveTargetLen L t.targetMultiplier ∧
    (t.processBlock out inp sc g false L solo).1.loopBuffer.numSamples
      = t.loopBuffer.numSamples ∧
    ∀ c i, (t.processBlock out inp sc g false L solo).1.loopBuffer.data c i = 0 := by
  have hpos := slaveTargetLen_pos L t.targetMultiplier
  rw [processBlock_recording_eq t out inp sc g L false solo hrec (Or.inr hlt),
    blockPositions_slave_recording]
  simp only [Bool.false_eq_true, if_false]
  have hU : ∃ U : LoopTrack, U =
      { (if t.recordedSamplesCurrent = 0 ∧ L > 0 then
          { t with recordingStartOffset := g.tmod L, recordingStartGlobalSample := g }
         else t) with
        loopLengthSamples := slaveTargetLen L t.targetMultiplier } := ⟨_, rfl⟩
  obtain ⟨U, hUdef⟩ := hU
  have hUa : U.mReplace.active = false := by
    rw [hUdef]
    show (if _ then _ else t).mReplace.active = false
    split <;> exact hact
  have hUb : U.loopBuffer = t.loopBuffer := by
    rw [hUdef]
    show (if _ then _ else t).loopBuffer = _
    split <;> rfl
  have hUs : U.currentState = State.Recording := by
    rw [hUdef]
    show (if _ then _ else t).currentState = _
    split <;> exact hrec
  have hUp : U.playbackPosition ≤ 0 := by
    rw [hUdef]
    show LoopTrack.playbackPosition (if _ then _ else t) ≤ (0 : Int)
    split <;> exact le_of_eq hpp
  have hUl : U.loopLengthSamples = slaveTargetLen L t.targetMultiplier := by
    rw [hUdef]
  rw [← hUdef]
  have hna : ¬ (if t.recordedSamplesCurrent = 0 ∧ L > 0 then
      ({ t with recordingStartOffset := g.tmod L, recordingStartGlobalSample := g } : LoopTrack)
      else t).mReplace.active = true := by
    split <;> simp [hact]
  rw [if_neg hna]
  unfold LoopTrack.handleRecording
  have hn : t.recordedSamplesCurrent + out.numSamples ≥ U.loopBuffer.numSamples := by
    rw [hUb]; omega
  rw [if_pos hn, setPlaying_recording_of_pos U hUs hUp (by rw [hUl]; omega)]
  refine ⟨rfl, hUl, ?_, ?_⟩
  · show (applyCrossfade U.loopBuffer U.loopLengthSamples 128).numSamples = _
    rw [← hUb]
    unfold applyCrossfade
    split <;> rfl
  · intro c i
    show (applyCrossfade U.loopBuffer U.loopLengthSamples 128).data c i = 0
    exact applyCrossfade_zero _ _ _ (by rw [hUb]; exact hz) c i

/-- Silent slave recording blocks that each start below the target length and fit the buffer
leave a silent loop buffer silent. -/
theorem runBlocks_slave_recording_silent (n L : Int) (hn : 0 ≤ n) :
    ∀ (blocks : List BlockArgs) (t : LoopTrack),
      (∀ b ∈ blocks, b.outputBuffer.numSamples = n ∧ b.masterLoopLength = L) →
      (∀ b ∈ blocks, ∀ c i, b.inputBuffer.data c i = 0) →
      t.currentState = State.Recording →
      t.recordedSamplesCurrent + ((blocks.length : Int) - 1) * n
        < slaveTargetLen L t.targetMultiplier →
      t.recordedSamplesCurrent + (blocks.length : Int) * n < t.loopBuffer.numSamples →
      t.mReplace.active = false → (∀ c i, t.loopBuffer.data c i = 0) →
      (runBlocks false t blocks).mReplace.active = false ∧
      ∀ c i, (runBlocks false t blocks).loopBuffer.data c i = 0 := by
  intro blocks
  induction blocks with
  | nil =>
    intro t _ _ _ _ _ hact hz
    exact ⟨hact, hz⟩
  | cons a rest ih =>
    intro t hb hsil hrec hlt hroom hact hz
    obtain ⟨ha, haL⟩ := hb a (List.mem_cons_self _ _)
    have hlen : (((a :: rest).length : Nat) : Int) = (rest.length : Int) + 1 := by
      simp
    rw [hlen] at hlt hroom
    have hnn : 0 ≤ (rest.length : Int) * n := mul_nonneg (by omega) hn
    obtain ⟨s1, -, s3, -, s5, s6⟩ := processBlock_slave_continue t a.outputBuffer a.inputBuffer
      a.sidechainBuffer a.globalTotalSamples L a.anySoloActive hrec (by nlinarith)
      (by rw [ha]; nlinarith)
    obtain ⟨z1, z2⟩ := processBlock_slave_continue_silent t a.outputBuffer a.inputBuffer
      a.sidechainBuffer a.globalTotalSamples L a.anySoloActive hrec (by nlinarith)
      (by rw [ha]; nlinarith) hact hz (hsil a (List.mem_cons_self _ _))
    rw [runBlocks_cons, haL]
    exact ih _ (fun b hb2 => hb b (List.mem_cons_of_mem _ hb2))
      (fun b hb2 => hsil b (List.mem_cons_of_mem _ hb2)) s1
      (by rw [s3, s5, ha]; nlinarith) (by rw [s3, s6, ha]; nlinarith) z1 z2

theorem demo_target_overflow : slaveTargetLen 480000 (clampMultiplier 64) = 30720000 := by
  rw [clampMultiplier_of_mem _ (by norm_num) (by norm_num),
    slaveTargetLen_eq_floor _ _ (by norm_num) (by norm_num) (by norm_num) 1875 14
      (by norm_num) (by norm_num) (by norm_num)]
  have h : ⌊((480000 : Int) : ℚ) * 64⌋ = 30720000 := by
    rw [Int.floor_eq_iff]; constructor <;> norm_num
  rw [h]; rfl

theorem demoSlaveAfter_succ (m : ℚ) (k : Nat) (L : Int) :
    demoSlaveAfter m (k + 1) L =
      ((demoSlaveAfter m k L).processBlock (silentBlock 480) (silentBlock 480) (silentBlock 480)
        (2 * L + 480 * (k : Int)) false L false).1 := by
  unfold demoSlaveAfter demoSlaveBlocks
  rw [List.range_succ]
  simp only [List.map_append, List.map_cons, List.map_nil, runBlocks, List.foldl_append,
    List.foldl_cons, List.foldl_nil]
  rfl

theorem demoSlaveBlocks_silent (k : Nat) (L : Int) :
    ∀ b ∈ demoSlaveBlocks k L, ∀ (c : Nat) (i : Int), b.inputBuffer.data c i = 0 := by
  intro b hb
  unfold demoSlaveBlocks at hb
  rw [List.mem_map] at hb
  obtain ⟨j, -, rfl⟩ := hb
  intro c i
  rfl

theorem demoArmedSlave_silent (m : ℚ) :
    (demoArmedSlave m).mReplace.active = false ∧
    ∀ (c : Nat) (i : Int), (demoArmedSlave m).loopBuffer.data c i = 0 := by
  refine ⟨rfl, ?_⟩
  intro c i
  show (AudioBuffer.clear (AudioBuffer.allocate 2 _)).data c i = 0
  unfold AudioBuffer.clear AudioBuffer.allocate
  simp

theorem demoSlaveAfter_silent (m : ℚ) (k : Nat) (L : Int)
    (hlt : ((k : Int) - 1) * 480 < slaveTargetLen L (clampMultiplier m))
    (hcap : (k : Int) * 480 < 14400000) :
    (demoSlaveAfter m k L).mReplace.active = false ∧
    ∀ (c : Nat) (i : Int), (demoSlaveAfter m k L).loopBuffer.data c i = 0 := by
  obtain ⟨a1, a2, -, a4, a5⟩ := demoArmedSlave_fields m
  obtain ⟨z1, z2⟩ := demoArmedSlave_silent m
  obtain ⟨b1, b2⟩ := demoSlaveBlocks_spec k L
  exact runBlocks_slave_recording_silent 480 L (by norm_num)
    (demoSlaveBlocks k L) (demoArmedSlave m) b2 (demoSlaveBlocks_silent k L)
    a1 (by rw [a2, a4, b1]; omega) (by rw [a2, a5, b1]; omega) z1 z2

/-- The slave armed with multiplier 64 against a master of 480000 samples fills its buffer
in 30000 blocks of 480 samples and is then Playing with the target length 30720000 as its
loop length, above the buffer capacity 14400000. -/
theorem demoOverflowSlave_fields :
    (demoSlaveAfter 64 30000 480000).currentState = State.Playing ∧
    (demoSlaveAfter 64 30000 480000).loopLengthSamples = 30720000 ∧
    (demoSlaveAfter 64 30000 480000).loopBuffer.numSamples = 14400000 ∧
    ∀ (c : Nat) (i : Int), (demoSlaveAfter 64 30000 480000).loopBuffer.data c i = 0 := by
  obtain ⟨f1, f2, f3, f4⟩ := demoSlaveAfter_fields 64 29999 480000
    (by rw [demo_target_overflow]; norm_num) (by norm_num)
  obtain ⟨s1, s2⟩ := demoSlaveAfter_silent 64 29999 480000
    (by rw [demo_target_overflow]; norm_num) (by norm_num)
  have hn : (silentBlock 480).numSamples = 480 := rfl
  have ht : slaveTargetLen 480000 (demoSlaveAfter 64 29999 480000).targetMultiplier
      = 30720000 := by
    rw [f3]; exact demo_target_overflow
  obtain ⟨c1, c2, c3, c4⟩ := processBlock_slave_overflow (demoSlaveAfter 64 29999 480000)
    (silentBlock 480) (silentBlock 480) (silentBlock 480)
    (2 * 480000 + 480 * ((29999 : Nat) : Int)) 480000 false f1
    (reachable_slaveRecordingInvariant _ (demoSlaveAfter_reachable 64 29999 480000) f1)
    (by rw [ht, f2]; norm_num) (by rw [f4, f2, hn]; norm_num) s1 s2
  rw [show (30000 : Nat) = 29999 + 1 from rfl, demoSlaveAfter_succ]
  exact ⟨c1, c2.trans ht, c3.trans f4, c4⟩

theorem demoBounceMaster_fields :
    (demoSeededTrack (patternBuffer 480000 (fun _ => 1)) 480000 0).loopLengthSamples = 480000 ∧
    (demoSeededTrack (patternBuffer 480000 (fun _ => 1)) 480000 0).recordingStartGlobalSample
      = 0 ∧
    (demoSeededTrack (patternBuffer 480000 (fun _ => 1)) 480000 0).loopBuffer.data 0 1000 = 1 := by
  obtain ⟨-, f2, f3⟩ := demoSeededTrack_fields (patternBuffer 480000 (fun _ => 1)) 480000 0
    (by norm_num) (by norm_num)
  refine ⟨f2, f3, ?_⟩
  unfold demoSeededTrack
  rw [prepared_48000]
  simp [LoopTrack.setLoopFromMix, LoopTrack.saveUndo, preparedTrack, LoopTrack.fresh,
    AudioBuffer.allocate, AudioBuffer.clear, AudioBuffer.copyFrom, patternBuffer, forCh,
    List.range_succ]

theorem bounceLength_pair (L : Int) (a b : LoopTrack) (ha : 0 < a.loopLengthSamples)
    (hb : 0 < b.loopLengthSamples) :
    bounceLength L [a, b] = max (max L a.loopLengthSamples) b.loopLengthSamples := by
  unfold bounceLength
  simp only [List.foldl_cons, List.foldl_nil, LoopTrack.hasLoop, gt_iff_lt, ha, hb,
    decide_True, if_true]

theorem filter_hasLoop_pair (a b : LoopTrack) (ha : 0 < a.loopLengthSamples)
    (hb : 0 < b.loopLengthSamples) :
    [a, b].filter (fun t => t.hasLoop) = [a, b] := by
  simp [List.filter, LoopTrack.hasLoop, ha, hb]

theorem demoBounceOverflow_tracks :
    demoBounceOverflow.mTracks =
      [demoSeededTrack (patternBuffer 480000 (fun _ => 1)) 480000 0,
        demoSlaveAfter 64 30000 480000] :=
  rfl

theorem demoBounceOverflow_length :
    bounceLength demoBounceOverflow.mPrimaryLoopLengthSamples demoBounceOverflow.mTracks
      = 30720000 := by
  obtain ⟨m1, -, -⟩ := demoBounceMaster_fields
  obtain ⟨-, s2, -, -⟩ := demoOverflowSlave_fields
  have hL : demoBounceOverflow.mPrimaryLoopLengthSamples = 480000 := rfl
  rw [demoBounceOverflow_tracks, hL,
    bounceLength_pair _ _ _ (by rw [m1]; decide) (by rw [s2]; decide), m1, s2]
  decide

/-- C7 (as stated) fails. A session at 48 kHz whose master holds a 480000-sample loop of
ones and whose slave, recorded with multiplier 64 until its buffer was full, carries the loop
length 30720000 (both tracks reached through the public operations): the master length is
positive, the longest loop 30720000 does not fit the 14400000-sample work buffer, so
`performBounceBack` returns without mixing. Work sample 1000 of channel 0 (outside the
crossfaded head and tail) is still 0, while the sum of the tracks' loop samples at their
phase offsets is 1. -/
theorem bounce_skipped_when_longest_loop_too_long :
    Reachable true (demoSeededTrack (patternBuffer 480000 (fun _ => 1)) 480000 0) ∧
    Reachable false (demoSlaveAfter 64 30000 480000) ∧
    0 < demoBounceOverflow.mPrimaryLoopLengthSamples ∧
    demoBounceOverflow.mWorkBuffer.numSamples = 14400000 ∧
    bounceLength demoBounceOverflow.mPrimaryLoopLengthSamples demoBounceOverflow.mTracks
      = 30720000 ∧
    min 128 (bounceLength demoBounceOverflow.mPrimaryLoopLengthSamples
      demoBounceOverflow.mTracks / 2) ≤ 1000 ∧
    (1000 : Int) < bounceLength demoBounceOverflow.mPrimaryLoopLengthSamples
        demoBounceOverflow.mTracks
      - min 128 (bounceLength demoBounceOverflow.mPrimaryLoopLengthSamples
        demoBounceOverflow.mTracks / 2) ∧
    demoBounceOverflow.performBounceBack = demoBounceOverflow ∧
    demoBounceOverflow.performBounceBack.mWorkBuffer.data 0 1000 = 0 ∧
    ((demoBounceOverflow.mTracks.filter (fun t => t.hasLoop)).map (fun t =>
        t.loopBuffer.data 0
          (((- t.recordingStartGlobalSample) % t.loopLengthSamples + 1000)
            % t.loopLengthSamples))).sum = 1 ∧
    demoBounceOverflow.performBounceBack.mWorkBuffer.data 0 1000 ≠
      ((demoBounceOverflow.mTracks.filter (fun t => t.hasLoop)).map (fun t =>
        t.loopBuffer.data 0
          (((- t.recordingStartGlobalSample) % t.loopLengthSamples + 1000)
            % t.loopLengthSamples))).sum := by
  have hlen := demoBounceOverflow_length
  obtain ⟨m1, m2, m3⟩ := demoBounceMaster_fields
  obtain ⟨-, s2, -, s4⟩ := demoOverflowSlave_fields
  have hskip : demoBounceOverflow.performBounceBack = demoBounceOverflow := by
    have h1 : ¬ demoBounceOverflow.mPrimaryLoopLengthSamples ≤ 0 := by decide
    have h2 : bounceLength demoBounceOverflow.mPrimaryLoopLengthSamples
        demoBounceOverflow.mTracks > demoBounceOverflow.mWorkBuffer.numSamples := by
      rw [hlen]; decide
    unfold Session.performBounceBack
    simp only [h1, h2, if_false, if_true]
  have hwork : demoBounceOverflow.performBounceBack.mWorkBuffer.data 0 1000 = 0 := by
    rw [hskip]; rfl
  have hsum : ((demoBounceOverflow.mTracks.filter (fun t => t.hasLoop)).map (fun t =>
        t.loopBuffer.data 0
          (((- t.recordingStartGlobalSample) % t.loopLengthSamples + 1000)
            % t.loopLengthSamples))).sum = 1 := by
    rw [demoBounceOverflow_tracks,
      filter_hasLoop_pair _ _ (by rw [m1]; decide) (by rw [s2]; decide)]
    simp only [List.map_cons, List.map_nil, List.sum_cons, List.sum_nil, s4, m1, m2]
    have hidx : ((-0 : Int) % 480000 + 1000) % 480000 = 1000 := by decide
    rw [hidx, m3]
    norm_num
  refine ⟨Reachable.setLoopFromMix _ _ _ _ (Reachable.prepareToPlay 48000 Reachable.constructed),
    demoSlaveAfter_reachable 64 30000 480000, by decide, rfl, hlen,
    by rw [hlen]; decide, by rw [hlen]; decide, hskip, hwork, hsum, ?_⟩
  rw [hwork, hsum]
  norm_num

/-! ## Multiply then divide on example loops -/

/-- Witness for `multiply_then_divide_restores_length`: a 1000-sample loop in a track
prepared at 48 kHz. -/
theorem multiply_then_divide_restores_length_witness :
    Reachable true demoLoop1000 ∧
    256 ≤ demoLoop1000.loopLengthSamples ∧
    demoLoop1000.loopLengthSamples * 2 ≤ demoLoop1000.loopBuffer.numSamples ∧
    demoLoop1000.multiplyLoop.divideLoop.loopLengthSamples = 1000 := by
  obtain ⟨-, f2, -⟩ := demoSeededTrack_fields (patternBuffer 1000 (fun _ => 1)) 1000 0
    (by decide) (by decide)
  have hlen : demoLoop1000.loopLengthSamples = 1000 := f2
  have hcap : demoLoop1000.loopBuffer.numSamples = 14400000 :=
    demoSeededTrack_capacity _ _ _
  have h := multiply_then_divide_restores_length demoLoop1000 (by rw [hlen]; decide)
    (by rw [hlen, hcap]; decide)
  exact ⟨demoSeededTrack_reachable true _ _ _, by rw [hlen]; decide,
    by rw [hlen, hcap]; decide, h.trans hlen⟩

/-- C5 (as stated) fails: on a reachable Playing track with a 100-sample loop (capacity
14400000) `multiplyLoop` doubles the length to 200 and the following `divideLoop` refuses
(200 / 2 is below the 256-sample floor): the length ends at 200, not 100. -/
theorem multiply_then_divide_short_loop :
    Reachable true demoShortLoop ∧
    demoShortLoop.loopLengthSamples = 100 ∧
    demoShortLoop.multiplyLoop.loopLengthSamples = 200 ∧
    demoShortLoop.multiplyLoop.divideLoop.loopLengthSamples = 200 ∧
    demoShortLoop.multiplyLoop.divideLoop.loopLengthSamples ≠ demoShortLoop.loopLengthSamples := by
  obtain ⟨-, f2, -⟩ := demoSeededTrack_fields (patternBuffer 100 (fun _ => 1)) 100 0
    (by decide) (by decide)
  have hlen : demoShortLoop.loopLengthSamples = 100 := f2
  have hcap : demoShortLoop.loopBuffer.numSamples = 14400000 :=
    demoSeededTrack_capacity _ _ _
  have hm : demoShortLoop.multiplyLoop.loopLengthSamples = 200 := by
    rw [multiplyLoop_loopLength demoShortLoop (by rw [hlen]; decide), hlen, hcap]; decide
  have h2 : demoShortLoop.multiplyLoop.divideLoop.loopLengthSamples = 200 := by
    rw [multiply_divide_loopLength demoShortLoop (by rw [hlen]; decide), hlen, hcap]; decide
  refine ⟨demoSeededTrack_reachable true _ _ _, hlen, hm, h2, ?_⟩
  rw [h2, hlen]; decide

/-! ## The play trigger during a slave recording -/

theorem crossfade_fold_far (len f : Int) (j : Int) (hfl : f ≤ len)
    (hj : j < 0 ∨ len ≤ j) :
    ∀ (m : Nat) (d : Int → ℚ), (m : Int) ≤ f →
      ((List.range m).foldl (crossfadeStep len f) d) j = d j := by
  intro m
  induction m with
  | zero => intro d _; rfl
  | succ k ih =>
    intro d hk
    rw [List.range_succ, List.foldl_append, List.foldl_cons, List.foldl_nil]
    unfold crossfadeStep
    dsimp only
    have h1 : j ≠ len - f + (k : Int) := by push_cast at hk; omega
    have h2 : j ≠ (k : Int) := by push_cast at hk; omega
    rw [Function.update_noteq h1, Function.update_noteq h2]
    exact ih d (by push_cast at hk; omega)

/-- The crossfade touches no sample below index 0 or at or beyond the loop length. -/
theorem applyCrossfade_outside_loop (b : AudioBuffer) (len fs : Int) (c : Nat) (j : Int)
    (hj : j < 0 ∨ len ≤ j) : (applyCrossfade b len fs).data c j = b.data c j := by
  unfold applyCrossfade
  split
  · rfl
  · rename_i hg
    dsimp only
    split
    · have hfs : 0 < fs := by omega
      have hlen : 0 < len := by omega
      have hd : 0 ≤ len.tdiv 2 ∧ len.tdiv 2 ≤ len := by
        rw [Int.tdiv_eq_ediv (by omega) (by omega)]; omega
      have hf : 0 ≤ min fs (len.tdiv 2) := le_min (by omega) hd.1
      have hfl : min fs (len.tdiv 2) ≤ len := le_trans (min_le_right _ _) hd.2
      exact crossfade_fold_far len (min fs (len.tdiv 2)) j hfl hj _ _
        (by rw [Int.toNat_of_nonneg hf])
    · rfl

theorem applyCrossfade_numSamples (b : AudioBuffer) (len fs : Int) :
    (applyCrossfade b len fs).numSamples = b.numSamples := by
  unfold applyCrossfade
  split <;> rfl

theorem setPlaying_recording_of_linear (t : LoopTrack)
    (hrec : t.currentState = State.Recording) (hpp : 0 < t.playbackPosition) :
    t.setPlaying = { t with
      loopLengthSamples := t.playbackPosition
      playbackPosition := 0
      loopBuffer := applyCrossfade t.loopBuffer t.playbackPosition 128
      currentState := State.Playing } := by
  unfold LoopTrack.setPlaying
  simp only [hrec, gt_iff_lt, hpp, if_true]

/-- A Recording block with no replace in flight starts none. -/
theorem processBlock_recording_inactive (t : LoopTrack) (out inp sc : AudioBuffer) (g L : Int)
    (im solo : Bool) (hrec : t.currentState = State.Recording)
    (hno : im = true ∨ t.recordedSamplesCurrent < slaveTargetLen L t.targetMultiplier)
    (hact : t.mReplace.active = false) :
    (t.processBlock out inp sc g im L solo).1.mReplace.active = false := by
  have hbp : (LoopTrack.blockPositions t State.Recording g im L).track.mReplace.active
      = false := by
    cases im
    · rw [blockPositions_slave_recording]
      show (if _ then _ else t).mReplace.active = false
      split <;> exact hact
    · rw [blockPositions_master_recording]
      exact hact
  have hna : ¬ (LoopTrack.blockPositions t State.Recording g im L).track.mReplace.active
      = true := by rw [hbp]; decide
  rw [processBlock_recording_eq t out inp sc g L im solo hrec hno, if_neg hna]
  have hh : (LoopTrack.handleRecording (LoopTrack.blockPositions t State.Recording g im L).track
      inp out.numSamples
      (LoopTrack.blockPositions t State.Recording g im L).writePos).mReplace.active = false := by
    unfold LoopTrack.handleRecording
    split
    · obtain ⟨a1, a2, a3, a4, e⟩ := setPlaying_frame
        (LoopTrack.blockPositions t State.Recording g im L).track
      rw [e]
      exact hbp
    · exact hbp
  split <;> exact hh

/-- A master recording block that finds no room in the buffer ends the recording at the
linear position reached: no input is copied, the boundary crossfade is the only write. -/
theorem processBlock_master_overflow (t : LoopTrack) (out inp sc : AudioBuffer)
    (g L : Int) (solo : Bool) (hrec : t.currentState = State.Recording)
    (hpp : 0 < t.playbackPosition)
    (hfull : t.loopBuffer.numSamples ≤ t.playbackPosition + out.numSamples)
    (hact : t.mReplace.active = false) :
    (t.processBlock out inp sc g true L solo).1 =
      { t with
        loopLengthSamples := t.playbackPosition
        playbackPosition := 0 + out.numSamples
        loopBuffer := applyCrossfade t.loopBuffer t.playbackPosition 128
        currentState := State.Playing } := by
  rw [processBlock_recording_eq t out inp sc g L true solo hrec (Or.inl rfl),
    blockPositions_master_recording]
  simp only [if_true]
  have hna : ¬ t.mReplace.active = true := by rw [hact]; decide
  rw [if_neg hna]
  unfold LoopTrack.handleRecording
  have hn : t.playbackPosition + out.numSamples ≥ t.loopBuffer.numSamples := by omega
  rw [if_pos hn, setPlaying_recording_of_linear t hrec hpp]

/-- A slave recording block that starts below the target length and finds no room in the
buffer ends the recording with the target length as loop length: no input is copied, the
boundary crossfade is the only write. -/
theorem processBlock_slave_overflow_eq (t : LoopTrack) (out inp sc : AudioBuffer)
    (g L : Int) (solo : Bool) (hrec : t.currentState = State.Recording)
    (hpp : t.playbackPosition = 0)
    (hlt : t.recordedSamplesCurrent < slaveTargetLen L t.targetMultiplier)
    (hfull : t.loopBuffer.numSamples ≤ t.recordedSamplesCurrent + out.numSamples)
    (hact : t.mReplace.active = false) :
    (t.processBlock out inp sc g false L solo).1.currentState = State.Playing ∧
    (t.processBlock out inp sc g false L solo).1.loopLengthSamples
      = slaveTargetLen L t.targetMultiplier ∧
    (t.processBlock out inp sc g false L solo).1.loopBuffer
      = applyCrossfade t.loopBuffer (slaveTargetLen L t.targetMultiplier) 128 := by
  have hpos := slaveTargetLen_pos L t.targetMultiplier
  rw [processBlock_recording_eq t out inp sc g L false solo hrec (Or.inr hlt),
    blockPositions_slave_recording]
  simp only [Bool.false_eq_true, if_false]
  have hU : ∃ U : LoopTrack, U =
      { (if t.recordedSamplesCurrent = 0 ∧ L > 0 then
          { t with recordingStartOffset := g.tmod L, recordingStartGlobalSample := g }
         else t) with
        loopLengthSamples := slaveTargetLen L t.targetMultiplier } := ⟨_, rfl⟩
  obtain ⟨U, hUdef⟩ := hU
  have hUb : U.loopBuffer = t.loopBuffer := by
    rw [hUdef]
    show (if _ then _ else t).loopBuffer = _
    split <;> rfl
  have hUs : U.currentState = State.Recording := by
    rw [hUdef]
    show (if _ then _ else t).currentState = _
    split <;> exact hrec
  have hUp : U.playbackPosition ≤ 0 := by
    rw [hUdef]
    show LoopTrack.playbackPosition (if _ then _ else t) ≤ (0 : Int)
    split <;> exact le_of_eq hpp
  have hUl : U.loopLengthSamples = slaveTargetLen L t.targetMultiplier := by
    rw [hUdef]
  have hna : ¬ (if t.recordedSamplesCurrent = 0 ∧ L > 0 then
      ({ t with recordingStartOffset := g.tmod L, recordingStartGlobalSample := g } : LoopTrack)
      else t).mReplace.active = true := by
    split <;> simp [hact]
  rw [← hUdef, if_neg hna]
  unfold LoopTrack.handleRecording
  have hn : t.recordedSamplesCurrent + out.numSamples ≥ U.loopBuffer.numSamples := by
    rw [hUb]; omega
  rw [if_pos hn, setPlaying_recording_of_pos U hUs hUp (by rw [hUl]; omega)]
  refine ⟨rfl, hUl, ?_⟩
  show applyCrossfade U.loopBuffer U.loopLengthSamples 128 = _
  rw [hUb, hUl]

theorem runBlocks_master_recording_frame (n : Int) (hn : 0 ≤ n) :
    ∀ (blocks : List BlockArgs) (t : LoopTrack),
      (∀ b ∈ blocks, b.outputBuffer.numSamples = n) →
      t.currentState = State.Recording →
      t.playbackPosition + (blocks.length : Int) * n < t.loopBuffer.numSamples →
      t.mReplace.active = false →
      (runBlocks true t blocks).loopBuffer.numSamples = t.loopBuffer.numSamples ∧
      (runBlocks true t blocks).mReplace.active = false := by
  intro blocks
  induction blocks with
  | nil => intro t _ _ _ hact; exact ⟨rfl, hact⟩
  | cons a rest ih =>
    intro t hb hrec hroom hact
    have ha : a.outputBuffer.numSamples = n := hb a (List.mem_cons_self _ _)
    have hlen : (((a :: rest).length : Nat) : Int) = (rest.length : Int) + 1 := by
      simp
    rw [hlen] at hroom
    have hnn : 0 ≤ (rest.length : Int) * n := mul_nonneg (by omega) hn
    obtain ⟨s1, s2, s3⟩ := processBlock_master_continue t a.outputBuffer a.inputBuffer
      a.sidechainBuffer a.globalTotalSamples a.masterLoopLength a.anySoloActive hrec
      (by rw [ha]; nlinarith)
    have s4 := processBlock_recording_inactive t a.outputBuffer a.inputBuffer
      a.sidechainBuffer a.globalTotalSamples a.masterLoopLength true a.anySoloActive hrec
      (Or.inl rfl) hact
    rw [runBlocks_cons]
    obtain ⟨r1, r2⟩ := ih _ (fun b hb2 => hb b (List.mem_cons_of_mem _ hb2)) s1
      (by rw [s2, s3, ha]; nlinarith) s4
    exact ⟨r1.trans s3, r2⟩

theorem demoMasterAfter_reachable (k : Nat) : Reachable true (demoMasterAfter k) :=
  reachable_runBlocks true _ _
    (Reachable.setRecording (Reachable.prepareToPlay 48000 Reachable.constructed))

/-- The armed master is still Recording after `k` blocks of 480 samples that stay below the
capacity; its linear position is then `480 * k`. -/
theorem demoMasterAfter_fields (k : Nat) (hcap : (k : Int) * 480 < 14400000) :
    (demoMasterAfter k).currentState = State.Recording ∧
    (demoMasterAfter k).playbackPosition = (k : Int) * 480 ∧
    (demoMasterAfter k).loopBuffer.numSamples = 14400000 ∧
    (demoMasterAfter k).mReplace.active = false := by
  have a1 : demoArmedMaster.currentState = State.Recording := rfl
  have a2 : demoArmedMaster.playbackPosition = 0 := rfl
  have a3 : demoArmedMaster.loopBuffer.numSamples = 14400000 := by
    show truncToInt ((48000 : ℚ) * 300) = 14400000
    exact truncToInt_capacity
  have a4 : demoArmedMaster.mReplace.active = false := rfl
  have hb : ∀ b ∈ List.replicate k (silentArgs 480 0 0), b.outputBuffer.numSamples = 480 := by
    intro b hb
    rw [List.eq_of_mem_replicate hb]
    rfl
  have hl : ((List.replicate k (silentArgs 480 0 0)).length : Int) = (k : Int) := by
    rw [List.length_replicate]
  obtain ⟨r1, r2⟩ := runBlocks_master_recording 480 (by norm_num)
    (List.replicate k (silentArgs 480 0 0)) demoArmedMaster hb a1 (by rw [a2, a3, hl]; omega)
  obtain ⟨r3, r4⟩ := runBlocks_master_recording_frame 480 (by norm_num)
    (List.replicate k (silentArgs 480 0 0)) demoArmedMaster hb a1 (by rw [a2, a3, hl]; omega) a4
  refine ⟨r1, ?_, r3.trans a3, r4⟩
  show (runBlocks true demoArmedMaster (List.replicate k (silentArgs 480 0 0))).playbackPosition
    = _
  rw [r2, a2, hl]; omega

theorem demo_target_full : slaveTargetLen 14399900 (clampMultiplier 1) = 14399900 := by
  rw [clampMultiplier_of_mem _ (by norm_num) (by norm_num),
    slaveTargetLen_eq_floor _ _ (by norm_num) (by norm_num) (by norm_num) 14399900 0
      (by norm_num) (by norm_num) (by norm_num)]
  have h : ⌊((14399900 : Int) : ℚ) * 1⌋ = 14399900 := by
    rw [Int.floor_eq_iff]; constructor <;> norm_num
  rw [h]; rfl

/-- C12 (behaviour at the failing input). A slave prepared at 48 kHz (buffer capacity
14400000 samples) and armed with multiplier 64 records one block of 480 samples against a
master of 480000 samples: the block stores the target length 30720000 as `loopLength`, which
is neither 0 nor at most the capacity. When the buffer is full, 30000 blocks later, the track
is Playing with that same `loopLength`. -/
theorem slave_target_exceeds_capacity :
    Reachable false (demoSlaveAfter 64 1 480000) ∧
    (demoSlaveAfter 64 1 480000).currentState = State.Recording ∧
    (demoSlaveAfter 64 1 480000).loopBuffer.numSamples = 14400000 ∧
    (demoSlaveAfter 64 1 480000).loopLengthSamples = 30720000 ∧
    ¬ ((demoSlaveAfter 64 1 480000).loopLengthSamples = 0 ∨
      (0 < (demoSlaveAfter 64 1 480000).loopLengthSamples ∧
        (demoSlaveAfter 64 1 480000).loopLengthSamples
          ≤ (demoSlaveAfter 64 1 480000).loopBuffer.numSamples)) ∧
    Reachable false (demoSlaveAfter 64 30000 480000) ∧
    (demoSlaveAfter 64 30000 480000).currentState = State.Playing ∧
    (demoSlaveAfter 64 30000 480000).loopBuffer.numSamples = 14400000 ∧
    (demoSlaveAfter 64 30000 480000).loopLengthSamples = 30720000 := by
  obtain ⟨f1, f2, f3, f4⟩ := demoSlaveAfter_fields 64 0 480000
    (by rw [demo_target_overflow]; norm_num) (by norm_num)
  obtain ⟨e1, -, -, e4⟩ := demoSlaveAfter_fields 64 1 480000
    (by rw [demo_target_overflow]; norm_num) (by norm_num)
  have ht : slaveTargetLen 480000 (demoSlaveAfter 64 0 480000).targetMultiplier
      = 30720000 := by
    rw [f3]; exact demo_target_overflow
  have hn : (silentBlock 480).numSamples = 480 := rfl
  obtain ⟨-, s2, -, -, -, -⟩ := processBlock_slave_continue (demoSlaveAfter 64 0 480000)
    (silentBlock 480) (silentBlock 480) (silentBlock 480)
    (2 * 480000 + 480 * ((0 : Nat) : Int)) 480000 false f1
    (by rw [ht, f2]; norm_num) (by rw [f2, f4, hn]; norm_num)
  have hlen : (demoSlaveAfter 64 1 480000).loopLengthSamples = 30720000 := by
    rw [show (1 : Nat) = 0 + 1 from rfl, demoSlaveAfter_succ, s2, ht]
  obtain ⟨o1, o2, o3, -⟩ := demoOverflowSlave_fields
  refine ⟨demoSlaveAfter_reachable 64 1 480000, e1, e4, hlen, ?_,
    demoSlaveAfter_reachable 64 30000 480000, o1, o3, o2⟩
  rw [hlen, e4]
  norm_num

theorem blockPositions_slave_recording_writePos (t : LoopTrack) (g L : Int) :
    (LoopTrack.blockPositions t State.Recording g false L).writePos
      = t.recordedSamplesCurrent := by
  rw [blockPositions_slave_recording]

theorem crossfade_fold_off (len f : Int) (j : Int) :
    ∀ (m : Nat) (d : Int → ℚ),
      (∀ k : Nat, k < m → j ≠ (k : Int) ∧ j ≠ len - f + (k : Int)) →
      ((List.range m).foldl (crossfadeStep len f) d) j = d j := by
  intro m
  induction m with
  | zero => intro d _; rfl
  | succ k ih =>
    intro d hk
    rw [List.range_succ, List.foldl_append, List.foldl_cons, List.foldl_nil]
    unfold crossfadeStep
    dsimp only
    obtain ⟨h2, h1⟩ := hk k (Nat.lt_succ_self k)
    rw [Function.update_noteq h1, Function.update_noteq h2]
    exact ih d (fun i hi => hk i (Nat.lt_succ_of_lt hi))

theorem mem_crossfadeIndices (len fs j : Int) :
    j ∈ crossfadeIndices len fs ↔
      ¬ (len ≤ 0 ∨ fs ≤ 0) ∧ ∃ k : Nat, k < (min fs (len.tdiv 2)).toNat ∧
        (j = (k : Int) ∨ j = len - min fs (len.tdiv 2) + (k : Int)) := by
  unfold crossfadeIndices
  split
  · rename_i h
    simp [h]
  · rename_i h
    simp only [List.mem_flatMap, List.mem_range, List.mem_cons, List.mem_singleton,
      List.not_mem_nil, or_false, h, not_false_eq_true, true_and]

/-- Every index the crossfade accesses lies inside the loop. -/
theorem crossfadeIndices_bounds (len fs j : Int) (hj : j ∈ crossfadeIndices len fs) :
    0 ≤ j ∧ j < len := by
  rw [mem_crossfadeIndices] at hj
  obtain ⟨hg, k, hk, hjk⟩ := hj
  have hlen : 0 < len := by omega
  have hfs : 0 < fs := by omega
  have hd : 0 ≤ len.tdiv 2 ∧ len.tdiv 2 * 2 ≤ len := by
    rw [Int.tdiv_eq_ediv (by omega) (by omega)]; omega
  have hf : 0 ≤ min fs (len.tdiv 2) := le_min (by omega) hd.1
  have hfl : min fs (len.tdiv 2) ≤ len.tdiv 2 := min_le_right _ _
  have hk2 : (k : Int) < min fs (len.tdiv 2) := by
    rw [← Int.toNat_of_nonneg hf]; exact_mod_cast hk
  rcases hjk with e | e <;> rw [e] <;> omega

/-- The crossfade changes no sample of a channel the buffer does not have and no sample at an
index its loop does not access. -/
theorem applyCrossfade_off_indices (b : AudioBuffer) (len fs : Int) (c : Nat) (j : Int)
    (hj : b.numChannels ≤ c ∨ j ∉ crossfadeIndices len fs) :
    (applyCrossfade b len fs).data c j = b.data c j := by
  unfold applyCrossfade
  split
  · rfl
  · rename_i hg
    dsimp only
    split
    · rename_i hc
      have hno : j ∉ crossfadeIndices len fs := by
        rcases hj with h | h
        · omega
        · exact h
      rw [mem_crossfadeIndices] at hno
      apply crossfade_fold_off
      intro k hk
      constructor
      · intro e
        exact hno ⟨hg, k, hk, Or.inl e⟩
      · intro e
        exact hno ⟨hg, k, hk, Or.inr e⟩
    · rfl

/-- A crossfade over a loop that fits the buffer is an overflow finish. -/
theorem overflowFinish_applyCrossfade (b : AudioBuffer) (len : Int)
    (hcap : len ≤ b.numSamples) : overflowFinish b (applyCrossfade b len 128) len := by
  refine ⟨rfl, applyCrossfade_numSamples b len 128, ?_, ?_, ?_, ?_⟩
  · unfold applyCrossfade
    split <;> rfl
  · intro j hj
    have h := crossfadeIndices_bounds len 128 j hj
    exact ⟨h.1, h.2, lt_of_lt_of_le h.2 hcap⟩
  · intro c i hi
    rcases hi with h | h | h
    · exact applyCrossfade_off_indices b len 128 c i (Or.inl h)
    · exact applyCrossfade_outside_loop b len 128 c i (Or.inl h)
    · exact applyCrossfade_outside_loop b len 128 c i (Or.inr (le_trans hcap h))
  · intro c i hi
    exact applyCrossfade_off_indices b len 128 c i (Or.inr hi)

/-- C13 (amended). For every reachable Recording track with no progressive replace in flight
whose next block would reach or pass the buffer capacity (write position + block size >=
capacity): on the master with linear position `p`, `0 < p <= capacity`, `processBlock` leaves
the track Playing with `loopLength = p`, the number of samples accumulated; on a slave still
below its target length, with target length at most the capacity, `processBlock` leaves the
track Playing with `loopLength` equal to the target length (not the accumulated count). In
both cases, with `len` the new loop length: the capacity and the channel count are kept, the
loop buffer after the call is the old one with the boundary crossfade over `len` applied (no
input is copied), every sample index the crossfade accesses lies in `[0, len)`, inside the
buffer, and no sample outside the buffer (channel at or beyond the channel count, index below
0 or at or beyond the capacity) and no sample at an index the crossfade does not access is
changed. -/
theorem recording_overflow_ends_recording (im : Bool) (t : LoopTrack)
    (out inp sc : AudioBuffer) (g L : Int) (solo : Bool)
    (hreachable : Reachable im t) (hrec : t.currentState = State.Recording)
    (hact : t.mReplace.active = false)
    (hfull : t.loopBuffer.numSamples
      ≤ (if im = true then t.playbackPosition else t.recordedSamplesCurrent) + out.numSamples) :
    (LoopTrack.blockPositions t State.Recording g im L).writePos
      = (if im = true then t.playbackPosition else t.recordedSamplesCurrent) ∧
    (im = true → 0 < t.playbackPosition → t.playbackPosition ≤ t.loopBuffer.numSamples →
      (t.processBlock out inp sc g im L solo).1.currentState = State.Playing ∧
      (t.processBlock out inp sc g im L solo).1.loopLengthSamples = t.playbackPosition ∧
      overflowFinish t.loopBuffer (t.processBlock out inp sc g im L solo).1.loopBuffer
        t.playbackPosition) ∧
    (im = false → t.recordedSamplesCurrent < slaveTargetLen L t.targetMultiplier →
      slaveTargetLen L t.targetMultiplier ≤ t.loopBuffer.numSamples →
      (t.processBlock out inp sc g im L solo).1.currentState = State.Playing ∧
      (t.processBlock out inp sc g im L solo).1.loopLengthSamples
        = slaveTargetLen L t.targetMultiplier ∧
      overflowFinish t.loopBuffer (t.processBlock out inp sc g im L solo).1.loopBuffer
        (slaveTargetLen L t.targetMultiplier)) := by
  cases im
  · refine ⟨?_, fun h => absurd h (by decide), ?_⟩
    · rw [blockPositions_slave_recording]
      simp
    · intro _ hlt hcap
      have hpp := reachable_slaveRecordingInvariant t hreachable hrec
      have hfull2 : t.loopBuffer.numSamples ≤ t.recordedSamplesCurrent + out.numSamples := by
        simpa using hfull
      obtain ⟨o1, o2, o3⟩ := processBlock_slave_overflow_eq t out inp sc g L solo hrec hpp hlt
        hfull2 hact
      refine ⟨o1, o2, ?_⟩
      rw [o3]
      exact overflowFinish_applyCrossfade _ _ hcap
  · refine ⟨?_, ?_, fun h => absurd h (by decide)⟩
    · rw [blockPositions_master_recording]
      simp
    · intro _ hpos hcap
      have hfull2 : t.loopBuffer.numSamples ≤ t.playbackPosition + out.numSamples := by
        simpa using hfull
      rw [processBlock_master_overflow t out inp sc g L solo hrec hpos hfull2 hact]
      exact ⟨rfl, rfl, overflowFinish_applyCrossfade _ _ hcap⟩

/-- Witness for `recording_overflow_ends_recording`: the armed master after 29999 blocks of
480 samples (linear position 14399520 of 14400000) is Playing with `loopLength = 14399520`
after its next block; a slave with multiplier 1 and target 14399900 in the same position is
Playing with `loopLength = 14399900`. -/
theorem recording_overflow_ends_recording_witness :
    Reachable true (demoMasterAfter 29999) ∧
    (demoMasterAfter 29999).currentState = State.Recording ∧
    (demoMasterAfter 29999).playbackPosition = 14399520 ∧
    (demoMasterAfter 29999).loopBuffer.numSamples = 14400000 ∧
    ((demoMasterAfter 29999).processBlock (silentBlock 480) (silentBlock 480) (silentBlock 480)
      0 true 0 false).1.currentState = State.Playing ∧
    ((demoMasterAfter 29999).processBlock (silentBlock 480) (silentBlock 480) (silentBlock 480)
      0 true 0 false).1.loopLengthSamples = 14399520 ∧
    Reachable false (demoSlaveAfter 1 29999 14399900) ∧
    slaveTargetLen 14399900 (demoSlaveAfter 1 29999 14399900).targetMultiplier
      ≤ (demoSlaveAfter 1 29999 14399900).loopBuffer.numSamples ∧
    ((demoSlaveAfter 1 29999 14399900).processBlock (silentBlock 480) (silentBlock 480)
      (silentBlock 480) 43199320 false 14399900 false).1.currentState = State.Playing := by
  obtain ⟨m1, m2, m3, m4⟩ := demoMasterAfter_fields 29999 (by norm_num)
  have m2n : (demoMasterAfter 29999).playbackPosition = 14399520 := by rw [m2]; norm_num
  have hn : (silentBlock 480).numSamples = 480 := rfl
  obtain ⟨-, hm, -⟩ := recording_overflow_ends_recording true (demoMasterAfter 29999)
    (silentBlock 480) (silentBlock 480) (silentBlock 480) 0 0 false
    (demoMasterAfter_reachable 29999) m1 m4
    (by rw [if_pos rfl, m3, m2n, hn]; norm_num)
  obtain ⟨c1, c2, -⟩ := hm rfl (by rw [m2n]; norm_num) (by rw [m2n, m3]; norm_num)
  obtain ⟨f1, f2, f3, f4⟩ := demoSlaveAfter_fields 1 29999 14399900
    (by rw [demo_target_full]; norm_num) (by norm_num)
  obtain ⟨z1, -⟩ := demoSlaveAfter_silent 1 29999 14399900
    (by rw [demo_target_full]; norm_num) (by norm_num)
  have hcap : slaveTargetLen 14399900 (demoSlaveAfter 1 29999 14399900).targetMultiplier
      ≤ (demoSlaveAfter 1 29999 14399900).loopBuffer.numSamples := by
    rw [f3, demo_target_full, f4]; norm_num
  obtain ⟨-, -, hs⟩ := recording_overflow_ends_recording false (demoSlaveAfter 1 29999 14399900)
    (silentBlock 480) (silentBlock 480) (silentBlock 480) 43199320 14399900 false
    (demoSlaveAfter_reachable 1 29999 14399900) f1 z1
    (by rw [if_neg (by decide), f4, f2, hn]; norm_num)
  obtain ⟨d1, -, -⟩ := hs rfl (by rw [f3, demo_target_full, f2]; norm_num) hcap
  exact ⟨demoMasterAfter_reachable 29999, m1, m2n, m3, c1, c2.trans m2n,
    demoSlaveAfter_reachable 1 29999 14399900, hcap, d1⟩

/-- C13 (as stated) fails: a slave prepared at 48 kHz with multiplier 1 records against a
master of 14399900 samples in blocks of 480 samples. After 29999 blocks it has accumulated
14399520 samples, below its target; the next block would reach the capacity 14400000, and
`processBlock` leaves the track Playing with `loopLength = 14399900`, the target length, not
the 14399520 samples accumulated. -/
theorem overflow_slave_length_is_target :
    (demoSlaveAfter 1 29999 14399900).currentState = State.Recording ∧
    (demoSlaveAfter 1 29999 14399900).recordedSamplesCurrent = 14399520 ∧
    (demoSlaveAfter 1 29999 14399900).loopBuffer.numSamples = 14400000 ∧
    (LoopTrack.blockPositions (demoSlaveAfter 1 29999 14399900) State.Recording 43199320 false
      14399900).writePos + (silentBlock 480).numSamples
        ≥ (demoSlaveAfter 1 29999 14399900).loopBuffer.numSamples ∧
    (demoSlaveAfter 1 30000 14399900).currentState = State.Playing ∧
    (demoSlaveAfter 1 30000 14399900).loopLengthSamples = 14399900 ∧
    (demoSlaveAfter 1 30000 14399900).loopLengthSamples
      ≠ (demoSlaveAfter 1 29999 14399900).recordedSamplesCurrent := by
  obtain ⟨f1, f2, f3, f4⟩ := demoSlaveAfter_fields 1 29999 14399900
    (by rw [demo_target_full]; norm_num) (by norm_num)
  obtain ⟨z1, -⟩ := demoSlaveAfter_silent 1 29999 14399900
    (by rw [demo_target_full]; norm_num) (by norm_num)
  have f2n : (demoSlaveAfter 1 29999 14399900).recordedSamplesCurrent = 14399520 := by
    rw [f2]; norm_num
  have hn : (silentBlock 480).numSamples = 480 := rfl
  have ht : slaveTargetLen 14399900 (demoSlaveAfter 1 29999 14399900).targetMultiplier
      = 14399900 := by
    rw [f3]; exact demo_target_full
  have hpp := reachable_slaveRecordingInvariant _
    (demoSlaveAfter_reachable 1 29999 14399900) f1
  obtain ⟨o1, o2, -⟩ := processBlock_slave_overflow_eq (demoSlaveAfter 1 29999 14399900)
    (silentBlock 480) (silentBlock 480) (silentBlock 480)
    (2 * 14399900 + 480 * ((29999 : Nat) : Int)) 14399900 false f1 hpp
    (by rw [ht, f2n]; norm_num) (by rw [f4, f2n, hn]; norm_num) z1
  have hlen : (demoSlaveAfter 1 30000 14399900).loopLengthSamples = 14399900 := by
    rw [show (30000 : Nat) = 29999 + 1 from rfl, demoSlaveAfter_succ, o2, ht]
  refine ⟨f1, f2n, f4, ?_, ?_, hlen, ?_⟩
  · rw [blockPositions_slave_recording_writePos, f2n, f4, hn]; norm_num
  · rw [show (30000 : Nat) = 29999 + 1 from rfl, demoSlaveAfter_succ]
    exact o1
  · rw [hlen, f2n]; norm_num

/-! ## The stop trigger -/

/-- C14 (amended). For every reachable track that is Playing, Overdubbing or Stopped,
`stop ()` leaves the track Stopped with its loop length unchanged; for a Recording track
whose linear position `p` is positive, `stop ()` first fixes `loopLength = p` and leaves the
track Stopped. In both cases the read cursor is 0 afterwards. A Recording track on which
nothing has been recorded yet stays Recording. -/
theorem stop_leaves_stopped (im : Bool) (t : LoopTrack) (hreachable : Reachable im t)
    (hne : t.currentState ≠ State.Empty) :
    (t.currentState ≠ State.Recording →
      t.stop.currentState = State.Stopped ∧ t.stop.loopLengthSamples = t.loopLengthSamples ∧
      t.stop.playbackPosition = 0) ∧
    (t.currentState = State.Recording → 0 < t.playbackPosition →
      t.stop.currentState = State.Stopped ∧ t.stop.loopLengthSamples = t.playbackPosition ∧
      t.stop.playbackPosition = 0) ∧
    (t.currentState = State.Recording → t.playbackPosition = 0 →
      t.recordedSamplesCurrent = 0 → t.stop.currentState = State.Recording) := by
  refine ⟨?_, ?_, ?_⟩
  · intro hnr
    have hlen : 0 < t.loopLengthSamples := by
      apply reachable_loopInvariant im t hreachable
      cases hs : t.currentState with
      | Empty => exact absurd hs hne
      | Recording => exact absurd hs hnr
      | Playing => exact Or.inl rfl
      | Overdubbing => exact Or.inr (Or.inl rfl)
      | Stopped => exact Or.inr (Or.inr rfl)
    unfold LoopTrack.stop
    simp only [hnr, if_false, gt_iff_lt, hlen, if_true]
    exact ⟨trivial, trivial, trivial⟩
  · intro hrec hpp
    unfold LoopTrack.stop
    simp only [hrec, if_true, gt_iff_lt, hpp]
    exact ⟨trivial, trivial, trivial⟩
  · intro hrec hpp _
    unfold LoopTrack.stop
    simp only [hrec, if_true, hpp, gt_iff_lt, lt_self_iff_false, if_false]

/-- Witness for `stop_leaves_stopped`: the master stopped after recording 10 blocks of 480
samples is Stopped with `loopLength = 4800`. -/
theorem stop_leaves_stopped_witness :
    Reachable true (demoMasterAfter 10) ∧
    (demoMasterAfter 10).currentState ≠ State.Empty ∧
    (demoMasterAfter 10).stop.currentState = State.Stopped ∧
    (demoMasterAfter 10).stop.loopLengthSamples = 4800 := by
  obtain ⟨m1, m2, -, -⟩ := demoMasterAfter_fields 10 (by norm_num)
  have hne : (demoMasterAfter 10).currentState ≠ State.Empty := by rw [m1]; decide
  obtain ⟨c1, c2, -⟩ := (stop_leaves_stopped true (demoMasterAfter 10)
    (demoMasterAfter_reachable 10) hne).2.1 m1 (by rw [m2]; norm_num)
  refine ⟨demoMasterAfter_reachable 10, hne, c1, ?_⟩
  rw [c2, m2]; norm_num

/-- C14 (as stated) fails: a master prepared at 48 kHz and armed by `setRecording ()` is in
state Recording, not Empty; `stop ()` called before any block has been recorded leaves it
Recording, not Stopped. -/
theorem stop_before_first_block_keeps_recording :
    Reachable true demoArmedMaster ∧
    demoArmedMaster.currentState = State.Recording ∧
    demoArmedMaster.currentState ≠ State.Empty ∧
    demoArmedMaster.stop.currentState = State.Recording ∧
    demoArmedMaster.stop.currentState ≠ State.Stopped := by
  refine ⟨Reachable.setRecording (Reachable.prepareToPlay 48000 Reachable.constructed),
    rfl, by decide, rfl, by decide⟩

/-! ## Multiply and divide: buffer content and pending multiplier -/

theorem saveUndo_eq (t : LoopTrack) (hlen : 0 < t.loopLengthSamples) :
    t.saveUndo =
      { t with
        undoBuffer := forCh t.undoBuffer.numChannels
          (fun ch acc => acc.copyFrom ch 0 t.loopBuffer ch 0 t.loopLengthSamples) t.undoBuffer
        undoLoopLengthSamples := t.loopLengthSamples
        hasUndo := true } := by
  unfold LoopTrack.saveUndo
  simp only [gt_iff_lt, hlen, if_true]

theorem multiplyLoop_eq (t : LoopTrack) (hlen : 0 < t.loopLengthSamples)
    (hfit : t.loopLengthSamples * 2 ≤ t.loopBuffer.numSamples) :
    t.multiplyLoop =
      { t with
        undoBuffer := forCh t.undoBuffer.numChannels
          (fun ch acc => acc.copyFrom ch 0 t.loopBuffer ch 0 t.loopLengthSamples) t.undoBuffer
        undoLoopLengthSamples := t.loopLengthSamples
        hasUndo := true
        loopBuffer := forCh t.loopBuffer.numChannels
          (fun ch acc => acc.copyFrom ch t.loopLengthSamples acc ch 0 t.loopLengthSamples)
          t.loopBuffer
        loopLengthSamples := t.loopLengthSamples * 2 } := by
  unfold LoopTrack.multiplyLoop
  have h0 : ¬ t.loopLengthSamples ≤ 0 := by omega
  have h1 : ¬ t.loopLengthSamples * 2 > t.loopBuffer.numSamples := by omega
  rw [if_neg h0, if_neg h1, saveUndo_eq t hlen]

theorem divideLoop_eq (t : LoopTrack) (hlen : 0 < t.loopLengthSamples)
    (hmin : 256 ≤ t.loopLengthSamples / 2) :
    t.divideLoop =
      { t with
        undoBuffer := forCh t.undoBuffer.numChannels
          (fun ch acc => acc.copyFrom ch 0 t.loopBuffer ch 0 t.loopLengthSamples) t.undoBuffer
        undoLoopLengthSamples := t.loopLengthSamples
        hasUndo := true
        loopLengthSamples := t.loopLengthSamples / 2 } := by
  unfold LoopTrack.divideLoop
  have hd : t.loopLengthSamples.tdiv 2 = t.loopLengthSamples / 2 :=
    Int.tdiv_eq_ediv (by omega) (by omega)
  have h0 : ¬ t.loopLengthSamples ≤ 0 := by omega
  have h1 : ¬ t.loopLengthSamples.tdiv 2 < 256 := by rw [hd]; omega
  rw [if_neg h0, if_neg h1, saveUndo_eq t hlen]
  show _ = _
  simp only [hd]

/-- C19. In every reachable track state `1/64 <= targetMultiplier <= 64`;
`setTargetMultiplier` stores its argument clamped into that range and changes nothing else;
on a track without a loop length `multiplyLoop` doubles the pending multiplier saturating at
64 and `divideLoop` halves it saturating at 1/64, each leaving everything else unchanged. -/
theorem multiplier_stays_clamped (im : Bool) (t : LoopTrack) (hreachable : Reachable im t) :
    (1 / 64 ≤ t.targetMultiplier ∧ t.targetMultiplier ≤ 64) ∧
    (∀ x : ℚ, t.setTargetMultiplier x =
        { t with targetMultiplier := max (1 / 64) (min 64 x) } ∧
      1 / 64 ≤ (t.setTargetMultiplier x).targetMultiplier ∧
      (t.setTargetMultiplier x).targetMultiplier ≤ 64 ∧
      (1 / 64 ≤ x → x ≤ 64 → (t.setTargetMultiplier x).targetMultiplier = x)) ∧
    (t.loopLengthSamples = 0 →
      t.multiplyLoop = { t with targetMultiplier := min 64 (t.targetMultiplier * 2) } ∧
      t.divideLoop = { t with targetMultiplier := max (1 / 64) (t.targetMultiplier / 2) }) := by
  refine ⟨reachable_multiplierInvariant im t hreachable, ?_, ?_⟩
  · intro x
    have hc : clampMultiplier x = max (1 / 64) (min 64 x) := by
      unfold clampMultiplier
      dsimp only
      by_cases h1 : x < 1 / 64
      · rw [if_pos h1, if_neg (by norm_num)]
        rw [min_eq_right (by linarith), max_eq_left (le_of_lt h1)]
      · rw [if_neg h1]
        by_cases h2 : x > 64
        · rw [if_pos h2, min_eq_left (le_of_lt h2), max_eq_right (by norm_num)]
        · rw [if_neg h2, min_eq_right (not_lt.mp h2), max_eq_right (not_lt.mp h1)]
    refine ⟨?_, (clampMultiplier_mem x).1, (clampMultiplier_mem x).2, ?_⟩
    · unfold LoopTrack.setTargetMultiplier
      rw [hc]
    · intro h1 h2
      exact clampMultiplier_of_mem x h1 h2
  · intro h0
    constructor
    · unfold LoopTrack.multiplyLoop
      rw [if_pos (le_of_eq h0)]
    · unfold LoopTrack.divideLoop
      rw [if_pos (le_of_eq h0)]

/-- Witness for `multiplier_stays_clamped`: on the prepared track (multiplier 1, no loop) a
request for multiplier 100 stores 64, and `multiplyLoop` stores 2. -/
theorem multiplier_stays_clamped_witness :
    Reachable false (LoopTrack.fresh.prepareToPlay 48000) ∧
    ((LoopTrack.fresh.prepareToPlay 48000).setTargetMultiplier 100).targetMultiplier = 64 ∧
    (LoopTrack.fresh.prepareToPlay 48000).multiplyLoop.targetMultiplier = 2 := by
  have hr : Reachable false (LoopTrack.fresh.prepareToPlay 48000) :=
    Reachable.prepareToPlay 48000 Reachable.constructed
  obtain ⟨-, h2, h3⟩ := multiplier_stays_clamped false _ hr
  refine ⟨hr, ?_, ?_⟩
  · rw [(h2 100).1]
    show max (1 / 64 : ℚ) (min 64 100) = 64
    norm_num
  · rw [(h3 rfl).1]
    show min (64 : ℚ) (1 * 2) = 2
    norm_num

/-! ## Undo after one edit -/

theorem applyCrossfade_numChannels (b : AudioBuffer) (len fs : Int) :
    (applyCrossfade b len fs).numChannels = b.numChannels := by
  unfold applyCrossfade
  split <;> rfl

theorem setPlaying_numChannels (t : LoopTrack) :
    t.setPlaying.loopBuffer.numChannels = t.loopBuffer.numChannels := by
  unfold LoopTrack.setPlaying
  dsimp only
  split_ifs <;> first | rfl | exact applyCrossfade_numChannels _ _ _

/-- What `performUndo` brings back when an undo state is saved: the saved length, and the
undo buffer content over the saved length, on every channel of the loop buffer. -/
theorem performUndo_restores (u : LoopTrack) (hu : u.hasUndo = true)
    (hul : 0 < u.undoLoopLengthSamples) :
    u.performUndo.loopLengthSamples = u.undoLoopLengthSamples ∧
    ∀ (c : Nat) (j : Int), c < u.loopBuffer.numChannels → 0 ≤ j →
      j < u.undoLoopLengthSamples →
      u.performUndo.loopBuffer.data c j = u.undoBuffer.data c j := by
  have key : ∀ v : LoopTrack, v.undoLoopLengthSamples = u.undoLoopLengthSamples →
      v.undoBuffer = u.undoBuffer → v.loopBuffer.numChannels = u.loopBuffer.numChannels →
      ∀ (c : Nat) (j : Int), c < u.loopBuffer.numChannels → 0 ≤ j →
        j < u.undoLoopLengthSamples →
        (forCh v.loopBuffer.numChannels
          (swapChannel (max v.loopLengthSamples v.undoLoopLengthSamples))
          (v.loopBuffer, v.undoBuffer)).1.data c j = u.undoBuffer.data c j := by
    intro v h1 h2 h3 c j hc hj0 hj1
    rw [(swapChannels_spec _ _ _ _).2.2.2.2.1, if_pos ⟨by omega, hj0, by
      rw [h1]; exact lt_of_lt_of_le hj1 (le_max_right _ _)⟩, h2]
  unfold LoopTrack.performUndo
  rw [if_pos ⟨hu, hul⟩]
  by_cases hst : u.currentState = State.Recording ∨ u.currentState = State.Overdubbing
  · rw [if_pos hst]
    obtain ⟨a1, a2, a3, a4, e⟩ := setPlaying_frame u
    have e1 : u.setPlaying.undoLoopLengthSamples = u.undoLoopLengthSamples := by rw [e]
    have e2 : u.setPlaying.undoBuffer = u.undoBuffer := by rw [e]
    exact ⟨e1, key u.setPlaying e1 e2 (setPlaying_numChannels u)⟩
  · rw [if_neg hst]
    exact ⟨rfl, key u rfl rfl rfl⟩

theorem saveUndo_data (t : LoopTrack) (c : Nat) (j : Int)
    (hc : c < t.undoBuffer.numChannels) (hj0 : 0 ≤ j) (hj1 : j < t.loopLengthSamples) :
    (forCh t.undoBuffer.numChannels
      (fun ch acc => acc.copyFrom ch 0 t.loopBuffer ch 0 t.loopLengthSamples)
      t.undoBuffer).data c j = t.loopBuffer.data c j := by
  rw [forCh_copyFrom_data, if_pos ⟨hc, hj0, by omega⟩]
  congr 1
  omega

theorem handleOverdub_frame_shape (t : LoopTrack) (out inp : AudioBuffer) (n p len : Int)
    (silent : Bool) :
    ∃ lb, (t.handleOverdub out inp n p len silent).1 = { t with loopBuffer := lb } ∧
      lb.numChannels = t.loopBuffer.numChannels := by
  unfold LoopTrack.handleOverdub
  split
  · exact ⟨_, rfl, rfl⟩
  · apply foldl_preserves
      (fun s : LoopTrack × AudioBuffer => ∃ lb, s.1 = { t with loopBuffer := lb } ∧
        lb.numChannels = t.loopBuffer.numChannels)
    · exact ⟨_, rfl, rfl⟩
    · rintro s c ⟨lb, hs, hn⟩
      apply forCh_preserves (fun s : LoopTrack × AudioBuffer =>
        ∃ lb, s.1 = { t with loopBuffer := lb } ∧ lb.numChannels = t.loopBuffer.numChannels)
      · exact ⟨lb, hs, hn⟩
      · rintro ch a ⟨lb2, ha, hn2⟩
        dsimp only
        rw [ha]
        exact ⟨_, rfl, hn2⟩

/-- An Overdubbing block changes only the loop buffer content, the replace progress and the
staging buffer: state, lengths, undo slot and channel count are kept. -/
theorem processBlock_overdub_keeps (t : LoopTrack) (out inp sc : AudioBuffer) (g L : Int)
    (im solo : Bool) (h : t.currentState = State.Overdubbing) :
    ∃ lb r b w, (t.processBlock out inp sc g im L solo).1 =
      { t with loopBuffer := lb, mReplace := r, fxCaptureBuffer := b,
               fxCaptureSamplesWritten := w } ∧
      lb.numChannels = t.loopBuffer.numChannels := by
  rw [processBlock_overdub_eq t out inp sc g L im solo h]
  obtain ⟨lb, r, h1, -, hch⟩ := replaceStage_frame t
    (LoopTrack.blockPositions t State.Overdubbing g im L).readPos out.numSamples
  rw [h1]
  split
  · obtain ⟨b, w, h3⟩ := LoopTrack.captureSidechain_frame
      { t with loopBuffer := lb, mReplace := r } sc out.numSamples
      (LoopTrack.blockPositions t State.Overdubbing g im L).readPos
      (LoopTrack.blockPositions t State.Overdubbing g im L).currentLoopLength
    rw [h3]
    obtain ⟨lb2, h4, h5⟩ := handleOverdub_frame_shape
      { t with loopBuffer := lb, mReplace := r, fxCaptureBuffer := b,
               fxCaptureSamplesWritten := w } out inp out.numSamples
      (LoopTrack.blockPositions t State.Overdubbing g im L).readPos
      (LoopTrack.blockPositions t State.Overdubbing g im L).currentLoopLength
      (LoopTrack.soloMute t solo (LoopTrack.soloMute t solo false))
    rw [h4]
    exact ⟨_, _, _, _, rfl, h5.trans hch⟩
  · obtain ⟨lb2, h4, h5⟩ := handleOverdub_frame_shape
      { t with loopBuffer := lb, mReplace := r } out inp out.numSamples
      (LoopTrack.blockPositions t State.Overdubbing g im L).readPos
      (LoopTrack.blockPositions t State.Overdubbing g im L).currentLoopLength
      (LoopTrack.soloMute t solo (LoopTrack.soloMute t solo false))
    rw [h4]
    exact ⟨_, _, _, _, rfl, h5.trans hch⟩

/-- Any number of Overdubbing blocks keeps the state, the lengths, the undo slot and the
channel count of the loop buffer. -/
theorem runBlocks_overdub_keeps (im : Bool) :
    ∀ (blocks : List BlockArgs) (u : LoopTrack), u.currentState = State.Overdubbing →
      (runBlocks im u blocks).currentState = State.Overdubbing ∧
      (runBlocks im u blocks).loopLengthSamples = u.loopLengthSamples ∧
      (runBlocks im u blocks).undoBuffer = u.undoBuffer ∧
      (runBlocks im u blocks).undoLoopLengthSamples = u.undoLoopLengthSamples ∧
      (runBlocks im u blocks).hasUndo = u.hasUndo ∧
      (runBlocks im u blocks).loopBuffer.numChannels = u.loopBuffer.numChannels := by
  intro blocks
  induction blocks with
  | nil => intro u hu; exact ⟨hu, rfl, rfl, rfl, rfl, rfl⟩
  | cons a rest ih =>
    intro u hu
    obtain ⟨lb, r, b, w, e, hch⟩ := processBlock_overdub_keeps u a.outputBuffer a.inputBuffer
      a.sidechainBuffer a.globalTotalSamples a.masterLoopLength im a.anySoloActive hu
    rw [runBlocks_cons]
    obtain ⟨r1, r2, r3, r4, r5, r6⟩ := ih
      (u.processBlock a.outputBuffer a.inputBuffer a.sidechainBuffer a.globalTotalSamples im
        a.masterLoopLength a.anySoloActive).1 (by rw [e]; exact hu)
    refine ⟨r1, ?_, ?_, ?_, ?_, ?_⟩
    · rw [r2, e]
    · rw [r3, e]
    · rw [r4, e]
    · rw [r5, e]
    · rw [r6, e]; exact hch

theorem undoRestores_of_saved (t u : LoopTrack) (hlen : 0 < t.loopLengthSamples)
    (h1 : u.hasUndo = true) (h2 : u.undoLoopLengthSamples = t.loopLengthSamples)
    (h3 : u.undoBuffer = forCh t.undoBuffer.numChannels
      (fun ch acc => acc.copyFrom ch 0 t.loopBuffer ch 0 t.loopLengthSamples) t.undoBuffer)
    (h4 : u.loopBuffer.numChannels = t.loopBuffer.numChannels) : undoRestores t u := by
  obtain ⟨r1, r2⟩ := performUndo_restores u h1 (by rw [h2]; exact hlen)
  refine ⟨r1.trans h2, ?_⟩
  intro c j hc hcu hj0 hj1
  rw [r2 c j (by rw [h4]; exact hc) hj0 (by rw [h2]; exact hj1), h3]
  exact saveUndo_data t c j hcu hj0 hj1

theorem applyFxReplace_eq (t : LoopTrack) (hlen : 0 < t.loopLengthSamples)
    (hready : t.loopLengthSamples ≤ t.fxCaptureSamplesWritten) :
    t.applyFxReplace =
      { t with
        undoBuffer := forCh t.undoBuffer.numChannels
          (fun ch acc => acc.copyFrom ch 0 t.loopBuffer ch 0 t.loopLengthSamples) t.undoBuffer
        undoLoopLengthSamples := t.loopLengthSamples
        hasUndo := true
        loopBuffer := forCh (min t.loopBuffer.numChannels t.fxCaptureBuffer.numChannels)
          (fun ch acc => acc.copyFrom ch 0 t.fxCaptureBuffer ch 0 t.loopLengthSamples)
          t.loopBuffer
        fxCaptureSamplesWritten := 0 } := by
  unfold LoopTrack.applyFxReplace
  have h0 : ¬ t.loopLengthSamples ≤ 0 := by omega
  have h1 : ¬ t.fxCaptureSamplesWritten < t.loopLengthSamples := by omega
  rw [if_neg h0, if_neg h1, saveUndo_eq t hlen]

theorem setOverdubbing_eq (t : LoopTrack) (hst : t.currentState = State.Playing)
    (hlen : 0 < t.loopLengthSamples) :
    t.setOverdubbing =
      { t with
        undoBuffer := forCh t.undoBuffer.numChannels
          (fun ch acc => acc.copyFrom ch 0 t.loopBuffer ch 0 t.loopLengthSamples) t.undoBuffer
        undoLoopLengthSamples := t.loopLengthSamples
        hasUndo := true
        currentState := State.Overdubbing } := by
  unfold LoopTrack.setOverdubbing
  have hne : t.currentState ≠ State.Overdubbing := by rw [hst]; decide
  rw [if_pos hlen]
  simp only [hne, ne_eq, not_false_eq_true, if_true]
  rw [saveUndo_eq t hlen]

theorem divideLoop_of_short (t : LoopTrack) (hlen : 0 < t.loopLengthSamples)
    (hsmall : t.loopLengthSamples / 2 < 256) : t.divideLoop = t := by
  unfold LoopTrack.divideLoop
  have hd : t.loopLengthSamples.tdiv 2 = t.loopLengthSamples / 2 :=
    Int.tdiv_eq_ediv (by omega) (by omega)
  have h0 : ¬ t.loopLengthSamples ≤ 0 := by omega
  rw [if_neg h0, if_pos (by rw [hd]; exact hsmall)]

/-- C16 (amended). For every Playing track with loop length `L > 0`, after one destructive
edit that takes effect (`multiplyLoop` when `2 * L` fits the buffer, `divideLoop` when
`L / 2 >= 256`, `applyFxReplace` when at least `L` samples are staged, or an overdub pass of
any number of blocks entered through `setOverdubbing`, undone while Overdubbing or after
`setPlaying`), a single `performUndo` restores `loopLength = L` and, on every channel the
loop and undo buffers share, the loop samples `[0, L)` the track held just before the edit. -/
theorem undo_after_edit_restores (im : Bool) (t : LoopTrack) (blocks : List BlockArgs)
    (hst : t.currentState = State.Playing) (hlen : 0 < t.loopLengthSamples) :
    (t.loopLengthSamples * 2 ≤ t.loopBuffer.numSamples → undoRestores t t.multiplyLoop) ∧
    (256 ≤ t.loopLengthSamples / 2 → undoRestores t t.divideLoop) ∧
    (t.loopLengthSamples ≤ t.fxCaptureSamplesWritten → undoRestores t t.applyFxReplace) ∧
    undoRestores t (runBlocks im t.setOverdubbing blocks) ∧
    undoRestores t (LoopTrack.setPlaying (runBlocks im t.setOverdubbing blocks)) := by
  refine ⟨?_, ?_, ?_, ?_, ?_⟩
  · intro hfit
    apply undoRestores_of_saved t _ hlen
    · rw [multiplyLoop_eq t hlen hfit]
    · rw [multiplyLoop_eq t hlen hfit]
    · rw [multiplyLoop_eq t hlen hfit]
    · rw [multiplyLoop_eq t hlen hfit]
      exact (forCh_copyFrom_shape t.loopBuffer.numChannels t.loopBuffer
        (fun ch acc => acc.copyFrom ch t.loopLengthSamples acc ch 0 t.loopLengthSamples)
        (fun ch a => ⟨rfl, rfl⟩)).2
  · intro hmin
    apply undoRestores_of_saved t _ hlen
    · rw [divideLoop_eq t hlen hmin]
    · rw [divideLoop_eq t hlen hmin]
    · rw [divideLoop_eq t hlen hmin]
    · rw [divideLoop_eq t hlen hmin]
  · intro hready
    apply undoRestores_of_saved t _ hlen
    · rw [applyFxReplace_eq t hlen hready]
    · rw [applyFxReplace_eq t hlen hready]
    · rw [applyFxReplace_eq t hlen hready]
    · rw [applyFxReplace_eq t hlen hready]
      exact (forCh_copyFrom_shape (min t.loopBuffer.numChannels t.fxCaptureBuffer.numChannels)
        t.loopBuffer
        (fun ch acc => acc.copyFrom ch 0 t.fxCaptureBuffer ch 0 t.loopLengthSamples)
        (fun ch a => ⟨rfl, rfl⟩)).2
  · obtain ⟨-, -, r3, r4, r5, r6⟩ := runBlocks_overdub_keeps im blocks t.setOverdubbing
      (by rw [setOverdubbing_eq t hst hlen])
    apply undoRestores_of_saved t _ hlen
    · rw [r5, setOverdubbing_eq t hst hlen]
    · rw [r4, setOverdubbing_eq t hst hlen]
    · rw [r3, setOverdubbing_eq t hst hlen]
    · rw [r6, setOverdubbing_eq t hst hlen]
  · obtain ⟨-, -, r3, r4, r5, r6⟩ := runBlocks_overdub_keeps im blocks t.setOverdubbing
      (by rw [setOverdubbing_eq t hst hlen])
    obtain ⟨a1, a2, a3, a4, e⟩ := setPlaying_frame (runBlocks im t.setOverdubbing blocks)
    apply undoRestores_of_saved t _ hlen
    · rw [e]
      show (runBlocks im t.setOverdubbing blocks).hasUndo = true
      rw [r5, setOverdubbing_eq t hst hlen]
    · rw [e]
      show (runBlocks im t.setOverdubbing blocks).undoLoopLengthSamples = _
      rw [r4, setOverdubbing_eq t hst hlen]
    · rw [e]
      show (runBlocks im t.setOverdubbing blocks).undoBuffer = _
      rw [r3, setOverdubbing_eq t hst hlen]
    · rw [setPlaying_numChannels, r6, setOverdubbing_eq t hst hlen]

/-- Witness for `undo_after_edit_restores`: on the 1000-sample example loop, undo after a
multiply, and undo after an overdub pass of one block, both bring back length 1000. -/
theorem undo_after_edit_restores_witness :
    demoLoop1000.currentState = State.Playing ∧
    0 < demoLoop1000.loopLengthSamples ∧
    demoLoop1000.multiplyLoop.performUndo.loopLengthSamples = 1000 ∧
    (LoopTrack.performUndo
      (runBlocks true demoLoop1000.setOverdubbing [silentArgs 480 0 1000])).loopLengthSamples
      = 1000 := by
  obtain ⟨f1, f2, -⟩ := demoSeededTrack_fields (patternBuffer 1000 (fun _ => 1)) 1000 0
    (by decide) (by decide)
  have hst : demoLoop1000.currentState = State.Playing := f1
  have hlen : demoLoop1000.loopLengthSamples = 1000 := f2
  have hcap : demoLoop1000.loopBuffer.numSamples = 14400000 :=
    demoSeededTrack_capacity _ _ _
  obtain ⟨c1, -, -, c4, -⟩ := undo_after_edit_restores true demoLoop1000
    [silentArgs 480 0 1000] hst (by rw [hlen]; decide)
  exact ⟨hst, by rw [hlen]; decide, (c1 (by rw [hlen, hcap]; decide)).1.trans hlen,
    c4.1.trans hlen⟩

theorem demoUndoTrack_undoChannels : demoUndoTrack.undoBuffer.numChannels = 2 := by
  unfold demoUndoTrack demoSeededTrack
  rw [prepared_48000]
  simp [LoopTrack.setLoopFromMix, LoopTrack.saveUndo, preparedTrack, LoopTrack.fresh,
    AudioBuffer.allocate, AudioBuffer.clear, AudioBuffer.copyFrom, patternBuffer, forCh,
    List.range_succ]

/-- C16 (as stated) fails: a Playing track holds a 4-sample loop of twos and, from an
earlier edit, an undo state of ones. `divideLoop` refuses (4 / 2 is below the 256-sample
floor) and saves nothing, so the following `performUndo` swaps in the older undo state: loop
sample 0 of channel 0 is 1, not the 2 the track held just before the edit. -/
theorem undo_after_refused_divide_swaps_older_state :
    Reachable true demoUndoTrack ∧
    demoUndoTrack.currentState = State.Playing ∧
    demoUndoTrack.loopLengthSamples = 4 ∧
    demoUndoTrack.loopBuffer.data 0 0 = 2 ∧
    demoUndoTrack.divideLoop = demoUndoTrack ∧
    demoUndoTrack.divideLoop.performUndo.loopBuffer.data 0 0 = 1 ∧
    ¬ undoRestores demoUndoTrack demoUndoTrack.divideLoop := by
  obtain ⟨f1, f2, f3, f4, f5, f6, f7⟩ := demoUndoTrack_fields
  have hdiv : demoUndoTrack.divideLoop = demoUndoTrack :=
    divideLoop_of_short demoUndoTrack (by rw [f4]; decide) (by rw [f4]; decide)
  have hdata : demoUndoTrack.divideLoop.performUndo.loopBuffer.data 0 0 = 1 := by
    rw [hdiv, (performUndo_restores demoUndoTrack f2 (by rw [f3]; decide)).2 0 0
      (by rw [f7]; decide) (by decide) (by rw [f3]; decide), f6]
  refine ⟨demoUndoTrack_reachable true, f1, f4, f5, hdiv, hdata, ?_⟩
  intro h
  have h2 := h.2 0 0 (by rw [f7]; decide) (by rw [demoUndoTrack_undoChannels]; decide)
    (by decide) (by rw [f4]; decide)
  rw [hdata, f5] at h2
  norm_num at h2

/-! ## Tempo estimate -/

theorem bpmRaise_spec : ∀ (fuel : Nat) (b : ℚ), 0 < b → 70 ≤ b * 2 ^ fuel →
    ∃ k : Nat, bpmRaise (fuel + 1) b = some (b * 2 ^ k) ∧ 70 ≤ b * 2 ^ k ∧
      (k = 0 ∨ b * 2 ^ k < 140) := by
  intro fuel
  induction fuel with
  | zero =>
    intro b _ h
    have h70 : ¬ b < 70 := by
      rw [pow_zero, mul_one] at h; exact not_lt.mpr h
    refine ⟨0, ?_, by rw [pow_zero, mul_one]; exact not_lt.mp h70, Or.inl rfl⟩
    show (if b < 70 then bpmRaise 0 (b * 2) else some b) = _
    rw [if_neg h70, pow_zero, mul_one]
  | succ f ih =>
    intro b hb h
    by_cases h70 : b < 70
    · obtain ⟨k, e, h1, h2⟩ := ih (b * 2) (by linarith) (by
        rw [pow_succ] at h; linarith [h, mul_comm (2 ^ f : ℚ) 2, mul_assoc b (2 ^ f : ℚ) 2,
          mul_assoc b 2 (2 ^ f : ℚ)])
      have hk : b * 2 * 2 ^ k = b * 2 ^ (k + 1) := by rw [pow_succ]; ring
      refine ⟨k + 1, ?_, by rw [← hk]; exact h1, Or.inr ?_⟩
      · show (if b < 70 then bpmRaise (f + 1) (b * 2) else some b) = _
        rw [if_pos h70, e, hk]
      · rw [← hk]
        rcases h2 with h2 | h2
        · rw [h2, pow_zero, mul_one]; linarith
        · exact h2
    · refine ⟨0, ?_, by rw [pow_zero, mul_one]; exact not_lt.mp h70, Or.inl rfl⟩
      show (if b < 70 then bpmRaise (f + 1) (b * 2) else some b) = _
      rw [if_neg h70, pow_zero, mul_one]

theorem bpmLower_spec : ∀ (fuel : Nat) (b : ℚ), b ≤ 140 * 2 ^ fuel →
    ∃ k : Nat, bpmLower (fuel + 1) b = some (b / 2 ^ k) ∧ b / 2 ^ k ≤ 140 ∧
      (k = 0 ∨ 70 < b / 2 ^ k) := by
  intro fuel
  induction fuel with
  | zero =>
    intro b h
    have h140 : ¬ b > 140 := by
      rw [pow_zero, mul_one] at h; exact not_lt.mpr h
    refine ⟨0, ?_, by rw [pow_zero, div_one]; exact not_lt.mp h140, Or.inl rfl⟩
    show (if b > 140 then bpmLower 0 (b / 2) else some b) = _
    rw [if_neg h140, pow_zero, div_one]
  | succ f ih =>
    intro b h
    by_cases h140 : b > 140
    · obtain ⟨k, e, h1, h2⟩ := ih (b / 2) (by rw [pow_succ] at h; linarith)
      have hk : b / 2 / 2 ^ k = b / 2 ^ (k + 1) := by
        rw [pow_succ, div_div, mul_comm]
      refine ⟨k + 1, ?_, by rw [← hk]; exact h1, Or.inr ?_⟩
      · show (if b > 140 then bpmLower (f + 1) (b / 2) else some b) = _
        rw [if_pos h140, e, hk]
      · rw [← hk]
        rcases h2 with h2 | h2
        · rw [h2, pow_zero, div_one]; linarith
        · exact h2
    · refine ⟨0, ?_, by rw [pow_zero, div_one]; exact not_lt.mp h140, Or.inl rfl⟩
      show (if b > 140 then bpmLower (f + 1) (b / 2) else some b) = _
      rw [if_neg h140, pow_zero, div_one]

theorem le_two_pow_ceil (x : ℚ) (n : Nat) (h : ⌈x⌉.toNat ≤ n) : x ≤ 2 ^ n := by
  have h1 : x ≤ (⌈x⌉ : ℚ) := Int.le_ceil x
  have h2 : ⌈x⌉ ≤ (⌈x⌉.toNat : Int) := Int.self_le_toNat _
  have h3 : ((⌈x⌉.toNat : Int) : ℚ) ≤ (n : ℚ) := by exact_mod_cast h
  have h4 : (n : ℚ) ≤ 2 ^ n := by exact_mod_cast le_of_lt (Nat.lt_two_pow n)
  have h5 : (⌈x⌉ : ℚ) ≤ ((⌈x⌉.toNat : Int) : ℚ) := by exact_mod_cast h2
  linarith

theorem bpmRaise_mono : ∀ (f : Nat) (b r : ℚ), bpmRaise f b = some r →
    ∀ g, f ≤ g → bpmRaise g b = some r := by
  intro f
  induction f with
  | zero => intro b r h; exact absurd h (by simp [bpmRaise])
  | succ f ih =>
    intro b r h g hg
    obtain ⟨g', rfl⟩ : ∃ g', g = g' + 1 := ⟨g - 1, by omega⟩
    have h' : (if b < 70 then bpmRaise f (b * 2) else some b) = some r := h
    show (if b < 70 then bpmRaise g' (b * 2) else some b) = some r
    by_cases h70 : b < 70
    · rw [if_pos h70] at h' ⊢
      exact ih _ _ h' g' (by omega)
    · rw [if_neg h70] at h' ⊢
      exact h'

theorem bpmLower_mono : ∀ (f : Nat) (b r : ℚ), bpmLower f b = some r →
    ∀ g, f ≤ g → bpmLower g b = some r := by
  intro f
  induction f with
  | zero => intro b r h; exact absurd h (by simp [bpmLower])
  | succ f ih =>
    intro b r h g hg
    obtain ⟨g', rfl⟩ : ∃ g', g = g' + 1 := ⟨g - 1, by omega⟩
    have h' : (if b > 140 then bpmLower f (b / 2) else some b) = some r := h
    show (if b > 140 then bpmLower g' (b / 2) else some b) = some r
    by_cases h140 : b > 140
    · rw [if_pos h140] at h' ⊢
      exact ih _ _ h' g' (by omega)
    · rw [if_neg h140] at h' ⊢
      exact h'

theorem calculateBpmWith_spec (s : Session) (lengthSamples : Int) (sampleRate : ℚ)
    (hlen : 0 < lengthSamples) (hsr : 0 < sampleRate) :
    ∃ k : Int,
      (∀ fuel, bpmFuel (60 / ((lengthSamples : ℚ) / sampleRate)) ≤ fuel →
        Session.calculateBpmWith fuel s lengthSamples sampleRate
          = some { s with mBpm := 60 * sampleRate / lengthSamples * 2 ^ k }) ∧
      70 ≤ 60 * sampleRate / lengthSamples * 2 ^ k ∧
      60 * sampleRate / lengthSamples * 2 ^ k ≤ 140 := by
  have hlq : (0 : ℚ) < (lengthSamples : ℚ) := by exact_mod_cast hlen
  have hraw : 60 / ((lengthSamples : ℚ) / sampleRate) = 60 * sampleRate / lengthSamples := by
    field_simp
  have hpos : 0 < 60 * sampleRate / (lengthSamples : ℚ) := by positivity
  rw [hraw]
  generalize 60 * sampleRate / (lengthSamples : ℚ) = raw at hpos hraw
  -- the two loops at one particular fuel fix the exponents
  obtain ⟨k1, e1, a1, a2⟩ := bpmRaise_spec ⌈70 / raw⌉.toNat raw hpos (by
    have := le_two_pow_ceil (70 / raw) _ (le_refl _)
    rw [div_le_iff₀ hpos] at this
    linarith)
  have hb1 : ∀ f : Nat, ⌈raw / 140⌉.toNat ≤ f → raw * 2 ^ k1 ≤ 140 * 2 ^ f := by
    intro f hf
    have h2 : (1 : ℚ) ≤ 2 ^ f := one_le_pow₀ (by norm_num)
    rcases a2 with a2 | a2
    · rw [a2, pow_zero, mul_one]
      have := le_two_pow_ceil (raw / 140) f hf
      rw [div_le_iff₀ (by norm_num)] at this
      linarith
    · nlinarith
  obtain ⟨k2, e2, c1, c2⟩ := bpmLower_spec ⌈raw / 140⌉.toNat (raw * 2 ^ k1)
    (hb1 _ (le_refl _))
  have hval : raw * 2 ^ k1 / 2 ^ k2 = raw * 2 ^ ((k1 : Int) - (k2 : Int)) := by
    rw [zpow_sub₀ (by norm_num : (2 : ℚ) ≠ 0), zpow_natCast, zpow_natCast]
    ring
  refine ⟨(k1 : Int) - (k2 : Int), ?_, ?_, ?_⟩
  · intro fuel hfuel
    have hf1 : ⌈70 / raw⌉.toNat + 1 ≤ fuel := by unfold bpmFuel at hfuel; omega
    have hf2 : ⌈raw / 140⌉.toNat + 1 ≤ fuel := by unfold bpmFuel at hfuel; omega
    have g1 := bpmRaise_mono _ _ _ e1 fuel hf1
    have g2 := bpmLower_mono _ _ _ e2 fuel hf2
    have hguard : ¬ (lengthSamples ≤ 0 ∨ sampleRate ≤ 0) := by
      intro h
      rcases h with h | h
      · omega
      · linarith
    unfold Session.calculateBpmWith
    rw [if_neg hguard]
    simp only [hraw, g1, g2, hval]
  · rw [← hval]
    rcases c2 with c2 | c2
    · rw [c2, pow_zero, div_one]; exact a1
    · exact le_of_lt c2
  · rw [← hval]; exact c1

theorem calculateBpm_one_second (s : Session) :
    (s.calculateBpm 48000 48000).mBpm = 120 := by
  have hraw : (60 : ℚ) / (((48000 : Int) : ℚ) / 48000) = 60 := by norm_num
  have c1 : ⌈(70 : ℚ) / 60⌉ = 2 := by
    rw [Int.ceil_eq_iff]; constructor <;> norm_num
  have c2 : ⌈(60 : ℚ) / 140⌉ = 1 := by
    rw [Int.ceil_eq_iff]; constructor <;> norm_num
  have hfuel : bpmFuel 60 = 3 := by
    unfold bpmFuel
    rw [c1, c2]
    rfl
  unfold Session.calculateBpm Session.calculateBpmWith
  rw [hraw, hfuel]
  have hg : ¬ ((48000 : Int) ≤ 0 ∨ (48000 : ℚ) ≤ 0) := by norm_num
  rw [if_neg hg]
  have r1 : bpmRaise 3 60 = some 120 := by
    simp only [bpmRaise]
    norm_num
  have r2 : bpmLower 3 120 = some 120 := by
    simp only [bpmLower]
    norm_num
  simp only [hraw, r1, r2, Option.getD_some]

/-- C15. For every master length `lengthSamples > 0` and sample rate `> 0`, `calculateBpm`
terminates (every fuel from `bpmFuel` on gives the same result) and changes only the stored
tempo, which equals `60 * sampleRate / lengthSamples` multiplied by an integer power of two
and lies in the window from 70 to 140 BPM; for 48000 samples at 48 kHz the stored value
is 120. -/
theorem calculateBpm_lands_in_window (s : Session) (lengthSamples : Int) (sampleRate : ℚ)
    (hlen : 0 < lengthSamples) (hsr : 0 < sampleRate) :
    (∃ k : Int,
      (∀ fuel, bpmFuel (60 / ((lengthSamples : ℚ) / sampleRate)) ≤ fuel →
        Session.calculateBpmWith fuel s lengthSamples sampleRate
          = some { s with mBpm := 60 * sampleRate / lengthSamples * 2 ^ k }) ∧
      s.calculateBpm lengthSamples sampleRate
        = { s with mBpm := 60 * sampleRate / lengthSamples * 2 ^ k } ∧
      70 ≤ 60 * sampleRate / lengthSamples * 2 ^ k ∧
      60 * sampleRate / lengthSamples * 2 ^ k ≤ 140) ∧
    (s.calculateBpm 48000 48000).mBpm = 120 := by
  obtain ⟨k, h1, h2, h3⟩ := calculateBpmWith_spec s lengthSamples sampleRate hlen hsr
  refine ⟨⟨k, h1, ?_, h2, h3⟩, calculateBpm_one_second s⟩
  unfold Session.calculateBpm
  rw [h1 _ (le_refl _)]
  rfl

/-- Witness for `calculateBpm_lands_in_window`: a two-second master loop (96000 samples at
48 kHz) gets a tempo inside the window. -/
theorem calculateBpm_lands_in_window_witness :
    (0 : Int) < 96000 ∧ (0 : ℚ) < 48000 ∧
    70 ≤ (demoBounceSession.calculateBpm 96000 48000).mBpm ∧
    (demoBounceSession.calculateBpm 96000 48000).mBpm ≤ 140 := by
  obtain ⟨⟨k, -, h2, h3, h4⟩, -⟩ := calculateBpm_lands_in_window demoBounceSession 96000 48000
    (by norm_num) (by norm_num)
  refine ⟨by norm_num, by norm_num, ?_, ?_⟩
  · rw [h2]; exact h3
  · rw [h2]; exact h4

/-! ## The processing cycle: first-loop phase -/

theorem writeRetrospective_frame (s : Session) (c : CycleInput) :
    ∃ rb wp, s.writeRetrospective c =
      { s with mRetrospectiveBuffer := rb, mRetroWritePos := wp } := by
  unfold Session.writeRetrospective
  split
  · exact ⟨_, _, rfl⟩
  · exact ⟨_, _, rfl⟩

theorem performBounceBack_frame (s : Session) :
    ∃ work tracks len, s.performBounceBack =
      { s with mWorkBuffer := work, mTracks := tracks, mPrimaryLoopLengthSamples := len } ∧
      (s.mPrimaryLoopLengthSamples ≤ 0 → s.performBounceBack = s) := by
  unfold Session.performBounceBack
  dsimp only
  by_cases h : s.mPrimaryLoopLengthSamples ≤ 0
  · rw [if_pos h]
    exact ⟨s.mWorkBuffer, s.mTracks, s.mPrimaryLoopLengthSamples, rfl, fun _ => rfl⟩
  · rw [if_neg h]
    split
    · exact ⟨s.mWorkBuffer, s.mTracks, s.mPrimaryLoopLengthSamples, rfl, fun h2 => absurd h2 h⟩
    · exact ⟨_, _, _, rfl, fun h2 => absurd h2 h⟩

theorem performCaptureAfterLoop_frame (s : Session) (trackIndex : Int) :
    (∃ work tracks, s.performCaptureAfterLoop trackIndex =
      { s with mWorkBuffer := work, mTracks := tracks }) ∧
    (s.mPrimaryLoopLengthSamples ≤ 0 → s.performCaptureAfterLoop trackIndex = s) := by
  unfold Session.performCaptureAfterLoop
  dsimp only
  by_cases h : s.mPrimaryLoopLengthSamples ≤ 0 ∨ s.mRetroBufferSize ≤ 0
  · rw [if_pos h]
    exact ⟨⟨s.mWorkBuffer, s.mTracks, rfl⟩, fun _ => rfl⟩
  · rw [if_neg h]
    refine ⟨?_, fun h2 => absurd (Or.inl h2) h⟩
    split
    · exact ⟨s.mWorkBuffer, s.mTracks, rfl⟩
    · split
      · exact ⟨s.mWorkBuffer, s.mTracks, rfl⟩
      · split
        · exact ⟨s.mWorkBuffer, s.mTracks, rfl⟩
        · split
          · exact ⟨s.mWorkBuffer, s.mTracks, rfl⟩
          · split
            · exact ⟨s.mWorkBuffer, s.mTracks, rfl⟩
            · unfold Session.setWorkBuffer
              dsimp only
              split
              · exact ⟨_, _, rfl⟩
              · exact ⟨_, _, rfl⟩

/-- The deferred operations never touch the first-loop flag or the global counters, and
change nothing but the pending marks while the cached master length is 0. -/
theorem executePendingOperations_frame (s : Session) :
    s.executePendingOperations.mIsFirstLoop = s.mIsFirstLoop ∧
    s.executePendingOperations.mGlobalTotalSamples = s.mGlobalTotalSamples ∧
    s.executePendingOperations.mGlobalPlaybackPosition = s.mGlobalPlaybackPosition ∧
    s.executePendingOperations.mBpm = s.mBpm ∧
    (s.mPrimaryLoopLengthSamples ≤ 0 →
      s.executePendingOperations.mPrimaryLoopLengthSamples = s.mPrimaryLoopLengthSamples ∧
      s.executePendingOperations.mTracks = s.mTracks) ∧
    (s.mPendingBounce = false → s.mPendingAfterLoop < 0 → s.executePendingOperations = s) := by
  have key : ∀ (u : Session),
      (if u.mPendingBounce = true then
        Session.performBounceBack { u with mPendingBounce := false } else u).mIsFirstLoop
        = u.mIsFirstLoop ∧
      (if u.mPendingBounce = true then
        Session.performBounceBack { u with mPendingBounce := false } else u).mGlobalTotalSamples
        = u.mGlobalTotalSamples ∧
      (if u.mPendingBounce = true then
        Session.performBounceBack { u with mPendingBounce := false }
          else u).mGlobalPlaybackPosition = u.mGlobalPlaybackPosition ∧
      (if u.mPendingBounce = true then
        Session.performBounceBack { u with mPendingBounce := false } else u).mBpm = u.mBpm ∧
      (u.mPrimaryLoopLengthSamples ≤ 0 →
        (if u.mPendingBounce = true then
          Session.performBounceBack { u with mPendingBounce := false }
            else u).mPrimaryLoopLengthSamples = u.mPrimaryLoopLengthSamples ∧
        (if u.mPendingBounce = true then
          Session.performBounceBack { u with mPendingBounce := false } else u).mTracks
          = u.mTracks) := by
    intro u
    split
    · obtain ⟨w, tr, len, e, e0⟩ := performBounceBack_frame { u with mPendingBounce := false }
      refine ⟨by rw [e], by rw [e], by rw [e], by rw [e], ?_⟩
      intro h0
      rw [e0 h0]
      exact ⟨rfl, rfl⟩
    · exact ⟨rfl, rfl, rfl, rfl, fun _ => ⟨rfl, rfl⟩⟩
  obtain ⟨k1, k2, k3, k4, k5⟩ := key s
  unfold Session.executePendingOperations
  dsimp only
  by_cases hnone : s.mPendingBounce = false ∧ s.mPendingAfterLoop < 0
  · rw [if_pos hnone]
    exact ⟨rfl, rfl, rfl, rfl, fun _ => ⟨rfl, rfl⟩, fun _ _ => rfl⟩
  · rw [if_neg hnone]
    refine ⟨?_, ?_, ?_, ?_, ?_, fun h1 h2 => absurd ⟨h1, h2⟩ hnone⟩
    all_goals split
    · obtain ⟨⟨w, tr, e⟩, -⟩ := performCaptureAfterLoop_frame
        { (if s.mPendingBounce = true then
            Session.performBounceBack { s with mPendingBounce := false } else s) with
          mPendingAfterLoop := -1 } s.mPendingAfterLoop
      rw [e]; exact k1
    · exact k1
    · obtain ⟨⟨w, tr, e⟩, -⟩ := performCaptureAfterLoop_frame
        { (if s.mPendingBounce = true then
            Session.performBounceBack { s with mPendingBounce := false } else s) with
          mPendingAfterLoop := -1 } s.mPendingAfterLoop
      rw [e]; exact k2
    · exact k2
    · obtain ⟨⟨w, tr, e⟩, -⟩ := performCaptureAfterLoop_frame
        { (if s.mPendingBounce = true then
            Session.performBounceBack { s with mPendingBounce := false } else s) with
          mPendingAfterLoop := -1 } s.mPendingAfterLoop
      rw [e]; exact k3
    · exact k3
    · obtain ⟨⟨w, tr, e⟩, -⟩ := performCaptureAfterLoop_frame
        { (if s.mPendingBounce = true then
            Session.performBounceBack { s with mPendingBounce := false } else s) with
          mPendingAfterLoop := -1 } s.mPendingAfterLoop
      rw [e]; exact k4
    · exact k4
    · intro h0
      obtain ⟨-, e0⟩ := performCaptureAfterLoop_frame
        { (if s.mPendingBounce = true then
            Session.performBounceBack { s with mPendingBounce := false } else s) with
          mPendingAfterLoop := -1 } s.mPendingAfterLoop
      rw [e0 (le_of_eq_of_le (k5 h0).1 h0)]
      exact k5 h0
    · exact k5

theorem enterCycle_session (p : Processor) (c : CycleInput) :
    (p.enterCycle c).sampleRate = p.sampleRate ∧
    (paramOn c.paramReset = p.mPrevReset →
      (p.enterCycle c).mIsFirstLoop = p.mIsFirstLoop ∧
      (p.enterCycle c).mPrimaryLoopLengthSamples = p.mPrimaryLoopLengthSamples ∧
      (p.enterCycle c).mGlobalTotalSamples = p.mGlobalTotalSamples ∧
      (p.enterCycle c).mTracks =
        (handleParamsFrom 0 p.mTracks p.mPrev c.params p.mPendingAfterLoop).1) ∧
    (paramOn c.paramReset ≠ p.mPrevReset →
      (p.enterCycle c).mIsFirstLoop = true ∧
      (p.enterCycle c).mPrimaryLoopLengthSamples = 0 ∧
      (p.enterCycle c).mGlobalTotalSamples = 0) := by
  obtain ⟨rb, wp, e⟩ := writeRetrospective_frame p.toSession c
  unfold Processor.enterCycle Processor.handleParameterChanges
  rw [e]
  dsimp only
  refine ⟨?_, ?_, ?_⟩
  · split <;> split <;> rfl
  · intro hr
    rw [if_neg (not_not.mpr hr)]
    split <;> exact ⟨rfl, rfl, rfl, rfl⟩
  · intro hr
    rw [if_pos hr]
    split <;> exact ⟨rfl, rfl, rfl⟩

theorem enterCycle_pendingBounce (p : Processor) (c : CycleInput)
    (h : paramOn c.paramBounce = p.mPrevBounce) :
    (p.enterCycle c).mPendingBounce = p.mPendingBounce := by
  obtain ⟨rb, wp, e⟩ := writeRetrospective_frame p.toSession c
  unfold Processor.enterCycle Processor.handleParameterChanges
  rw [e]
  dsimp only
  rw [if_neg (not_not.mpr h)]
  split <;> rfl

/-- The start of a cycle keeps the first-loop invariant. -/
theorem enterCycle_invariant (p : Processor) (c : CycleInput)
    (hinv : firstLoopInvariant p.toSession) :
    firstLoopInvariant (p.enterCycle c).toSession := by
  obtain ⟨-, hq, hr⟩ := enterCycle_session p c
  intro hflag
  by_cases h : paramOn c.paramReset = p.mPrevReset
  · obtain ⟨e1, e2, e3, -⟩ := hq h
    rw [e1] at hflag
    rw [e2, e3]
    exact hinv hflag
  · exact ⟨(hr h).2.1, (hr h).2.2⟩

theorem calculateBpmWith_frame (fuel : Nat) (s s1 : Session) (len : Int) (sr : ℚ)
    (h : s.calculateBpmWith fuel len sr = some s1) : ∃ b, s1 = { s with mBpm := b } := by
  unfold Session.calculateBpmWith at h
  dsimp only at h
  split at h
  · exact ⟨_, (Option.some.inj h).symm⟩
  · split at h
    · cases h
    · split at h
      · cases h
      · exact ⟨_, (Option.some.inj h).symm⟩

theorem calculateBpm_frame (s : Session) (len : Int) (sr : ℚ) :
    ∃ b, s.calculateBpm len sr = { s with mBpm := b } := by
  unfold Session.calculateBpm
  cases h : s.calculateBpmWith (bpmFuel (60 / ((len : ℚ) / sr))) len sr with
  | none => exact ⟨s.mBpm, rfl⟩
  | some s1 =>
    obtain ⟨b, e⟩ := calculateBpmWith_frame _ _ _ _ _ h
    exact ⟨b, e⟩

theorem firstLoopLogic_complete (p : Processor) (master : LoopTrack) (rest : List LoopTrack)
    (htracks : p.mTracks = master :: rest) (hflag : p.mIsFirstLoop = true)
    (hplay : master.currentState = State.Playing) (hlen : 0 < master.loopLengthSamples) :
    p.firstLoopLogic = { p with
      toSession := { Session.calculateBpm
          { p.toSession with mPrimaryLoopLengthSamples := master.loopLengthSamples }
          master.loopLengthSamples p.sampleRate with
        mIsFirstLoop := false
        mGlobalPlaybackPosition := 0 } } := by
  unfold Processor.firstLoopLogic
  rw [htracks]
  dsimp only
  rw [if_pos hflag, if_pos ⟨hplay, hlen⟩]

theorem firstLoopLogic_idle (p : Processor) (master : LoopTrack) (rest : List LoopTrack)
    (htracks : p.mTracks = master :: rest)
    (hno : ¬ (master.currentState = State.Playing ∧ 0 < master.loopLengthSamples)) :
    p.firstLoopLogic = p := by
  unfold Processor.firstLoopLogic
  rw [htracks]
  dsimp only
  rw [if_neg hno]
  split <;> rfl

theorem dispatchMasterLength_first (p : Processor) (hflag : p.mIsFirstLoop = true) :
    p.dispatchMasterLength = p.mPrimaryLoopLengthSamples := by
  unfold Processor.dispatchMasterLength
  dsimp only
  split
  · rfl
  · rw [if_neg]
    rw [hflag]
    simp

theorem dispatchMasterLength_same (p : Processor) (master : LoopTrack)
    (rest : List LoopTrack) (htracks : p.mTracks = master :: rest)
    (hsame : master.loopLengthSamples = p.mPrimaryLoopLengthSamples) :
    p.dispatchMasterLength = p.mPrimaryLoopLengthSamples := by
  unfold Processor.dispatchMasterLength
  rw [htracks]
  dsimp only
  split
  · rw [if_neg]
    intro h
    exact h.2 hsame
  · rfl

theorem dispatch_fields (p : Processor) (c : CycleInput) :
    (p.dispatch c).1.mIsFirstLoop = p.mIsFirstLoop ∧
    (p.dispatch c).1.mPrimaryLoopLengthSamples = p.dispatchMasterLength ∧
    (p.dispatch c).1.mBpm = p.mBpm ∧
    (p.dispatch c).1.mPendingBounce = p.mPendingBounce ∧
    (p.dispatch c).1.mPendingAfterLoop = p.mPendingAfterLoop ∧
    (p.dispatch c).1.mTracks =
      (dispatchTracks c p.mGlobalTotalSamples p.dispatchMasterLength
        (p.mTracks.any (fun t => t.isSolo)) 0 p.mTracks (initialOutputs c)).1 ∧
    (p.mIsFirstLoop = true → (p.dispatch c).1.mGlobalTotalSamples = p.mGlobalTotalSamples) ∧
    (p.mIsFirstLoop = false → 0 < p.dispatchMasterLength →
      (p.dispatch c).1.mGlobalTotalSamples = p.mGlobalTotalSamples + c.numSamples ∧
      (p.dispatch c).1.mGlobalPlaybackPosition =
        (p.mGlobalPlaybackPosition + c.numSamples).tmod p.dispatchMasterLength) := by
  unfold Processor.dispatch
  dsimp only
  by_cases h : p.mIsFirstLoop = false ∧ p.dispatchMasterLength > 0
  · rw [if_pos h]
    refine ⟨rfl, rfl, rfl, rfl, rfl, rfl, ?_, fun _ _ => ⟨rfl, rfl⟩⟩
    intro hf
    rw [h.1] at hf
    cases hf
  · rw [if_neg h]
    exact ⟨rfl, rfl, rfl, rfl, rfl, rfl, fun _ => rfl, fun h1 h2 => absurd ⟨h1, h2⟩ h⟩

/-- The dispatch loop runs `processBlock` once on every track, with the same global sample
count and master length for all and the master flag on track 0 only. -/
theorem dispatchTracks_get (c : CycleInput) (g L : Int) (solo : Bool) :
    ∀ (tracks : List LoopTrack) (i : Nat) (outs : List AudioBuffer) (k : Nat) (t : LoopTrack),
      tracks.get? k = some t →
      ∃ out, (dispatchTracks c g L solo i tracks outs).1.get? k =
        some (t.processBlock out c.mainInput (fxCache c (i + k)) g (decide (i + k = 0)) L
          solo).1 := by
  intro tracks
  induction tracks with
  | nil => intro i outs k t h; cases h
  | cons t0 rest ih =>
    intro i outs k t h
    cases k with
    | zero =>
      have e : t0 = t := by simpa using h
      subst e
      exact ⟨_, rfl⟩
    | succ k =>
      have h1 : rest.get? k = some t := by simpa using h
      obtain ⟨out, e⟩ := ih (i + 1) (outs.set (targetBus c i)
        (t0.processBlock (outs.getD (targetBus c i) (AudioBuffer.allocate 0 c.numSamples))
          c.mainInput (fxCache c i) g (decide (i = 0)) L solo).2) k t h1
      refine ⟨out, ?_⟩
      have e2 : i + (k + 1) = i + 1 + k := by omega
      rw [e2]
      show (dispatchTracks c g L solo (i + 1) rest _).1.get? k = _
      exact e

theorem dispatchTracks_length (c : CycleInput) (g L : Int) (solo : Bool) :
    ∀ (tracks : List LoopTrack) (i : Nat) (outs : List AudioBuffer),
      (dispatchTracks c g L solo i tracks outs).1.length = tracks.length := by
  intro tracks
  induction tracks with
  | nil => intro i outs; rfl
  | cons t0 rest ih =>
    intro i outs
    show (dispatchTracks c g L solo (i + 1) rest _).1.length + 1 = rest.length + 1
    rw [ih]

theorem handleTrackParams_quiet (t : LoopTrack) (pv : TrackPrev) (pr : TrackParams)
    (hq : quietTrack pv pr) :
    (handleTrackParams t pv pr).1 =
      ((t.setVolume pr.vol).setMuted (paramOn pr.mute)).setSolo (paramOn pr.solo) := by
  obtain ⟨h1, h2, h3, h4, h5, h6, h7⟩ := hq
  unfold handleTrackParams
  simp only [h1, h2, h3, h4, h5, h6, h7, ne_eq, not_true_eq_false, if_false]

/-- A Stop edge alone calls `stop ()` on the track. -/
theorem handleTrackParams_stop_edge (t : LoopTrack) (pv : TrackPrev) (pr : TrackParams)
    (h1 : paramOn pr.resample = pv.mPrevResample) (h2 : paramOn pr.recPlay = pv.mPrevRecPlay)
    (h3 : paramOn pr.stop ≠ pv.mPrevStop) (h4 : paramOn pr.clear = pv.mPrevClear)
    (h5 : paramOn pr.undo = pv.mPrevUndo) (h6 : paramOn pr.mul = pv.mPrevMul)
    (h7 : paramOn pr.div = pv.mPrevDiv) :
    (handleTrackParams t pv pr).1 =
      (((t.setVolume pr.vol).setMuted (paramOn pr.mute)).setSolo (paramOn pr.solo)).stop := by
  unfold handleTrackParams
  simp only [h1, h2, h4, h5, h6, h7, ne_eq, not_true_eq_false, if_false]
  rw [if_pos h3]

/-- A Rec/Play edge alone on a Recording track calls `setPlaying ()`. -/
theorem handleTrackParams_rec_edge (t : LoopTrack) (pv : TrackPrev) (pr : TrackParams)
    (hrec : t.currentState = State.Recording)
    (h1 : paramOn pr.resample = pv.mPrevResample) (h2 : paramOn pr.recPlay ≠ pv.mPrevRecPlay)
    (h3 : paramOn pr.stop = pv.mPrevStop) (h4 : paramOn pr.clear = pv.mPrevClear)
    (h5 : paramOn pr.undo = pv.mPrevUndo) (h6 : paramOn pr.mul = pv.mPrevMul)
    (h7 : paramOn pr.div = pv.mPrevDiv) :
    (handleTrackParams t pv pr).1 =
      (((t.setVolume pr.vol).setMuted (paramOn pr.mute)).setSolo
        (paramOn pr.solo)).setPlaying := by
  have hst : (((t.setVolume pr.vol).setMuted (paramOn pr.mute)).setSolo
      (paramOn pr.solo)).currentState = State.Recording := hrec
  unfold handleTrackParams
  simp only [h1, h3, h4, h5, h6, h7, ne_eq, not_true_eq_false, if_false]
  rw [if_pos h2, hst]

theorem handleParamsFrom_head (t : LoopTrack) (ts : List LoopTrack) (pv : TrackPrev)
    (pvs : List TrackPrev) (pr : TrackParams) (prs : List TrackParams) (pending : Int) :
    ∃ rest, (handleParamsFrom 0 (t :: ts) (pv :: pvs) (pr :: prs) pending).1 =
      (handleTrackParams t pv pr).1 :: rest := by
  rw [handleParamsFrom, if_pos (by decide)]
  exact ⟨_, rfl⟩

/-- The setters of volume, mute and solo leave state and loop length alone, so a master with
no trigger edge enters the first-loop check as the cycle found it. -/
theorem handleParamsFrom_head_quiet (m0 : LoopTrack) (r0 : List LoopTrack)
    (prevs : List TrackPrev) (params : List TrackParams) (pending : Int)
    (master : LoopTrack) (rest : List LoopTrack)
    (hq : ∀ pv pr, prevs.head? = some pv → params.head? = some pr → quietTrack pv pr)
    (h : (handleParamsFrom 0 (m0 :: r0) prevs params pending).1 = master :: rest) :
    master.currentState = m0.currentState ∧
    master.loopLengthSamples = m0.loopLengthSamples := by
  cases prevs with
  | nil =>
    rw [handleParamsFrom] at h
    · injection h with e1 e2
      rw [← e1]
      exact ⟨rfl, rfl⟩
    · intro t ts pv pvs pr prs _ hp _
      cases hp
  | cons pv pvs =>
    cases params with
    | nil =>
      rw [handleParamsFrom] at h
      · injection h with e1 e2
        rw [← e1]
        exact ⟨rfl, rfl⟩
      · intro t ts pv1 pvs1 pr prs _ _ hp
        cases hp
    | cons pr prs =>
      obtain ⟨rest1, e⟩ := handleParamsFrom_head m0 r0 pv pvs pr prs pending
      rw [e, handleTrackParams_quiet m0 pv pr (hq pv pr rfl rfl)] at h
      injection h with e1 e2
      rw [← e1]
      exact ⟨rfl, rfl⟩

theorem calculateBpm_eq (s : Session) (lengthSamples : Int) (sampleRate : ℚ)
    (hlen : 0 < lengthSamples) (hsr : 0 < sampleRate) :
    ∃ k : Int,
      s.calculateBpm lengthSamples sampleRate
        = { s with mBpm := 60 * sampleRate / lengthSamples * 2 ^ k } ∧
      70 ≤ 60 * sampleRate / lengthSamples * 2 ^ k ∧
      60 * sampleRate / lengthSamples * 2 ^ k ≤ 140 := by
  obtain ⟨k, h1, h2, h3⟩ := calculateBpmWith_spec s lengthSamples sampleRate hlen hsr
  refine ⟨k, ?_, h2, h3⟩
  unfold Session.calculateBpm
  rw [h1 _ (le_refl _)]
  rfl

theorem executePendingOperations_primary (s : Session) (h : s.mPendingBounce = false) :
    s.executePendingOperations.mPrimaryLoopLengthSamples = s.mPrimaryLoopLengthSamples := by
  unfold Session.executePendingOperations
  dsimp only
  have hb : ¬ s.mPendingBounce = true := by rw [h]; decide
  rw [if_neg hb]
  split
  · rfl
  · split
    · obtain ⟨⟨w, tr, e⟩, -⟩ := performCaptureAfterLoop_frame
        { s with mPendingAfterLoop := -1 } s.mPendingAfterLoop
      rw [e]
    · rfl

/-- The first-loop check on a processor whose master is Playing with a positive length,
and the dispatch that follows it. -/
theorem firstLoopLogic_fields (q : Processor) (master : LoopTrack)
    (rest : List LoopTrack) (htracks : q.mTracks = master :: rest)
    (hflag : q.mIsFirstLoop = true) (htot : q.mGlobalTotalSamples = 0)
    (hsr : 0 < q.sampleRate) (hplay : master.currentState = State.Playing)
    (hlen : 0 < master.loopLengthSamples) :
    (q.firstLoopLogic.mPrimaryLoopLengthSamples = master.loopLengthSamples ∧
      q.firstLoopLogic.mIsFirstLoop = false ∧
      q.firstLoopLogic.mGlobalPlaybackPosition = 0 ∧
      q.firstLoopLogic.mGlobalTotalSamples = 0 ∧
      q.firstLoopLogic.mTracks = q.mTracks ∧
      q.firstLoopLogic.mPendingBounce = q.mPendingBounce ∧
      ∃ k : Int,
        q.firstLoopLogic.mBpm = 60 * q.sampleRate / master.loopLengthSamples * 2 ^ k ∧
        70 ≤ 60 * q.sampleRate / master.loopLengthSamples * 2 ^ k ∧
        60 * q.sampleRate / master.loopLengthSamples * 2 ^ k ≤ 140) ∧
    q.firstLoopLogic.dispatchMasterLength = master.loopLengthSamples := by
  obtain ⟨k, e, b1, b2⟩ := calculateBpm_eq
    { q.toSession with mPrimaryLoopLengthSamples := master.loopLengthSamples }
    master.loopLengthSamples q.sampleRate hlen hsr
  have hq := firstLoopLogic_complete q master rest htracks hflag hplay hlen
  rw [e] at hq
  have f1 : q.firstLoopLogic.mPrimaryLoopLengthSamples = master.loopLengthSamples := by
    rw [hq]
  have f5 : q.firstLoopLogic.mTracks = q.mTracks := by rw [hq]
  refine ⟨⟨f1, by rw [hq], by rw [hq], ?_, f5, by rw [hq], k, by rw [hq], b1, b2⟩, ?_⟩
  · rw [hq]; exact htot
  · rw [dispatchMasterLength_same q.firstLoopLogic master rest (f5.trans htracks) f1.symm, f1]

/-- A cycle whose first-loop check finds the flag set and the master not Playing with a
positive length ends with the flag set and the master length and global counter at 0. -/
theorem cycle_stays_in_first_loop (p : Processor) (c : CycleInput) (master : LoopTrack)
    (rest : List LoopTrack) (hinv : firstLoopInvariant p.toSession)
    (hflag : (p.enterCycle c).mIsFirstLoop = true)
    (htracks : (p.enterCycle c).mTracks = master :: rest)
    (hno : ¬ (master.currentState = State.Playing ∧ 0 < master.loopLengthSamples)) :
    (p.processBlock c).1.mIsFirstLoop = true ∧
    (p.processBlock c).1.mPrimaryLoopLengthSamples = 0 ∧
    (p.processBlock c).1.mGlobalTotalSamples = 0 := by
  obtain ⟨i1, i2⟩ := enterCycle_invariant p c hinv hflag
  obtain ⟨d1, d2, -, -, -, -, d7, -⟩ := dispatch_fields (p.enterCycle c) c
  rw [dispatchMasterLength_first _ hflag, i1] at d2
  have d3 := (d7 hflag).trans i2
  obtain ⟨x1, x2, -, -, x5, -⟩ :=
    executePendingOperations_frame ((p.enterCycle c).dispatch c).1.toSession
  obtain ⟨x6, -⟩ := x5 (le_of_eq d2)
  unfold Processor.processBlock
  rw [firstLoopLogic_idle _ master rest htracks hno]
  exact ⟨x1.trans (d1.trans hflag), x6.trans d2, x2.trans d3⟩

theorem firstLoopLogic_flag (q : Processor) (h : q.firstLoopLogic.mIsFirstLoop = true) :
    q.firstLoopLogic = q := by
  unfold Processor.firstLoopLogic at h ⊢
  split
  · rfl
  · rename_i track1 tl hm
    rw [hm] at h
    dsimp only at h
    by_cases hf : q.mIsFirstLoop = true
    · rw [if_pos hf] at h ⊢
      by_cases hc : track1.currentState = State.Playing ∧ track1.loopLengthSamples > 0
      · rw [if_pos hc] at h
        cases h
      · rw [if_neg hc]
    · rw [if_neg hf]

/-- Every processing cycle keeps the first-loop invariant. -/
theorem processBlock_invariant (p : Processor) (c : CycleInput)
    (hinv : firstLoopInvariant p.toSession) :
    firstLoopInvariant (p.processBlock c).1.toSession := by
  intro hflag
  obtain ⟨d1, d2, -, -, -, -, d7, -⟩ := dispatch_fields (p.enterCycle c).firstLoopLogic c
  obtain ⟨x1, x2, -, -, x5, -⟩ := executePendingOperations_frame
    ((p.enterCycle c).firstLoopLogic.dispatch c).1.toSession
  have hf : (p.enterCycle c).firstLoopLogic.mIsFirstLoop = true :=
    (d1.symm.trans x1.symm).trans hflag
  have hq := firstLoopLogic_flag _ hf
  obtain ⟨i1, i2⟩ := enterCycle_invariant p c hinv
    ((congrArg (fun x => x.mIsFirstLoop) hq).symm.trans hf)
  have j1 : (p.enterCycle c).firstLoopLogic.mPrimaryLoopLengthSamples = 0 :=
    (congrArg (fun x => x.mPrimaryLoopLengthSamples) hq).trans i1
  have j2 : (p.enterCycle c).firstLoopLogic.mGlobalTotalSamples = 0 :=
    (congrArg (fun x => x.mGlobalTotalSamples) hq).trans i2
  rw [dispatchMasterLength_first _ hf, j1] at d2
  have d3 := (d7 hf).trans j2
  obtain ⟨x6, -⟩ := x5 (le_of_eq d2)
  exact ⟨x6.trans d2, x2.trans d3⟩

/-- C20. Take a processing cycle from a state in which the first-loop invariant holds (flag
set implies master length 0 and global sample counter 0), at a positive sample rate, and
look at the state after the cycle's parameter triggers have been handled (`enterCycle`):
the first-loop flag is set there and `master` is the first track.
If the master is then Playing with loop length `L > 0`, the first-loop check sets the master
length to `L`, stores a tempo `60 * sampleRate / L * 2 ^ k` inside 70..140, clears the flag
and sets the global playback position to 0 while the global sample counter is 0; every track
is then dispatched once with global sample count 0, master length `L` and the master flag on
track 0 only; after the dispatch the master length is `L`, and the cycle ends with the flag
cleared, the tempo kept, the counter at the block size, and the master length `L` unless a
Bounce was pending.
If the master is not Playing with a positive length, the cycle ends with the flag set and
the master length and the counter at 0.
When the cycle brings no Reset edge and no edge on the master's Resample, Rec/Play, Stop,
Clear, Undo, Multiply or Divide trigger, the flag, the master's state and its loop length
at the check are those the cycle started with. The cycle keeps the first-loop invariant. -/
theorem first_loop_completes_at_check (p : Processor) (c : CycleInput) (master : LoopTrack)
    (rest : List LoopTrack) (hinv : firstLoopInvariant p.toSession) (hsr : 0 < p.sampleRate)
    (hflag : (p.enterCycle c).mIsFirstLoop = true)
    (htracks : (p.enterCycle c).mTracks = master :: rest) :
    (master.currentState = State.Playing → 0 < master.loopLengthSamples →
      ((p.enterCycle c).firstLoopLogic.mPrimaryLoopLengthSamples = master.loopLengthSamples ∧
        (p.enterCycle c).firstLoopLogic.mIsFirstLoop = false ∧
        (p.enterCycle c).firstLoopLogic.mGlobalPlaybackPosition = 0 ∧
        (p.enterCycle c).firstLoopLogic.mGlobalTotalSamples = 0 ∧
        ∃ k : Int,
          (p.enterCycle c).firstLoopLogic.mBpm =
            60 * p.sampleRate / master.loopLengthSamples * 2 ^ k ∧
          70 ≤ 60 * p.sampleRate / master.loopLengthSamples * 2 ^ k ∧
          60 * p.sampleRate / master.loopLengthSamples * 2 ^ k ≤ 140) ∧
      (∀ (i : Nat) (t : LoopTrack), (p.enterCycle c).mTracks.get? i = some t →
        ∃ out, ((p.enterCycle c).firstLoopLogic.dispatch c).1.mTracks.get? i =
          some (t.processBlock out c.mainInput (fxCache c i) 0 (decide (i = 0))
            master.loopLengthSamples ((p.enterCycle c).mTracks.any (fun t => t.isSolo))).1) ∧
      ((p.enterCycle c).firstLoopLogic.dispatch c).1.mPrimaryLoopLengthSamples
        = master.loopLengthSamples ∧
      (p.processBlock c).1.mIsFirstLoop = false ∧
      (p.processBlock c).1.mBpm = (p.enterCycle c).firstLoopLogic.mBpm ∧
      (p.processBlock c).1.mGlobalTotalSamples = c.numSamples ∧
      ((p.enterCycle c).mPendingBounce = false →
        (p.processBlock c).1.mPrimaryLoopLengthSamples = master.loopLengthSamples)) ∧
    (¬ (master.currentState = State.Playing ∧ 0 < master.loopLengthSamples) →
      (p.processBlock c).1.mIsFirstLoop = true ∧
      (p.processBlock c).1.mPrimaryLoopLengthSamples = 0 ∧
      (p.processBlock c).1.mGlobalTotalSamples = 0) ∧
    (paramOn c.paramReset = p.mPrevReset →
      (∀ pv pr, p.mPrev.head? = some pv → c.params.head? = some pr → quietTrack pv pr) →
      p.mIsFirstLoop = true ∧
      ∃ m0 r0, p.mTracks = m0 :: r0 ∧ master.currentState = m0.currentState ∧
        master.loopLengthSamples = m0.loopLengthSamples) ∧
    firstLoopInvariant (p.processBlock c).1.toSession := by
  obtain ⟨hs, hq, -⟩ := enterCycle_session p c
  refine ⟨?_, cycle_stays_in_first_loop p c master rest hinv hflag htracks, ?_,
    processBlock_invariant p c hinv⟩
  · intro hplay hlen
    obtain ⟨-, i2⟩ := enterCycle_invariant p c hinv hflag
    obtain ⟨⟨f1, f2, f3, f4, f5, f6, k, f7, b1, b2⟩, f8⟩ :=
      firstLoopLogic_fields (p.enterCycle c) master rest htracks hflag i2
        (by rw [hs]; exact hsr) hplay hlen
    rw [hs] at f7 b1 b2
    obtain ⟨d1, d2, d3, d4, -, d6, -, d8⟩ := dispatch_fields (p.enterCycle c).firstLoopLogic c
    rw [f8] at d2
    obtain ⟨d9, -⟩ := d8 f2 (by rw [f8]; exact hlen)
    rw [f4, zero_add] at d9
    obtain ⟨x1, x2, -, x4, -, -⟩ := executePendingOperations_frame
      ((p.enterCycle c).firstLoopLogic.dispatch c).1.toSession
    refine ⟨⟨f1, f2, f3, f4, k, f7, b1, b2⟩, ?_, d2, x1.trans (d1.trans f2),
      x4.trans d3, x2.trans d9, ?_⟩
    · intro i t ht
      rw [d6, f4, f8, f5]
      have h := dispatchTracks_get c 0 master.loopLengthSamples
        ((p.enterCycle c).mTracks.any (fun t => t.isSolo)) (p.enterCycle c).mTracks 0
        (initialOutputs c) i t ht
      rw [Nat.zero_add] at h
      exact h
    · intro hb
      exact (executePendingOperations_primary _ (d4.trans (f6.trans hb))).trans d2
  · intro hr hquiet
    obtain ⟨e1, -, -, e4⟩ := hq hr
    refine ⟨e1.symm.trans hflag, ?_⟩
    rw [e4] at htracks
    cases hm : p.mTracks with
    | nil =>
      rw [hm] at htracks
      rw [handleParamsFrom] at htracks
      · cases htracks
      · intro t ts pv pvs pr prs ht _ _
        cases ht
    | cons m0 r0 =>
      rw [hm] at htracks
      exact ⟨m0, r0, rfl, handleParamsFrom_head_quiet m0 r0 _ _ _ master rest hquiet htracks⟩

theorem paramOn_zero : paramOn 0 = false := by
  unfold paramOn
  rw [decide_eq_false_iff_not]
  norm_num

theorem paramOn_one : paramOn 1 = true := by
  unfold paramOn
  rw [decide_eq_true_iff]
  norm_num

/-- The first track of the example processor at the first-loop check of a cycle of
`demoCycle`. -/
theorem demoFirstLoopProcessor_enter (m : LoopTrack) (pv : TrackPrev) (r : Int)
    (pr : TrackParams) :
    firstLoopInvariant (demoFirstLoopProcessor m pv r).toSession ∧
    0 < (demoFirstLoopProcessor m pv r).sampleRate ∧
    ((demoFirstLoopProcessor m pv r).enterCycle (demoCycle pr)).mIsFirstLoop = true ∧
    ((demoFirstLoopProcessor m pv r).enterCycle (demoCycle pr)).mPendingBounce = false ∧
    ∃ rest, ((demoFirstLoopProcessor m pv r).enterCycle (demoCycle pr)).mTracks =
      (handleTrackParams m pv pr).1 :: rest := by
  have hb : paramOn (demoCycle pr).paramBounce = (demoFirstLoopProcessor m pv r).mPrevBounce :=
    paramOn_zero
  have hpb := enterCycle_pendingBounce (demoFirstLoopProcessor m pv r) (demoCycle pr) hb
  obtain ⟨-, hq, -⟩ := enterCycle_session (demoFirstLoopProcessor m pv r) (demoCycle pr)
  have hr : paramOn (demoCycle pr).paramReset = (demoFirstLoopProcessor m pv r).mPrevReset :=
    paramOn_zero
  obtain ⟨e1, -, -, e4⟩ := hq hr
  obtain ⟨rest, e⟩ := handleParamsFrom_head m
    (List.replicate 5 (LoopTrack.fresh.prepareToPlay 48000)) pv
    (List.replicate 5 demoPrevIdle) pr (List.replicate 5 demoParamsIdle) (-1)
  refine ⟨fun _ => ⟨rfl, rfl⟩, ?_, e1, hpb, rest, e4.trans e⟩
  show (0 : ℚ) < 48000
  norm_num

theorem setters_setPlaying_recording (t : LoopTrack) (v : ℚ) (m s : Bool)
    (hrec : t.currentState = State.Recording) (hpp : 0 < t.playbackPosition) :
    (((t.setVolume v).setMuted m).setSolo s).setPlaying.currentState = State.Playing ∧
    (((t.setVolume v).setMuted m).setSolo s).setPlaying.loopLengthSamples
      = t.playbackPosition := by
  rw [setPlaying_recording_of_linear (((t.setVolume v).setMuted m).setSolo s) hrec hpp]
  exact ⟨rfl, rfl⟩

theorem setters_stop_playing (t : LoopTrack) (v : ℚ) (m s : Bool)
    (hplay : t.currentState = State.Playing) (hlen : 0 < t.loopLengthSamples) :
    (((t.setVolume v).setMuted m).setSolo s).stop.currentState = State.Stopped := by
  have h1 : (((t.setVolume v).setMuted m).setSolo s).currentState = State.Playing := hplay
  have h2 : 0 < (((t.setVolume v).setMuted m).setSolo s).loopLengthSamples := hlen
  have hn : ¬ (((t.setVolume v).setMuted m).setSolo s).currentState = State.Recording := by
    rw [h1]; decide
  unfold LoopTrack.stop
  dsimp only
  rw [if_neg hn, if_pos h2]

theorem processBlock_master_overflow_fields (t : LoopTrack) (out inp sc : AudioBuffer)
    (g L : Int) (solo : Bool) (hrec : t.currentState = State.Recording)
    (hpp : 0 < t.playbackPosition)
    (hfull : t.loopBuffer.numSamples ≤ t.playbackPosition + out.numSamples)
    (hact : t.mReplace.active = false) :
    (t.processBlock out inp sc g true L solo).1.currentState = State.Playing ∧
    (t.processBlock out inp sc g true L solo).1.loopLengthSamples = t.playbackPosition := by
  rw [processBlock_master_overflow t out inp sc g L solo hrec hpp hfull hact]
  exact ⟨rfl, rfl⟩

theorem demoMasterAfter_succ (k : Nat) :
    demoMasterAfter (k + 1) =
      ((demoMasterAfter k).processBlock (silentBlock 480) (silentBlock 480) (silentBlock 480)
        0 true 0 false).1 := by
  unfold demoMasterAfter
  rw [List.replicate_succ']
  simp only [runBlocks, List.foldl_append, List.foldl_cons, List.foldl_nil]
  rfl

/-- The master that recorded until its buffer was full is Playing with the 14399520 samples
it had recorded. -/
theorem demoFullMaster_fields :
    Reachable true demoFullMaster ∧ demoFullMaster.currentState = State.Playing ∧
    demoFullMaster.loopLengthSamples = 14399520 := by
  obtain ⟨m1, m2, m3, m4⟩ := demoMasterAfter_fields 29999 (by norm_num)
  have m2n : (demoMasterAfter 29999).playbackPosition = 14399520 := by rw [m2]; norm_num
  have hn : (silentBlock 480).numSamples = 480 := rfl
  obtain ⟨c1, c2⟩ := processBlock_master_overflow_fields (demoMasterAfter 29999)
    (silentBlock 480) (silentBlock 480) (silentBlock 480) 0 0 false m1
    (by rw [m2n]; norm_num) (by rw [m3, m2n, hn]; norm_num) m4
  have e := demoMasterAfter_succ 29999
  unfold demoFullMaster
  refine ⟨demoMasterAfter_reachable 30000, ?_, ?_⟩
  · rw [e]; exact c1
  · rw [e]; exact c2.trans m2n

/-- Witness for `first_loop_completes_at_check`: the master has recorded 10 blocks of 480
samples in the first-loop phase and the Rec/Play trigger goes off in the next cycle. The
cycle starts with the master Recording; parameter handling makes it Playing with loop
length 4800, the check sets the master length to 4800, and the cycle ends with the flag
cleared, master length 4800, global sample counter 480 and a tempo inside 70..140. -/
theorem first_loop_completes_at_check_witness :
    firstLoopInvariant demoRecordingProcessor.toSession ∧
    0 < demoRecordingProcessor.sampleRate ∧
    (demoMasterAfter 10).currentState = State.Recording ∧
    (demoRecordingProcessor.enterCycle (demoCycle demoParamsIdle)).mIsFirstLoop = true ∧
    (∃ master rest,
      (demoRecordingProcessor.enterCycle (demoCycle demoParamsIdle)).mTracks = master :: rest ∧
      master.currentState = State.Playing ∧ master.loopLengthSamples = 4800) ∧
    (demoRecordingProcessor.enterCycle
      (demoCycle demoParamsIdle)).firstLoopLogic.mPrimaryLoopLengthSamples = 4800 ∧
    (demoRecordingProcessor.processBlock (demoCycle demoParamsIdle)).1.mIsFirstLoop = false ∧
    (demoRecordingProcessor.processBlock
      (demoCycle demoParamsIdle)).1.mPrimaryLoopLengthSamples = 4800 ∧
    (demoRecordingProcessor.processBlock (demoCycle demoParamsIdle)).1.mGlobalTotalSamples
      = 480 ∧
    70 ≤ (demoRecordingProcessor.processBlock (demoCycle demoParamsIdle)).1.mBpm ∧
    (demoRecordingProcessor.processBlock (demoCycle demoParamsIdle)).1.mBpm ≤ 140 := by
  obtain ⟨m1, m2, -, -⟩ := demoMasterAfter_fields 10 (by norm_num)
  have hpp : 0 < (demoMasterAfter 10).playbackPosition := by rw [m2]; norm_num
  unfold demoRecordingProcessor
  obtain ⟨hinv, hsr, hflag, hpb, rest, htr⟩ := demoFirstLoopProcessor_enter
    (demoMasterAfter 10) demoPrevRecOn 4800 demoParamsIdle
  have hedge : paramOn demoParamsIdle.recPlay ≠ demoPrevRecOn.mPrevRecPlay := by
    rw [show paramOn demoParamsIdle.recPlay = false from paramOn_zero]
    decide
  rw [handleTrackParams_rec_edge (demoMasterAfter 10) demoPrevRecOn demoParamsIdle m1
    paramOn_zero hedge paramOn_zero paramOn_zero paramOn_zero paramOn_zero paramOn_zero]
    at htr
  obtain ⟨s1, s2⟩ := setters_setPlaying_recording (demoMasterAfter 10) demoParamsIdle.vol
    (paramOn demoParamsIdle.mute) (paramOn demoParamsIdle.solo) m1 hpp
  have s3 : ((((demoMasterAfter 10).setVolume demoParamsIdle.vol).setMuted
      (paramOn demoParamsIdle.mute)).setSolo
      (paramOn demoParamsIdle.solo)).setPlaying.loopLengthSamples = 4800 := by
    rw [s2, m2]; norm_num
  obtain ⟨hA, -, -⟩ := first_loop_completes_at_check
    (demoFirstLoopProcessor (demoMasterAfter 10) demoPrevRecOn 4800)
    (demoCycle demoParamsIdle) _ rest hinv hsr hflag htr
  obtain ⟨⟨a1, -, -, -, k, a5, b1, b2⟩, -, -, a7, a8, a9, a10⟩ := hA s1 (by rw [s3]; norm_num)
  refine ⟨hinv, hsr, m1, hflag, ⟨_, rest, htr, s1, s3⟩, a1.trans s3, a7,
    (a10 hpb).trans s3, a9, ?_, ?_⟩
  · rw [a8, a5]; exact b1
  · rw [a8, a5]; exact b2

/-- C20 (as stated) fails: the master recorded until its buffer was full, so the next cycle
starts with the first-loop flag set and the master Playing with loop length 14399520; the
Stop trigger goes on in that cycle. Parameter handling stops the master before the
first-loop check, and the cycle ends with the flag still set and the master length still 0. -/
theorem first_loop_not_completed_when_stopped_in_cycle :
    demoFullProcessor.mIsFirstLoop = true ∧
    demoFullProcessor.mTracks.head? = some demoFullMaster ∧
    Reachable true demoFullMaster ∧
    demoFullMaster.currentState = State.Playing ∧
    demoFullMaster.loopLengthSamples = 14399520 ∧
    (demoFullProcessor.processBlock (demoCycle demoParamsStop)).1.mIsFirstLoop = true ∧
    (demoFullProcessor.processBlock (demoCycle demoParamsStop)).1.mPrimaryLoopLengthSamples
      = 0 := by
  obtain ⟨r1, r2, r3⟩ := demoFullMaster_fields
  unfold demoFullProcessor
  obtain ⟨hinv, -, hflag, -, rest, htr⟩ := demoFirstLoopProcessor_enter demoFullMaster
    demoPrevRecOn 0 demoParamsStop
  have hedge : paramOn demoParamsStop.stop ≠ demoPrevRecOn.mPrevStop := by
    rw [show paramOn demoParamsStop.stop = true from paramOn_one]
    decide
  rw [handleTrackParams_stop_edge demoFullMaster demoPrevRecOn demoParamsStop paramOn_zero
    paramOn_one hedge paramOn_zero paramOn_zero paramOn_zero paramOn_zero] at htr
  have hst := setters_stop_playing demoFullMaster demoParamsStop.vol
    (paramOn demoParamsStop.mute) (paramOn demoParamsStop.solo) r2 (by rw [r3]; norm_num)
  obtain ⟨c1, c2, -⟩ := cycle_stays_in_first_loop
    (demoFirstLoopProcessor demoFullMaster demoPrevRecOn 0)
    (demoCycle demoParamsStop) _ rest hinv hflag htr
    (by rw [hst]; intro h; cases h.1)
  exact ⟨rfl, rfl, r1, r2, r3, c1, c2⟩

/-! ## Reset and progressive replace start -/

/-- C30. From every track state, `clear ()` leaves the track Empty with loop length 0, no
undo state (`canUndo` false, undo length 0), no progressive replace in flight (`isReplacing`
false, source pointer null), the recording counters, the staged-sample counter and both
phase anchors at 0, the multiplier at 1, and every allocated sample of the loop buffer 0. -/
theorem clear_resets_track (t : LoopTrack) :
    t.clear.currentState = State.Empty ∧
    t.clear.loopLengthSamples = 0 ∧
    t.clear.hasLoop = false ∧
    t.clear.canUndo = false ∧
    t.clear.undoLoopLengthSamples = 0 ∧
    t.clear.isReplacing = false ∧
    t.clear.mReplace.source = none ∧
    t.clear.playbackPosition = 0 ∧
    t.clear.recordedSamplesCurrent = 0 ∧
    t.clear.fxCaptureSamplesWritten = 0 ∧
    t.clear.recordingStartOffset = 0 ∧
    t.clear.recordingStartGlobalSample = 0 ∧
    t.clear.targetMultiplier = 1 ∧
    t.clear.loopBuffer.numChannels = t.loopBuffer.numChannels ∧
    t.clear.loopBuffer.numSamples = t.loopBuffer.numSamples ∧
    ∀ (c : Nat) (i : Int), c < t.loopBuffer.numChannels → 0 ≤ i → i < t.loopBuffer.numSamples →
      t.clear.loopBuffer.data c i = 0 := by
  refine ⟨rfl, rfl, ?_, rfl, rfl, rfl, rfl, rfl, rfl, rfl, rfl, rfl, rfl, rfl, rfl, ?_⟩
  · unfold LoopTrack.hasLoop
    rw [decide_eq_false_iff_not]
    show ¬ (0 : Int) > 0
    decide
  · intro c i hc h0 h1
    show (if c < t.loopBuffer.numChannels ∧ 0 ≤ i ∧ i < t.loopBuffer.numSamples
      then (0 : ℚ) else t.loopBuffer.data c i) = 0
    rw [if_pos ⟨hc, h0, h1⟩]

theorem beginProgressiveReplace_eq (t : LoopTrack) (src : AudioBuffer)
    (length startOffset startGlobal : Int) (hlen : 0 < length)
    (hcap : length ≤ t.loopBuffer.numSamples) :
    t.beginProgressiveReplace (some src) length startOffset startGlobal =
      { t.saveUndo with
        mReplace := { source := some src, length := length, cursor := 0, remaining := length,
                      active := true }
        loopLengthSamples := length
        playbackPosition := 0
        recordedSamplesCurrent := length
        recordingStartOffset := startOffset
        recordingStartGlobalSample := startGlobal
        currentState :=
          if t.saveUndo.currentState = State.Empty then State.Playing
          else t.saveUndo.currentState } := by
  unfold LoopTrack.beginProgressiveReplace
  have hg : ¬ (length ≤ 0 ∨ length > t.loopBuffer.numSamples) := by omega
  dsimp only
  rw [if_neg hg]

/-- C27. `beginProgressiveReplace (source, length, offset, startGlobal)` with a non-null
source and `0 < length <= capacity` sets `loopLength = length`, `recordingStartOffset =
offset` and `recordingStartGlobalSample = startGlobal`, writes the replace state afresh
(the given source, cursor 0, `remaining = length`, active) whatever replace was in flight,
turns an Empty track into Playing and leaves every other state alone, and does not touch
the loop buffer; with a null source or a length outside `(0, capacity]` the track is
unchanged. -/
theorem beginProgressiveReplace_starts_replace (t : LoopTrack) (source : Option AudioBuffer)
    (length startOffset startGlobal : Int) :
    (∀ src, source = some src → 0 < length → length ≤ t.loopBuffer.numSamples →
      (t.beginProgressiveReplace source length startOffset startGlobal).loopLengthSamples
        = length ∧
      (t.beginProgressiveReplace source length startOffset startGlobal).recordingStartOffset
        = startOffset ∧
      (t.beginProgressiveReplace source length startOffset
        startGlobal).recordingStartGlobalSample = startGlobal ∧
      (t.beginProgressiveReplace source length startOffset startGlobal).mReplace =
        { source := some src, length := length, cursor := 0, remaining := length,
          active := true } ∧
      (t.beginProgressiveReplace source length startOffset startGlobal).isReplacing = true ∧
      (t.beginProgressiveReplace source length startOffset startGlobal).currentState =
        (if t.currentState = State.Empty then State.Playing else t.currentState) ∧
      (t.beginProgressiveReplace source length startOffset startGlobal).loopBuffer
        = t.loopBuffer) ∧
    (source = none ∨ length ≤ 0 ∨ length > t.loopBuffer.numSamples →
      t.beginProgressiveReplace source length startOffset startGlobal = t) := by
  constructor
  · intro src hsrc hpos hcap
    subst hsrc
    obtain ⟨ub, ul, hu, e⟩ := saveUndo_frame t
    rw [beginProgressiveReplace_eq t src length startOffset startGlobal hpos hcap, e]
    exact ⟨rfl, rfl, rfl, rfl, rfl, rfl, rfl⟩
  · intro h
    unfold LoopTrack.beginProgressiveReplace
    cases source with
    | none => rfl
    | some src =>
      have hg : length ≤ 0 ∨ length > t.loopBuffer.numSamples := by
        rcases h with h | h
        · cases h
        · exact h
      simp only [hg, if_true]

theorem demoLoop1000_fields :
    demoLoop1000.currentState = State.Playing ∧ demoLoop1000.loopLengthSamples = 1000 ∧
    demoLoop1000.loopBuffer.numSamples = 14400000 ∧
    Reachable true demoLoop1000 := by
  obtain ⟨f1, f2, -⟩ := demoSeededTrack_fields (patternBuffer 1000 (fun _ => 1)) 1000 0
    (by decide) (by decide)
  exact ⟨f1, f2, demoSeededTrack_capacity _ _ _, demoSeededTrack_reachable true _ _ _⟩

/-- Witness for `beginProgressiveReplace_starts_replace`: on the 1000-sample example loop
with a replace of 800 samples in flight, a new replace of 500 samples takes over (cursor 0,
500 remaining, loop length 500, anchors 7 and 9); a null source changes nothing. -/
theorem beginProgressiveReplace_starts_replace_witness :
    demoReplacing.isReplacing = true ∧ demoReplacing.mReplace.remaining = 800 ∧
    (0 : Int) < 500 ∧ (500 : Int) ≤ demoReplacing.loopBuffer.numSamples ∧
    (demoReplacing.beginProgressiveReplace (some (patternBuffer 500 (fun _ => 5))) 500 7
      9).loopLengthSamples = 500 ∧
    (demoReplacing.beginProgressiveReplace (some (patternBuffer 500 (fun _ => 5))) 500 7
      9).mReplace.remaining = 500 ∧
    (demoReplacing.beginProgressiveReplace (some (patternBuffer 500 (fun _ => 5))) 500 7
      9).recordingStartGlobalSample = 9 ∧
    demoReplacing.beginProgressiveReplace none 500 7 9 = demoReplacing := by
  obtain ⟨f1, f2, f3, -⟩ := demoLoop1000_fields
  obtain ⟨r1, r2, -, -⟩ := beginProgressiveReplace_fields demoLoop1000
    (patternBuffer 800 (fun _ => 3)) 800 0 0 (by decide) (by rw [f3]; decide)
  have hcap : demoReplacing.loopBuffer.numSamples = 14400000 := by
    unfold demoReplacing
    rw [r2, f3]
  obtain ⟨h1, h2⟩ := beginProgressiveReplace_starts_replace demoReplacing
    (some (patternBuffer 500 (fun _ => 5))) 500 7 9
  obtain ⟨a1, -, a3, a4, -, -, -⟩ := h1 _ rfl (by decide) (by rw [hcap]; decide)
  have hnone := (beginProgressiveReplace_starts_replace demoReplacing none 500 7 9).2
    (Or.inl rfl)
  refine ⟨?_, ?_, by decide, by rw [hcap]; decide, a1, by rw [a4], a3, hnone⟩
  · unfold demoReplacing LoopTrack.isReplacing
    rw [r1]
  · unfold demoReplacing
    rw [r1]

/-! ## Staging and commit -/

theorem captureSidechain_fold_count (sc : AudioBuffer) :
    ∀ (l : List (Int × Int × Int)) (s : LoopTrack),
      (l.foldl
        (fun (s : LoopTrack) c =>
          { s with
            fxCaptureBuffer := forCh (min sc.numChannels s.fxCaptureBuffer.numChannels)
              (fun ch acc => acc.copyFrom ch c.2.1 sc ch c.1 c.2.2) s.fxCaptureBuffer
            fxCaptureSamplesWritten := s.fxCaptureSamplesWritten + c.2.2 })
        s).fxCaptureSamplesWritten
        = s.fxCaptureSamplesWritten + (l.map (fun c => c.2.2)).sum := by
  intro l
  induction l with
  | nil => intro s; simp
  | cons c rest ih =>
    intro s
    rw [List.foldl_cons, ih]
    simp only [List.map_cons, List.sum_cons]
    ring

/-- The staging write counts every sample of the block. -/
theorem captureSidechain_count (t : LoopTrack) (sc : AudioBuffer) (n p len : Int)
    (hlen : 0 < len) (hp : 0 ≤ p) :
    (t.captureSidechain sc n p len).fxCaptureSamplesWritten
      = t.fxCaptureSamplesWritten + max n 0 := by
  unfold LoopTrack.captureSidechain
  rw [if_neg (by omega)]
  rw [captureSidechain_fold_count, wrapChunks_total len hlen n.toNat n 0 p hp (by omega)]

theorem processBlock_playing_staged (t : LoopTrack) (out inp sc : AudioBuffer) (g L : Int)
    (im solo : Bool) (h : t.currentState = State.Playing)
    (hact : t.mReplace.active = false) (hlen : 0 < t.loopLengthSamples) (hg : 0 ≤ g) :
    (t.processBlock out inp sc g im L solo).1.fxCaptureSamplesWritten
      = t.fxCaptureSamplesWritten + max out.numSamples 0 := by
  obtain ⟨b1, b2, -, -⟩ := blockPositions_loop_range t State.Playing g L im (by decide) hlen hg
  rw [processBlock_playing_eq t out inp sc g L im solo h]
  simp only [hact, Bool.false_eq_true, if_false, hlen, if_true]
  rw [b1]
  exact captureSidechain_count t sc out.numSamples _ _ hlen b2

theorem runBlocks_nil (im : Bool) (t : LoopTrack) : runBlocks im t [] = t := rfl

theorem demoSeededTrack_idle (mixedBuffer : AudioBuffer) (length anchor : Int) :
    (demoSeededTrack mixedBuffer length anchor).mReplace.active = false ∧
    (demoSeededTrack mixedBuffer length anchor).fxCaptureSamplesWritten = 0 := by
  unfold demoSeededTrack
  rw [prepared_48000]
  unfold LoopTrack.setLoopFromMix
  split
  · exact ⟨rfl, rfl⟩
  · obtain ⟨ub, ul, hu, e⟩ := saveUndo_frame (preparedTrack 14400000)
    rw [e]
    exact ⟨rfl, rfl⟩

/-- The example loop after its 1000-sample Playing block: still a 1000-sample Playing loop,
with 1000 samples staged. -/
theorem demoStaged_fields :
    Reachable true demoStaged ∧ demoStaged.currentState = State.Playing ∧
    demoStaged.loopLengthSamples = 1000 ∧ demoStaged.fxCaptureSamplesWritten = 1000 := by
  obtain ⟨f1, f2, -, f4⟩ := demoLoop1000_fields
  obtain ⟨i1, i2⟩ := demoSeededTrack_idle (patternBuffer 1000 (fun _ => 1)) 1000 0
  have hr : Reachable true demoStaged := reachable_runBlocks true _ _ f4
  have hc := processBlock_playing_staged demoLoop1000 (silentBlock 1000) (silentBlock 1000)
    (patternBuffer 1000 (fun _ => 7)) 0 1000 true false f1 i1 (by rw [f2]; decide)
    (by decide)
  obtain ⟨lb, r, b, w, e⟩ := processBlock_playing_frame demoLoop1000 (silentBlock 1000)
    (silentBlock 1000) (patternBuffer 1000 (fun _ => 7)) 0 1000 true false f1
  have i2b : demoLoop1000.fxCaptureSamplesWritten = 0 := i2
  have hn : (silentBlock 1000).numSamples = 1000 := rfl
  rw [i2b, hn] at hc
  refine ⟨hr, ?_, ?_, ?_⟩
  · unfold demoStaged
    rw [runBlocks_cons, runBlocks_nil]
    dsimp only
    rw [e]
    exact f1
  · unfold demoStaged
    rw [runBlocks_cons, runBlocks_nil]
    dsimp only
    rw [e]
    exact f2
  · unfold demoStaged
    rw [runBlocks_cons, runBlocks_nil]
    dsimp only
    rw [hc]
    decide

/-- C28. `applyFxReplace ()` on a track with `loopLength = len > 0` and at least `len`
staged samples: afterwards the loop samples `[0, len)` equal the staging buffer's samples
`[0, len)` on every channel the two buffers share, the undo buffer holds the previous loop
samples `[0, len)` on each of its channels with undo length `len` and the undo flag set, the
staged-sample counter is 0, and loop length and state are as before. With no loop, or with
fewer than `len` samples staged, the track is unchanged. -/
theorem applyFxReplace_commits_staging (t : LoopTrack) :
    (0 < t.loopLengthSamples → t.loopLengthSamples ≤ t.fxCaptureSamplesWritten →
      (∀ (c : Nat) (j : Int), c < t.loopBuffer.numChannels → c < t.fxCaptureBuffer.numChannels →
        0 ≤ j → j < t.loopLengthSamples →
        t.applyFxReplace.loopBuffer.data c j = t.fxCaptureBuffer.data c j) ∧
      (∀ (c : Nat) (j : Int), c < t.undoBuffer.numChannels → 0 ≤ j →
        j < t.loopLengthSamples →
        t.applyFxReplace.undoBuffer.data c j = t.loopBuffer.data c j) ∧
      t.applyFxReplace.undoLoopLengthSamples = t.loopLengthSamples ∧
      t.applyFxReplace.hasUndo = true ∧
      t.applyFxReplace.fxCaptureSamplesWritten = 0 ∧
      t.applyFxReplace.loopLengthSamples = t.loopLengthSamples ∧
      t.applyFxReplace.currentState = t.currentState ∧
      t.applyFxReplace.fxCaptureBuffer = t.fxCaptureBuffer) ∧
    (t.loopLengthSamples ≤ 0 ∨ t.fxCaptureSamplesWritten < t.loopLengthSamples →
      t.applyFxReplace = t) := by
  constructor
  · intro hlen hready
    rw [applyFxReplace_eq t hlen hready]
    refine ⟨?_, ?_, rfl, rfl, rfl, rfl, rfl, rfl⟩
    · intro c j hc1 hc2 hj0 hj1
      show (forCh (min t.loopBuffer.numChannels t.fxCaptureBuffer.numChannels)
        (fun ch acc => acc.copyFrom ch 0 t.fxCaptureBuffer ch 0 t.loopLengthSamples)
        t.loopBuffer).data c j = _
      rw [forCh_copyFrom_data, if_pos ⟨by omega, hj0, by omega⟩]
      congr 1
      omega
    · intro c j hc hj0 hj1
      exact saveUndo_data t c j hc hj0 hj1
  · intro h
    unfold LoopTrack.applyFxReplace
    rcases h with h | h
    · rw [if_pos h]
    · by_cases h0 : t.loopLengthSamples ≤ 0
      · rw [if_pos h0]
      · rw [if_neg h0, if_pos h]

/-- Witness for `applyFxReplace_commits_staging`: the example loop with one full loop staged
commits (counter back to 0, undo length 1000); the same loop with nothing staged is left
unchanged. -/
theorem applyFxReplace_commits_staging_witness :
    0 < demoStaged.loopLengthSamples ∧
    demoStaged.loopLengthSamples ≤ demoStaged.fxCaptureSamplesWritten ∧
    demoStaged.applyFxReplace.fxCaptureSamplesWritten = 0 ∧
    demoStaged.applyFxReplace.undoLoopLengthSamples = 1000 ∧
    demoStaged.applyFxReplace.hasUndo = true ∧
    demoLoop1000.fxCaptureSamplesWritten < demoLoop1000.loopLengthSamples ∧
    demoLoop1000.applyFxReplace = demoLoop1000 := by
  obtain ⟨-, -, s3, s4⟩ := demoStaged_fields
  obtain ⟨-, f2, -, -⟩ := demoLoop1000_fields
  obtain ⟨-, i2⟩ := demoSeededTrack_idle (patternBuffer 1000 (fun _ => 1)) 1000 0
  have i2b : demoLoop1000.fxCaptureSamplesWritten = 0 := i2
  have hpos : 0 < demoStaged.loopLengthSamples := by rw [s3]; decide
  have hready : demoStaged.loopLengthSamples ≤ demoStaged.fxCaptureSamplesWritten := by
    rw [s3, s4]
  have hshort : demoLoop1000.fxCaptureSamplesWritten < demoLoop1000.loopLengthSamples := by
    rw [i2b, f2]; decide
  obtain ⟨-, -, a3, a4, a5, -⟩ := (applyFxReplace_commits_staging demoStaged).1 hpos hready
  exact ⟨hpos, hready, a5, a3.trans s3, a4, hshort,
    (applyFxReplace_commits_staging demoLoop1000).2 (Or.inr hshort)⟩

/-! ## Phase anchors -/

theorem setPlaying_anchors (u : LoopTrack) :
    u.setPlaying.recordingStartGlobalSample = u.recordingStartGlobalSample ∧
    u.setPlaying.recordingStartOffset = u.recordingStartOffset ∧
    u.setPlaying.recordedSamplesCurrent = u.recordedSamplesCurrent := by
  obtain ⟨len, pp, lb, st, e⟩ := setPlaying_frame u
  rw [e]
  exact ⟨rfl, rfl, rfl⟩

theorem saveUndo_anchors (u : LoopTrack) :
    u.saveUndo.recordingStartGlobalSample = u.recordingStartGlobalSample ∧
    u.saveUndo.recordingStartOffset = u.recordingStartOffset := by
  obtain ⟨ub, ul, hu, e⟩ := saveUndo_frame u
  rw [e]
  exact ⟨rfl, rfl⟩

/-- The edit operations leave both phase anchors alone. -/
theorem edits_keep_anchors (u : LoopTrack) :
    (u.multiplyLoop.recordingStartGlobalSample = u.recordingStartGlobalSample ∧
      u.multiplyLoop.recordingStartOffset = u.recordingStartOffset) ∧
    (u.divideLoop.recordingStartGlobalSample = u.recordingStartGlobalSample ∧
      u.divideLoop.recordingStartOffset = u.recordingStartOffset) ∧
    (u.performUndo.recordingStartGlobalSample = u.recordingStartGlobalSample ∧
      u.performUndo.recordingStartOffset = u.recordingStartOffset) ∧
    (u.setOverdubbing.recordingStartGlobalSample = u.recordingStartGlobalSample ∧
      u.setOverdubbing.recordingStartOffset = u.recordingStartOffset) ∧
    (u.setPlaying.recordingStartGlobalSample = u.recordingStartGlobalSample ∧
      u.setPlaying.recordingStartOffset = u.recordingStartOffset) ∧
    (u.stop.recordingStartGlobalSample = u.recordingStartGlobalSample ∧
      u.stop.recordingStartOffset = u.recordingStartOffset) ∧
    (u.applyFxReplace.recordingStartGlobalSample = u.recordingStartGlobalSample ∧
      u.applyFxReplace.recordingStartOffset = u.recordingStartOffset) ∧
    ∀ (inputBuffer : AudioBuffer) (inputLength inputStartGlobalSample : Int),
      (u.overdubFromBuffer inputBuffer inputLength
        inputStartGlobalSample).recordingStartGlobalSample = u.recordingStartGlobalSample ∧
      (u.overdubFromBuffer inputBuffer inputLength
        inputStartGlobalSample).recordingStartOffset = u.recordingStartOffset := by
  obtain ⟨s1, s2⟩ := saveUndo_anchors u
  obtain ⟨p1, p2, -⟩ := setPlaying_anchors u
  refine ⟨?_, ?_, ?_, ?_, ⟨p1, p2⟩, ?_, ?_, ?_⟩
  · unfold LoopTrack.multiplyLoop
    split
    · exact ⟨rfl, rfl⟩
    · split
      · exact ⟨rfl, rfl⟩
      · exact ⟨s1, s2⟩
  · unfold LoopTrack.divideLoop
    split
    · exact ⟨rfl, rfl⟩
    · split
      · exact ⟨rfl, rfl⟩
      · exact ⟨s1, s2⟩
  · unfold LoopTrack.performUndo
    split
    · dsimp only
      split
      · exact ⟨p1, p2⟩
      · exact ⟨rfl, rfl⟩
    · exact ⟨rfl, rfl⟩
  · unfold LoopTrack.setOverdubbing
    split
    · dsimp only
      split
      · exact ⟨s1, s2⟩
      · exact ⟨rfl, rfl⟩
    · exact ⟨rfl, rfl⟩
  · unfold LoopTrack.stop
    dsimp only
    split <;> split <;> exact ⟨rfl, rfl⟩
  · unfold LoopTrack.applyFxReplace
    split
    · exact ⟨rfl, rfl⟩
    · split
      · exact ⟨rfl, rfl⟩
      · exact ⟨s1, s2⟩
  · intro ib il ig
    unfold LoopTrack.overdubFromBuffer
    split
    · exact ⟨rfl, rfl⟩
    · exact ⟨s1, s2⟩

/-- A Recording block that does not promote: what it may change on the track the position
computation leaves. -/
theorem processBlock_recording_frame (t : LoopTrack) (out inp sc : AudioBuffer) (g L : Int)
    (im solo : Bool) (hrec : t.currentState = State.Recording)
    (hno : im = true ∨ t.recordedSamplesCurrent < slaveTargetLen L t.targetMultiplier) :
    ∃ len pp lb st r rc, (t.processBlock out inp sc g im L solo).1 =
      { (LoopTrack.blockPositions t State.Recording g im L).track with
        loopLengthSamples := len, playbackPosition := pp, loopBuffer := lb,
        currentState := st, mReplace := r, recordedSamplesCurrent := rc } ∧
      (im = false → rc =
        (LoopTrack.blockPositions t State.Recording g im L).track.recordedSamplesCurrent
          + out.numSamples) := by
  obtain ⟨lb, r, h1, -, -⟩ := replaceStage_frame
    (LoopTrack.blockPositions t State.Recording g im L).track
    (LoopTrack.blockPositions t State.Recording g im L).readPos out.numSamples
  rw [processBlock_recording_eq t out inp sc g L im solo hrec hno, h1]
  have hcases : ∃ len pp lb2 st, LoopTrack.handleRecording
      { (LoopTrack.blockPositions t State.Recording g im L).track with
        loopBuffer := lb, mReplace := r } inp out.numSamples
      (LoopTrack.blockPositions t State.Recording g im L).writePos =
      { (LoopTrack.blockPositions t State.Recording g im L).track with
        loopLengthSamples := len, playbackPosition := pp, loopBuffer := lb2,
        currentState := st, mReplace := r } := by
    unfold LoopTrack.handleRecording
    split
    · obtain ⟨len, pp, lb2, st, e⟩ := setPlaying_frame
        { (LoopTrack.blockPositions t State.Recording g im L).track with
          loopBuffer := lb, mReplace := r }
      rw [e]
      exact ⟨len, pp, lb2, st, rfl⟩
    · exact ⟨_, _, _, _, rfl⟩
  obtain ⟨len, pp, lb2, st, e⟩ := hcases
  rw [e]
  cases im
  · exact ⟨len, pp, lb2, st, r, _, rfl, fun _ => rfl⟩
  · refine ⟨len, pp + out.numSamples, lb2, st, r, _, rfl, fun h => ?_⟩
    cases h

/-- Phase anchors across one slave block: they are assigned in a Recording block that
starts with nothing recorded while the master length is positive, and only there; a track
still Recording afterwards has the block added to its recorded-sample counter. -/
theorem processBlock_slave_anchors (t : LoopTrack) (out inp sc : AudioBuffer) (g L : Int)
    (solo : Bool) :
    (t.currentState = State.Recording ∧ t.recordedSamplesCurrent = 0 ∧ 0 < L →
      (t.processBlock out inp sc g false L solo).1.recordingStartGlobalSample = g ∧
      (t.processBlock out inp sc g false L solo).1.recordingStartOffset = g.tmod L) ∧
    (¬ (t.currentState = State.Recording ∧ t.recordedSamplesCurrent = 0 ∧ 0 < L) →
      (t.processBlock out inp sc g false L solo).1.recordingStartGlobalSample
        = t.recordingStartGlobalSample ∧
      (t.processBlock out inp sc g false L solo).1.recordingStartOffset
        = t.recordingStartOffset) ∧
    ((t.processBlock out inp sc g false L solo).1.currentState = State.Recording →
      t.currentState = State.Recording ∧
      (t.processBlock out inp sc g false L solo).1.recordedSamplesCurrent
        = t.recordedSamplesCurrent + out.numSamples) := by
  cases hs : t.currentState with
  | Empty =>
    rw [processBlock_idle t out inp sc g L false solo (Or.inl hs)]
    refine ⟨fun h => absurd h.1 (by decide), fun _ => ⟨rfl, rfl⟩, fun h => ?_⟩
    rw [hs] at h; cases h
  | Stopped =>
    rw [processBlock_idle t out inp sc g L false solo (Or.inr hs)]
    refine ⟨fun h => absurd h.1 (by decide), fun _ => ⟨rfl, rfl⟩, fun h => ?_⟩
    rw [hs] at h; cases h
  | Playing =>
    obtain ⟨lb, r, b, w, e⟩ := processBlock_playing_frame t out inp sc g L false solo hs
    rw [e]
    refine ⟨fun h => absurd h.1 (by decide), fun _ => ⟨rfl, rfl⟩, fun h => ?_⟩
    rw [hs] at h; cases h
  | Overdubbing =>
    obtain ⟨lb, r, b, w, e⟩ := processBlock_overdub_frame t out inp sc g L false solo hs
    rw [e]
    refine ⟨fun h => absurd h.1 (by decide), fun _ => ⟨rfl, rfl⟩, fun h => ?_⟩
    rw [hs] at h; cases h
  | Recording =>
    have hT := slaveTargetLen_pos L t.targetMultiplier
    by_cases hge : slaveTargetLen L t.targetMultiplier ≤ t.recordedSamplesCurrent
    · obtain ⟨hst, -, e⟩ := processBlock_promote_eq_setPlaying t out inp sc g L solo hs hge
      obtain ⟨p1, p2, -⟩ := setPlaying_anchors
        { t with loopLengthSamples := slaveTargetLen L t.targetMultiplier }
      obtain ⟨lb, r, b, w, e2⟩ := processBlock_playing_frame _ out inp sc g L false solo hst
      rw [e, e2]
      refine ⟨fun h => ?_, fun _ => ⟨p1, p2⟩, fun h => ?_⟩
      · omega
      · rw [hst] at h; cases h
    · obtain ⟨len, pp, lb, st, r, rc, e, hrc⟩ := processBlock_recording_frame t out inp sc g L
        false solo hs (Or.inr (by omega))
      rw [e, blockPositions_slave_recording]
      refine ⟨fun h => ?_, fun h => ?_, fun _ => ⟨rfl, ?_⟩⟩
      · show (if t.recordedSamplesCurrent = 0 ∧ L > 0 then _ else t).recordingStartGlobalSample
          = g ∧ (if t.recordedSamplesCurrent = 0 ∧ L > 0 then _ else t).recordingStartOffset = _
        rw [if_pos ⟨h.2.1, h.2.2⟩]
        exact ⟨rfl, rfl⟩
      · show (if t.recordedSamplesCurrent = 0 ∧ L > 0 then _ else t).recordingStartGlobalSample
          = _ ∧ (if t.recordedSamplesCurrent = 0 ∧ L > 0 then _ else t).recordingStartOffset = _
        rw [if_neg (fun hh => h ⟨rfl, hh.1, hh.2⟩)]
        exact ⟨rfl, rfl⟩
      · rw [hrc rfl, blockPositions_slave_recording]
        show (if t.recordedSamplesCurrent = 0 ∧ L > 0 then _ else t).recordedSamplesCurrent + _ = _
        split <;> rfl

theorem runBlocks_slave_anchors_kept :
    ∀ (blocks : List BlockArgs) (t : LoopTrack),
      (t.currentState = State.Recording → 0 < t.recordedSamplesCurrent) →
      (∀ b ∈ blocks, 0 < b.outputBuffer.numSamples) →
      (runBlocks false t blocks).recordingStartGlobalSample = t.recordingStartGlobalSample ∧
      (runBlocks false t blocks).recordingStartOffset = t.recordingStartOffset := by
  intro blocks
  induction blocks with
  | nil => intro t _ _; exact ⟨rfl, rfl⟩
  | cons a rest ih =>
    intro t hinv hn
    obtain ⟨-, hkeep, hnext⟩ := processBlock_slave_anchors t a.outputBuffer a.inputBuffer
      a.sidechainBuffer a.globalTotalSamples a.masterLoopLength a.anySoloActive
    have hna : ¬ (t.currentState = State.Recording ∧ t.recordedSamplesCurrent = 0 ∧
        0 < a.masterLoopLength) := by
      intro h
      have := hinv h.1
      omega
    obtain ⟨k1, k2⟩ := hkeep hna
    have hpos := hn a (List.mem_cons_self _ _)
    obtain ⟨r1, r2⟩ := ih _ (fun h => by
        obtain ⟨h1, h2⟩ := hnext h
        have := hinv h1
        omega)
      (fun b hb => hn b (List.mem_cons_of_mem _ hb))
    rw [runBlocks_cons]
    exact ⟨r1.trans k1, r2.trans k2⟩

/-- C29. A slave recording pass starts on a Recording track with nothing recorded. Its
first `processBlock`, with master length `> 0` and block size `> 0`, assigns
`recordingStartGlobalSample` to that block's global sample count (and `recordingStartOffset`
to that count modulo the master length); after every further `processBlock` with block size
`> 0`, whatever its arguments, both anchors still hold those values. `multiplyLoop`,
`divideLoop`, `performUndo`, `setOverdubbing`, `setPlaying`, `stop`, `applyFxReplace` and
`overdubFromBuffer` leave both anchors unchanged on every track. -/
theorem anchor_assigned_once_per_pass (t : LoopTrack) (first : BlockArgs)
    (later : List BlockArgs) (hrec : t.currentState = State.Recording)
    (h0 : t.recordedSamplesCurrent = 0) (hL : 0 < first.masterLoopLength)
    (hn : 0 < first.outputBuffer.numSamples)
    (hlater : ∀ b ∈ later, 0 < b.outputBuffer.numSamples) :
    ((runBlocks false t (first :: later)).recordingStartGlobalSample
        = first.globalTotalSamples ∧
      (runBlocks false t (first :: later)).recordingStartOffset
        = first.globalTotalSamples.tmod first.masterLoopLength) ∧
    ∀ u : LoopTrack,
      (u.multiplyLoop.recordingStartGlobalSample = u.recordingStartGlobalSample ∧
        u.multiplyLoop.recordingStartOffset = u.recordingStartOffset) ∧
      (u.divideLoop.recordingStartGlobalSample = u.recordingStartGlobalSample ∧
        u.divideLoop.recordingStartOffset = u.recordingStartOffset) ∧
      (u.performUndo.recordingStartGlobalSample = u.recordingStartGlobalSample ∧
        u.performUndo.recordingStartOffset = u.recordingStartOffset) ∧
      (u.setOverdubbing.recordingStartGlobalSample = u.recordingStartGlobalSample ∧
        u.setOverdubbing.recordingStartOffset = u.recordingStartOffset) ∧
      (u.setPlaying.recordingStartGlobalSample = u.recordingStartGlobalSample ∧
        u.setPlaying.recordingStartOffset = u.recordingStartOffset) ∧
      (u.stop.recordingStartGlobalSample = u.recordingStartGlobalSample ∧
        u.stop.recordingStartOffset = u.recordingStartOffset) ∧
      (u.applyFxReplace.recordingStartGlobalSample = u.recordingStartGlobalSample ∧
        u.applyFxReplace.recordingStartOffset = u.recordingStartOffset) ∧
      ∀ (inputBuffer : AudioBuffer) (inputLength inputStartGlobalSample : Int),
        (u.overdubFromBuffer inputBuffer inputLength
          inputStartGlobalSample).recordingStartGlobalSample = u.recordingStartGlobalSample ∧
        (u.overdubFromBuffer inputBuffer inputLength
          inputStartGlobalSample).recordingStartOffset = u.recordingStartOffset := by
  refine ⟨?_, edits_keep_anchors⟩
  obtain ⟨hset, -, hnext⟩ := processBlock_slave_anchors t first.outputBuffer first.inputBuffer
    first.sidechainBuffer first.globalTotalSamples first.masterLoopLength first.anySoloActive
  obtain ⟨s1, s2⟩ := hset ⟨hrec, h0, hL⟩
  obtain ⟨r1, r2⟩ := runBlocks_slave_anchors_kept later _ (fun h => by
      obtain ⟨-, h2⟩ := hnext h
      omega) hlater
  rw [runBlocks_cons]
  exact ⟨r1.trans s1, r2.trans s2⟩

/-- Witness for `anchor_assigned_once_per_pass`: a slave armed with multiplier 1/2 records
against a 48000-sample master from global sample 96000 on, in blocks of 480 samples; after
60 blocks (the pass ended after 50) the anchor is still 96000 and the offset 0. -/
theorem anchor_assigned_once_per_pass_witness :
    (demoArmedSlave (1 / 2)).currentState = State.Recording ∧
    (demoArmedSlave (1 / 2)).recordedSamplesCurrent = 0 ∧
    (demoSlaveAfter (1 / 2) 60 48000).recordingStartGlobalSample = 96000 ∧
    (demoSlaveAfter (1 / 2) 60 48000).recordingStartOffset = 0 := by
  have hrec : (demoArmedSlave (1 / 2)).currentState = State.Recording := rfl
  have h0 : (demoArmedSlave (1 / 2)).recordedSamplesCurrent = 0 := rfl
  have hlist : demoSlaveBlocks 60 48000 =
      silentArgs 480 (2 * 48000 + 480 * ((0 : Nat) : Int)) 48000 ::
        (List.range 59).map (fun (j : Nat) =>
          silentArgs 480 (2 * 48000 + 480 * ((j + 1 : Nat) : Int)) 48000) := by
    unfold demoSlaveBlocks
    rw [show (60 : Nat) = 59 + 1 from rfl, List.range_succ_eq_map]
    simp only [List.map_cons, List.map_map]
    rfl
  obtain ⟨⟨a1, a2⟩, -⟩ := anchor_assigned_once_per_pass (demoArmedSlave (1 / 2))
    (silentArgs 480 (2 * 48000 + 480 * ((0 : Nat) : Int)) 48000)
    ((List.range 59).map (fun (j : Nat) =>
      silentArgs 480 (2 * 48000 + 480 * ((j + 1 : Nat) : Int)) 48000))
    hrec h0 (by decide) (by decide)
    (by
      intro b hb
      rw [List.mem_map] at hb
      obtain ⟨j, -, rfl⟩ := hb
      show (0 : Int) < 480
      decide)
  unfold demoSlaveAfter
  rw [hlist]
  refine ⟨hrec, h0, a1.trans (by norm_num [silentArgs]), a2.trans ?_⟩
  norm_num [silentArgs]
  decide

/-! ## Silencing and track state -/

theorem foldl_rel {α β γ : Type} (R : α → β → Prop) (f : α → γ → α) (g : β → γ → β)
    (h : ∀ a b c, R a b → R (f a c) (g b c)) :
    ∀ (l : List γ) (a : α) (b : β), R a b → R (l.foldl f a) (l.foldl g b) := by
  intro l
  induction l with
  | nil => intro a b hab; exact hab
  | cons c rest ih => intro a b hab; exact ih _ _ (h a b c hab)

theorem forCh_rel {α β : Type} (R : α → β → Prop) (n : Nat) (f : Nat → α → α)
    (g : Nat → β → β) (h : ∀ ch a b, R a b → R (f ch a) (g ch b)) (a : α) (b : β)
    (hab : R a b) : R (forCh n f a) (forCh n g b) :=
  foldl_rel R (fun acc ch => f ch acc) (fun acc ch => g ch acc) (fun a b c hr => h c a b hr)
    (List.range n) a b hab

theorem setPlaying_withMixer (t : LoopTrack) (gain : ℚ) (m s : Bool) :
    (t.withMixer gain m s).setPlaying = t.setPlaying.withMixer gain m s := by
  unfold LoopTrack.setPlaying LoopTrack.withMixer LoopTrack.setVolume LoopTrack.setMuted
    LoopTrack.setSolo
  dsimp only
  split_ifs <;> rfl

theorem autoFinish_withMixer (t : LoopTrack) (gain : ℚ) (m s : Bool) (st : State) (im : Bool)
    (L : Int) :
    LoopTrack.autoFinish (t.withMixer gain m s) st im L =
      ((LoopTrack.autoFinish t st im L).1.withMixer gain m s,
        (LoopTrack.autoFinish t st im L).2) := by
  unfold LoopTrack.autoFinish
  have e : ({ t.withMixer gain m s with
      loopLengthSamples := slaveTargetLen L (t.withMixer gain m s).targetMultiplier } : LoopTrack)
      = LoopTrack.withMixer
          { t with loopLengthSamples := slaveTargetLen L t.targetMultiplier } gain m s := rfl
  have e1 : (t.withMixer gain m s).targetMultiplier = t.targetMultiplier := rfl
  have e2 : (t.withMixer gain m s).recordedSamplesCurrent = t.recordedSamplesCurrent := rfl
  dsimp only
  rw [e, e1, e2, setPlaying_withMixer]
  split_ifs <;> rfl

theorem blockPositions_withMixer (t : LoopTrack) (gain : ℚ) (m s : Bool) (st : State)
    (g : Int) (im : Bool) (L : Int) :
    LoopTrack.blockPositions (t.withMixer gain m s) st g im L =
      { LoopTrack.blockPositions t st g im L with
        track := (LoopTrack.blockPositions t st g im L).track.withMixer gain m s } := by
  unfold LoopTrack.blockPositions LoopTrack.withMixer LoopTrack.setVolume LoopTrack.setMuted
    LoopTrack.setSolo
  dsimp only
  split_ifs <;> rfl

theorem processReplaceChunk_withMixer (t : LoopTrack) (gain : ℚ) (m s : Bool) (p n : Int) :
    (t.withMixer gain m s).processReplaceChunk p n
      = (t.processReplaceChunk p n).withMixer gain m s := by
  unfold LoopTrack.processReplaceChunk LoopTrack.withMixer LoopTrack.setVolume
    LoopTrack.setMuted LoopTrack.setSolo
  dsimp only
  cases t.mReplace.source with
  | none => rfl
  | some src =>
    dsimp only
    split_ifs <;> rfl

theorem handleRecording_withMixer (t : LoopTrack) (gain : ℚ) (m s : Bool) (inp : AudioBuffer)
    (n w : Int) :
    (t.withMixer gain m s).handleRecording inp n w
      = (t.handleRecording inp n w).withMixer gain m s := by
  unfold LoopTrack.handleRecording
  have e : (t.withMixer gain m s).loopBuffer = t.loopBuffer := rfl
  rw [e, setPlaying_withMixer]
  split_ifs <;> rfl

theorem captureSidechain_withMixer (t : LoopTrack) (gain : ℚ) (m s : Bool) (sc : AudioBuffer)
    (n p len : Int) :
    (t.withMixer gain m s).captureSidechain sc n p len
      = (t.captureSidechain sc n p len).withMixer gain m s := by
  unfold LoopTrack.captureSidechain
  split
  · rfl
  · exact List.foldl_hom (fun u : LoopTrack => u.withMixer gain m s) _ _ _ t
      (fun x y => rfl)

theorem handleOverdub_withMixer (t : LoopTrack) (gain : ℚ) (m s : Bool)
    (out inp : AudioBuffer) (n p len : Int) (silent1 silent2 : Bool) :
    ((t.withMixer gain m s).handleOverdub out inp n p len silent2).1
      = (t.handleOverdub out inp n p len silent1).1.withMixer gain m s := by
  unfold LoopTrack.handleOverdub
  split
  · rfl
  · dsimp only
    refine (foldl_rel
      (fun (a b : LoopTrack × AudioBuffer) =>
        a.1 = b.1.withMixer gain m s ∧ a.2.numChannels = b.2.numChannels)
      _ _ ?_ _ (t.withMixer gain m s, out) (t, out) ⟨rfl, rfl⟩).1
    intro a b c hab
    obtain ⟨h1, h2⟩ := hab
    have hn : min a.2.numChannels a.1.loopBuffer.numChannels
        = min b.2.numChannels b.1.loopBuffer.numChannels := by
      rw [h1, h2]; rfl
    rw [hn]
    apply forCh_rel
      (fun (a b : LoopTrack × AudioBuffer) =>
        a.1 = b.1.withMixer gain m s ∧ a.2.numChannels = b.2.numChannels)
    · intro ch x y hxy
      obtain ⟨k1, k2⟩ := hxy
      dsimp only
      constructor
      · rw [k1]; rfl
      · split_ifs <;> exact k2
    · exact ⟨h1, h2⟩

/-- A `processBlock` call on a track with other mixer settings (gain, mute flag, solo flag)
and another `anySoloActive` argument leaves the track that the original call leaves, with
those mixer settings. -/
theorem processBlock_withMixer (t : LoopTrack) (gain : ℚ) (m s : Bool)
    (out inp sc : AudioBuffer) (g L : Int) (im solo1 solo2 : Bool) :
    ((t.withMixer gain m s).processBlock out inp sc g im L solo2).1
      = (t.processBlock out inp sc g im L solo1).1.withMixer gain m s := by
  have hst : (t.withMixer gain m s).currentState = t.currentState := rfl
  unfold LoopTrack.processBlock
  dsimp only
  rw [hst]
  by_cases hidle : t.currentState = State.Stopped ∨
      (t.currentState = State.Empty ∧ t.currentState ≠ State.Recording)
  · rw [if_pos hidle, if_pos hidle]
  · rw [if_neg hidle, if_neg hidle]
    simp only [autoFinish_withMixer, blockPositions_withMixer]
    have hact : ∀ u : LoopTrack, (u.withMixer gain m s).mReplace = u.mReplace := fun _ => rfl
    have hlen : ∀ u : LoopTrack, (u.withMixer gain m s).loopLengthSamples
        = u.loopLengthSamples := fun _ => rfl
    have hstage : ∀ (u : LoopTrack) (p n : Int),
        (if (u.withMixer gain m s).mReplace.active = true
          then (u.withMixer gain m s).processReplaceChunk p n else u.withMixer gain m s)
        = LoopTrack.withMixer (if u.mReplace.active = true then u.processReplaceChunk p n
            else u) gain m s := by
      intro u p n
      rw [hact, processReplaceChunk_withMixer]
      split <;> rfl
    simp only [hstage, hlen, handleRecording_withMixer, captureSidechain_withMixer]
    cases (LoopTrack.autoFinish t t.currentState im L).2 with
    | Empty => rfl
    | Stopped => rfl
    | Recording =>
      dsimp only
      cases im <;> rfl
    | Playing =>
      dsimp only
      split_ifs <;> rfl
    | Overdubbing =>
      dsimp only
      split_ifs <;> exact handleOverdub_withMixer _ gain m s out inp _ _ _ _ _

/-- C23. Two `processBlock` calls with the same buffers, global sample count, role and
master length, on tracks that differ only in gain, mute flag and solo flag (the second
track is the first with other mixer settings) and with any two `anySoloActive` arguments,
leave the same track up to those mixer settings: state, loop length, loop, undo and
staging buffer contents, the position, recording and staging counters, the phase anchors,
the undo bookkeeping, the multiplier and the replace progress are identical, and each
track keeps its own mixer settings. -/
theorem silencing_leaves_track_state (t : LoopTrack) (gain : ℚ) (muted solo : Bool)
    (out inp sc : AudioBuffer) (g L : Int) (im anySolo1 anySolo2 : Bool) :
    ((t.withMixer gain muted solo).processBlock out inp sc g im L anySolo2).1
      = (t.processBlock out inp sc g im L anySolo1).1.withMixer gain muted solo ∧
    (((t.withMixer gain muted solo).processBlock out inp sc g im L anySolo2).1.currentState
        = (t.processBlock out inp sc g im L anySolo1).1.currentState ∧
      ((t.withMixer gain muted solo).processBlock out inp sc g im L
        anySolo2).1.loopLengthSamples
        = (t.processBlock out inp sc g im L anySolo1).1.loopLengthSamples ∧
      ((t.withMixer gain muted solo).processBlock out inp sc g im L anySolo2).1.loopBuffer
        = (t.processBlock out inp sc g im L anySolo1).1.loopBuffer ∧
      ((t.withMixer gain muted solo).processBlock out inp sc g im L anySolo2).1.undoBuffer
        = (t.processBlock out inp sc g im L anySolo1).1.undoBuffer ∧
      ((t.withMixer gain muted solo).processBlock out inp sc g im L
        anySolo2).1.fxCaptureBuffer
        = (t.processBlock out inp sc g im L anySolo1).1.fxCaptureBuffer ∧
      ((t.withMixer gain muted solo).processBlock out inp sc g im L
        anySolo2).1.fxCaptureSamplesWritten
        = (t.processBlock out inp sc g im L anySolo1).1.fxCaptureSamplesWritten ∧
      ((t.withMixer gain muted solo).processBlock out inp sc g im L
        anySolo2).1.playbackPosition
        = (t.processBlock out inp sc g im L anySolo1).1.playbackPosition ∧
      ((t.withMixer gain muted solo).processBlock out inp sc g im L
        anySolo2).1.recordedSamplesCurrent
        = (t.processBlock out inp sc g im L anySolo1).1.recordedSamplesCurrent ∧
      ((t.withMixer gain muted solo).processBlock out inp sc g im L
        anySolo2).1.recordingStartOffset
        = (t.processBlock out inp sc g im L anySolo1).1.recordingStartOffset ∧
      ((t.withMixer gain muted solo).processBlock out inp sc g im L
        anySolo2).1.recordingStartGlobalSample
        = (t.processBlock out inp sc g im L anySolo1).1.recordingStartGlobalSample ∧
      ((t.withMixer gain muted solo).processBlock out inp sc g im L
        anySolo2).1.undoLoopLengthSamples
        = (t.processBlock out inp sc g im L anySolo1).1.undoLoopLengthSamples ∧
      ((t.withMixer gain muted solo).processBlock out inp sc g im L anySolo2).1.hasUndo
        = (t.processBlock out inp sc g im L anySolo1).1.hasUndo ∧
      ((t.withMixer gain muted solo).processBlock out inp sc g im L
        anySolo2).1.targetMultiplier
        = (t.processBlock out inp sc g im L anySolo1).1.targetMultiplier ∧
      ((t.withMixer gain muted solo).processBlock out inp sc g im L anySolo2).1.mReplace
        = (t.processBlock out inp sc g im L anySolo1).1.mReplace) ∧
    ((t.processBlock out inp sc g im L anySolo1).1.gain = t.gain ∧
      (t.processBlock out inp sc g im L anySolo1).1.isMuted = t.isMuted ∧
      (t.processBlock out inp sc g im L anySolo1).1.isSolo = t.isSolo) := by
  have e := processBlock_withMixer t gain muted solo out inp sc g L im anySolo1 anySolo2
  have eself := processBlock_withMixer t t.gain t.isMuted t.isSolo out inp sc g L im anySolo1
    anySolo1
  have ht : t.withMixer t.gain t.isMuted t.isSolo = t := rfl
  rw [ht] at eself
  refine ⟨e, ?_, ?_⟩
  · rw [e]
    exact ⟨rfl, rfl, rfl, rfl, rfl, rfl, rfl, rfl, rfl, rfl, rfl, rfl, rfl, rfl⟩
  · refine ⟨?_, ?_, ?_⟩
    · exact (congrArg LoopTrack.gain eself).trans rfl
    · exact (congrArg LoopTrack.isMuted eself).trans rfl
    · exact (congrArg LoopTrack.isSolo eself).trans rfl

/-! ## Playback output -/

theorem forCh_addFrom_data (n : Nat) (lb src : AudioBuffer) (ds ss num : Int) (G : ℚ) :
    (forCh n (fun ch acc => acc.addFrom ch ds src ch ss num G) lb).numChannels
      = lb.numChannels ∧
    (forCh n (fun ch acc => acc.addFrom ch ds src ch ss num G) lb).numSamples
      = lb.numSamples ∧
    ∀ (c : Nat) (i : Int),
      (forCh n (fun ch acc => acc.addFrom ch ds src ch ss num G) lb).data c i =
        if c < n ∧ ds ≤ i ∧ i < ds + num
        then lb.data c i + G * src.data c (ss + (i - ds)) else lb.data c i := by
  induction n with
  | zero =>
    rw [forCh_zero]
    refine ⟨rfl, rfl, fun c i => ?_⟩
    rw [if_neg (by omega)]
  | succ k ih =>
    obtain ⟨i1, i2, i3⟩ := ih
    rw [forCh_succ]
    refine ⟨i1, i2, fun c i => ?_⟩
    rw [AudioBuffer.addFrom_data, i3]
    by_cases hk : c = k ∧ ds ≤ i ∧ i < ds + num
    · rw [if_pos hk, if_neg (by omega), if_pos (by omega), hk.1]
    · rw [if_neg hk]
      by_cases hc : c < k ∧ ds ≤ i ∧ i < ds + num
      · rw [if_pos hc, if_pos (by omega)]
      · rw [if_neg hc, if_neg (by omega)]

/-- The chunk loop of `handlePlayback`: what the output holds after the chunks of a block
of `todo` samples that starts at output offset `off` and loop position `pos`. -/
theorem playback_fold_data (rb : AudioBuffer) (G : ℚ) (len : Int) (hlen : 0 < len) :
    ∀ (fuel : Nat) (todo off pos : Int) (out : AudioBuffer),
      0 ≤ pos → pos < len → todo ≤ (fuel : Int) →
      ((wrapChunks fuel todo off pos len).foldl
        (fun o c => forCh (min o.numChannels rb.numChannels)
          (fun ch acc => acc.addFrom ch c.1 rb ch c.2.1 c.2.2 G) o) out).numChannels
        = out.numChannels ∧
      ((wrapChunks fuel todo off pos len).foldl
        (fun o c => forCh (min o.numChannels rb.numChannels)
          (fun ch acc => acc.addFrom ch c.1 rb ch c.2.1 c.2.2 G) o) out).numSamples
        = out.numSamples ∧
      ∀ (c : Nat) (i : Int),
        ((wrapChunks fuel todo off pos len).foldl
          (fun o c => forCh (min o.numChannels rb.numChannels)
            (fun ch acc => acc.addFrom ch c.1 rb ch c.2.1 c.2.2 G) o) out).data c i =
          if c < min out.numChannels rb.numChannels ∧ off ≤ i ∧ i < off + todo
          then out.data c i + G * rb.data c ((pos + (i - off)) % len)
          else out.data c i := by
  intro fuel
  induction fuel with
  | zero =>
    intro todo off pos out _ _ hf
    simp only [Nat.cast_zero] at hf
    refine ⟨rfl, rfl, fun c i => ?_⟩
    simp only [wrapChunks, List.foldl_nil]
    rw [if_neg (by omega)]
  | succ k ih =>
    intro todo off pos out hp0 hp1 hf
    rw [wrapChunks]
    by_cases htodo : todo > 0
    · have hpos : ¬ pos ≥ len := by omega
      simp only [htodo, if_true, hpos, if_false]
      have hchunk1 : 1 ≤ min todo (len - pos) := by
        rcases le_total todo (len - pos) with h | h
        · rw [min_eq_left h]; omega
        · rw [min_eq_right h]; omega
      have hchunk2 : min todo (len - pos) ≤ todo := min_le_left _ _
      have hchunk3 : min todo (len - pos) ≤ len - pos := min_le_right _ _
      generalize min todo (len - pos) = chunk at hchunk1 hchunk2 hchunk3
      rw [if_neg (by omega), List.foldl_cons]
      obtain ⟨a1, a2, a3⟩ := forCh_addFrom_data (min out.numChannels rb.numChannels) out rb
        off pos chunk G
      obtain ⟨i1, i2, i3⟩ := ih (todo - chunk) (off + chunk)
        (if pos + chunk ≥ len then 0 else pos + chunk)
        (forCh (min out.numChannels rb.numChannels)
          (fun ch acc => acc.addFrom ch off rb ch pos chunk G) out)
        (by split <;> omega) (by split <;> omega) (by push_cast at hf; omega)
      refine ⟨i1.trans a1, i2.trans a2, fun c i => ?_⟩
      rw [i3, a1, a3]
      by_cases hB : c < min out.numChannels rb.numChannels ∧ off ≤ i ∧ i < off + chunk
      · have hA : ¬ (c < min out.numChannels rb.numChannels ∧ off + chunk ≤ i ∧
            i < off + chunk + (todo - chunk)) := by omega
        have hC : c < min out.numChannels rb.numChannels ∧ off ≤ i ∧ i < off + todo := by
          omega
        have e5 : (pos + (i - off)) % len = pos + (i - off) :=
          Int.emod_eq_of_lt (by omega) (by omega)
        rw [if_neg hA, if_pos hB, if_pos hC, e5]
      · by_cases hA : c < min out.numChannels rb.numChannels ∧ off + chunk ≤ i ∧
            i < off + chunk + (todo - chunk)
        · have hC : c < min out.numChannels rb.numChannels ∧ off ≤ i ∧ i < off + todo := by
            omega
          rw [if_pos hA, if_neg hB, if_pos hC]
          by_cases hwrap : pos + chunk ≥ len
          · rw [if_pos hwrap]
            have e4 : pos + (i - off) = 0 + (i - (off + chunk)) + len := by omega
            rw [e4, Int.add_emod_self]
          · rw [if_neg hwrap]
            have e4 : pos + chunk + (i - (off + chunk)) = pos + (i - off) := by omega
            rw [e4]
        · have hC : ¬ (c < min out.numChannels rb.numChannels ∧ off ≤ i ∧ i < off + todo) := by
            omega
          rw [if_neg hA, if_neg hB, if_neg hC]
    · rw [if_neg htodo]
      refine ⟨rfl, rfl, fun c i => ?_⟩
      rw [List.foldl_nil, if_neg (by omega)]

/-- The chunk list of a block does not depend on the fuel once the fuel covers the block. -/
theorem wrapChunks_fuel (len : Int) (hlen : 0 < len) :
    ∀ (fuel1 fuel2 : Nat) (todo off pos : Int), 0 ≤ pos → pos < len →
      todo ≤ (fuel1 : Int) → todo ≤ (fuel2 : Int) →
      wrapChunks fuel1 todo off pos len = wrapChunks fuel2 todo off pos len := by
  intro fuel1
  induction fuel1 with
  | zero =>
    intro fuel2 todo off pos _ _ h1 _
    simp only [Nat.cast_zero] at h1
    cases fuel2 with
    | zero => rfl
    | succ k =>
      rw [wrapChunks, wrapChunks, if_neg (by omega)]
  | succ k ih =>
    intro fuel2 todo off pos hp0 hp1 h1 h2
    cases fuel2 with
    | zero =>
      simp only [Nat.cast_zero] at h2
      rw [wrapChunks, wrapChunks, if_neg (by omega)]
    | succ j =>
      rw [wrapChunks, wrapChunks]
      by_cases htodo : todo > 0
      · have hpos : ¬ pos ≥ len := by omega
        simp only [htodo, if_true, hpos, if_false]
        have hchunk1 : 1 ≤ min todo (len - pos) := by
          rcases le_total todo (len - pos) with h | h
          · rw [min_eq_left h]; omega
          · rw [min_eq_right h]; omega
        have hchunk3 : min todo (len - pos) ≤ len - pos := min_le_right _ _
        generalize min todo (len - pos) = chunk at hchunk1 hchunk3
        have hc : ¬ chunk ≤ 0 := by omega
        simp only [hc, if_false]
        rw [ih j (todo - chunk) (off + chunk) (if pos + chunk ≥ len then 0 else pos + chunk)
          (by split <;> omega) (by split <;> omega)
          (by push_cast at h1; omega) (by push_cast at h2; omega)]
      · rw [if_neg htodo, if_neg htodo]

theorem readBuf_cases (t : LoopTrack) :
    (∀ src, t.mReplace.active = true → t.mReplace.source = some src → t.readBuf = src) ∧
    (t.mReplace.active = false → t.readBuf = t.loopBuffer) ∧
    (t.mReplace.source = none → t.readBuf = t.loopBuffer) := by
  unfold LoopTrack.readBuf
  refine ⟨fun src ha hs => ?_, fun ha => ?_, fun hs => ?_⟩
  · rw [ha, hs]
  · rw [ha]
  · rw [hs]
    cases t.mReplace.active <;> rfl

/-- C22. `handlePlayback` on a track that is not silenced (`shouldBeSilent` false, mute
flag clear), with loop length `len > 0`, start position `p` in `[0, len)`, gain `G` and any
block size `n`: the chunk loop runs to completion (its chunk list is the same for every
fuel that covers the block) and, on every channel the output and the read buffer `R` share,
output sample `i` becomes `output[i] + G * R[(p + i) mod len]` for every `0 <= i < n`; every
other output sample and the shape of the output are unchanged. `R` is the replace source
while a replace is active and the loop buffer otherwise. The function returns the output
only: no track member is written. -/
theorem handlePlayback_adds_wrapped_loop (t : LoopTrack) (out : AudioBuffer) (n p len : Int)
    (hlen : 0 < len) (hp0 : 0 ≤ p) (hp1 : p < len) (hmute : t.isMuted = false) :
    (∀ (c : Nat) (i : Int),
      (t.handlePlayback out n p len false).data c i =
        if c < min out.numChannels t.readBuf.numChannels ∧ 0 ≤ i ∧ i < n
        then out.data c i + t.gain * t.readBuf.data c ((p + i) % len)
        else out.data c i) ∧
    (t.handlePlayback out n p len false).numChannels = out.numChannels ∧
    (t.handlePlayback out n p len false).numSamples = out.numSamples ∧
    (∀ fuel : Nat, n.toNat ≤ fuel →
      wrapChunks fuel n 0 p len = wrapChunks n.toNat n 0 p len) ∧
    (∀ src, t.mReplace.active = true → t.mReplace.source = some src → t.readBuf = src) ∧
    (t.mReplace.active = false → t.readBuf = t.loopBuffer) := by
  obtain ⟨r1, r2, -⟩ := readBuf_cases t
  obtain ⟨a1, a2, a3⟩ := playback_fold_data t.readBuf t.gain len hlen n.toNat n 0 p out hp0 hp1
    (by omega)
  have e : t.handlePlayback out n p len false =
      (wrapChunks n.toNat n 0 p len).foldl
        (fun o c => forCh (min o.numChannels t.readBuf.numChannels)
          (fun ch acc => acc.addFrom ch c.1 t.readBuf ch c.2.1 c.2.2 t.gain) o) out := by
    unfold LoopTrack.handlePlayback
    rw [if_neg (by omega), hmute]
    simp only [Bool.false_eq_true, if_false]
  rw [e]
  refine ⟨fun c i => ?_, a1, a2, fun fuel hf => ?_, r1, r2⟩
  · rw [a3 c i]
    have e0 : p + (i - 0) = p + i := by omega
    have e1 : (0 : Int) + n = n := by omega
    rw [e0, e1]
  · exact wrapChunks_fuel len hlen fuel n.toNat n 0 p hp0 hp1 (by omega) (by omega)

theorem demoSeededTrack_mixer (mixedBuffer : AudioBuffer) (length anchor : Int) :
    (demoSeededTrack mixedBuffer length anchor).isMuted = false ∧
    (demoSeededTrack mixedBuffer length anchor).gain = 1 ∧
    (demoSeededTrack mixedBuffer length anchor).loopBuffer.numChannels = 2 := by
  unfold demoSeededTrack
  rw [prepared_48000]
  unfold LoopTrack.setLoopFromMix
  split
  · exact ⟨rfl, rfl, rfl⟩
  · obtain ⟨ub, ul, hu, e⟩ := saveUndo_frame (preparedTrack 14400000)
    rw [e]
    refine ⟨rfl, rfl, ?_⟩
    dsimp only
    rw [(forCh_copyFrom_shape
      ((preparedTrack 14400000).loopBuffer.clear.numChannels ⊓ mixedBuffer.numChannels)
      (preparedTrack 14400000).loopBuffer.clear
      (fun ch acc => acc.copyFrom ch 0 mixedBuffer ch 0 length) (fun ch a => ⟨rfl, rfl⟩)).2]
    rfl

/-- Witness for `handlePlayback_adds_wrapped_loop`: the 1000-sample example loop played
from position 900 into a silent block of 480 samples: output sample 200 of channel 0 gets
loop sample 100 (the read wrapped at the loop end). -/
theorem handlePlayback_adds_wrapped_loop_witness :
    (0 : Int) < 1000 ∧ (0 : Int) ≤ 900 ∧ (900 : Int) < 1000 ∧
    demoLoop1000.isMuted = false ∧
    (demoLoop1000.handlePlayback (silentBlock 480) 480 900 1000 false).data 0 200
      = demoLoop1000.loopBuffer.data 0 100 := by
  obtain ⟨x1, x2, x3⟩ := demoSeededTrack_mixer (patternBuffer 1000 (fun _ => 1)) 1000 0
  obtain ⟨i1, -⟩ := demoSeededTrack_idle (patternBuffer 1000 (fun _ => 1)) 1000 0
  have hm : demoLoop1000.isMuted = false := x1
  have hg : demoLoop1000.gain = 1 := x2
  have hch : demoLoop1000.loopBuffer.numChannels = 2 := x3
  have hact : demoLoop1000.mReplace.active = false := i1
  obtain ⟨a1, -, -, -, -, a6⟩ := handlePlayback_adds_wrapped_loop demoLoop1000
    (silentBlock 480) 480 900 1000 (by decide) (by decide) (by decide) hm
  refine ⟨by decide, by decide, by decide, hm, ?_⟩
  rw [a1 0 200, a6 hact, hch, hg]
  have hs : (silentBlock 480).numChannels = 2 := rfl
  have hd : (silentBlock 480).data 0 200 = 0 := rfl
  rw [hs, hd, if_pos (by decide)]
  have e : ((900 : Int) + 200) % 1000 = 100 := by decide
  rw [e]
  ring

/-! ## Additive merge of a buffer -/

theorem sum_range_single (n : Nat) (d p : Int) (f : Int → ℚ) :
    (Finset.range n).sum (fun (j : Nat) => if d + (j : Int) = p then f (j : Int) else 0)
      = if d ≤ p ∧ p < d + (n : Int) then f (p - d) else 0 := by
  induction n with
  | zero =>
    rw [Finset.range_zero, Finset.sum_empty, if_neg]
    simp only [Nat.cast_zero]
    omega
  | succ k ih =>
    rw [Finset.sum_range_succ, ih]
    by_cases h1 : d + (k : Int) = p
    · have e : (k : Int) = p - d := by omega
      rw [if_pos h1, if_neg (by omega), if_pos (by push_cast; omega), e, zero_add]
    · rw [if_neg h1, add_zero]
      by_cases h2 : d ≤ p ∧ p < d + (k : Int)
      · rw [if_pos h2, if_pos (by push_cast; omega)]
      · rw [if_neg h2, if_neg (by push_cast; omega)]

/-- The write loop of `overdubFromBuffer` on one channel: every loop position receives the
input samples whose wrapped write position it is. -/
theorem overdubLoop_data (ch : Nat) (input : AudioBuffer) (len : Int) (hlen : 0 < len) :
    ∀ (fuel : Nat) (lb : AudioBuffer) (remaining srcOffset dstPos : Int),
      remaining ≤ (fuel : Int) → 0 ≤ dstPos → dstPos < len →
      (overdubLoop ch input len fuel lb remaining srcOffset dstPos).numChannels
        = lb.numChannels ∧
      (overdubLoop ch input len fuel lb remaining srcOffset dstPos).numSamples
        = lb.numSamples ∧
      ∀ (c : Nat) (p : Int),
        (overdubLoop ch input len fuel lb remaining srcOffset dstPos).data c p =
          lb.data c p +
            (if c = ch ∧ 0 ≤ p ∧ p < len then
              (Finset.range remaining.toNat).sum (fun (j : Nat) =>
                if (dstPos + (j : Int)) % len = p then input.data ch (srcOffset + (j : Int))
                else 0)
            else 0) := by
  intro fuel
  induction fuel with
  | zero =>
    intro lb remaining srcOffset dstPos hf _ _
    simp only [Nat.cast_zero] at hf
    refine ⟨rfl, rfl, fun c p => ?_⟩
    have e : remaining.toNat = 0 := by omega
    simp only [overdubLoop, e, Finset.range_zero, Finset.sum_empty, ite_self, add_zero]
  | succ k ih =>
    intro lb remaining srcOffset dstPos hf hd0 hd1
    rw [overdubLoop]
    by_cases hrem : remaining > 0
    · simp only [hrem, if_true]
      have hchunk1 : 1 ≤ min remaining (len - dstPos) := by
        rcases le_total remaining (len - dstPos) with h | h
        · rw [min_eq_left h]; omega
        · rw [min_eq_right h]; omega
      have hchunk2 : min remaining (len - dstPos) ≤ remaining := min_le_left _ _
      have hchunk3 : min remaining (len - dstPos) ≤ len - dstPos := min_le_right _ _
      generalize min remaining (len - dstPos) = chunk at hchunk1 hchunk2 hchunk3
      obtain ⟨i1, i2, i3⟩ := ih (lb.addFrom ch dstPos input ch srcOffset chunk 1)
        (remaining - chunk) (srcOffset + chunk)
        (if dstPos + chunk ≥ len then 0 else dstPos + chunk)
        (by push_cast at hf; omega) (by split <;> omega) (by split <;> omega)
      refine ⟨i1, i2, fun c p => ?_⟩
      rw [i3, AudioBuffer.addFrom_data]
      by_cases hc : c = ch ∧ 0 ≤ p ∧ p < len
      · rw [if_pos hc, if_pos hc]
        have hsplit : remaining.toNat = chunk.toNat + (remaining - chunk).toNat := by omega
        rw [hsplit, Finset.sum_range_add]
        have hfirst : (Finset.range chunk.toNat).sum (fun (j : Nat) =>
            if (dstPos + (j : Int)) % len = p then input.data ch (srcOffset + (j : Int))
            else 0)
            = if dstPos ≤ p ∧ p < dstPos + chunk then input.data ch (srcOffset + (p - dstPos))
              else 0 := by
          have hcast : ((chunk.toNat : Nat) : Int) = chunk := by omega
          rw [← hcast]
          rw [← sum_range_single chunk.toNat dstPos p (fun x => input.data ch (srcOffset + x))]
          apply Finset.sum_congr rfl
          intro j hj
          rw [Finset.mem_range] at hj
          have e5 : (dstPos + (j : Int)) % len = dstPos + (j : Int) :=
            Int.emod_eq_of_lt (by omega) (by omega)
          rw [e5]
        have hsecond : (Finset.range (remaining - chunk).toNat).sum (fun (j : Nat) =>
            if (dstPos + ((chunk.toNat + j : Nat) : Int)) % len = p
            then input.data ch (srcOffset + ((chunk.toNat + j : Nat) : Int)) else 0)
            = (Finset.range (remaining - chunk).toNat).sum (fun (j : Nat) =>
              if ((if dstPos + chunk ≥ len then 0 else dstPos + chunk) + (j : Int)) % len = p
              then input.data ch (srcOffset + chunk + (j : Int)) else 0) := by
          apply Finset.sum_congr rfl
          intro j _
          have hcast : ((chunk.toNat + j : Nat) : Int) = chunk + (j : Int) := by
            push_cast
            omega
          rw [hcast]
          have e6 : srcOffset + (chunk + (j : Int)) = srcOffset + chunk + (j : Int) := by
            omega
          rw [e6]
          by_cases hwrap : dstPos + chunk ≥ len
          · rw [if_pos hwrap]
            have e4 : dstPos + (chunk + (j : Int)) = 0 + (j : Int) + len := by omega
            rw [e4, Int.add_emod_self]
          · rw [if_neg hwrap]
            have e4 : dstPos + (chunk + (j : Int)) = dstPos + chunk + (j : Int) := by omega
            rw [e4]
        rw [hfirst, hsecond]
        by_cases hB : dstPos ≤ p ∧ p < dstPos + chunk
        · rw [if_pos ⟨hc.1, hB⟩, if_pos hB, one_mul]
          ring
        · rw [if_neg (fun h => hB h.2), if_neg hB]
          ring
      · rw [if_neg hc, if_neg hc, if_neg (fun h => hc ⟨h.1, by omega, by omega⟩)]
    · rw [if_neg hrem]
      refine ⟨rfl, rfl, fun c p => ?_⟩
      have e : remaining.toNat = 0 := by omega
      simp only [e, Finset.range_zero, Finset.sum_empty, ite_self, add_zero]

theorem overdubChannels_data (input : AudioBuffer) (len n w : Int) (hlen : 0 < len)
    (hw0 : 0 ≤ w) (hw1 : w < len) (lb : AudioBuffer) (numCh : Nat) :
    (forCh numCh (fun ch acc => overdubLoop ch input len n.toNat acc n 0 w) lb).numChannels
      = lb.numChannels ∧
    (forCh numCh (fun ch acc => overdubLoop ch input len n.toNat acc n 0 w) lb).numSamples
      = lb.numSamples ∧
    ∀ (c : Nat) (p : Int),
      (forCh numCh (fun ch acc => overdubLoop ch input len n.toNat acc n 0 w) lb).data c p =
        lb.data c p +
          (if c < numCh ∧ 0 ≤ p ∧ p < len then
            (Finset.range n.toNat).sum (fun (j : Nat) =>
              if (w + (j : Int)) % len = p then input.data c (j : Int) else 0)
          else 0) := by
  induction numCh with
  | zero =>
    rw [forCh_zero]
    refine ⟨rfl, rfl, fun c p => ?_⟩
    rw [if_neg (by omega), add_zero]
  | succ k ih =>
    obtain ⟨i1, i2, i3⟩ := ih
    rw [forCh_succ]
    obtain ⟨a1, a2, a3⟩ := overdubLoop_data k input len hlen n.toNat
      (forCh k (fun ch acc => overdubLoop ch input len n.toNat acc n 0 w) lb) n 0 w
      (by omega) hw0 hw1
    refine ⟨a1.trans i1, a2.trans i2, fun c p => ?_⟩
    rw [a3, i3]
    by_cases hk : c = k ∧ 0 ≤ p ∧ p < len
    · rw [if_pos hk, if_neg (by omega), if_pos (by omega), add_zero, hk.1]
      congr 1
      apply Finset.sum_congr rfl
      intro j _
      rw [zero_add]
    · rw [if_neg hk, add_zero]
      by_cases hc : c < k ∧ 0 ≤ p ∧ p < len
      · rw [if_pos hc, if_pos (by omega)]
      · rw [if_neg hc, if_neg (by omega)]

theorem overdubFromBuffer_eq (t : LoopTrack) (input : AudioBuffer) (n g : Int)
    (hlen : 0 < t.loopLengthSamples) (hn : 0 < n) :
    t.overdubFromBuffer input n g =
      { t.saveUndo with
        loopBuffer := forCh (min t.loopBuffer.numChannels input.numChannels)
          (fun ch acc =>
            overdubLoop ch input t.loopLengthSamples n.toNat acc n 0
              ((max 0 (g - t.recordingStartGlobalSample)) % t.loopLengthSamples))
          t.loopBuffer } := by
  unfold LoopTrack.overdubFromBuffer
  rw [if_neg (by omega)]
  obtain ⟨ub, ul, hu, e⟩ := saveUndo_frame t
  rw [e]
  dsimp only
  have hel : (if g - t.recordingStartGlobalSample < 0 then 0
      else g - t.recordingStartGlobalSample) = max 0 (g - t.recordingStartGlobalSample) := by
    split
    · rw [max_eq_left (by omega)]
    · rw [max_eq_right (by omega)]
  rw [hel, Int.tmod_eq_emod (le_max_left _ _) (by omega)]

/-- C25. `overdubFromBuffer (input, n, g)` on a track with loop length `len > 0` and anchor
`S`, for `n > 0`: the write loop ends within `n` iterations (any larger fuel gives the same
buffer) and, on every channel the loop buffer and the input share, every loop position `p`
in `[0, len)` holds its old sample plus the sum of `input[j]` over all `j < n` with
`(max (0, g - S) + j) mod len = p`; every other sample of the loop buffer is unchanged.
Loop length, state and both anchors are unchanged, and the undo buffer holds the previous
loop samples `[0, len)` on each of its channels, with undo length `len` and the undo flag
set. -/
theorem overdubFromBuffer_adds_wrapped_input (t : LoopTrack) (input : AudioBuffer)
    (n g : Int) (hlen : 0 < t.loopLengthSamples) (hn : 0 < n) :
    (∀ (c : Nat) (p : Int), c < min t.loopBuffer.numChannels input.numChannels → 0 ≤ p →
      p < t.loopLengthSamples →
      (t.overdubFromBuffer input n g).loopBuffer.data c p =
        t.loopBuffer.data c p +
          (Finset.range n.toNat).sum (fun (j : Nat) =>
            if (max 0 (g - t.recordingStartGlobalSample) + (j : Int)) % t.loopLengthSamples = p
            then input.data c (j : Int) else 0)) ∧
    (∀ (c : Nat) (p : Int),
      ¬ (c < min t.loopBuffer.numChannels input.numChannels ∧ 0 ≤ p ∧
        p < t.loopLengthSamples) →
      (t.overdubFromBuffer input n g).loopBuffer.data c p = t.loopBuffer.data c p) ∧
    (∀ (ch fuel : Nat) (lb : AudioBuffer), n.toNat ≤ fuel →
      overdubLoop ch input t.loopLengthSamples fuel lb n 0
          ((max 0 (g - t.recordingStartGlobalSample)) % t.loopLengthSamples)
        = overdubLoop ch input t.loopLengthSamples n.toNat lb n 0
          ((max 0 (g - t.recordingStartGlobalSample)) % t.loopLengthSamples)) ∧
    (t.overdubFromBuffer input n g).loopLengthSamples = t.loopLengthSamples ∧
    (t.overdubFromBuffer input n g).currentState = t.currentState ∧
    (t.overdubFromBuffer input n g).recordingStartGlobalSample
      = t.recordingStartGlobalSample ∧
    (t.overdubFromBuffer input n g).recordingStartOffset = t.recordingStartOffset ∧
    (∀ (c : Nat) (j : Int), c < t.undoBuffer.numChannels → 0 ≤ j → j < t.loopLengthSamples →
      (t.overdubFromBuffer input n g).undoBuffer.data c j = t.loopBuffer.data c j) ∧
    (t.overdubFromBuffer input n g).undoLoopLengthSamples = t.loopLengthSamples ∧
    (t.overdubFromBuffer input n g).hasUndo = true := by
  have hw0 : 0 ≤ (max 0 (g - t.recordingStartGlobalSample)) % t.loopLengthSamples :=
    Int.emod_nonneg _ (by omega)
  have hw1 : (max 0 (g - t.recordingStartGlobalSample)) % t.loopLengthSamples
      < t.loopLengthSamples := Int.emod_lt_of_pos _ hlen
  obtain ⟨-, -, d3⟩ := overdubChannels_data input t.loopLengthSamples n
    ((max 0 (g - t.recordingStartGlobalSample)) % t.loopLengthSamples) hlen hw0 hw1
    t.loopBuffer (min t.loopBuffer.numChannels input.numChannels)
  rw [overdubFromBuffer_eq t input n g hlen hn, saveUndo_eq t hlen]
  refine ⟨fun c p hc hp0 hp1 => ?_, fun c p hno => ?_, fun ch fuel lb hf => ?_, rfl, rfl, rfl,
    rfl, fun c j hc hj0 hj1 => saveUndo_data t c j hc hj0 hj1, rfl, rfl⟩
  · show (forCh _ _ t.loopBuffer).data c p = _
    rw [d3, if_pos ⟨hc, hp0, hp1⟩]
    congr 1
    apply Finset.sum_congr rfl
    intro j _
    rw [Int.emod_add_emod]
  · show (forCh _ _ t.loopBuffer).data c p = _
    rw [d3, if_neg hno, add_zero]
  · obtain ⟨x1, x2, x3⟩ := overdubLoop_data ch input t.loopLengthSamples hlen fuel lb n 0
      ((max 0 (g - t.recordingStartGlobalSample)) % t.loopLengthSamples) (by omega) hw0 hw1
    obtain ⟨y1, y2, y3⟩ := overdubLoop_data ch input t.loopLengthSamples hlen n.toNat lb n 0
      ((max 0 (g - t.recordingStartGlobalSample)) % t.loopLengthSamples) (by omega) hw0 hw1
    exact AudioBuffer.eq_of_data _ _ (x1.trans y1.symm) (x2.trans y2.symm)
      (fun c j => (x3 c j).trans (y3 c j).symm)

theorem demoUndoTrack_anchor :
    demoUndoTrack.recordingStartGlobalSample = 0 ∧ demoUndoTrack.undoBuffer.numChannels = 2 := by
  unfold demoUndoTrack demoSeededTrack
  rw [prepared_48000]
  simp [LoopTrack.setLoopFromMix, LoopTrack.saveUndo, preparedTrack, LoopTrack.fresh,
    AudioBuffer.allocate, AudioBuffer.clear, AudioBuffer.copyFrom, patternBuffer, forCh,
    List.range_succ]

/-- Witness for `overdubFromBuffer_adds_wrapped_input`: six input samples 1..6 merged from
global sample 1 into the 4-sample example loop of twos (anchor 0) land on positions
1, 2, 3, 0, 1, 2; position 0 receives input sample 3 only (value 4) and holds 6, and the
undo buffer holds the 2 from before. -/
theorem overdubFromBuffer_adds_wrapped_input_witness :
    0 < demoUndoTrack.loopLengthSamples ∧ (0 : Int) < 6 ∧
    (demoUndoTrack.overdubFromBuffer (patternBuffer 6 (fun i => (i : ℚ) + 1)) 6
      1).loopBuffer.data 0 0 = 6 ∧
    (demoUndoTrack.overdubFromBuffer (patternBuffer 6 (fun i => (i : ℚ) + 1)) 6
      1).loopLengthSamples = 4 ∧
    (demoUndoTrack.overdubFromBuffer (patternBuffer 6 (fun i => (i : ℚ) + 1)) 6
      1).undoBuffer.data 0 0 = 2 := by
  obtain ⟨-, -, -, f4, f5, -, f7⟩ := demoUndoTrack_fields
  obtain ⟨g1, g2⟩ := demoUndoTrack_anchor
  have hlen : 0 < demoUndoTrack.loopLengthSamples := by rw [f4]; decide
  obtain ⟨a1, -, -, a4, -, -, -, a8, -, -⟩ := overdubFromBuffer_adds_wrapped_input
    demoUndoTrack (patternBuffer 6 (fun i => (i : ℚ) + 1)) 6 1 hlen (by decide)
  refine ⟨hlen, by decide, ?_, a4.trans f4, ?_⟩
  · have hch : (0 : Nat) < min demoUndoTrack.loopBuffer.numChannels
        (patternBuffer 6 (fun i => (i : ℚ) + 1)).numChannels := by
      rw [f7]
      decide
    rw [a1 0 0 hch (by decide) (by rw [f4]; decide), f5, g1, f4]
    have h6 : (6 : Int).toNat = 6 := rfl
    rw [h6]
    simp only [Finset.sum_range_succ, Finset.range_zero, Finset.sum_empty, patternBuffer]
    norm_num
  · rw [a8 0 0 (by rw [g2]; decide) (by decide) (by rw [f4]; decide)]
    exact f5

/-! ## Bounce: what the tracks hold afterwards -/

theorem bounceLength_fold_spec :
    ∀ (tracks : List LoopTrack) (b : Int),
      (∀ t ∈ tracks, 0 < t.loopLengthSamples → t.loopLengthSamples ≤ bounceLength b tracks) ∧
      (bounceLength b tracks = b ∨
        ∃ t ∈ tracks, 0 < t.loopLengthSamples ∧ t.loopLengthSamples = bounceLength b tracks) := by
  intro tracks
  induction tracks with
  | nil =>
    intro b
    exact ⟨fun t ht => absurd ht (List.not_mem_nil t), Or.inl rfl⟩
  | cons t0 rest ih =>
    intro b
    have hstep : bounceLength b (t0 :: rest)
        = bounceLength (if t0.hasLoop = true then max b t0.loopLengthSamples else b) rest := rfl
    rw [hstep]
    obtain ⟨i1, i2⟩ := ih (if t0.hasLoop = true then max b t0.loopLengthSamples else b)
    have hge := bounceLength_ge (if t0.hasLoop = true then max b t0.loopLengthSamples else b)
      rest
    constructor
    · intro t ht hpos
      rcases List.mem_cons.mp ht with h | h
      · subst h
        have hl : t.hasLoop = true := by
          unfold LoopTrack.hasLoop
          exact decide_eq_true hpos
        rw [if_pos hl] at hge ⊢
        exact le_trans (le_max_right _ _) hge
      · exact i1 t h hpos
    · rcases i2 with h | ⟨t, ht, hp, he⟩
      · by_cases hl : t0.hasLoop = true
        · rw [if_pos hl] at h ⊢
          have hpos : 0 < t0.loopLengthSamples := by
            unfold LoopTrack.hasLoop at hl
            exact of_decide_eq_true hl
          rcases le_total b t0.loopLengthSamples with hb | hb
          · right
            exact ⟨t0, List.mem_cons_self _ _, hpos, by rw [h, max_eq_right hb]⟩
          · left
            rw [h, max_eq_left hb]
        · rw [if_neg hl] at h ⊢
          exact Or.inl h
      · right
        exact ⟨t, List.mem_cons_of_mem _ ht, hp, he⟩

/-- A bounce whose guards pass: the new work buffer, the master in progressive replace, the
other tracks cleared, the cached master length set to the bounce length. -/
theorem performBounceBack_eq (s : Session) (t0 : LoopTrack) (rest : List LoopTrack)
    (htracks : s.mTracks = t0 :: rest) (hmaster : 0 < s.mPrimaryLoopLengthSamples)
    (hfit : bounceLength s.mPrimaryLoopLengthSamples s.mTracks ≤ s.mWorkBuffer.numSamples) :
    s.performBounceBack =
      { s with
        mWorkBuffer := s.performBounceBack.mWorkBuffer
        mTracks :=
          t0.beginProgressiveReplace (some s.performBounceBack.mWorkBuffer)
            (bounceLength s.mPrimaryLoopLengthSamples s.mTracks) 0 0
            :: rest.map LoopTrack.clear
        mPrimaryLoopLengthSamples := bounceLength s.mPrimaryLoopLengthSamples s.mTracks } := by
  rw [performBounceBack_work s hmaster hfit]
  unfold Session.performBounceBack
  dsimp only
  rw [if_neg (by omega), if_neg (by omega)]
  simp only [htracks]

theorem beginProgressiveReplace_anchors (t : LoopTrack) (src : AudioBuffer)
    (length startOffset startGlobal : Int) (hlen : 0 < length)
    (hcap : length ≤ t.loopBuffer.numSamples) :
    (t.beginProgressiveReplace (some src) length startOffset startGlobal).loopLengthSamples
      = length ∧
    (t.beginProgressiveReplace (some src) length startOffset startGlobal).mReplace =
      { source := some src, length := length, cursor := 0, remaining := length,
        active := true } ∧
    ((t.beginProgressiveReplace (some src) length startOffset startGlobal).recordingStartOffset
      = startOffset ∧
    (t.beginProgressiveReplace (some src) length startOffset
      startGlobal).recordingStartGlobalSample = startGlobal) ∧
    (t.beginProgressiveReplace (some src) length startOffset startGlobal).loopBuffer
      = t.loopBuffer := by
  obtain ⟨ub, ul, hu, e⟩ := saveUndo_frame t
  rw [beginProgressiveReplace_eq t src length startOffset startGlobal hlen hcap, e]
  exact ⟨rfl, rfl, ⟨rfl, rfl⟩, rfl⟩

/-- C26 (amended). For every session with cached master length `L > 0` whose bounce length
`B` (the larger of `L` and the longest loop across the tracks) fits the work buffer and the
master's loop buffer, after `performBounceBack` the cached master length and the master
track's loop length both equal `B`, the master has a progressive replace in flight from the
work buffer (cursor 0, `B` samples remaining) with both anchors 0, and every other track is
Empty with loop length 0 and no replace in flight. `B` is at least `L` and at least every
track's loop length, and it is `L` or the loop length of some track; when the master track
holds a loop of the cached length `L`, `B` is the longest loop length across the tracks.
With `L <= 0` the bounce changes nothing. -/
theorem bounce_installs_mix_in_master (s : Session) :
    (∀ (t0 : LoopTrack) (rest : List LoopTrack), s.mTracks = t0 :: rest →
      0 < s.mPrimaryLoopLengthSamples →
      bounceLength s.mPrimaryLoopLengthSamples s.mTracks ≤ s.mWorkBuffer.numSamples →
      bounceLength s.mPrimaryLoopLengthSamples s.mTracks ≤ t0.loopBuffer.numSamples →
      s.performBounceBack.mPrimaryLoopLengthSamples
        = bounceLength s.mPrimaryLoopLengthSamples s.mTracks ∧
      (∃ master, s.performBounceBack.mTracks = master :: rest.map LoopTrack.clear ∧
        master.loopLengthSamples = bounceLength s.mPrimaryLoopLengthSamples s.mTracks ∧
        master.mReplace =
          { source := some s.performBounceBack.mWorkBuffer
            length := bounceLength s.mPrimaryLoopLengthSamples s.mTracks
            cursor := 0
            remaining := bounceLength s.mPrimaryLoopLengthSamples s.mTracks
            active := true } ∧
        master.isReplacing = true ∧
        master.recordingStartOffset = 0 ∧ master.recordingStartGlobalSample = 0) ∧
      (∀ t ∈ rest.map LoopTrack.clear, t.currentState = State.Empty ∧
        t.loopLengthSamples = 0 ∧ t.isReplacing = false) ∧
      s.mPrimaryLoopLengthSamples ≤ bounceLength s.mPrimaryLoopLengthSamples s.mTracks ∧
      (∀ t ∈ s.mTracks,
        t.loopLengthSamples ≤ bounceLength s.mPrimaryLoopLengthSamples s.mTracks) ∧
      (bounceLength s.mPrimaryLoopLengthSamples s.mTracks = s.mPrimaryLoopLengthSamples ∨
        ∃ t ∈ s.mTracks,
          t.loopLengthSamples = bounceLength s.mPrimaryLoopLengthSamples s.mTracks) ∧
      (t0.loopLengthSamples = s.mPrimaryLoopLengthSamples →
        ∃ t ∈ s.mTracks,
          t.loopLengthSamples = bounceLength s.mPrimaryLoopLengthSamples s.mTracks)) ∧
    (s.mPrimaryLoopLengthSamples ≤ 0 → s.performBounceBack = s) := by
  constructor
  · intro t0 rest htracks hmaster hfit hcap
    have hge := bounceLength_ge s.mPrimaryLoopLengthSamples s.mTracks
    obtain ⟨b1, b2⟩ := bounceLength_fold_spec s.mTracks s.mPrimaryLoopLengthSamples
    have e := performBounceBack_eq s t0 rest htracks hmaster hfit
    obtain ⟨f1, f2, f3, -⟩ := beginProgressiveReplace_anchors t0
      s.performBounceBack.mWorkBuffer (bounceLength s.mPrimaryLoopLengthSamples s.mTracks) 0 0
      (by omega) hcap
    have hall : ∀ t ∈ s.mTracks,
        t.loopLengthSamples ≤ bounceLength s.mPrimaryLoopLengthSamples s.mTracks := by
      intro t ht
      by_cases hp : 0 < t.loopLengthSamples
      · exact b1 t ht hp
      · omega
    have hsome : bounceLength s.mPrimaryLoopLengthSamples s.mTracks
          = s.mPrimaryLoopLengthSamples ∨
        ∃ t ∈ s.mTracks,
          t.loopLengthSamples = bounceLength s.mPrimaryLoopLengthSamples s.mTracks := by
      rcases b2 with h | ⟨t, ht, -, he⟩
      · exact Or.inl h
      · exact Or.inr ⟨t, ht, he⟩
    refine ⟨by rw [e], ⟨_, by rw [e], f1, f2, ?_, f3.1, f3.2⟩, ?_, hge, hall, hsome, ?_⟩
    · unfold LoopTrack.isReplacing
      rw [f2]
    · intro t ht
      rw [List.mem_map] at ht
      obtain ⟨u, -, rfl⟩ := ht
      exact ⟨rfl, rfl, rfl⟩
    · intro hsame
      rcases hsome with h | h
      · exact ⟨t0, by rw [htracks]; exact List.mem_cons_self _ _, by rw [h, hsame]⟩
      · exact h
  · intro h
    unfold Session.performBounceBack
    dsimp only
    rw [if_pos h]

theorem sessionWith_fields (capacity masterLen : Int) (tracks : List LoopTrack) :
    (sessionWith capacity masterLen tracks).mTracks = tracks ∧
    (sessionWith capacity masterLen tracks).mPrimaryLoopLengthSamples = masterLen ∧
    (sessionWith capacity masterLen tracks).mWorkBuffer.numSamples = capacity :=
  ⟨rfl, rfl, rfl⟩

theorem bounceLength_second (L : Int) (a b : LoopTrack) (ha : a.loopLengthSamples ≤ 0)
    (hb : 0 < b.loopLengthSamples) :
    bounceLength L [a, b] = max L b.loopLengthSamples := by
  have h1 : a.hasLoop = false := by
    unfold LoopTrack.hasLoop
    exact decide_eq_false (by omega)
  have h2 : b.hasLoop = true := by
    unfold LoopTrack.hasLoop
    exact decide_eq_true hb
  unfold bounceLength
  simp only [List.foldl_cons, List.foldl_nil, h1, h2, Bool.false_eq_true, if_false, if_true]

/-- Witness for `bounce_installs_mix_in_master`: two tracks of equal length 1000 (the master
holds a loop of the cached length); after the bounce the cached master length is 1000 and
the master, 1000 samples long, is in progressive replace. -/
theorem bounce_installs_mix_in_master_witness :
    0 < demoBounceSession.mPrimaryLoopLengthSamples ∧
    bounceLength demoBounceSession.mPrimaryLoopLengthSamples demoBounceSession.mTracks
      ≤ demoBounceSession.mWorkBuffer.numSamples ∧
    demoBounceSession.performBounceBack.mPrimaryLoopLengthSamples = 1000 ∧
    (∃ master rest, demoBounceSession.performBounceBack.mTracks = master :: rest ∧
      master.loopLengthSamples = 1000 ∧ master.isReplacing = true ∧
      ∀ t ∈ rest, t.currentState = State.Empty) := by
  have hlen := demoBounceSession_length
  have hfit : bounceLength demoBounceSession.mPrimaryLoopLengthSamples demoBounceSession.mTracks
      ≤ demoBounceSession.mWorkBuffer.numSamples := by rw [hlen]; decide
  obtain ⟨a1, ⟨master, a2, a3, -, a5, -⟩, a6, -⟩ :=
    (bounce_installs_mix_in_master demoBounceSession).1
      (constantLoopTrack 13230000 1000 0 1) [constantLoopTrack 13230000 1000 300 2] rfl
      (by decide) hfit (by rw [hlen]; decide)
  exact ⟨by decide, hfit, a1.trans hlen, master, _, a2, a3.trans hlen, a5,
    fun t ht => (a6 t ht).1⟩

/-- C26 (as stated) fails: the cached master length is 1000, the master track was cleared
and the only loop left, on the slave, is 500 samples long, so the longest current loop
length across all tracks is 500 (it fits the work buffer). After `performBounceBack` the
cached master length and the master track's loop length are 1000, not 500. -/
theorem bounce_length_is_cached_master_length :
    demoClearedMasterSession.mPrimaryLoopLengthSamples = 1000 ∧
    (∀ t ∈ demoClearedMasterSession.mTracks, t.loopLengthSamples ≤ 500) ∧
    (∃ t ∈ demoClearedMasterSession.mTracks, t.loopLengthSamples = 500) ∧
    (500 : Int) ≤ demoClearedMasterSession.mWorkBuffer.numSamples ∧
    demoClearedMasterSession.performBounceBack.mPrimaryLoopLengthSamples = 1000 ∧
    ∃ master rest, demoClearedMasterSession.performBounceBack.mTracks = master :: rest ∧
      master.loopLengthSamples = 1000 := by
  obtain ⟨-, s2, -⟩ := demoSeededTrack_fields (patternBuffer 500 (fun _ => 2)) 500 0
    (by decide) (by decide)
  obtain ⟨-, -, f3, -⟩ := demoLoop1000_fields
  obtain ⟨t1, t2, t3⟩ := sessionWith_fields 14400000 1000
    [demoLoop1000.clear, demoSeededTrack (patternBuffer 500 (fun _ => 2)) 500 0]
  have hm : demoLoop1000.clear.loopLengthSamples = 0 := rfl
  have hcap : demoLoop1000.clear.loopBuffer.numSamples = 14400000 := f3
  have hB : bounceLength 1000
      [demoLoop1000.clear, demoSeededTrack (patternBuffer 500 (fun _ => 2)) 500 0] = 1000 := by
    rw [bounceLength_second 1000 _ _ (by rw [hm]) (by rw [s2]; decide), s2]
    decide
  unfold demoClearedMasterSession
  have hfit : bounceLength
      (sessionWith 14400000 1000 [demoLoop1000.clear,
        demoSeededTrack (patternBuffer 500 (fun _ => 2)) 500 0]).mPrimaryLoopLengthSamples
      (sessionWith 14400000 1000 [demoLoop1000.clear,
        demoSeededTrack (patternBuffer 500 (fun _ => 2)) 500 0]).mTracks
      ≤ (sessionWith 14400000 1000 [demoLoop1000.clear,
        demoSeededTrack (patternBuffer 500 (fun _ => 2)) 500 0]).mWorkBuffer.numSamples := by
    rw [t1, t2, t3, hB]
    decide
  have e := performBounceBack_eq _ _ _ t1 (by rw [t2]; decide) hfit
  obtain ⟨b1, -⟩ := beginProgressiveReplace_anchors demoLoop1000.clear
    (Session.performBounceBack (sessionWith 14400000 1000 [demoLoop1000.clear,
      demoSeededTrack (patternBuffer 500 (fun _ => 2)) 500 0])).mWorkBuffer
    1000 0 0 (by decide) (by rw [hcap]; decide)
  rw [t1, t2, hB] at e
  refine ⟨t2, ?_, ?_, by rw [t3]; decide, by rw [e], _, _, by rw [e], b1⟩
  · intro t ht
    rw [t1] at ht
    simp only [List.mem_cons, List.mem_singleton, List.not_mem_nil, or_false] at ht
    rcases ht with h | h
    · rw [h, hm]; decide
    · rw [h, s2]
  · refine ⟨_, by rw [t1]; exact List.mem_cons_of_mem _ (List.mem_cons_self _ _), s2⟩

/-! ## The processing cycle: a master length change -/

theorem handleParamsFrom_cons (i : Nat) (hi : i < NUM_TRACKS) (t : LoopTrack)
    (ts : List LoopTrack) (pv : TrackPrev) (pvs : List TrackPrev) (pr : TrackParams)
    (prs : List TrackParams) (pending : Int) :
    ∃ pending2, (handleParamsFrom i (t :: ts) (pv :: pvs) (pr :: prs) pending).1 =
      (handleTrackParams t pv pr).1 :: (handleParamsFrom (i + 1) ts pvs prs pending2).1 := by
  rw [handleParamsFrom, if_pos hi]
  exact ⟨_, rfl⟩

/-- A Multiply edge alone on a track that is not Empty calls `multiplyLoop ()`. -/
theorem handleTrackParams_mul_edge (t : LoopTrack) (pv : TrackPrev) (pr : TrackParams)
    (hst : t.currentState ≠ State.Empty)
    (h1 : paramOn pr.resample = pv.mPrevResample) (h2 : paramOn pr.recPlay = pv.mPrevRecPlay)
    (h3 : paramOn pr.stop = pv.mPrevStop) (h4 : paramOn pr.clear = pv.mPrevClear)
    (h5 : paramOn pr.undo = pv.mPrevUndo) (h6 : paramOn pr.mul ≠ pv.mPrevMul)
    (h7 : paramOn pr.div = pv.mPrevDiv) :
    (handleTrackParams t pv pr).1 =
      (t.withMixer pr.vol (paramOn pr.mute) (paramOn pr.solo)).multiplyLoop := by
  have hs : (((t.setVolume pr.vol).setMuted (paramOn pr.mute)).setSolo
      (paramOn pr.solo)).currentState ≠ State.Empty := hst
  unfold handleTrackParams
  simp only [h1, h2, h3, h4, h5, h7, ne_eq, not_true_eq_false, if_false]
  rw [if_pos h6, if_neg hs]
  rfl

/-- A Divide edge alone on a track that is not Empty calls `divideLoop ()`. -/
theorem handleTrackParams_div_edge (t : LoopTrack) (pv : TrackPrev) (pr : TrackParams)
    (hst : t.currentState ≠ State.Empty)
    (h1 : paramOn pr.resample = pv.mPrevResample) (h2 : paramOn pr.recPlay = pv.mPrevRecPlay)
    (h3 : paramOn pr.stop = pv.mPrevStop) (h4 : paramOn pr.clear = pv.mPrevClear)
    (h5 : paramOn pr.undo = pv.mPrevUndo) (h6 : paramOn pr.mul = pv.mPrevMul)
    (h7 : paramOn pr.div ≠ pv.mPrevDiv) :
    (handleTrackParams t pv pr).1 =
      (t.withMixer pr.vol (paramOn pr.mute) (paramOn pr.solo)).divideLoop := by
  have hs : (((t.setVolume pr.vol).setMuted (paramOn pr.mute)).setSolo
      (paramOn pr.solo)).currentState ≠ State.Empty := hst
  unfold handleTrackParams
  simp only [h1, h2, h3, h4, h5, h6, ne_eq, not_true_eq_false, if_false]
  rw [if_pos h7, if_neg hs]
  rfl

theorem firstLoopLogic_past (q : Processor) (hflag : q.mIsFirstLoop = false) :
    q.firstLoopLogic = q := by
  unfold Processor.firstLoopLogic
  split
  · rfl
  · rw [if_neg (by rw [hflag]; decide)]

theorem dispatchMasterLength_past (q : Processor) (master : LoopTrack)
    (rest : List LoopTrack) (htracks : q.mTracks = master :: rest)
    (hflag : q.mIsFirstLoop = false) (hcached : 0 < q.mPrimaryLoopLengthSamples)
    (hlen : 0 < master.loopLengthSamples) :
    q.dispatchMasterLength = master.loopLengthSamples := by
  unfold Processor.dispatchMasterLength
  rw [htracks]
  dsimp only
  rw [if_pos ⟨hcached, hflag⟩]
  by_cases h : master.loopLengthSamples = q.mPrimaryLoopLengthSamples
  · rw [if_neg (fun hh => hh.2 h), h]
  · rw [if_pos ⟨hlen, h⟩]

/-- C21 (amended). Take a cycle past the first loop: after the cycle's parameter triggers
have been handled (`enterCycle`) the first-loop flag is clear, the cached master length is
positive, and the master track holds a loop of `len > 0` samples, whatever the cached
length is. Then the dispatch of this same cycle runs every track, the slaves included, with
master length `len`, the master's current length, and leaves the cached master length at
`len`. A Multiply (or Divide) edge that is the only trigger edge on a non-Empty master in a
cycle without Reset edge acts before the dispatch: the master at the dispatch is the master
the cycle started with after `multiplyLoop ()` (or `divideLoop ()`), while the cached
length at that point is still the one the cycle started with. -/
theorem master_length_change_reaches_slaves_at_once (p : Processor) (c : CycleInput)
    (master : LoopTrack) (rest : List LoopTrack)
    (hflag : (p.enterCycle c).mIsFirstLoop = false)
    (hcached : 0 < (p.enterCycle c).mPrimaryLoopLengthSamples)
    (htracks : (p.enterCycle c).mTracks = master :: rest)
    (hlen : 0 < master.loopLengthSamples) :
    (∀ (i : Nat) (t : LoopTrack), (p.enterCycle c).mTracks.get? i = some t →
      ∃ out, ((p.enterCycle c).firstLoopLogic.dispatch c).1.mTracks.get? i =
        some (t.processBlock out c.mainInput (fxCache c i) (p.enterCycle c).mGlobalTotalSamples
          (decide (i = 0)) master.loopLengthSamples
          ((p.enterCycle c).mTracks.any (fun t => t.isSolo))).1) ∧
    ((p.enterCycle c).firstLoopLogic.dispatch c).1.mPrimaryLoopLengthSamples
      = master.loopLengthSamples ∧
    (∀ (m0 : LoopTrack) (r0 : List LoopTrack) (pv : TrackPrev) (pvs : List TrackPrev)
      (pr : TrackParams) (prs : List TrackParams),
      p.mTracks = m0 :: r0 → p.mPrev = pv :: pvs → c.params = pr :: prs →
      paramOn c.paramReset = p.mPrevReset → m0.currentState ≠ State.Empty →
      paramOn pr.resample = pv.mPrevResample → paramOn pr.recPlay = pv.mPrevRecPlay →
      paramOn pr.stop = pv.mPrevStop → paramOn pr.clear = pv.mPrevClear →
      paramOn pr.undo = pv.mPrevUndo →
      (p.enterCycle c).mPrimaryLoopLengthSamples = p.mPrimaryLoopLengthSamples ∧
      (paramOn pr.mul ≠ pv.mPrevMul → paramOn pr.div = pv.mPrevDiv →
        master = (m0.withMixer pr.vol (paramOn pr.mute) (paramOn pr.solo)).multiplyLoop) ∧
      (paramOn pr.mul = pv.mPrevMul → paramOn pr.div ≠ pv.mPrevDiv →
        master = (m0.withMixer pr.vol (paramOn pr.mute) (paramOn pr.solo)).divideLoop)) := by
  have hq := firstLoopLogic_past (p.enterCycle c) hflag
  have hd := dispatchMasterLength_past (p.enterCycle c) master rest htracks hflag hcached hlen
  obtain ⟨-, d2, -, -, -, d6, -, -⟩ := dispatch_fields (p.enterCycle c) c
  rw [hq]
  rw [hd] at d2 d6
  refine ⟨fun i t ht => ?_, d2, ?_⟩
  · rw [d6]
    have h := dispatchTracks_get c (p.enterCycle c).mGlobalTotalSamples
      master.loopLengthSamples ((p.enterCycle c).mTracks.any (fun t => t.isSolo))
      (p.enterCycle c).mTracks 0 (initialOutputs c) i t ht
    rw [Nat.zero_add] at h
    exact h
  · intro m0 r0 pv pvs pr prs hm hpv hpr hreset hst h1 h2 h3 h4 h5
    obtain ⟨-, hs, -⟩ := enterCycle_session p c
    obtain ⟨-, e2, -, e4⟩ := hs hreset
    obtain ⟨rest1, e⟩ := handleParamsFrom_head m0 r0 pv pvs pr prs p.mPendingAfterLoop
    rw [e4, hm, hpv, hpr, e] at htracks
    injection htracks with hhead _
    refine ⟨e2, fun h6 h7 => ?_, fun h6 h7 => ?_⟩
    · rw [← hhead]
      exact handleTrackParams_mul_edge m0 pv pr hst h1 h2 h3 h4 h5 h6 h7
    · rw [← hhead]
      exact handleTrackParams_div_edge m0 pv pr hst h1 h2 h3 h4 h5 h6 h7

theorem slaveTargetLen_unit (L : Int) (hL : 1 ≤ L) (hL24 : L < 2 ^ 24) :
    slaveTargetLen L (clampMultiplier 1) = L := by
  rw [clampMultiplier_of_mem _ (by norm_num) (by norm_num),
    slaveTargetLen_eq_floor _ _ (by omega) (by norm_num) (by norm_num) L 0 hL24
      (by rw [abs_of_nonneg (by omega)]; exact hL24) (by simp)]
  have h : ⌊(L : ℚ) * 1⌋ = L := by
    rw [mul_one]
    exact Int.floor_intCast L
  rw [h, max_eq_right hL]

theorem withMixer_multiplyLoop_length (t : LoopTrack) (v : ℚ) (m s : Bool)
    (hlen : 0 < t.loopLengthSamples)
    (hfit : t.loopLengthSamples * 2 ≤ t.loopBuffer.numSamples) :
    (t.withMixer v m s).multiplyLoop.loopLengthSamples = t.loopLengthSamples * 2 := by
  rw [multiplyLoop_eq (t.withMixer v m s) hlen hfit]
  rfl

/-- A Recording slave with multiplier 1 that has not reached its target takes the master
length it is dispatched with as its loop length. -/
theorem withMixer_slave_target (t : LoopTrack) (v : ℚ) (m s : Bool) (out inp sc : AudioBuffer)
    (g L : Int) (solo : Bool) (hrec : t.currentState = State.Recording)
    (hpp : t.playbackPosition ≤ 0) (hmul : t.targetMultiplier = clampMultiplier 1)
    (hL : 1 ≤ L) (hL24 : L < 2 ^ 24) :
    ((t.withMixer v m s).processBlock out inp sc g false L solo).1.loopLengthSamples = L := by
  rw [processBlock_slave_loopLength (t.withMixer v m s) out inp sc g L solo hrec hpp]
  have e : (t.withMixer v m s).targetMultiplier = clampMultiplier 1 := hmul
  rw [e, slaveTargetLen_unit L hL hL24]

/-- The example cycle with the Multiply edge: state at the dispatch. -/
theorem demoMultiplyCycle_enter :
    (demoLoopingProcessor.enterCycle demoMultiplyCycle).mIsFirstLoop = false ∧
    (demoLoopingProcessor.enterCycle demoMultiplyCycle).mPrimaryLoopLengthSamples = 1000 ∧
    ∃ rest, (demoLoopingProcessor.enterCycle demoMultiplyCycle).mTracks =
      (demoLoop1000.withMixer demoParamsMul.vol (paramOn demoParamsMul.mute)
        (paramOn demoParamsMul.solo)).multiplyLoop ::
      (demoSlaveAfter 1 1 1000).withMixer demoParamsRecOn.vol (paramOn demoParamsRecOn.mute)
        (paramOn demoParamsRecOn.solo) :: rest := by
  obtain ⟨-, hq, -⟩ := enterCycle_session demoLoopingProcessor demoMultiplyCycle
  have hr : paramOn demoMultiplyCycle.paramReset = demoLoopingProcessor.mPrevReset :=
    paramOn_zero
  obtain ⟨e1, e2, -, e4⟩ := hq hr
  obtain ⟨f1, -, -, -⟩ := demoLoop1000_fields
  obtain ⟨pend1, c1⟩ := handleParamsFrom_cons 0 (by decide) demoLoop1000
    (demoSlaveAfter 1 1 1000 :: List.replicate 4 (LoopTrack.fresh.prepareToPlay 48000))
    demoPrevIdle (demoPrevRecOn :: List.replicate 4 demoPrevIdle) demoParamsMul
    (demoParamsRecOn :: List.replicate 4 demoParamsIdle) (-1)
  obtain ⟨pend2, c2⟩ := handleParamsFrom_cons 1 (by decide) (demoSlaveAfter 1 1 1000)
    (List.replicate 4 (LoopTrack.fresh.prepareToPlay 48000)) demoPrevRecOn
    (List.replicate 4 demoPrevIdle) demoParamsRecOn (List.replicate 4 demoParamsIdle) pend1
  have hmul : paramOn demoParamsMul.mul ≠ demoPrevIdle.mPrevMul := by
    rw [show paramOn demoParamsMul.mul = true from paramOn_one]
    decide
  have hM := handleTrackParams_mul_edge demoLoop1000 demoPrevIdle demoParamsMul
    (by rw [f1]; decide) paramOn_zero paramOn_zero paramOn_zero paramOn_zero paramOn_zero
    hmul paramOn_zero
  have hS := handleTrackParams_quiet (demoSlaveAfter 1 1 1000) demoPrevRecOn demoParamsRecOn
    ⟨paramOn_zero, paramOn_one, paramOn_zero, paramOn_zero, paramOn_zero, paramOn_zero,
      paramOn_zero⟩
  rw [c2, hM, hS] at c1
  exact ⟨e1, e2, _, e4.trans c1⟩

/-- Witness for `master_length_change_reaches_slaves_at_once`: the master holds the
1000-sample example loop (cached length 1000) and its Multiply trigger goes on; at the
dispatch the master is 2000 samples long, every track runs with master length 2000 and
the cached length becomes 2000. -/
theorem master_length_change_reaches_slaves_at_once_witness :
    (demoLoopingProcessor.enterCycle demoMultiplyCycle).mIsFirstLoop = false ∧
    0 < (demoLoopingProcessor.enterCycle demoMultiplyCycle).mPrimaryLoopLengthSamples ∧
    (∃ master rest,
      (demoLoopingProcessor.enterCycle demoMultiplyCycle).mTracks = master :: rest ∧
      master.loopLengthSamples = 2000) ∧
    ((demoLoopingProcessor.enterCycle demoMultiplyCycle).firstLoopLogic.dispatch
      demoMultiplyCycle).1.mPrimaryLoopLengthSamples = 2000 := by
  obtain ⟨h1, h2, rest, h3⟩ := demoMultiplyCycle_enter
  obtain ⟨-, f2, f3, -⟩ := demoLoop1000_fields
  have hM := withMixer_multiplyLoop_length demoLoop1000 demoParamsMul.vol
    (paramOn demoParamsMul.mute) (paramOn demoParamsMul.solo) (by rw [f2]; decide)
    (by rw [f2, f3]; decide)
  rw [f2] at hM
  have hM2 : (demoLoop1000.withMixer demoParamsMul.vol (paramOn demoParamsMul.mute)
      (paramOn demoParamsMul.solo)).multiplyLoop.loopLengthSamples = 2000 :=
    hM.trans (by decide)
  obtain ⟨-, a2, -⟩ := master_length_change_reaches_slaves_at_once demoLoopingProcessor
    demoMultiplyCycle _ _ h1 (by rw [h2]; decide) h3 (by rw [hM2]; decide)
  exact ⟨h1, by rw [h2]; decide, ⟨_, _, h3, hM2⟩, a2.trans hM2⟩

/-- C21 (as stated) fails: the master holds a 1000-sample loop (cached master length 1000)
and a slave with multiplier 1 is in its recording pass. In the cycle in which the master's
Multiply trigger goes on, the master is 2000 samples long when the tracks are dispatched,
and the slave comes out of this same cycle with loop length 2000, the target for master
length 2000; dispatched with the previous master length 1000 it would hold 1000. -/
theorem slave_sees_new_master_length_in_same_cycle :
    demoLoopingProcessor.mIsFirstLoop = false ∧
    demoLoopingProcessor.mPrimaryLoopLengthSamples = 1000 ∧
    demoLoopingProcessor.mTracks.head? = some demoLoop1000 ∧
    demoLoop1000.loopLengthSamples = 1000 ∧
    (∃ master slave rest,
      (demoLoopingProcessor.enterCycle demoMultiplyCycle).mTracks = master :: slave :: rest ∧
      master.loopLengthSamples = 2000 ∧
      (∃ sl, ((demoLoopingProcessor.enterCycle demoMultiplyCycle).firstLoopLogic.dispatch
          demoMultiplyCycle).1.mTracks.get? 1 = some sl ∧ sl.loopLengthSamples = 2000) ∧
      ∀ (out inp sc : AudioBuffer) (g : Int) (solo : Bool),
        (slave.processBlock out inp sc g false 1000 solo).1.loopLengthSamples = 1000) := by
  obtain ⟨h1, h2, rest, h3⟩ := demoMultiplyCycle_enter
  obtain ⟨-, f2, f3, -⟩ := demoLoop1000_fields
  have hM := withMixer_multiplyLoop_length demoLoop1000 demoParamsMul.vol
    (paramOn demoParamsMul.mute) (paramOn demoParamsMul.solo) (by rw [f2]; decide)
    (by rw [f2, f3]; decide)
  rw [f2] at hM
  have hM2 : (demoLoop1000.withMixer demoParamsMul.vol (paramOn demoParamsMul.mute)
      (paramOn demoParamsMul.solo)).multiplyLoop.loopLengthSamples = 2000 :=
    hM.trans (by decide)
  obtain ⟨s1, -, s3, -⟩ := demoSlaveAfter_fields 1 1 1000
    (by rw [slaveTargetLen_unit 1000 (by decide) (by decide)]; decide) (by decide)
  have hpp : (demoSlaveAfter 1 1 1000).playbackPosition ≤ 0 :=
    le_of_eq (reachable_slaveRecordingInvariant _ (demoSlaveAfter_reachable 1 1 1000) s1)
  have hq := firstLoopLogic_past _ h1
  have hd := dispatchMasterLength_past _ _ _ h3 h1 (by rw [h2]; decide)
    (by rw [hM2]; decide)
  obtain ⟨-, -, -, -, -, d6, -, -⟩ := dispatch_fields
    (demoLoopingProcessor.enterCycle demoMultiplyCycle) demoMultiplyCycle
  rw [hd, hM2] at d6
  have hget : (demoLoopingProcessor.enterCycle demoMultiplyCycle).mTracks.get? 1
      = some ((demoSlaveAfter 1 1 1000).withMixer demoParamsRecOn.vol
        (paramOn demoParamsRecOn.mute) (paramOn demoParamsRecOn.solo)) := by
    rw [h3]
    rfl
  obtain ⟨out, hout⟩ := dispatchTracks_get demoMultiplyCycle
    (demoLoopingProcessor.enterCycle demoMultiplyCycle).mGlobalTotalSamples 2000
    ((demoLoopingProcessor.enterCycle demoMultiplyCycle).mTracks.any (fun t => t.isSolo))
    (demoLoopingProcessor.enterCycle demoMultiplyCycle).mTracks 0
    (initialOutputs demoMultiplyCycle) 1 _ hget
  have hsl : ∃ sl, ((demoLoopingProcessor.enterCycle demoMultiplyCycle).firstLoopLogic.dispatch
      demoMultiplyCycle).1.mTracks.get? 1 = some sl ∧ sl.loopLengthSamples = 2000 := by
    rw [← d6] at hout
    rw [hq]
    exact ⟨_, hout, withMixer_slave_target _ _ _ _ _ _ _ _ 2000 _ s1 hpp s3 (by decide) (by decide)⟩
  refine ⟨rfl, rfl, rfl, f2, _, _, rest, h3, hM2, hsl, ?_⟩
  · intro out inp sc g solo
    exact withMixer_slave_target _ _ _ _ out inp sc g 1000 solo s1 hpp s3 (by decide)
      (by decide)

/-! ## Retrospective ring buffer and capture -/

theorem emod_shift (size T d : Int) :
    (0 ≤ T % size + d → T % size + d < size → (T + d) % size = T % size + d) ∧
    (size ≤ T % size + d → T % size + d < 2 * size → (T + d) % size = T % size + d - size) ∧
    (- size ≤ T % size + d → T % size + d < 0 → (T + d) % size = T % size + d + size) := by
  have e : (T + d) % size = (T % size + d) % size := (Int.emod_add_emod T size d).symm
  refine ⟨fun h0 h1 => ?_, fun h0 h1 => ?_, fun h0 h1 => ?_⟩
  · rw [e]
    exact Int.emod_eq_of_lt h0 h1
  · rw [e]
    have e2 : (T % size + d - size + size) % size = (T % size + d - size) % size :=
      Int.add_emod_self
    have e3 : T % size + d - size + size = T % size + d := by omega
    rw [e3] at e2
    rw [e2]
    exact Int.emod_eq_of_lt (by omega) (by omega)
  · rw [e]
    have e2 : (T % size + d + size) % size = (T % size + d) % size := Int.add_emod_self
    rw [← e2]
    exact Int.emod_eq_of_lt (by omega) (by omega)

theorem forCh_copyTwice_data (m : Nat) (lb src : AudioBuffer) (d1 s1 n1 d2 s2 n2 : Int) :
    ∀ (c : Nat) (i : Int),
      (forCh m (fun ch acc => (acc.copyFrom ch d1 src ch s1 n1).copyFrom ch d2 src ch s2 n2)
        lb).data c i =
        if c < m then
          (if d2 ≤ i ∧ i < d2 + n2 then src.data c (s2 + (i - d2))
           else if d1 ≤ i ∧ i < d1 + n1 then src.data c (s1 + (i - d1)) else lb.data c i)
        else lb.data c i := by
  induction m with
  | zero =>
    intro c i
    rw [forCh_zero, if_neg (by omega)]
  | succ k ih =>
    intro c i
    rw [forCh_succ, AudioBuffer.copyFrom_data, AudioBuffer.copyFrom_data, ih]
    by_cases hk : c = k
    · subst hk
      rw [if_neg (show ¬ c < c by omega), if_pos (show c < c + 1 by omega)]
      by_cases h2 : d2 ≤ i ∧ i < d2 + n2
      · rw [if_pos ⟨rfl, h2⟩, if_pos h2]
      · rw [if_neg (fun h => h2 h.2), if_neg h2]
        by_cases h1 : d1 ≤ i ∧ i < d1 + n1
        · rw [if_pos ⟨rfl, h1⟩, if_pos h1]
        · rw [if_neg (fun h => h1 h.2), if_neg h1]
    · rw [if_neg (fun h => hk h.1), if_neg (fun h => hk h.1)]
      by_cases hc : c < k
      · rw [if_pos hc, if_pos (show c < k + 1 by omega)]
      · rw [if_neg hc, if_neg (show ¬ c < k + 1 by omega)]

/-- The channel loop of the retrospective write: the ring afterwards. -/
theorem retroWrite_data (input ring : AudioBuffer) (wp n toEnd : Int) (m : Nat) (c : Nat)
    (i : Int) :
    (forCh m
      (fun ch acc =>
        if n ≤ toEnd then acc.copyFrom ch wp input ch 0 n
        else (acc.copyFrom ch wp input ch 0 toEnd).copyFrom ch 0 input ch toEnd (n - toEnd))
      ring).data c i =
      if c < m then
        (if n ≤ toEnd then
          (if wp ≤ i ∧ i < wp + n then input.data c (i - wp) else ring.data c i)
        else
          (if 0 ≤ i ∧ i < n - toEnd then input.data c (toEnd + i)
           else if wp ≤ i ∧ i < wp + toEnd then input.data c (i - wp) else ring.data c i))
      else ring.data c i := by
  by_cases hn : n ≤ toEnd
  · simp only [hn, if_true]
    rw [forCh_copyFrom_data]
    by_cases hc : c < m
    · rw [if_pos hc]
      by_cases hi : wp ≤ i ∧ i < wp + n
      · rw [if_pos ⟨hc, hi⟩, if_pos hi, zero_add]
      · rw [if_neg (fun h => hi h.2), if_neg hi]
    · rw [if_neg hc, if_neg (fun h => hc h.1)]
  · simp only [hn, if_false]
    rw [forCh_copyTwice_data]
    by_cases hc : c < m
    · rw [if_pos hc, if_pos hc]
      have e1 : toEnd + (i - 0) = toEnd + i := by omega
      have e2 : (0 : Int) + (n - toEnd) = n - toEnd := by omega
      have e3 : (0 : Int) + (i - wp) = i - wp := by omega
      rw [e1, e2, e3]
    · rw [if_neg hc, if_neg hc]

theorem ringHolds_congr (s : Session) (nch : Nat) (f1 f2 : Nat → Int → ℚ) (T : Int)
    (h : ringHolds s nch f1 T)
    (he : ∀ ch k, ch < nch → 0 ≤ k → k < T → f1 ch k = f2 ch k) :
    ringHolds s nch f2 T :=
  ⟨h.1, h.2.1, fun ch k hc h0 h1 h2 => by
    rw [← he ch k hc h0 h2]
    exact h.2.2 ch k hc h0 h1 h2⟩

/-- One retrospective write of a block no larger than the ring appends the block to the
stream the ring holds. -/
theorem writeRetrospective_ringHolds (s : Session) (c : CycleInput) (nch : Nat)
    (fed : Nat → Int → ℚ) (T : Int) (h : ringHolds s nch fed T)
    (hs : 0 < s.mRetroBufferSize) (hn0 : 0 ≤ c.numSamples)
    (hn1 : c.numSamples ≤ s.mRetroBufferSize)
    (hch : nch ≤ min c.mainInput.numChannels s.mRetrospectiveBuffer.numChannels)
    (hin : ∀ ch j, ch < nch → 0 ≤ j → j < c.numSamples →
      c.mainInput.data ch j = fed ch (T + j)) :
    ringHolds (s.writeRetrospective c) nch fed (T + c.numSamples) := by
  obtain ⟨hT, hwp, hold⟩ := h
  have hw0 : 0 ≤ T % s.mRetroBufferSize := Int.emod_nonneg _ (by omega)
  have hw1 : T % s.mRetroBufferSize < s.mRetroBufferSize := Int.emod_lt_of_pos _ hs
  unfold Session.writeRetrospective
  rw [if_pos hs]
  refine ⟨by omega, ?_, ?_⟩
  · show (s.mRetroWritePos + c.numSamples).tmod s.mRetroBufferSize
      = (T + c.numSamples) % s.mRetroBufferSize
    rw [hwp, Int.tmod_eq_emod (by omega) (by omega), Int.emod_add_emod]
  · intro ch k hc hk0 hk1 hk2
    replace hk1 : T + c.numSamples - s.mRetroBufferSize ≤ k := hk1
    show (forCh (min c.mainInput.numChannels s.mRetrospectiveBuffer.numChannels)
      (fun ch acc =>
        if c.numSamples ≤ s.mRetroBufferSize - s.mRetroWritePos then
          acc.copyFrom ch s.mRetroWritePos c.mainInput ch 0 c.numSamples
        else
          (acc.copyFrom ch s.mRetroWritePos c.mainInput ch 0
            (s.mRetroBufferSize - s.mRetroWritePos)).copyFrom ch 0 c.mainInput ch
            (s.mRetroBufferSize - s.mRetroWritePos)
            (c.numSamples - (s.mRetroBufferSize - s.mRetroWritePos)))
      s.mRetrospectiveBuffer).data ch (k % s.mRetroBufferSize) = fed ch k
    rw [retroWrite_data, if_pos (show ch < min c.mainInput.numChannels
      s.mRetrospectiveBuffer.numChannels by omega), hwp]
    obtain ⟨e1, e2, e3⟩ := emod_shift s.mRetroBufferSize T (k - T)
    have ek : T + (k - T) = k := by omega
    rw [ek] at e1 e2 e3
    have hold_k := hold ch k hc hk0
    generalize k % s.mRetroBufferSize = i at e1 e2 e3 hold_k ⊢
    have hcase : (0 ≤ T % s.mRetroBufferSize + (k - T) ∧
          T % s.mRetroBufferSize + (k - T) < s.mRetroBufferSize ∧
          i = T % s.mRetroBufferSize + (k - T)) ∨
        (s.mRetroBufferSize ≤ T % s.mRetroBufferSize + (k - T) ∧
          i = T % s.mRetroBufferSize + (k - T) - s.mRetroBufferSize) ∨
        (T % s.mRetroBufferSize + (k - T) < 0 ∧
          i = T % s.mRetroBufferSize + (k - T) + s.mRetroBufferSize) := by
      rcases lt_or_le (T % s.mRetroBufferSize + (k - T)) 0 with h | h
      · exact Or.inr (Or.inr ⟨h, e3 (by omega) h⟩)
      · rcases lt_or_le (T % s.mRetroBufferSize + (k - T)) s.mRetroBufferSize with h2 | h2
        · exact Or.inl ⟨h, h2, e1 h h2⟩
        · exact Or.inr (Or.inl ⟨h2, e2 h2 (by omega)⟩)
    clear e1 e2 e3
    by_cases hk : T ≤ k
    · have hv := hin ch (k - T) hc (by omega) (by omega)
      rw [ek] at hv
      rw [← hv]
      split_ifs <;> first | (exfalso; omega) | (congr 1; omega)
    · have hv := hold_k (by omega) (by omega)
      rw [← hv]
      split_ifs <;> first | rfl | (exfalso; omega)

theorem writeRetrospective_size (s : Session) (c : CycleInput) :
    (s.writeRetrospective c).mRetroBufferSize = s.mRetroBufferSize ∧
    (s.writeRetrospective c).mRetrospectiveBuffer.numChannels
      = s.mRetrospectiveBuffer.numChannels ∧
    (s.writeRetrospective c).mTracks = s.mTracks ∧
    (s.writeRetrospective c).mPrimaryLoopLengthSamples = s.mPrimaryLoopLengthSamples ∧
    (s.writeRetrospective c).mGlobalTotalSamples = s.mGlobalTotalSamples ∧
    (s.writeRetrospective c).mWorkBuffer = s.mWorkBuffer := by
  unfold Session.writeRetrospective
  split
  · refine ⟨rfl, ?_, rfl, rfl, rfl, rfl⟩
    exact (forCh_copyFrom_shape _ _ _ (fun ch a => by split <;> exact ⟨rfl, rfl⟩)).2
  · exact ⟨rfl, rfl, rfl, rfl, rfl, rfl⟩

/-- A session whose write position lies inside the ring holds its own content as the stream
so far. -/
theorem ringHolds_start (s : Session) (nch : Nat) (h0 : 0 ≤ s.mRetroWritePos)
    (h1 : s.mRetroWritePos < s.mRetroBufferSize) :
    ringHolds s nch (fun ch k => s.mRetrospectiveBuffer.data ch k) s.mRetroWritePos := by
  refine ⟨h0, (Int.emod_eq_of_lt h0 h1).symm, fun ch k _ hk0 _ hk2 => ?_⟩
  rw [Int.emod_eq_of_lt hk0 (by omega)]

/-- Feeding a list of blocks, none larger than the ring, appends their samples in order to
the stream the ring holds. -/
theorem feedRetrospective_ringHolds (nch : Nat) :
    ∀ (blocks : List CycleInput) (s : Session) (fed : Nat → Int → ℚ) (T : Int),
      ringHolds s nch fed T → 0 < s.mRetroBufferSize →
      nch ≤ s.mRetrospectiveBuffer.numChannels →
      (∀ b ∈ blocks, 0 ≤ b.numSamples ∧ b.numSamples ≤ s.mRetroBufferSize ∧
        nch ≤ b.mainInput.numChannels) →
      ringHolds (feedRetrospective s blocks) nch
        (fun ch k => if k < T then fed ch k else fedStream blocks ch (k - T))
        (T + totalFed blocks) := by
  intro blocks
  induction blocks with
  | nil =>
    intro s fed T h _ _ _
    show ringHolds s nch _ (T + 0)
    rw [add_zero]
    exact ringHolds_congr s nch fed _ T h (fun ch k _ _ hk => (if_pos hk).symm)
  | cons b bs ih =>
    intro s fed T h hs hch hb
    have hb0 := hb b (List.mem_cons_self _ _)
    have hsz := writeRetrospective_size s b
    have h1 : ringHolds s nch
        (fun ch k => if k < T then fed ch k else fedStream (b :: bs) ch (k - T)) T :=
      ringHolds_congr s nch fed _ T h (fun ch k _ _ hk => (if_pos hk).symm)
    have h2 := writeRetrospective_ringHolds s b nch _ T h1 hs hb0.1 hb0.2.1
      (le_min hb0.2.2 hch)
      (fun ch j hc hj0 hj1 => by
        show b.mainInput.data ch j =
          if T + j < T then fed ch (T + j) else fedStream (b :: bs) ch (T + j - T)
        rw [if_neg (by omega), fedStream, (show T + j - T = j by omega), if_pos hj1])
    have h3 := ih (s.writeRetrospective b) _ (T + b.numSamples) h2 (by rw [hsz.1]; exact hs)
      (by rw [hsz.2.1]; exact hch)
      (fun x hx => by rw [hsz.1]; exact hb x (List.mem_cons_of_mem _ hx))
    have e : T + totalFed (b :: bs) = T + b.numSamples + totalFed bs := by
      unfold totalFed
      rw [List.map_cons, List.sum_cons]
      omega
    rw [e]
    show ringHolds (feedRetrospective (s.writeRetrospective b) bs) nch _ _
    refine ringHolds_congr _ nch _ _ _ h3 (fun ch k _ hk0 _ => ?_)
    dsimp only
    by_cases hk : k < T
    · rw [if_pos (show k < T + b.numSamples by omega), if_pos hk]
    · rw [if_neg hk, fedStream]
      by_cases hk2 : k < T + b.numSamples
      · rw [if_pos hk2, if_pos (show k - T < b.numSamples by omega)]
      · rw [if_neg hk2, if_neg (show ¬ k - T < b.numSamples by omega),
          (show k - (T + b.numSamples) = k - T - b.numSamples by omega)]

theorem feedRetrospective_frame :
    ∀ (blocks : List CycleInput) (s : Session),
      (feedRetrospective s blocks).mRetroBufferSize = s.mRetroBufferSize ∧
      (feedRetrospective s blocks).mRetrospectiveBuffer.numChannels
        = s.mRetrospectiveBuffer.numChannels ∧
      (feedRetrospective s blocks).mTracks = s.mTracks ∧
      (feedRetrospective s blocks).mPrimaryLoopLengthSamples = s.mPrimaryLoopLengthSamples ∧
      (feedRetrospective s blocks).mGlobalTotalSamples = s.mGlobalTotalSamples ∧
      (feedRetrospective s blocks).mWorkBuffer = s.mWorkBuffer := by
  intro blocks
  induction blocks with
  | nil => intro s; exact ⟨rfl, rfl, rfl, rfl, rfl, rfl⟩
  | cons b bs ih =>
    intro s
    have h1 := writeRetrospective_size s b
    have h2 := ih (s.writeRetrospective b)
    show (feedRetrospective (s.writeRetrospective b) bs).mRetroBufferSize = _ ∧ _
    exact ⟨h2.1.trans h1.1, h2.2.1.trans h1.2.1, h2.2.2.1.trans h1.2.2.1,
      h2.2.2.2.1.trans h1.2.2.2.1, h2.2.2.2.2.1.trans h1.2.2.2.2.1,
      h2.2.2.2.2.2.trans h1.2.2.2.2.2⟩

/-- The channel loop of the retrospective read: the destination afterwards. -/
theorem captureCopy_data (ring dest : AudioBuffer) (rs c toEnd : Int) (m : Nat) (ch : Nat)
    (i : Int) :
    (forCh m
      (fun ch acc =>
        if c ≤ toEnd then acc.copyFrom ch 0 ring ch rs c
        else (acc.copyFrom ch 0 ring ch rs toEnd).copyFrom ch toEnd ring ch 0 (c - toEnd))
      dest).data ch i =
      if ch < m then
        (if c ≤ toEnd then
          (if 0 ≤ i ∧ i < c then ring.data ch (rs + i) else dest.data ch i)
        else
          (if toEnd ≤ i ∧ i < c then ring.data ch (i - toEnd)
           else if 0 ≤ i ∧ i < toEnd then ring.data ch (rs + i) else dest.data ch i))
      else dest.data ch i := by
  by_cases hn : c ≤ toEnd
  · simp only [hn, if_true]
    rw [forCh_copyFrom_data]
    have e1 : (0 : Int) + c = c := by omega
    have e2 : rs + (i - 0) = rs + i := by omega
    rw [e1, e2]
    by_cases hc : ch < m
    · rw [if_pos hc]
      by_cases hi : 0 ≤ i ∧ i < c
      · rw [if_pos ⟨hc, hi⟩, if_pos hi]
      · rw [if_neg (fun h => hi h.2), if_neg hi]
    · rw [if_neg hc, if_neg (fun h => hc h.1)]
  · simp only [hn, if_false]
    rw [forCh_copyTwice_data]
    have e1 : toEnd + (c - toEnd) = c := by omega
    have e2 : rs + (i - 0) = rs + i := by omega
    have e3 : (0 : Int) + (i - toEnd) = i - toEnd := by omega
    have e4 : (0 : Int) + toEnd = toEnd := by omega
    rw [e1, e2, e3, e4]

/-- Reading the trailing `c` samples of a ring that holds a stream of `T ≥ c` samples gives
the last `c` samples of the stream in order. -/
theorem ring_read_trailing (s : Session) (nch : Nat) (fed : Nat → Int → ℚ) (T : Int)
    (hring : ringHolds s nch fed T) (hs : 0 < s.mRetroBufferSize) (c : Int) (hc0 : 0 < c)
    (hc1 : c ≤ s.mRetroBufferSize) (hcT : c ≤ T) (dest : AudioBuffer) (m : Nat) (ch : Nat)
    (hch : ch < nch) (hm : ch < m) (i : Int) (hi0 : 0 ≤ i) (hi1 : i < c) :
    (forCh m
      (fun ch acc =>
        if c ≤ s.mRetroBufferSize
            - (s.mRetroWritePos - c + s.mRetroBufferSize).tmod s.mRetroBufferSize then
          acc.copyFrom ch 0 s.mRetrospectiveBuffer ch
            ((s.mRetroWritePos - c + s.mRetroBufferSize).tmod s.mRetroBufferSize) c
        else
          (acc.copyFrom ch 0 s.mRetrospectiveBuffer ch
            ((s.mRetroWritePos - c + s.mRetroBufferSize).tmod s.mRetroBufferSize)
            (s.mRetroBufferSize
              - (s.mRetroWritePos - c + s.mRetroBufferSize).tmod s.mRetroBufferSize)).copyFrom
            ch
            (s.mRetroBufferSize
              - (s.mRetroWritePos - c + s.mRetroBufferSize).tmod s.mRetroBufferSize)
            s.mRetrospectiveBuffer ch 0
            (c - (s.mRetroBufferSize
              - (s.mRetroWritePos - c + s.mRetroBufferSize).tmod s.mRetroBufferSize)))
      dest).data ch i = fed ch (T - c + i) := by
  obtain ⟨hT, hwp, hold⟩ := hring
  have hw0 : 0 ≤ T % s.mRetroBufferSize := Int.emod_nonneg _ (by omega)
  have hw1 : T % s.mRetroBufferSize < s.mRetroBufferSize := Int.emod_lt_of_pos _ hs
  rw [captureCopy_data, if_pos hm, hwp,
    Int.tmod_eq_emod (show 0 ≤ T % s.mRetroBufferSize - c + s.mRetroBufferSize by omega)
      (by omega)]
  have hrs : (T % s.mRetroBufferSize < c ∧
        (T % s.mRetroBufferSize - c + s.mRetroBufferSize) % s.mRetroBufferSize
          = T % s.mRetroBufferSize - c + s.mRetroBufferSize) ∨
      (c ≤ T % s.mRetroBufferSize ∧
        (T % s.mRetroBufferSize - c + s.mRetroBufferSize) % s.mRetroBufferSize
          = T % s.mRetroBufferSize - c) := by
    rcases lt_or_le (T % s.mRetroBufferSize) c with h | h
    · exact Or.inl ⟨h, Int.emod_eq_of_lt (by omega) (by omega)⟩
    · refine Or.inr ⟨h, ?_⟩
      rw [Int.add_emod_self]
      exact Int.emod_eq_of_lt (by omega) (by omega)
  generalize (T % s.mRetroBufferSize - c + s.mRetroBufferSize) % s.mRetroBufferSize = rs
    at hrs ⊢
  have hk := hold ch (T - c + i) hch (by omega) (by omega) (by omega)
  obtain ⟨e1, -, e3⟩ := emod_shift s.mRetroBufferSize T (i - c)
  have ek : T + (i - c) = T - c + i := by omega
  rw [ek] at e1 e3
  rw [← hk]
  generalize (T - c + i) % s.mRetroBufferSize = j at e1 e3 ⊢
  have hj : (0 ≤ T % s.mRetroBufferSize + (i - c) ∧ j = T % s.mRetroBufferSize + (i - c)) ∨
      (T % s.mRetroBufferSize + (i - c) < 0 ∧
        j = T % s.mRetroBufferSize + (i - c) + s.mRetroBufferSize) := by
    rcases lt_or_le (T % s.mRetroBufferSize + (i - c)) 0 with h | h
    · exact Or.inr ⟨h, e3 (by omega) h⟩
    · exact Or.inl ⟨h, e1 h (by omega)⟩
  clear e1 e3
  split_ifs <;> first | (exfalso; omega) | (congr 1; omega)

theorem saveUndo_loopBuffer (t : LoopTrack) : t.saveUndo.loopBuffer = t.loopBuffer := by
  obtain ⟨ub, ul, hu, e⟩ := saveUndo_frame t
  rw [e]

/-- An accepted `setLoopFromMix` leaves the track Playing with the given length and anchors,
and copies the mix on the channels both buffers have. -/
theorem setLoopFromMix_installs (t : LoopTrack) (mixed : AudioBuffer)
    (length off start : Int) (h1 : 0 < length) (h2 : length ≤ t.loopBuffer.numSamples) :
    (t.setLoopFromMix mixed length off start).currentState = State.Playing ∧
    (t.setLoopFromMix mixed length off start).loopLengthSamples = length ∧
    (t.setLoopFromMix mixed length off start).recordingStartGlobalSample = start ∧
    (t.setLoopFromMix mixed length off start).recordingStartOffset = off ∧
    ∀ (ch : Nat) (i : Int), ch < t.loopBuffer.numChannels → ch < mixed.numChannels →
      0 ≤ i → i < length →
      (t.setLoopFromMix mixed length off start).loopBuffer.data ch i = mixed.data ch i := by
  unfold LoopTrack.setLoopFromMix
  rw [if_neg (show ¬ (length ≤ 0 ∨ length > t.loopBuffer.numSamples) by omega)]
  refine ⟨rfl, rfl, rfl, rfl, fun ch i hc1 hc2 hi0 hi1 => ?_⟩
  dsimp only
  rw [forCh_copyFrom_data, saveUndo_loopBuffer]
  have hc : ch < min t.loopBuffer.clear.numChannels mixed.numChannels := lt_min hc1 hc2
  rw [if_pos ⟨hc, hi0, by omega⟩]
  congr 1
  omega

theorem setWorkBuffer_track (s : Session) (work : AudioBuffer) (idx : Nat) (tr : LoopTrack)
    (h : s.mTracks.get? idx = some tr) :
    ∃ r, (s.setWorkBuffer work).mTracks.get? idx = some { tr with mReplace := r } := by
  unfold Session.setWorkBuffer
  dsimp only
  rw [List.get?_eq_getElem?] at h ⊢
  rw [List.getElem?_map, h, Option.map_some']
  split
  · exact ⟨_, rfl⟩
  · exact ⟨tr.mReplace, rfl⟩

theorem get?_some_lt {α : Type} (l : List α) (n : Nat) (a : α) (h : l.get? n = some a) :
    n < l.length := by
  by_contra hh
  rw [List.get?_eq_none.mpr (by omega)] at h
  cases h

theorem setWorkBuffer_length (s : Session) (work : AudioBuffer) :
    (s.setWorkBuffer work).mTracks.length = s.mTracks.length := by
  unfold Session.setWorkBuffer
  exact List.length_map _ _

theorem setWorkBuffer_track_fields (s : Session) (work : AudioBuffer) (idx : Nat)
    (tr tr2 : LoopTrack) (h : s.mTracks.get? idx = some tr)
    (h2 : (s.setWorkBuffer work).mTracks.get? idx = some tr2) :
    tr2.loopBuffer = tr.loopBuffer ∧ tr2.loopLengthSamples = tr.loopLengthSamples := by
  obtain ⟨r, hr⟩ := setWorkBuffer_track s work idx tr h
  rw [hr] at h2
  have e := Option.some.inj h2
  rw [← e]
  exact ⟨rfl, rfl⟩

theorem list_set_get {α : Type} (l : List α) (n : Nat) (a : α) (h : n < l.length) :
    (l.set n a).get? n = some a := by
  rw [List.get?_eq_getElem?, List.getElem?_set_self h]

theorem captureStart_max (g c : Int) : (if g - c < 0 then 0 else g - c) = max 0 (g - c) := by
  split_ifs with h
  · exact (max_eq_left (by omega)).symm
  · exact (max_eq_right (by omega)).symm

/-- What `performCaptureAfterLoop` installs in a track without a loop when the ring holds a
stream of at least `c` samples. -/
theorem performCaptureAfterLoop_installs (s : Session) (idx : Nat) (tr : LoopTrack)
    (nch : Nat) (fed : Nat → Int → ℚ) (T c : Int)
    (hring : ringHolds s nch fed T)
    (hL : 0 < s.mPrimaryLoopLengthSamples) (hs : 0 < s.mRetroBufferSize)
    (hget : s.mTracks.get? idx = some tr) (hno : tr.loopLengthSamples ≤ 0)
    (hc : truncToInt (floatProduct s.mPrimaryLoopLengthSamples (clampMultiplier tr.targetMultiplier))
      = c)
    (hc0 : 0 < c) (hc1 : c ≤ s.mRetroBufferSize) (hc2 : c ≤ s.mWorkBuffer.numSamples)
    (hc3 : c ≤ tr.loopBuffer.numSamples) (hcT : c ≤ T)
    (hn1 : nch ≤ 2) (hn2 : nch ≤ s.mRetrospectiveBuffer.numChannels)
    (hn3 : nch ≤ s.mWorkBuffer.numChannels) (hn4 : nch ≤ tr.loopBuffer.numChannels) :
    ∃ tr2, (s.performCaptureAfterLoop idx).mTracks.get? idx = some tr2 ∧
      tr2.currentState = State.Playing ∧ tr2.loopLengthSamples = c ∧
      tr2.recordingStartGlobalSample = max 0 (s.mGlobalTotalSamples - c) ∧
      ∀ (ch : Nat) (i : Int), ch < nch → min CROSSFADE_SAMPLES (c.tdiv 2) ≤ i →
        i < c - min CROSSFADE_SAMPLES (c.tdiv 2) →
        tr2.loopBuffer.data ch i = fed ch (T - c + i) := by
  have hlen := get?_some_lt _ _ _ hget
  have hd : 0 ≤ c.tdiv 2 := by
    rw [Int.tdiv_eq_ediv (by omega) (by omega)]
    omega
  have hf : 0 ≤ min CROSSFADE_SAMPLES (c.tdiv 2) := le_min (by decide) hd
  unfold Session.performCaptureAfterLoop
  dsimp only
  rw [if_neg (show ¬ (s.mPrimaryLoopLengthSamples ≤ 0 ∨ s.mRetroBufferSize ≤ 0) by omega),
    if_neg (show ¬ ((idx : Int) < 0 ∨ (idx : Int) ≥ (s.mTracks.length : Int)) by omega),
    Int.toNat_ofNat, hget]
  dsimp only
  rw [hc, if_neg (show ¬ c ≤ 0 by omega), if_neg (show ¬ c > s.mRetroBufferSize by omega),
    if_neg (show ¬ c > s.mWorkBuffer.numSamples by omega)]
  split
  · rename_i heq
    rw [List.get?_eq_none, setWorkBuffer_length] at heq
    omega
  · rename_i tr1 heq
    obtain ⟨hb, hl⟩ := setWorkBuffer_track_fields _ _ _ _ _ hget heq
    have hh : (!tr1.hasLoop) = true := by
      unfold LoopTrack.hasLoop
      rw [hl]
      simpa using hno
    rw [if_pos hh]
    have hI := fun (W : AudioBuffer) (off start : Int) =>
      setLoopFromMix_installs tr1 W c off start hc0 (by rw [hb]; exact hc3)
    refine ⟨_, list_set_get _ _ _ (by rw [setWorkBuffer_length]; exact hlen),
      (hI _ _ _).1, (hI _ _ _).2.1, ((hI _ _ _).2.2.1).trans (captureStart_max _ _),
      fun ch i hch hi0 hi1 => ?_⟩
    rw [(hI _ _ _).2.2.2.2 ch i (by rw [hb]; omega)
      (by
        rw [applyCrossfade_numChannels]
        rw [(forCh_copyFrom_shape _ _ _ (fun ch a => by split <;> exact ⟨rfl, rfl⟩)).2]
        show ch < s.mWorkBuffer.numChannels
        omega)
      (by omega) (by omega),
      applyCrossfade_middle _ _ _ _ _ hi0 hi1]
    exact ring_read_trailing s nch fed T hring hs c hc0 hc1 hcT _ _ ch hch
      (lt_min (by omega) (by omega)) i (by omega) (by omega)

theorem captureLen_unit (L : Int) (hL : 0 ≤ L) (hL24 : L < 2 ^ 24) :
    truncToInt (floatProduct L (clampMultiplier 1)) = L := by
  rw [clampMultiplier_of_mem _ (by norm_num) (by norm_num),
    floatProduct_one L (by rw [abs_of_nonneg hL]; exact hL24)]
  unfold truncToInt
  rw [if_pos (by exact_mod_cast hL)]
  exact Int.floor_intCast L

theorem demoCaptureSession_fields :
    demoCaptureSession.mRetroWritePos = 0 ∧
    demoCaptureSession.mRetroBufferSize = 14400000 ∧
    demoCaptureSession.mPrimaryLoopLengthSamples = 1000 ∧
    demoCaptureSession.mWorkBuffer.numSamples = 14400000 ∧
    demoCaptureSession.mWorkBuffer.numChannels = 2 ∧
    demoCaptureSession.mRetrospectiveBuffer.numChannels = 2 ∧
    demoCaptureSession.mGlobalTotalSamples = 0 ∧
    demoCaptureSession.mTracks.get? 1 = some (preparedTrack 14400000) := by
  refine ⟨rfl, rfl, rfl, rfl, rfl, rfl, rfl, ?_⟩
  rw [← prepared_48000]
  rfl

/-- **C24.** Take a session whose retrospective write position lies inside the ring, whose
cached master length `L` is positive, and a track `idx` without a loop whose capture length
`c` (the integer the code computes from `L` times the clamped target multiplier) satisfies
`0 < c ≤ ring size`; the work buffer and the track buffer can hold `c` samples (all three are
allocated with the ring size).  After the retrospective writes of any list of blocks, each of
`0 .. ring size` samples and together at least `c` samples, `performCaptureAfterLoop idx`
leaves the track Playing with `loopLength = c` and
`recordingStartGlobalSample = max 0 (g - c)`, and on every channel the ring, the work
buffer, the track and all blocks have, loop sample `i` outside the crossfaded head and tail
(`min 128 (c / 2)` samples each) is the sample of the fed stream `c - i` samples before its
end. -/
theorem capture_installs_trailing_input (s0 : Session) (blocks : List CycleInput)
    (idx : Nat) (tr : LoopTrack) (c : Int)
    (hwp0 : 0 ≤ s0.mRetroWritePos) (hwp1 : s0.mRetroWritePos < s0.mRetroBufferSize)
    (hL : 0 < s0.mPrimaryLoopLengthSamples)
    (hget : s0.mTracks.get? idx = some tr) (hno : tr.loopLengthSamples ≤ 0)
    (hc : c = truncToInt
      (floatProduct s0.mPrimaryLoopLengthSamples (clampMultiplier tr.targetMultiplier)))
    (hc0 : 0 < c) (hc1 : c ≤ s0.mRetroBufferSize)
    (hc2 : c ≤ s0.mWorkBuffer.numSamples) (hc3 : c ≤ tr.loopBuffer.numSamples)
    (hblocks : ∀ b ∈ blocks, 0 ≤ b.numSamples ∧ b.numSamples ≤ s0.mRetroBufferSize)
    (hfed : c ≤ totalFed blocks) :
    ∃ tr2,
      ((feedRetrospective s0 blocks).performCaptureAfterLoop idx).mTracks.get? idx
        = some tr2 ∧
      tr2.currentState = State.Playing ∧ tr2.loopLengthSamples = c ∧
      tr2.recordingStartGlobalSample = max 0 (s0.mGlobalTotalSamples - c) ∧
      ∀ (ch : Nat) (i : Int), ch < 2 → ch < s0.mRetrospectiveBuffer.numChannels →
        ch < s0.mWorkBuffer.numChannels → ch < tr.loopBuffer.numChannels →
        (∀ b ∈ blocks, ch < b.mainInput.numChannels) →
        min CROSSFADE_SAMPLES (c.tdiv 2) ≤ i → i < c - min CROSSFADE_SAMPLES (c.tdiv 2) →
        tr2.loopBuffer.data ch i = fedStream blocks ch (totalFed blocks - c + i) := by
  obtain ⟨f1, f2, f3, f4, f5, f6⟩ := feedRetrospective_frame blocks s0
  have hd : 0 ≤ c.tdiv 2 := by
    rw [Int.tdiv_eq_ediv (by omega) (by omega)]
    omega
  have hf : 0 ≤ min CROSSFADE_SAMPLES (c.tdiv 2) := le_min (by decide) hd
  have hinst : ∀ (nch : Nat), nch ≤ 2 → nch ≤ s0.mRetrospectiveBuffer.numChannels →
      nch ≤ s0.mWorkBuffer.numChannels → nch ≤ tr.loopBuffer.numChannels →
      (∀ b ∈ blocks, nch ≤ b.mainInput.numChannels) →
      ∃ tr2,
        ((feedRetrospective s0 blocks).performCaptureAfterLoop idx).mTracks.get? idx
          = some tr2 ∧
        tr2.currentState = State.Playing ∧ tr2.loopLengthSamples = c ∧
        tr2.recordingStartGlobalSample = max 0 (s0.mGlobalTotalSamples - c) ∧
        ∀ (ch : Nat) (i : Int), ch < nch → min CROSSFADE_SAMPLES (c.tdiv 2) ≤ i →
          i < c - min CROSSFADE_SAMPLES (c.tdiv 2) →
          tr2.loopBuffer.data ch i = fedStream blocks ch (totalFed blocks - c + i) := by
    intro nch n1 n2 n3 n4 n5
    have hring := feedRetrospective_ringHolds nch blocks s0 _ _
      (ringHolds_start s0 nch hwp0 hwp1) (by omega) n2
      (fun b hb => ⟨(hblocks b hb).1, (hblocks b hb).2, n5 b hb⟩)
    obtain ⟨tr2, g1, g2, g3, g4, g5⟩ := performCaptureAfterLoop_installs
      (feedRetrospective s0 blocks) idx tr nch _ _ c hring (by rw [f4]; exact hL)
      (by rw [f1]; omega) (by rw [f3]; exact hget) hno (by rw [f4]; exact hc.symm) hc0
      (by rw [f1]; exact hc1) (by rw [f6]; exact hc2) hc3 (by omega) n1
      (by rw [f2]; exact n2) (by rw [f6]; exact n3) n4
    rw [f5] at g4
    refine ⟨tr2, g1, g2, g3, g4, fun ch i hch hi0 hi1 => ?_⟩
    rw [g5 ch i hch hi0 hi1,
      if_neg (show ¬ s0.mRetroWritePos + totalFed blocks - c + i < s0.mRetroWritePos by omega)]
    congr 1
    omega
  obtain ⟨tr2, g1, g2, g3, g4, -⟩ := hinst 0 (Nat.zero_le _) (Nat.zero_le _) (Nat.zero_le _)
    (Nat.zero_le _) (fun _ _ => Nat.zero_le _)
  refine ⟨tr2, g1, g2, g3, g4, fun ch i h1 h2 h3 h4 h5 hi0 hi1 => ?_⟩
  obtain ⟨tr3, k1, -, -, -, k5⟩ := hinst (ch + 1) (by omega) (by omega) (by omega) (by omega)
    (fun b hb => h5 b hb)
  rw [g1] at k1
  rw [Option.some.inj k1]
  exact k5 ch i (by omega) hi0 hi1

theorem capture_installs_trailing_input_witness :
    ∃ tr2,
      ((feedRetrospective demoCaptureSession
          [demoFeedBlock, demoFeedBlock, demoFeedBlock]).performCaptureAfterLoop
          (1 : Nat)).mTracks.get? 1 = some tr2 ∧
      tr2.currentState = State.Playing ∧ tr2.loopLengthSamples = 1000 ∧
      tr2.recordingStartGlobalSample = max 0 (demoCaptureSession.mGlobalTotalSamples - 1000) ∧
      ∀ (ch : Nat) (i : Int), ch < 2 →
        ch < demoCaptureSession.mRetrospectiveBuffer.numChannels →
        ch < demoCaptureSession.mWorkBuffer.numChannels →
        ch < (preparedTrack 14400000).loopBuffer.numChannels →
        (∀ b ∈ [demoFeedBlock, demoFeedBlock, demoFeedBlock], ch < b.mainInput.numChannels) →
        min CROSSFADE_SAMPLES ((1000 : Int).tdiv 2) ≤ i →
        i < 1000 - min CROSSFADE_SAMPLES ((1000 : Int).tdiv 2) →
        tr2.loopBuffer.data ch i =
          fedStream [demoFeedBlock, demoFeedBlock, demoFeedBlock] ch
            (totalFed [demoFeedBlock, demoFeedBlock, demoFeedBlock] - 1000 + i) :=
  capture_installs_trailing_input demoCaptureSession
    [demoFeedBlock, demoFeedBlock, demoFeedBlock] 1 (preparedTrack 14400000) 1000
    (by rw [demoCaptureSession_fields.1])
    (by rw [demoCaptureSession_fields.1, demoCaptureSession_fields.2.1]; decide)
    (by rw [demoCaptureSession_fields.2.2.1]; decide)
    demoCaptureSession_fields.2.2.2.2.2.2.2
    (by show (0 : Int) ≤ 0; decide)
    (by
      rw [demoCaptureSession_fields.2.2.1]
      show (1000 : Int) = truncToInt (floatProduct 1000 (clampMultiplier 1))
      rw [captureLen_unit 1000 (by decide) (by decide)])
    (by decide)
    (by rw [demoCaptureSession_fields.2.1]; decide)
    (by rw [demoCaptureSession_fields.2.2.2.1]; decide)
    (by show (1000 : Int) ≤ 14400000; decide)
    (fun b hb => by
      have e : b = demoFeedBlock := by simpa using hb
      rw [e, demoCaptureSession_fields.2.1]
      show (0 : Int) ≤ 480 ∧ (480 : Int) ≤ 14400000
      decide)
    (by show (1000 : Int) ≤ 480 + (480 + (480 + 0)); decide)

/-! ## Guarded operations -/

/-- C31. Every guarded track operation leaves the whole track unchanged when its
precondition fails: `setRecording` on a track that is not Empty; `setOverdubbing` on a track
with `loopLength <= 0`; `setPlaying` outside Recording on a track with `loopLength <= 0`;
`performUndo` with no saved undo state (`canUndo` false, or a saved length that is not
positive); `setLoopFromMix` with a length outside `(0, capacity]`; and `overdubFromBuffer`
with no loop or a non-positive input length. -/
theorem guarded_operations_refuse (t : LoopTrack) :
    (t.currentState ≠ State.Empty → t.setRecording = t) ∧
    (t.loopLengthSamples ≤ 0 → t.setOverdubbing = t) ∧
    (t.currentState ≠ State.Recording → t.loopLengthSamples ≤ 0 → t.setPlaying = t) ∧
    (t.canUndo = false → t.performUndo = t) ∧
    (t.undoLoopLengthSamples ≤ 0 → t.performUndo = t) ∧
    (∀ (mixedBuffer : AudioBuffer) (length startOffset startGlobalSample : Int),
      length ≤ 0 ∨ length > t.loopBuffer.numSamples →
      t.setLoopFromMix mixedBuffer length startOffset startGlobalSample = t) ∧
    (∀ (inputBuffer : AudioBuffer) (inputLength inputStartGlobalSample : Int),
      t.loopLengthSamples ≤ 0 ∨ inputLength ≤ 0 →
      t.overdubFromBuffer inputBuffer inputLength inputStartGlobalSample = t) := by
  refine ⟨fun h => ?_, fun h => ?_, fun h1 h2 => ?_, fun h => ?_, fun h => ?_,
    fun mixedBuffer length startOffset startGlobalSample h => ?_,
    fun inputBuffer inputLength inputStartGlobalSample h => ?_⟩
  · unfold LoopTrack.setRecording
    rw [if_neg h]
  · unfold LoopTrack.setOverdubbing
    rw [if_neg (show ¬ t.loopLengthSamples > 0 by omega)]
  · unfold LoopTrack.setPlaying
    dsimp only
    rw [if_neg h1, if_neg (show ¬ t.loopLengthSamples > 0 by omega)]
  · apply performUndo_of_no_undo
    intro hh
    have h3 : t.hasUndo = false := h
    rw [h3] at hh
    exact absurd hh.1 (by decide)
  · apply performUndo_of_no_undo
    intro hh
    have := hh.2
    omega
  · unfold LoopTrack.setLoopFromMix
    rw [if_pos h]
  · unfold LoopTrack.overdubFromBuffer
    rw [if_pos h]

/-- Witness for `guarded_operations_refuse`: the Playing 1000-sample example loop refuses
`setRecording` and a `setLoopFromMix` longer than its buffer; the freshly prepared track (no
loop, nothing saved) refuses `setOverdubbing`, `setPlaying`, `performUndo` and
`overdubFromBuffer`. -/
theorem guarded_operations_refuse_witness :
    demoLoop1000.currentState ≠ State.Empty ∧ demoLoop1000.setRecording = demoLoop1000 ∧
    demoLoop1000.setLoopFromMix (patternBuffer 4 (fun _ => 1)) 14400001 0 0 = demoLoop1000 ∧
    (preparedTrack 14400000).loopLengthSamples ≤ 0 ∧
    (preparedTrack 14400000).currentState ≠ State.Recording ∧
    (preparedTrack 14400000).canUndo = false ∧
    (preparedTrack 14400000).setOverdubbing = preparedTrack 14400000 ∧
    (preparedTrack 14400000).setPlaying = preparedTrack 14400000 ∧
    (preparedTrack 14400000).performUndo = preparedTrack 14400000 ∧
    (preparedTrack 14400000).overdubFromBuffer (patternBuffer 4 (fun _ => 1)) 4 0
      = preparedTrack 14400000 := by
  obtain ⟨f1, -, f3, -⟩ := demoLoop1000_fields
  have hne : demoLoop1000.currentState ≠ State.Empty := by
    rw [f1]
    decide
  obtain ⟨a1, -, -, -, -, a6, -⟩ := guarded_operations_refuse demoLoop1000
  obtain ⟨-, b2, b3, b4, -, -, b7⟩ := guarded_operations_refuse (preparedTrack 14400000)
  have hl : (preparedTrack 14400000).loopLengthSamples ≤ 0 := by
    show (0 : Int) ≤ 0
    decide
  have hs : (preparedTrack 14400000).currentState ≠ State.Recording := by
    show State.Empty ≠ State.Recording
    decide
  exact ⟨hne, a1 hne, a6 _ _ _ _ (Or.inr (by rw [f3]; decide)), hl, hs, rfl, b2 hl, b3 hs hl,
    b4 rfl, b7 _ _ _ (Or.inl hl)⟩

/-! ## Crossfade: closed form and idempotence -/

/-- Closed form of the first `m` iterations of the crossfade loop on one channel. -/
theorem crossfade_fold_spec (len f : Int) (hf : 2 * f ≤ len) (d : Int → ℚ) :
    ∀ (m : Nat), (m : Int) ≤ f → ∀ j : Int,
      ((List.range m).foldl (crossfadeStep len f) d) j =
        if 0 ≤ j ∧ j < m then
          d j * ((j : ℚ) / (f : ℚ)) + d (len - f + j) * (1 - (j : ℚ) / (f : ℚ))
        else if len - f ≤ j ∧ j < len - f + m then
          d j * (1 - ((j - (len - f) : Int) : ℚ) / (f : ℚ))
            + d (j - (len - f)) * (((j - (len - f) : Int) : ℚ) / (f : ℚ))
        else d j := by
  intro m
  induction m with
  | zero =>
    intro _ j
    rw [if_neg (by push_cast; omega), if_neg (by push_cast; omega)]
    rfl
  | succ k ih =>
    intro hk j
    have hk1 : (k : Int) + 1 ≤ f := by push_cast at hk; omega
    have ihk := ih (by omega)
    rw [List.range_succ, List.foldl_append, List.foldl_cons, List.foldl_nil]
    have eh : ((List.range k).foldl (crossfadeStep len f) d) (k : Int) = d k := by
      rw [ihk, if_neg (by omega), if_neg (by omega)]
    have et : ((List.range k).foldl (crossfadeStep len f) d) (len - f + (k : Int))
        = d (len - f + k) := by
      rw [ihk, if_neg (by omega), if_neg (by omega)]
    generalize (List.range k).foldl (crossfadeStep len f) d = D at eh et ihk ⊢
    unfold crossfadeStep
    rw [eh, et]
    by_cases h1 : j = len - f + (k : Int)
    · rw [h1, Function.update_same, if_neg (by push_cast; omega),
        if_pos (by push_cast; omega)]
      have e : len - f + (k : Int) - (len - f) = (k : Int) := by omega
      rw [e, Int.cast_natCast]
    · rw [Function.update_noteq h1]
      by_cases h2 : j = (k : Int)
      · rw [h2, Function.update_same, if_pos (by push_cast; omega), Int.cast_natCast]
      · rw [Function.update_noteq h2, ihk]
        by_cases c1 : 0 ≤ j ∧ j < (k : Int)
        · rw [if_pos c1, if_pos (show 0 ≤ j ∧ j < ((k + 1 : Nat) : Int) by push_cast; omega)]
        · rw [if_neg c1,
            if_neg (show ¬ (0 ≤ j ∧ j < ((k + 1 : Nat) : Int)) by push_cast; omega)]
          by_cases c2 : len - f ≤ j ∧ j < len - f + (k : Int)
          · rw [if_pos c2, if_pos (show len - f ≤ j ∧ j < len - f + ((k + 1 : Nat) : Int) by
              push_cast; omega)]
          · rw [if_neg c2, if_neg (show ¬ (len - f ≤ j ∧ j < len - f + ((k + 1 : Nat) : Int)) by
              push_cast; omega)]

theorem fade_bounds (len fs : Int) (hlen : 0 < len) (hfs : 0 < fs) :
    0 ≤ min fs (len.tdiv 2) ∧ 2 * min fs (len.tdiv 2) ≤ len := by
  have hd : 0 ≤ len.tdiv 2 ∧ 2 * len.tdiv 2 ≤ len := by
    rw [Int.tdiv_eq_ediv (by omega) (by omega)]
    omega
  have h1 : min fs (len.tdiv 2) ≤ len.tdiv 2 := min_le_right _ _
  exact ⟨le_min (by omega) hd.1, by omega⟩

/-- Closed form of `applyCrossfade`: with `F = min (fadeSamples, loopLength / 2)`, head
sample `j < F` and tail sample `loopLength - F + j` both become the blend of the two, every
other sample is untouched. -/
theorem applyCrossfade_data (b : AudioBuffer) (len fs : Int) (hlen : 0 < len) (hfs : 0 < fs)
    (ch : Nat) (j : Int) :
    (applyCrossfade b len fs).data ch j =
      if ch < b.numChannels then
        (if 0 ≤ j ∧ j < min fs (len.tdiv 2) then
          b.data ch j * ((j : ℚ) / ((min fs (len.tdiv 2) : Int) : ℚ))
            + b.data ch (len - min fs (len.tdiv 2) + j)
              * (1 - (j : ℚ) / ((min fs (len.tdiv 2) : Int) : ℚ))
        else if len - min fs (len.tdiv 2) ≤ j ∧ j < len then
          b.data ch j
              * (1 - ((j - (len - min fs (len.tdiv 2)) : Int) : ℚ)
                / ((min fs (len.tdiv 2) : Int) : ℚ))
            + b.data ch (j - (len - min fs (len.tdiv 2)))
              * (((j - (len - min fs (len.tdiv 2)) : Int) : ℚ)
                / ((min fs (len.tdiv 2) : Int) : ℚ))
        else b.data ch j)
      else b.data ch j := by
  obtain ⟨h0, h2⟩ := fade_bounds len fs hlen hfs
  unfold applyCrossfade
  rw [if_neg (show ¬ (len ≤ 0 ∨ fs ≤ 0) by omega)]
  dsimp only
  by_cases hc : ch < b.numChannels
  · rw [if_pos hc, if_pos hc]
    have hm : ((min fs (len.tdiv 2)).toNat : Int) = min fs (len.tdiv 2) :=
      Int.toNat_of_nonneg h0
    rw [crossfade_fold_spec len (min fs (len.tdiv 2)) h2 (b.data ch) _ (by rw [hm]) j, hm]
    have e : len - min fs (len.tdiv 2) + min fs (len.tdiv 2) = len := by omega
    rw [e]
  · rw [if_neg hc, if_neg hc]

/-- A buffer whose faded head already equals its faded tail is left as it is. -/
theorem applyCrossfade_fixed (b : AudioBuffer) (len fs : Int) (hlen : 0 < len) (hfs : 0 < fs)
    (h : ∀ (ch : Nat) (i : Int), ch < b.numChannels → 0 ≤ i → i < min fs (len.tdiv 2) →
      b.data ch i = b.data ch (len - min fs (len.tdiv 2) + i)) :
    applyCrossfade b len fs = b := by
  obtain ⟨h0, h2⟩ := fade_bounds len fs hlen hfs
  apply AudioBuffer.eq_of_data _ _ (applyCrossfade_numChannels b len fs)
    (applyCrossfade_numSamples b len fs)
  intro ch j
  rw [applyCrossfade_data b len fs hlen hfs]
  by_cases hc : ch < b.numChannels
  · rw [if_pos hc]
    by_cases c1 : 0 ≤ j ∧ j < min fs (len.tdiv 2)
    · rw [if_pos c1, ← h ch j hc c1.1 c1.2]
      ring
    · rw [if_neg c1]
      by_cases c2 : len - min fs (len.tdiv 2) ≤ j ∧ j < len
      · rw [if_pos c2]
        have e := h ch (j - (len - min fs (len.tdiv 2))) hc (by omega) (by omega)
        have e2 : len - min fs (len.tdiv 2) + (j - (len - min fs (len.tdiv 2))) = j := by
          omega
        rw [e2] at e
        rw [e]
        ring
      · rw [if_neg c2]
  · rw [if_neg hc]

/-- After one pass head sample `i` equals tail sample `loopLength - F + i`. -/
theorem applyCrossfade_head_eq_tail (b : AudioBuffer) (len fs : Int) (hlen : 0 < len)
    (hfs : 0 < fs) (ch : Nat) (i : Int) (hc : ch < b.numChannels) (hi0 : 0 ≤ i)
    (hi1 : i < min fs (len.tdiv 2)) :
    (applyCrossfade b len fs).data ch i
      = (applyCrossfade b len fs).data ch (len - min fs (len.tdiv 2) + i) := by
  obtain ⟨h0, h2⟩ := fade_bounds len fs hlen hfs
  rw [applyCrossfade_data b len fs hlen hfs, applyCrossfade_data b len fs hlen hfs,
    if_pos hc, if_pos hc, if_pos ⟨hi0, hi1⟩,
    if_neg (show ¬ (0 ≤ len - min fs (len.tdiv 2) + i ∧
      len - min fs (len.tdiv 2) + i < min fs (len.tdiv 2)) by omega),
    if_pos (show len - min fs (len.tdiv 2) ≤ len - min fs (len.tdiv 2) + i ∧
      len - min fs (len.tdiv 2) + i < len by omega)]
  have e : len - min fs (len.tdiv 2) + i - (len - min fs (len.tdiv 2)) = i := by omega
  rw [e]
  ring

theorem setPlaying_of_loop (t : LoopTrack) (hrec : t.currentState ≠ State.Recording)
    (hlen : 0 < t.loopLengthSamples) :
    t.setPlaying =
      { t with
        loopBuffer := applyCrossfade t.loopBuffer t.loopLengthSamples 128
        currentState := State.Playing } := by
  unfold LoopTrack.setPlaying
  simp only [hrec, if_false]
  rw [if_pos hlen]

/-- On a track that is Playing with a loop, `stop ()` then `setPlaying ()` crossfades the
loop once more and changes nothing else but the playback position. -/
theorem stop_setPlaying_of_playing (t : LoopTrack) (hst : t.currentState = State.Playing)
    (hlen : 0 < t.loopLengthSamples) :
    t.stop.setPlaying.loopBuffer = applyCrossfade t.loopBuffer t.loopLengthSamples 128 ∧
    t.stop.setPlaying.loopLengthSamples = t.loopLengthSamples ∧
    t.stop.setPlaying.currentState = State.Playing := by
  have hn : ¬ t.currentState = State.Recording := by rw [hst]; decide
  have e1 : t.stop.currentState = State.Stopped ∧
      t.stop.loopLengthSamples = t.loopLengthSamples ∧ t.stop.loopBuffer = t.loopBuffer := by
    unfold LoopTrack.stop
    dsimp only
    rw [if_neg hn, if_pos hlen]
    exact ⟨rfl, rfl, rfl⟩
  have hs : t.stop.currentState ≠ State.Recording := by rw [e1.1]; decide
  rw [setPlaying_of_loop t.stop hs (by rw [e1.2.1]; exact hlen)]
  show applyCrossfade t.stop.loopBuffer t.stop.loopLengthSamples 128 = _ ∧
    t.stop.loopLengthSamples = _ ∧ State.Playing = State.Playing
  rw [e1.2.1, e1.2.2]
  exact ⟨rfl, rfl, rfl⟩

/-- C39. Over exact arithmetic `applyCrossfade` is idempotent: for every buffer, loop length
`len > 0` and fade `f > 0`, applying it twice gives the buffer that one application gives;
after one pass sample `i` equals sample `len - F + i` for every `0 <= i < F`, where
`F = min (f, len / 2)`, on every channel of the buffer. Consequently, on a Playing track of
loop length `len` whose loop buffer is already crossfaded (it is the result of
`applyCrossfade` with length `len` and fade 128, as `setPlaying` leaves it), `stop ()`
followed by `setPlaying ()` leaves the loop buffer and `loopLength` unchanged and the track
Playing. -/
theorem applyCrossfade_idempotent (b : AudioBuffer) (len f : Int) (hlen : 0 < len)
    (hf : 0 < f) :
    applyCrossfade (applyCrossfade b len f) len f = applyCrossfade b len f ∧
    (∀ (ch : Nat) (i : Int), ch < b.numChannels → 0 ≤ i → i < min f (len.tdiv 2) →
      (applyCrossfade b len f).data ch i
        = (applyCrossfade b len f).data ch (len - min f (len.tdiv 2) + i)) ∧
    (∀ t : LoopTrack, t.currentState = State.Playing → t.loopLengthSamples = len →
      t.loopBuffer = applyCrossfade b len 128 →
      t.stop.setPlaying.loopBuffer = t.loopBuffer ∧
      t.stop.setPlaying.loopLengthSamples = len ∧
      t.stop.setPlaying.currentState = State.Playing) := by
  have hidem : ∀ fs : Int, 0 < fs →
      applyCrossfade (applyCrossfade b len fs) len fs = applyCrossfade b len fs := by
    intro fs hfs
    apply applyCrossfade_fixed _ len fs hlen hfs
    intro ch i hc hi0 hi1
    rw [applyCrossfade_numChannels] at hc
    exact applyCrossfade_head_eq_tail b len fs hlen hfs ch i hc hi0 hi1
  refine ⟨hidem f hf, fun ch i hc hi0 hi1 =>
    applyCrossfade_head_eq_tail b len f hlen hf ch i hc hi0 hi1, fun t hst hl hb => ?_⟩
  obtain ⟨s1, s2, s3⟩ := stop_setPlaying_of_playing t hst (by rw [hl]; exact hlen)
  rw [s1, s2, hl, hb]
  exact ⟨hidem 128 (by decide), rfl, s3⟩

theorem demoFadedLoop_fields :
    demoFadedLoop.currentState = State.Playing ∧ demoFadedLoop.loopLengthSamples = 1000 ∧
    demoFadedLoop.loopBuffer = applyCrossfade demoRamp1000.loopBuffer 1000 128 := by
  obtain ⟨f1, f2, -⟩ := demoSeededTrack_fields (patternBuffer 1000 (fun i => (i : ℚ))) 1000 0
    (by decide) (by decide)
  have g1 : demoRamp1000.currentState = State.Playing := f1
  have g2 : demoRamp1000.loopLengthSamples = 1000 := f2
  obtain ⟨s1, s2, s3⟩ := stop_setPlaying_of_playing demoRamp1000 g1 (by rw [g2]; decide)
  rw [g2] at s1 s2
  exact ⟨s3, s2, s1⟩

/-- Witness for `applyCrossfade_idempotent`: the 1000-sample ramp loop, crossfaded by a first
`stop ()` / `setPlaying ()`, keeps its buffer and its length through a second one. -/
theorem applyCrossfade_idempotent_witness :
    (0 : Int) < 1000 ∧ (0 : Int) < 128 ∧
    demoFadedLoop.currentState = State.Playing ∧ demoFadedLoop.loopLengthSamples = 1000 ∧
    demoFadedLoop.loopBuffer = applyCrossfade demoRamp1000.loopBuffer 1000 128 ∧
    applyCrossfade (applyCrossfade demoRamp1000.loopBuffer 1000 128) 1000 128
      = applyCrossfade demoRamp1000.loopBuffer 1000 128 ∧
    demoFadedLoop.stop.setPlaying.loopBuffer = demoFadedLoop.loopBuffer ∧
    demoFadedLoop.stop.setPlaying.loopLengthSamples = 1000 := by
  obtain ⟨f1, f2, f3⟩ := demoFadedLoop_fields
  obtain ⟨h1, -, h3⟩ := applyCrossfade_idempotent demoRamp1000.loopBuffer 1000 128
    (by decide) (by decide)
  obtain ⟨k1, k2, -⟩ := h3 demoFadedLoop f1 f2 f3
  exact ⟨by decide, by decide, f1, f2, f3, h1, k1, k2⟩

/-! ## Overdub: play and write at the same wrapped position -/

/-- One chunk of `handleOverdub` over the first `m` channels, on a track with no replace in
flight: the loop gains the input on the chunk, the output gains the loop content the chunk
held before (unless muted). -/
theorem overdubChunk_data (inp : AudioBuffer) (muted : Bool) (G : ℚ) (off pos num : Int)
    (tr : LoopTrack) (o : AudioBuffer) (hact : tr.mReplace.active = false) :
    ∀ (m : Nat) (r : LoopTrack × AudioBuffer),
      r = forCh m
        (fun ch (a : LoopTrack × AudioBuffer) =>
          ({ a.1 with loopBuffer := a.1.loopBuffer.addFrom ch pos inp ch off num 1 },
           if muted then a.2 else a.2.addFrom ch off (LoopTrack.readBuf a.1) ch pos num G))
        (tr, o) →
      (∃ lb, r.1 = { tr with loopBuffer := lb }) ∧
      r.1.loopBuffer.numChannels = tr.loopBuffer.numChannels ∧
      r.2.numChannels = o.numChannels ∧ r.2.numSamples = o.numSamples ∧
      (∀ (c : Nat) (j : Int), r.1.loopBuffer.data c j =
        if c < m ∧ pos ≤ j ∧ j < pos + num
        then tr.loopBuffer.data c j + inp.data c (off + (j - pos))
        else tr.loopBuffer.data c j) ∧
      (∀ (c : Nat) (i : Int), r.2.data c i =
        if muted = false ∧ c < m ∧ off ≤ i ∧ i < off + num
        then o.data c i + G * tr.loopBuffer.data c (pos + (i - off))
        else o.data c i) := by
  intro m
  induction m with
  | zero =>
    intro r hr
    subst hr
    rw [forCh_zero]
    refine ⟨⟨_, rfl⟩, rfl, rfl, rfl, fun c j => ?_, fun c i => ?_⟩
    · rw [if_neg (fun h => absurd h.1 (by omega))]
    · rw [if_neg (fun h => absurd h.2.1 (by omega))]
  | succ k ih =>
    intro r hr
    subst hr
    rw [forCh_succ]
    obtain ⟨⟨lb, i1⟩, i2, i3, i4, i5, i6⟩ := ih _ rfl
    generalize forCh k
      (fun ch (a : LoopTrack × AudioBuffer) =>
        ({ a.1 with loopBuffer := a.1.loopBuffer.addFrom ch pos inp ch off num 1 },
         if muted then a.2 else a.2.addFrom ch off (LoopTrack.readBuf a.1) ch pos num G))
      (tr, o) = a at i1 i2 i3 i4 i5 i6 ⊢
    have hrb : LoopTrack.readBuf a.1 = a.1.loopBuffer := by
      apply (readBuf_cases a.1).2.1
      rw [i1]
      exact hact
    dsimp only
    rw [hrb]
    refine ⟨?_, i2, ?_, ?_, fun c j => ?_, fun c i => ?_⟩
    · rw [i1]
      exact ⟨_, rfl⟩
    · cases muted
      · exact i3
      · exact i3
    · cases muted
      · exact i4
      · exact i4
    · show (a.1.loopBuffer.addFrom k pos inp k off num 1).data c j = _
      rw [AudioBuffer.addFrom_data, i5, one_mul]
      by_cases hck : c = k
      · have n1 : ¬ (c < k ∧ pos ≤ j ∧ j < pos + num) := fun h => absurd h.1 (by omega)
        rw [if_neg n1]
        by_cases hj : pos ≤ j ∧ j < pos + num
        · rw [if_pos (show c = k ∧ pos ≤ j ∧ j < pos + num from ⟨hck, hj⟩),
            if_pos (show c < k + 1 ∧ pos ≤ j ∧ j < pos + num from ⟨by omega, hj⟩), hck]
        · rw [if_neg (show ¬ (c = k ∧ pos ≤ j ∧ j < pos + num) from fun h => hj h.2),
            if_neg (show ¬ (c < k + 1 ∧ pos ≤ j ∧ j < pos + num) from fun h => hj h.2)]
      · rw [if_neg (show ¬ (c = k ∧ pos ≤ j ∧ j < pos + num) from fun h => hck h.1)]
        by_cases h1 : c < k ∧ pos ≤ j ∧ j < pos + num
        · rw [if_pos h1,
            if_pos (show c < k + 1 ∧ pos ≤ j ∧ j < pos + num from ⟨by omega, h1.2⟩)]
        · rw [if_neg h1,
            if_neg (show ¬ (c < k + 1 ∧ pos ≤ j ∧ j < pos + num) from
              fun h => h1 ⟨by omega, h.2⟩)]
    · cases muted
      · show (a.2.addFrom k off a.1.loopBuffer k pos num G).data c i = _
        rw [AudioBuffer.addFrom_data, i6, i5,
          if_neg (show ¬ (k < k ∧ pos ≤ pos + (i - off) ∧ pos + (i - off) < pos + num) from
            fun h => absurd h.1 (by omega))]
        by_cases hck : c = k
        · have n1 : ¬ (false = false ∧ c < k ∧ off ≤ i ∧ i < off + num) :=
            fun h => absurd h.2.1 (by omega)
          rw [if_neg n1]
          by_cases hi : off ≤ i ∧ i < off + num
          · rw [if_pos (show c = k ∧ off ≤ i ∧ i < off + num from ⟨hck, hi⟩),
              if_pos (show false = false ∧ c < k + 1 ∧ off ≤ i ∧ i < off + num from
                ⟨rfl, by omega, hi⟩), hck]
          · rw [if_neg (show ¬ (c = k ∧ off ≤ i ∧ i < off + num) from fun h => hi h.2),
              if_neg (show ¬ (false = false ∧ c < k + 1 ∧ off ≤ i ∧ i < off + num) from
                fun h => hi h.2.2)]
        · rw [if_neg (show ¬ (c = k ∧ off ≤ i ∧ i < off + num) from fun h => hck h.1)]
          by_cases h1 : c < k ∧ off ≤ i ∧ i < off + num
          · rw [if_pos (show false = false ∧ c < k ∧ off ≤ i ∧ i < off + num from ⟨rfl, h1⟩),
              if_pos (show false = false ∧ c < k + 1 ∧ off ≤ i ∧ i < off + num from
                ⟨rfl, by omega, h1.2⟩)]
          · rw [if_neg (show ¬ (false = false ∧ c < k ∧ off ≤ i ∧ i < off + num) from
                fun h => h1 h.2),
              if_neg (show ¬ (false = false ∧ c < k + 1 ∧ off ≤ i ∧ i < off + num) from
                fun h => h1 ⟨by omega, h.2.2⟩)]
      · show a.2.data c i = _
        rw [i6, if_neg (show ¬ (true = false ∧ c < k ∧ off ≤ i ∧ i < off + num) from
            fun h => absurd h.1 (by decide)),
          if_neg (show ¬ (true = false ∧ c < k + 1 ∧ off ≤ i ∧ i < off + num) from
            fun h => absurd h.1 (by decide))]

theorem emod_small (x len : Int) (h1 : - len ≤ x) (h2 : x < len) :
    (0 ≤ x ∧ x % len = x) ∨ (x < 0 ∧ x % len = x + len) := by
  rcases lt_or_le x 0 with h | h
  · refine Or.inr ⟨h, ?_⟩
    have e : (x + len) % len = x % len := Int.add_emod_self
    rw [← e]
    exact Int.emod_eq_of_lt (by omega) (by omega)
  · exact Or.inl ⟨h, Int.emod_eq_of_lt h h2⟩

/-- The chunk loop of `handleOverdub` on a block of at most `len` samples, on a track with no
replace in flight: every loop position the block covers gains its input sample once, and
the output gains the loop content those positions held before the call (unless muted). -/
theorem overdub_fold_data (inp : AudioBuffer) (muted : Bool) (G : ℚ) (len : Int)
    (hlen : 0 < len) :
    ∀ (fuel : Nat) (todo off pos : Int) (tr : LoopTrack) (o : AudioBuffer)
      (r : LoopTrack × AudioBuffer),
      tr.mReplace.active = false → 0 ≤ pos → pos < len → todo ≤ (fuel : Int) → todo ≤ len →
      r = (wrapChunks fuel todo off pos len).foldl
        (fun (s : LoopTrack × AudioBuffer) c =>
          forCh (min s.2.numChannels s.1.loopBuffer.numChannels)
            (fun ch (a : LoopTrack × AudioBuffer) =>
              ({ a.1 with
                  loopBuffer := a.1.loopBuffer.addFrom ch c.2.1 inp ch c.1 c.2.2 1 },
               if muted then a.2
               else a.2.addFrom ch c.1 (LoopTrack.readBuf a.1) ch c.2.1 c.2.2 G))
            s)
        (tr, o) →
      (∃ lb, r.1 = { tr with loopBuffer := lb }) ∧
      r.1.loopBuffer.numChannels = tr.loopBuffer.numChannels ∧
      r.2.numChannels = o.numChannels ∧ r.2.numSamples = o.numSamples ∧
      (∀ (c : Nat) (j : Int), r.1.loopBuffer.data c j =
        if c < min o.numChannels tr.loopBuffer.numChannels ∧ 0 ≤ j ∧ j < len ∧
            (j - pos) % len < todo
        then tr.loopBuffer.data c j + inp.data c (off + (j - pos) % len)
        else tr.loopBuffer.data c j) ∧
      (∀ (c : Nat) (i : Int), r.2.data c i =
        if muted = false ∧ c < min o.numChannels tr.loopBuffer.numChannels ∧ off ≤ i ∧
            i < off + todo
        then o.data c i + G * tr.loopBuffer.data c ((pos + (i - off)) % len)
        else o.data c i) := by
  intro fuel
  induction fuel with
  | zero =>
    intro todo off pos tr o r hact hp0 hp1 hf hle hr
    simp only [Nat.cast_zero] at hf
    subst hr
    have e0 : wrapChunks 0 todo off pos len = [] := rfl
    rw [e0, List.foldl_nil]
    refine ⟨⟨_, rfl⟩, rfl, rfl, rfl, fun c j => ?_, fun c i => ?_⟩
    · have h0 : 0 ≤ (j - pos) % len := Int.emod_nonneg _ (by omega)
      rw [if_neg (fun h => absurd h.2.2.2 (by omega))]
    · rw [if_neg (fun h => absurd h.2.2 (by omega))]
  | succ k ih =>
    intro todo off pos tr o r hact hp0 hp1 hf hle hr
    subst hr
    rw [wrapChunks]
    by_cases htodo : todo > 0
    · have hpos : ¬ pos ≥ len := by omega
      simp only [htodo, if_true, hpos, if_false]
      have hchunk1 : 1 ≤ min todo (len - pos) := by
        rcases le_total todo (len - pos) with h | h
        · rw [min_eq_left h]; omega
        · rw [min_eq_right h]; omega
      have hchunk2 : min todo (len - pos) ≤ todo := min_le_left _ _
      have hchunk3 : min todo (len - pos) ≤ len - pos := min_le_right _ _
      have hchunk4 : min todo (len - pos) = todo ∨ min todo (len - pos) = len - pos := by
        rcases le_total todo (len - pos) with h | h
        · exact Or.inl (min_eq_left h)
        · exact Or.inr (min_eq_right h)
      generalize min todo (len - pos) = chunk at hchunk1 hchunk2 hchunk3 hchunk4
      rw [if_neg (by omega), List.foldl_cons]
      obtain ⟨⟨lb1, a1⟩, a2, a3, a4, a5, a6⟩ := overdubChunk_data inp muted G off pos chunk
        tr o hact (min o.numChannels tr.loopBuffer.numChannels) _ rfl
      generalize forCh (min o.numChannels tr.loopBuffer.numChannels)
          (fun ch (a : LoopTrack × AudioBuffer) =>
            ({ a.1 with loopBuffer := a.1.loopBuffer.addFrom ch pos inp ch off chunk 1 },
             if muted then a.2
             else a.2.addFrom ch off (LoopTrack.readBuf a.1) ch pos chunk G))
          (tr, o) = r1 at a1 a2 a3 a4 a5 a6 ⊢
      obtain ⟨tr1, o1⟩ := r1
      dsimp only at a1 a2 a3 a4 a5 a6
      have hact1 : tr1.mReplace.active = false := by
        rw [a1]
        exact hact
      obtain ⟨⟨lb2, b1⟩, b2, b3, b4, b5, b6⟩ := ih (todo - chunk) (off + chunk)
        (if pos + chunk ≥ len then 0 else pos + chunk) tr1 o1 _ hact1
        (by split <;> omega) (by split <;> omega) (by push_cast at hf; omega) (by omega) rfl
      refine ⟨?_, b2.trans a2, b3.trans a3, b4.trans a4, fun c j => ?_, fun c i => ?_⟩
      · rw [b1, a1]
        exact ⟨_, rfl⟩
      · rw [b5, a5, a2, a3]
        by_cases hc : c < min o.numChannels tr.loopBuffer.numChannels
        · by_cases hj : 0 ≤ j ∧ j < len
          · have hA := emod_small (j - pos) len (by omega) (by omega)
            have hB := emod_small (j - (if pos + chunk ≥ len then 0 else pos + chunk)) len
              (by split <;> omega) (by split <;> omega)
            generalize (j - pos) % len = A at hA ⊢
            generalize (j - (if pos + chunk ≥ len then 0 else pos + chunk)) % len = B
              at hB ⊢
            by_cases hwrap : pos + chunk ≥ len
            · rw [if_pos hwrap] at hB
              by_cases h1 : pos ≤ j ∧ j < pos + chunk
              · rw [if_neg (show ¬ (c < min o.numChannels tr.loopBuffer.numChannels ∧
                    0 ≤ j ∧ j < len ∧ B < todo - chunk) from
                    fun h => absurd h.2.2.2 (by omega)),
                  if_pos (show c < min o.numChannels tr.loopBuffer.numChannels ∧
                    pos ≤ j ∧ j < pos + chunk from ⟨hc, h1⟩),
                  if_pos (show c < min o.numChannels tr.loopBuffer.numChannels ∧
                    0 ≤ j ∧ j < len ∧ A < todo from ⟨hc, hj.1, hj.2, by omega⟩)]
                have e : j - pos = A := by omega
                rw [e]
              · rw [if_neg (show ¬ (c < min o.numChannels tr.loopBuffer.numChannels ∧
                    pos ≤ j ∧ j < pos + chunk) from fun h => h1 h.2)]
                by_cases h2 : B < todo - chunk
                · rw [if_pos (show c < min o.numChannels tr.loopBuffer.numChannels ∧
                      0 ≤ j ∧ j < len ∧ B < todo - chunk from ⟨hc, hj.1, hj.2, h2⟩),
                    if_pos (show c < min o.numChannels tr.loopBuffer.numChannels ∧
                      0 ≤ j ∧ j < len ∧ A < todo from ⟨hc, hj.1, hj.2, by omega⟩)]
                  have e : off + chunk + B = off + A := by omega
                  rw [e]
                · rw [if_neg (show ¬ (c < min o.numChannels tr.loopBuffer.numChannels ∧
                      0 ≤ j ∧ j < len ∧ B < todo - chunk) from fun h => h2 h.2.2.2),
                    if_neg (show ¬ (c < min o.numChannels tr.loopBuffer.numChannels ∧
                      0 ≤ j ∧ j < len ∧ A < todo) from
                      fun h => absurd h.2.2.2 (by omega))]
            · rw [if_neg hwrap] at hB
              rw [if_neg (show ¬ (c < min o.numChannels tr.loopBuffer.numChannels ∧
                  0 ≤ j ∧ j < len ∧ B < todo - chunk) from
                  fun h => absurd h.2.2.2 (by omega))]
              by_cases h1 : pos ≤ j ∧ j < pos + chunk
              · rw [if_pos (show c < min o.numChannels tr.loopBuffer.numChannels ∧
                    pos ≤ j ∧ j < pos + chunk from ⟨hc, h1⟩),
                  if_pos (show c < min o.numChannels tr.loopBuffer.numChannels ∧
                    0 ≤ j ∧ j < len ∧ A < todo from ⟨hc, hj.1, hj.2, by omega⟩)]
                have e : j - pos = A := by omega
                rw [e]
              · rw [if_neg (show ¬ (c < min o.numChannels tr.loopBuffer.numChannels ∧
                    pos ≤ j ∧ j < pos + chunk) from fun h => h1 h.2),
                  if_neg (show ¬ (c < min o.numChannels tr.loopBuffer.numChannels ∧
                    0 ≤ j ∧ j < len ∧ A < todo) from
                    fun h => absurd h.2.2.2 (by omega))]
          · rw [if_neg (fun h => hj ⟨h.2.1, h.2.2.1⟩),
              if_neg (show ¬ (c < min o.numChannels tr.loopBuffer.numChannels ∧
                pos ≤ j ∧ j < pos + chunk) from fun h => hj (by omega)),
              if_neg (fun h => hj ⟨h.2.1, h.2.2.1⟩)]
        · rw [if_neg (fun h => hc h.1), if_neg (fun h => hc h.1), if_neg (fun h => hc h.1)]
      · rw [b6, a6, a2, a3]
        by_cases hm : muted = false ∧ c < min o.numChannels tr.loopBuffer.numChannels
        · by_cases h1 : off ≤ i ∧ i < off + chunk
          · have e5 : (pos + (i - off)) % len = pos + (i - off) :=
              Int.emod_eq_of_lt (by omega) (by omega)
            rw [if_neg (show ¬ (muted = false ∧
                  c < min o.numChannels tr.loopBuffer.numChannels ∧ off + chunk ≤ i ∧
                  i < off + chunk + (todo - chunk)) from
                  fun h => absurd h.2.2.1 (by omega)),
              if_pos (show muted = false ∧
                  c < min o.numChannels tr.loopBuffer.numChannels ∧ off ≤ i ∧
                  i < off + chunk from ⟨hm.1, hm.2, h1⟩),
              if_pos (show muted = false ∧
                  c < min o.numChannels tr.loopBuffer.numChannels ∧ off ≤ i ∧
                  i < off + todo from ⟨hm.1, hm.2, h1.1, by omega⟩), e5]
          · rw [if_neg (show ¬ (muted = false ∧
                  c < min o.numChannels tr.loopBuffer.numChannels ∧ off ≤ i ∧
                  i < off + chunk) from fun h => h1 h.2.2)]
            by_cases h2 : off + chunk ≤ i ∧ i < off + chunk + (todo - chunk)
            · have hw : pos + chunk ≥ len := by omega
              have e6 : ((if pos + chunk ≥ len then 0 else pos + chunk)
                  + (i - (off + chunk))) % len = i - (off + chunk) := by
                rw [if_pos hw, zero_add]
                exact Int.emod_eq_of_lt (by omega) (by omega)
              have e7 : (pos + (i - off)) % len = i - (off + chunk) := by
                have e8 : pos + (i - off) = i - (off + chunk) + len := by omega
                rw [e8, Int.add_emod_self]
                exact Int.emod_eq_of_lt (by omega) (by omega)
              rw [if_pos (show muted = false ∧
                    c < min o.numChannels tr.loopBuffer.numChannels ∧ off + chunk ≤ i ∧
                    i < off + chunk + (todo - chunk) from ⟨hm.1, hm.2, h2⟩),
                if_pos (show muted = false ∧
                    c < min o.numChannels tr.loopBuffer.numChannels ∧ off ≤ i ∧
                    i < off + todo from ⟨hm.1, hm.2, by omega, by omega⟩), e6, e7, a5,
                if_neg (show ¬ (c < min o.numChannels tr.loopBuffer.numChannels ∧
                    pos ≤ i - (off + chunk) ∧ i - (off + chunk) < pos + chunk) from
                    fun h => absurd h.2.1 (by omega))]
            · rw [if_neg (show ¬ (muted = false ∧
                    c < min o.numChannels tr.loopBuffer.numChannels ∧ off + chunk ≤ i ∧
                    i < off + chunk + (todo - chunk)) from fun h => h2 h.2.2),
                if_neg (show ¬ (muted = false ∧
                    c < min o.numChannels tr.loopBuffer.numChannels ∧ off ≤ i ∧
                    i < off + todo) from fun h => by
                      have := h.2.2
                      omega)]
        · rw [if_neg (fun h => hm ⟨h.1, h.2.1⟩), if_neg (fun h => hm ⟨h.1, h.2.1⟩),
            if_neg (fun h => hm ⟨h.1, h.2.1⟩)]
    · rw [if_neg htodo]
      have h0 : ∀ j : Int, 0 ≤ (j - pos) % len := fun j => Int.emod_nonneg _ (by omega)
      refine ⟨⟨_, rfl⟩, rfl, rfl, rfl, fun c j => ?_, fun c i => ?_⟩
      · have := h0 j
        rw [List.foldl_nil, if_neg (fun h => absurd h.2.2.2 (by omega))]
      · rw [List.foldl_nil, if_neg (fun h => absurd h.2.2 (by omega))]

theorem withMixer_self (t : LoopTrack) : t.withMixer t.gain t.isMuted t.isSolo = t := by
  cases t
  rfl

/-- C33. `handleOverdub` on a track with loop length `len > 0`, start position `p` in
`[0, len)`, no replace in flight and a block of `n <= len` samples. The chunk loop runs to
completion (its chunk list is the same for every fuel that covers the block). On every
channel the output and the loop buffer share, loop sample `(p + i) mod len` becomes its old
value plus `input[i]` for every `0 <= i < n`; every other loop sample, and every other member
of the track, is unchanged. Unless silenced (the `shouldBeSilent` argument or the mute flag),
output sample `i` gains `gain` times the old value of loop sample `(p + i) mod len`; no other
output sample changes, and a silenced call leaves the output as it was. The track after the
call is the same whether or not the call is silenced. -/
theorem handleOverdub_adds_input_in_place (t : LoopTrack) (out inp : AudioBuffer)
    (n p len : Int) (silent : Bool) (hlen : 0 < len) (hp0 : 0 ≤ p) (hp1 : p < len)
    (hn : n ≤ len) (hact : t.mReplace.active = false) :
    (∀ (c : Nat) (i : Int), c < min out.numChannels t.loopBuffer.numChannels → 0 ≤ i →
      i < n →
      (t.handleOverdub out inp n p len silent).1.loopBuffer.data c ((p + i) % len)
        = t.loopBuffer.data c ((p + i) % len) + inp.data c i) ∧
    (∀ (c : Nat) (j : Int),
      (c < min out.numChannels t.loopBuffer.numChannels →
        ∀ i : Int, 0 ≤ i → i < n → j ≠ (p + i) % len) →
      (t.handleOverdub out inp n p len silent).1.loopBuffer.data c j
        = t.loopBuffer.data c j) ∧
    (∃ lb, (t.handleOverdub out inp n p len silent).1 = { t with loopBuffer := lb }) ∧
    (silent = false → t.isMuted = false →
      ∀ (c : Nat) (i : Int), c < min out.numChannels t.loopBuffer.numChannels → 0 ≤ i →
        i < n →
        (t.handleOverdub out inp n p len silent).2.data c i
          = out.data c i + t.gain * t.loopBuffer.data c ((p + i) % len)) ∧
    (∀ (c : Nat) (i : Int),
      ¬ (c < min out.numChannels t.loopBuffer.numChannels ∧ 0 ≤ i ∧ i < n) →
      (t.handleOverdub out inp n p len silent).2.data c i = out.data c i) ∧
    (silent = true ∨ t.isMuted = true →
      (t.handleOverdub out inp n p len silent).2 = out) ∧
    (t.handleOverdub out inp n p len true).1 = (t.handleOverdub out inp n p len false).1 ∧
    (∀ fuel : Nat, n.toNat ≤ fuel →
      wrapChunks fuel n 0 p len = wrapChunks n.toNat n 0 p len) := by
  have hr : t.handleOverdub out inp n p len silent =
      (wrapChunks n.toNat n 0 p len).foldl
        (fun (s : LoopTrack × AudioBuffer) c =>
          forCh (min s.2.numChannels s.1.loopBuffer.numChannels)
            (fun ch (a : LoopTrack × AudioBuffer) =>
              ({ a.1 with
                  loopBuffer := a.1.loopBuffer.addFrom ch c.2.1 inp ch c.1 c.2.2 1 },
               if (if silent = true then true else t.isMuted) then a.2
               else a.2.addFrom ch c.1 (LoopTrack.readBuf a.1) ch c.2.1 c.2.2 t.gain))
            s)
        (t, out) := by
    unfold LoopTrack.handleOverdub
    rw [if_neg (by omega)]
  obtain ⟨k1, -, -, -, k5, k6⟩ := overdub_fold_data inp
    (if silent = true then true else t.isMuted) t.gain len hlen n.toNat n 0 p t out _ hact
    hp0 hp1 (by omega) hn hr
  refine ⟨fun c i hc hi0 hi1 => ?_, fun c j h => ?_, k1, fun hs hm c i hc hi0 hi1 => ?_,
    fun c i h => ?_, fun h => handleOverdub_of_muted t out inp n p len silent h, ?_,
    fun fuel hf => wrapChunks_fuel len hlen fuel n.toNat n 0 p hp0 hp1 (by omega) (by omega)⟩
  · have b0 : 0 ≤ (p + i) % len := Int.emod_nonneg _ (by omega)
    have b1 : (p + i) % len < len := Int.emod_lt_of_pos _ hlen
    have e : ((p + i) % len - p) % len = i := by
      rw [Int.sub_eq_add_neg, Int.emod_add_emod]
      have e2 : p + i + -p = i := by omega
      rw [e2]
      exact Int.emod_eq_of_lt hi0 (by omega)
    rw [k5, e, if_pos ⟨hc, b0, b1, hi1⟩, zero_add]
  · rw [k5]
    by_cases hc : c < min out.numChannels t.loopBuffer.numChannels ∧ 0 ≤ j ∧ j < len ∧
        (j - p) % len < n
    · exfalso
      have b0 : 0 ≤ (j - p) % len := Int.emod_nonneg _ (by omega)
      apply h hc.1 ((j - p) % len) b0 hc.2.2.2
      rw [Int.add_emod_emod]
      have e2 : p + (j - p) = j := by omega
      rw [e2]
      exact (Int.emod_eq_of_lt hc.2.1 hc.2.2.1).symm
    · rw [if_neg hc]
  · have hmu : (if silent = true then true else t.isMuted) = false := by
      rw [hs, hm]
      rfl
    have e0 : p + (i - 0) = p + i := by omega
    rw [k6, if_pos ⟨hmu, hc, hi0, by omega⟩, e0]
  · rw [k6, if_neg (fun hh => h ⟨hh.2.1, hh.2.2.1, by have := hh.2.2.2; omega⟩)]
  · have h1 := handleOverdub_withMixer t t.gain t.isMuted t.isSolo out inp n p len false true
    rw [withMixer_self] at h1
    obtain ⟨lb, hlb⟩ := LoopTrack.handleOverdub_frame t out inp n p len false
    rw [h1, hlb]
    rfl

theorem demoOverdubbingRamp_fields :
    demoOverdubbingRamp.currentState = State.Overdubbing ∧
    demoOverdubbingRamp.loopLengthSamples = 1000 ∧
    demoOverdubbingRamp.mReplace.active = false ∧
    demoOverdubbingRamp.isMuted = false ∧ demoOverdubbingRamp.gain = 1 ∧
    demoOverdubbingRamp.loopBuffer = demoRamp1000.loopBuffer ∧
    demoOverdubbingRamp.loopBuffer.numChannels = 2 := by
  obtain ⟨f1, f2, -⟩ := demoSeededTrack_fields (patternBuffer 1000 (fun i => (i : ℚ))) 1000 0
    (by decide) (by decide)
  obtain ⟨g1, -⟩ := demoSeededTrack_idle (patternBuffer 1000 (fun i => (i : ℚ))) 1000 0
  obtain ⟨m1, m2, m3⟩ := demoSeededTrack_mixer (patternBuffer 1000 (fun i => (i : ℚ))) 1000 0
  have f2b : demoRamp1000.loopLengthSamples = 1000 := f2
  have e := setOverdubbing_eq demoRamp1000 f1 (by rw [f2b]; decide)
  unfold demoOverdubbingRamp
  rw [e]
  exact ⟨rfl, f2, g1, m1, m2, rfl, m3⟩

/-- Witness for `handleOverdub_adds_input_in_place`: the Overdubbing ramp loop, a 480-sample
block of fives starting at position 900. Input sample 200 lands on loop position 100 (the
block wraps at 1000), and output sample 200 gains the old content of position 100. -/
theorem handleOverdub_adds_input_in_place_witness :
    demoOverdubbingRamp.currentState = State.Overdubbing ∧
    (0 : Int) < 1000 ∧ (0 : Int) ≤ 900 ∧ (900 : Int) < 1000 ∧ (480 : Int) ≤ 1000 ∧
    demoOverdubbingRamp.mReplace.active = false ∧
    (demoOverdubbingRamp.handleOverdub (silentBlock 480) (patternBuffer 480 (fun _ => 5)) 480
        900 1000 false).1.loopBuffer.data 0 ((900 + 200) % 1000)
      = demoOverdubbingRamp.loopBuffer.data 0 ((900 + 200) % 1000)
        + (patternBuffer 480 (fun _ => 5)).data 0 200 ∧
    (demoOverdubbingRamp.handleOverdub (silentBlock 480) (patternBuffer 480 (fun _ => 5)) 480
        900 1000 false).2.data 0 200
      = (silentBlock 480).data 0 200
        + demoOverdubbingRamp.gain
          * demoOverdubbingRamp.loopBuffer.data 0 ((900 + 200) % 1000) := by
  obtain ⟨f1, -, f3, f4, -, -, f7⟩ := demoOverdubbingRamp_fields
  obtain ⟨h1, -, -, h4, -⟩ := handleOverdub_adds_input_in_place demoOverdubbingRamp
    (silentBlock 480) (patternBuffer 480 (fun _ => 5)) 480 900 1000 false (by decide)
    (by decide) (by decide) (by decide) f3
  have hc : 0 < min (silentBlock 480).numChannels demoOverdubbingRamp.loopBuffer.numChannels := by
    rw [f7]
    decide
  exact ⟨f1, by decide, by decide, by decide, by decide, f3,
    h1 0 200 hc (by decide) (by decide), h4 rfl f4 0 200 hc (by decide) (by decide)⟩

/-! ## Bounce with nested loop lengths -/

theorem nested_phase (S len B g : Int) (hdvd : len ∣ B) :
    ((- S) % len + g % B) % len = (g - S) % len := by
  rw [Int.emod_add_emod, Int.add_emod, Int.emod_emod_of_dvd g hdvd, ← Int.add_emod]
  have e : - S + g = g - S := by omega
  rw [e]

/-- C37 (amended). For a session with `masterLoopLength > 0` whose bounce length `B` fits
the work buffer, if every track with a loop has a length that divides `B`, then for every
global sample count `g` whose index `i = g mod B` lies outside the crossfaded head and tail,
the bounced mix sample `i` equals `specHeardSum`: the sum over the tracks with a loop of
`loopBuffer_t[(g - S_t) mod len_t]` (on each of the two channels; track buffers are stereo).
That index is the position a slave that is not Recording reads at global sample count
`g >= S_t`, and the position the master reads at `g >= 0` when its length divides its
anchor, in particular for anchor 0. -/
theorem bounce_matches_nested_loops (s : Session) (c : Nat) (g : Int)
    (hmaster : 0 < s.mPrimaryLoopLengthSamples)
    (hfit : bounceLength s.mPrimaryLoopLengthSamples s.mTracks ≤ s.mWorkBuffer.numSamples)
    (hc : c < 2) (hwork : c < s.mWorkBuffer.numChannels)
    (htracks : ∀ t ∈ s.mTracks, 2 ≤ t.loopBuffer.numChannels)
    (hnest : ∀ t ∈ s.mTracks, t.hasLoop = true →
      t.loopLengthSamples ∣ bounceLength s.mPrimaryLoopLengthSamples s.mTracks)
    (hi0 : min 128 (bounceLength s.mPrimaryLoopLengthSamples s.mTracks / 2)
      ≤ g % bounceLength s.mPrimaryLoopLengthSamples s.mTracks)
    (hi1 : g % bounceLength s.mPrimaryLoopLengthSamples s.mTracks
      < bounceLength s.mPrimaryLoopLengthSamples s.mTracks
        - min 128 (bounceLength s.mPrimaryLoopLengthSamples s.mTracks / 2)) :
    s.performBounceBack.mWorkBuffer.data c
        (g % bounceLength s.mPrimaryLoopLengthSamples s.mTracks)
      = specHeardSum s.mTracks c g ∧
    (∀ t ∈ s.mTracks, t.hasLoop = true → t.currentState ≠ State.Recording →
      t.recordingStartGlobalSample ≤ g → ∀ L : Int,
      (LoopTrack.blockPositions t t.currentState g false L).readPos
        = (g - t.recordingStartGlobalSample) % t.loopLengthSamples) ∧
    (∀ t ∈ s.mTracks, t.hasLoop = true → t.currentState ≠ State.Recording → 0 ≤ g →
      t.loopLengthSamples ∣ t.recordingStartGlobalSample → ∀ L : Int,
      (LoopTrack.blockPositions t t.currentState g true L).readPos
        = (g - t.recordingStartGlobalSample) % t.loopLengthSamples) := by
  have hge := bounceLength_ge s.mPrimaryLoopLengthSamples s.mTracks
  have hdiv : (bounceLength s.mPrimaryLoopLengthSamples s.mTracks).tdiv 2
      = bounceLength s.mPrimaryLoopLengthSamples s.mTracks / 2 :=
    Int.tdiv_eq_ediv (by omega) (by omega)
  have hf0 : 0 ≤ min 128 (bounceLength s.mPrimaryLoopLengthSamples s.mTracks / 2) :=
    le_min (by omega) (by omega)
  refine ⟨?_, fun t _ hl hst hg L => ?_, fun t _ hl hst hg hd L => ?_⟩
  · rw [performBounceBack_work s hmaster hfit,
      applyCrossfade_middle _ _ _ c _
        (by unfold CROSSFADE_SAMPLES; rw [hdiv]; exact hi0)
        (by unfold CROSSFADE_SAMPLES; rw [hdiv]; exact hi1),
      bounceMix_fold_data,
      bounce_sum_filter c _ _ hc (by omega) (by omega) s.mTracks htracks]
    have hclear : (s.mWorkBuffer.clearRegion 0
        (bounceLength s.mPrimaryLoopLengthSamples s.mTracks)).data c
        (g % bounceLength s.mPrimaryLoopLengthSamples s.mTracks) = 0 := by
      unfold AudioBuffer.clearRegion
      have hcond : c < s.mWorkBuffer.numChannels ∧
          0 ≤ g % bounceLength s.mPrimaryLoopLengthSamples s.mTracks ∧
          g % bounceLength s.mPrimaryLoopLengthSamples s.mTracks
            < 0 + bounceLength s.mPrimaryLoopLengthSamples s.mTracks :=
        ⟨hwork, by omega, by omega⟩
      simp only [hcond, and_self, if_true]
    rw [hclear, zero_add]
    unfold specHeardSum
    congr 1
    apply List.map_congr_left
    intro t ht
    rw [List.mem_filter] at ht
    rw [nested_phase _ _ _ _ (hnest t ht.1 ht.2)]
  · have hlen : 0 < t.loopLengthSamples := of_decide_eq_true hl
    rw [LoopTrack.blockPositions_slave_loop t t.currentState g L hst hlen]
    show (if g - t.recordingStartGlobalSample < 0 then 0
      else g - t.recordingStartGlobalSample).tmod t.loopLengthSamples = _
    rw [if_neg (by omega)]
    exact Int.tmod_eq_emod (by omega) (by omega)
  · have hlen : 0 < t.loopLengthSamples := of_decide_eq_true hl
    rw [LoopTrack.blockPositions_master_loop t t.currentState g L hst hlen]
    show g.tmod t.loopLengthSamples = _
    rw [Int.tmod_eq_emod hg (by omega), Int.sub_emod, Int.emod_eq_zero_of_dvd hd, sub_zero,
      Int.emod_emod_of_dvd g (dvd_refl _)]

/-- Witness for `bounce_matches_nested_loops`: two tracks of equal length 1000 holding ones
and twos (anchors 0 and 300); at global sample count 1500 the bounced sample 500 of
channel 0 is what the specification's sum gives. -/
theorem bounce_matches_nested_loops_witness :
    0 < demoBounceSession.mPrimaryLoopLengthSamples ∧
    bounceLength demoBounceSession.mPrimaryLoopLengthSamples demoBounceSession.mTracks
      ≤ demoBounceSession.mWorkBuffer.numSamples ∧
    (∀ t ∈ demoBounceSession.mTracks, 2 ≤ t.loopBuffer.numChannels) ∧
    (∀ t ∈ demoBounceSession.mTracks, t.hasLoop = true →
      t.loopLengthSamples
        ∣ bounceLength demoBounceSession.mPrimaryLoopLengthSamples demoBounceSession.mTracks) ∧
    demoBounceSession.performBounceBack.mWorkBuffer.data 0
        (1500 % bounceLength demoBounceSession.mPrimaryLoopLengthSamples
          demoBounceSession.mTracks)
      = specHeardSum demoBounceSession.mTracks 0 1500 := by
  have hlen := demoBounceSession_length
  have ht : ∀ t ∈ demoBounceSession.mTracks, 2 ≤ t.loopBuffer.numChannels := by
    intro t h
    simp only [demoBounceSession, sessionWith, List.mem_cons, List.mem_singleton,
      List.not_mem_nil, or_false] at h
    rcases h with h | h <;> subst h <;> decide
  have hn : ∀ t ∈ demoBounceSession.mTracks, t.hasLoop = true →
      t.loopLengthSamples
        ∣ bounceLength demoBounceSession.mPrimaryLoopLengthSamples
            demoBounceSession.mTracks := by
    intro t h _
    rw [hlen]
    simp only [demoBounceSession, sessionWith, List.mem_cons, List.mem_singleton,
      List.not_mem_nil, or_false] at h
    rcases h with h | h <;> subst h <;> exact dvd_refl _
  have hfit : bounceLength demoBounceSession.mPrimaryLoopLengthSamples demoBounceSession.mTracks
      ≤ demoBounceSession.mWorkBuffer.numSamples := by rw [hlen]; decide
  exact ⟨by decide, hfit, ht, hn,
    (bounce_matches_nested_loops demoBounceSession 0 1500 (by decide) hfit (by decide)
      (by decide) ht hn (by rw [hlen]; decide) (by rw [hlen]; decide)).1⟩

/-! ## The anchor rule for read and write positions -/

/-- C34 (amended). For a track that is Playing or Overdubbing with loop length `Len > 0` and
anchor `S = recordingStartGlobalSample`, at global sample count `g >= S`: dispatched as a
slave, the start position `processBlock` uses for reading and writing is `(g - S) mod Len`;
dispatched as the master (with `g >= 0`), it is `g mod Len`, whatever the anchor is, and this
equals `(g - S) mod Len` when `Len` divides `S`, in particular for `S = 0`. -/
theorem position_follows_anchor (t : LoopTrack) (g L : Int)
    (hst : t.currentState = State.Playing ∨ t.currentState = State.Overdubbing)
    (hlen : 0 < t.loopLengthSamples) (hg : t.recordingStartGlobalSample ≤ g) :
    ((LoopTrack.blockPositions (LoopTrack.autoFinish t t.currentState false L).1
          (LoopTrack.autoFinish t t.currentState false L).2 g false L).readPos
        = (g - t.recordingStartGlobalSample) % t.loopLengthSamples ∧
      (LoopTrack.blockPositions (LoopTrack.autoFinish t t.currentState false L).1
          (LoopTrack.autoFinish t t.currentState false L).2 g false L).writePos
        = (g - t.recordingStartGlobalSample) % t.loopLengthSamples) ∧
    (0 ≤ g →
      (LoopTrack.blockPositions (LoopTrack.autoFinish t t.currentState true L).1
          (LoopTrack.autoFinish t t.currentState true L).2 g true L).readPos
        = g % t.loopLengthSamples ∧
      (LoopTrack.blockPositions (LoopTrack.autoFinish t t.currentState true L).1
          (LoopTrack.autoFinish t t.currentState true L).2 g true L).writePos
        = g % t.loopLengthSamples) ∧
    (0 ≤ g → t.loopLengthSamples ∣ t.recordingStartGlobalSample →
      (LoopTrack.blockPositions (LoopTrack.autoFinish t t.currentState true L).1
          (LoopTrack.autoFinish t t.currentState true L).2 g true L).readPos
        = (g - t.recordingStartGlobalSample) % t.loopLengthSamples ∧
      (LoopTrack.blockPositions (LoopTrack.autoFinish t t.currentState true L).1
          (LoopTrack.autoFinish t t.currentState true L).2 g true L).writePos
        = (g - t.recordingStartGlobalSample) % t.loopLengthSamples) := by
  have hne : t.currentState ≠ State.Recording := by
    rcases hst with h | h <;> simp [h]
  have hnn : ¬ (g - t.recordingStartGlobalSample < 0) := by omega
  rw [LoopTrack.autoFinish_not_recording t _ false L hne,
    LoopTrack.autoFinish_not_recording t _ true L hne,
    LoopTrack.blockPositions_slave_loop t t.currentState g L hne hlen,
    LoopTrack.blockPositions_master_loop t t.currentState g L hne hlen]
  have hs : (if g - t.recordingStartGlobalSample < 0 then 0
      else g - t.recordingStartGlobalSample).tmod t.loopLengthSamples
        = (g - t.recordingStartGlobalSample) % t.loopLengthSamples := by
    rw [if_neg hnn]
    exact Int.tmod_eq_emod (by omega) (by omega)
  refine ⟨⟨hs, hs⟩, fun h0 => ?_, fun h0 hd => ?_⟩
  · have hm : g.tmod t.loopLengthSamples = g % t.loopLengthSamples :=
      Int.tmod_eq_emod h0 (by omega)
    exact ⟨hm, hm⟩
  · have hm : g.tmod t.loopLengthSamples
        = (g - t.recordingStartGlobalSample) % t.loopLengthSamples := by
      rw [Int.tmod_eq_emod h0 (by omega), Int.sub_emod, Int.emod_eq_zero_of_dvd hd, sub_zero,
        Int.emod_emod_of_dvd g (dvd_refl _)]
    exact ⟨hm, hm⟩

theorem demoAnchoredLoop_fields :
    demoAnchoredLoop.currentState = State.Playing ∧
    demoAnchoredLoop.loopLengthSamples = 1000 ∧
    demoAnchoredLoop.recordingStartGlobalSample = 500 ∧
    Reachable true demoAnchoredLoop :=
  ⟨(demoSeededTrack_fields _ 1000 500 (by decide) (by decide)).1,
    (demoSeededTrack_fields _ 1000 500 (by decide) (by decide)).2.1,
    (demoSeededTrack_fields _ 1000 500 (by decide) (by decide)).2.2,
    demoSeededTrack_reachable true _ _ _⟩

/-- Witness for `position_follows_anchor`: the 1000-sample loop anchored at 500, at global
sample count 1500: position 0 as a slave, position 500 as the master. -/
theorem position_follows_anchor_witness :
    (demoAnchoredLoop.currentState = State.Playing ∨
      demoAnchoredLoop.currentState = State.Overdubbing) ∧
    0 < demoAnchoredLoop.loopLengthSamples ∧
    demoAnchoredLoop.recordingStartGlobalSample ≤ 1500 ∧
    (LoopTrack.blockPositions
        (LoopTrack.autoFinish demoAnchoredLoop demoAnchoredLoop.currentState false 1000).1
        (LoopTrack.autoFinish demoAnchoredLoop demoAnchoredLoop.currentState false 1000).2
        1500 false 1000).readPos = 0 ∧
    (LoopTrack.blockPositions
        (LoopTrack.autoFinish demoAnchoredLoop demoAnchoredLoop.currentState true 1000).1
        (LoopTrack.autoFinish demoAnchoredLoop demoAnchoredLoop.currentState true 1000).2
        1500 true 1000).readPos = 500 := by
  obtain ⟨f1, f2, f3, -⟩ := demoAnchoredLoop_fields
  have h1 : 0 < demoAnchoredLoop.loopLengthSamples := by rw [f2]; decide
  have h2 : demoAnchoredLoop.recordingStartGlobalSample ≤ 1500 := by rw [f3]; decide
  obtain ⟨a, b, -⟩ := position_follows_anchor demoAnchoredLoop 1500 1000 (Or.inl f1) h1 h2
  refine ⟨Or.inl f1, h1, h2, ?_, ?_⟩
  · rw [a.1, f2, f3]
    decide
  · rw [(b (by decide)).1, f2]
    decide

/-- C34 (as stated) fails for the master: a reachable Playing track with loop length 1000
and anchor 500, dispatched as the master at global sample count 1500, reads and writes from
position 500 (`1500 mod 1000`), not from `(1500 - 500) mod 1000 = 0`. The session produces
such a master: an After Loop capture into a cleared master track at global sample count 1500
(cached master length 1000) leaves it Playing with length 1000 and anchor 500. -/
theorem master_position_ignores_anchor :
    Reachable true demoAnchoredLoop ∧
    demoAnchoredLoop.currentState = State.Playing ∧
    demoAnchoredLoop.loopLengthSamples = 1000 ∧
    demoAnchoredLoop.recordingStartGlobalSample = 500 ∧
    (LoopTrack.blockPositions
        (LoopTrack.autoFinish demoAnchoredLoop demoAnchoredLoop.currentState true 1000).1
        (LoopTrack.autoFinish demoAnchoredLoop demoAnchoredLoop.currentState true 1000).2
        1500 true 1000).readPos = 500 ∧
    ((1500 : Int) - 500) % 1000 = 0 ∧
    (∃ m, (demoMasterCaptureSession.performCaptureAfterLoop 0).mTracks.get? 0 = some m ∧
      m.currentState = State.Playing ∧ m.loopLengthSamples = 1000 ∧
      m.recordingStartGlobalSample = 500 ∧
      (LoopTrack.blockPositions m m.currentState 1500 true 1000).readPos = 500) := by
  obtain ⟨f1, f2, f3, f4⟩ := demoAnchoredLoop_fields
  have hne : demoAnchoredLoop.currentState ≠ State.Recording := by rw [f1]; decide
  refine ⟨f4, f1, f2, f3, ?_, by decide, ?_⟩
  · rw [LoopTrack.autoFinish_not_recording _ _ true 1000 hne,
      LoopTrack.blockPositions_master_loop _ _ 1500 1000 hne (by rw [f2]; decide)]
    show (1500 : Int).tmod demoAnchoredLoop.loopLengthSamples = 500
    rw [f2]
    decide
  · obtain ⟨m, g1, g2, g3, g4, -⟩ := performCaptureAfterLoop_installs
      demoMasterCaptureSession 0 demoLoop1000.clear 0
      (fun ch k => demoMasterCaptureSession.mRetrospectiveBuffer.data ch k)
      demoMasterCaptureSession.mRetroWritePos 1000
      (ringHolds_start demoMasterCaptureSession 0 (by show (0 : Int) ≤ 1500; decide)
        (by show (1500 : Int) < 14400000; decide))
      (by show (0 : Int) < 1000; decide) (by show (0 : Int) < 14400000; decide) rfl
      (by show (0 : Int) ≤ 0; decide)
      (by
        show truncToInt (floatProduct 1000 (clampMultiplier 1)) = 1000
        exact captureLen_unit 1000 (by decide) (by decide))
      (by decide) (by show (1000 : Int) ≤ 14400000; decide)
      (by show (1000 : Int) ≤ 14400000; decide)
      (by
        show (1000 : Int) ≤ demoLoop1000.loopBuffer.numSamples
        rw [demoLoop1000_fields.2.2.1]
        decide)
      (by show (1000 : Int) ≤ 1500; decide) (Nat.zero_le _) (Nat.zero_le _) (Nat.zero_le _)
      (Nat.zero_le _)
    have g4b : m.recordingStartGlobalSample = 500 := by
      rw [g4]
      show max (0 : Int) (1500 - 1000) = 500
      decide
    have hm : m.currentState ≠ State.Recording := by rw [g2]; decide
    refine ⟨m, g1, g2, g3, g4b, ?_⟩
    rw [LoopTrack.blockPositions_master_loop _ _ 1500 1000 hm (by rw [g3]; decide)]
    show (1500 : Int).tmod m.loopLengthSamples = 500
    rw [g3]
    decide

/-! ## Undo while a progressive replace is in flight -/

theorem demoSeededTrack_data (mixedBuffer : AudioBuffer) (length anchor : Int)
    (h1 : 0 < length) (h2 : length ≤ 14400000) (c : Nat) (i : Int) (hc : c < 2)
    (hm : c < mixedBuffer.numChannels) (hi0 : 0 ≤ i) (hi1 : i < length) :
    (demoSeededTrack mixedBuffer length anchor).loopBuffer.data c i
      = mixedBuffer.data c i := by
  unfold demoSeededTrack
  rw [prepared_48000]
  exact (setLoopFromMix_installs (preparedTrack 14400000) mixedBuffer length 0 anchor h1
    h2).2.2.2.2 c i hc hm hi0 hi1

theorem demoSeededTrack_undo (mixedBuffer : AudioBuffer) (length anchor : Int) :
    (demoSeededTrack mixedBuffer length anchor).undoBuffer.numChannels = 2 := by
  unfold demoSeededTrack
  rw [prepared_48000]
  unfold LoopTrack.setLoopFromMix
  split
  · rfl
  · rfl

/-- On a Playing track with a saved undo state, `performUndo` leaves the replace state as it
is: a replace in flight stays in flight. -/
theorem performUndo_keeps_replace (t : LoopTrack) (hst : t.currentState = State.Playing)
    (hu : t.hasUndo = true) (hul : 0 < t.undoLoopLengthSamples) :
    t.performUndo.mReplace = t.mReplace ∧ t.performUndo.currentState = State.Playing ∧
    t.performUndo.loopBuffer.numChannels = t.loopBuffer.numChannels := by
  rw [performUndo_eq t (Or.inl hst) hu hul]
  exact ⟨rfl, hst, (swapChannels_spec _ _ _ _).1⟩

theorem demoReplacing_fields :
    demoReplacing.currentState = State.Playing ∧
    demoReplacing.mReplace =
      { source := some (patternBuffer 800 (fun _ => 3)), length := 800, cursor := 0,
        remaining := 800, active := true } ∧
    demoReplacing.hasUndo = true ∧ demoReplacing.undoLoopLengthSamples = 1000 ∧
    demoReplacing.loopBuffer.numChannels = 2 ∧
    (∀ (c : Nat) (j : Int), c < 2 → 0 ≤ j → j < 1000 →
      demoReplacing.undoBuffer.data c j = 1) ∧
    Reachable true demoReplacing := by
  obtain ⟨f1, f2, f3, f4⟩ := demoLoop1000_fields
  have hl : (0 : Int) < demoLoop1000.loopLengthSamples := by rw [f2]; decide
  have e := beginProgressiveReplace_eq demoLoop1000 (patternBuffer 800 (fun _ => 3)) 800 0 0
    (by decide) (by rw [f3]; decide)
  have es := saveUndo_eq demoLoop1000 hl
  have hch : demoLoop1000.loopBuffer.numChannels = 2 :=
    (demoSeededTrack_mixer (patternBuffer 1000 (fun _ => 1)) 1000 0).2.2
  have hun : demoLoop1000.undoBuffer.numChannels = 2 :=
    demoSeededTrack_undo (patternBuffer 1000 (fun _ => 1)) 1000 0
  have hst : demoLoop1000.saveUndo.currentState = State.Playing := by
    rw [es]
    exact f1
  refine ⟨?_, ?_, ?_, ?_, ?_, fun c j hc hj0 hj1 => ?_, ?_⟩
  · unfold demoReplacing
    rw [e]
    show (if demoLoop1000.saveUndo.currentState = State.Empty then State.Playing
      else demoLoop1000.saveUndo.currentState) = State.Playing
    rw [hst]
    rfl
  · unfold demoReplacing
    rw [e]
  · unfold demoReplacing
    rw [e]
    show demoLoop1000.saveUndo.hasUndo = true
    rw [es]
  · unfold demoReplacing
    rw [e]
    show demoLoop1000.saveUndo.undoLoopLengthSamples = 1000
    rw [es]
    exact f2
  · unfold demoReplacing
    rw [e]
    show demoLoop1000.saveUndo.loopBuffer.numChannels = 2
    rw [saveUndo_loopBuffer]
    exact hch
  · unfold demoReplacing
    rw [e]
    show demoLoop1000.saveUndo.undoBuffer.data c j = 1
    rw [es]
    show (forCh demoLoop1000.undoBuffer.numChannels
      (fun ch acc => acc.copyFrom ch 0 demoLoop1000.loopBuffer ch 0
        demoLoop1000.loopLengthSamples) demoLoop1000.undoBuffer).data c j = 1
    rw [saveUndo_data demoLoop1000 c j (by rw [hun]; exact hc) hj0 (by rw [f2]; exact hj1)]
    exact demoSeededTrack_data (patternBuffer 1000 (fun _ => 1)) 1000 0 (by decide)
      (by decide) c j hc hc hj0 hj1
  · exact Reachable.beginProgressiveReplace _ _ _ _ f4

/-- C40 fails on the code. The 1000-sample loop of ones has a progressive replace of 800
samples of threes in flight (no chunk copied yet). `performUndo` restores the ones and the
length 1000 but leaves the replace in flight; the next `processBlock` of 480 samples
finishes the replace and the loop samples `[0, 800)` then hold the replace source (threes),
not the restored content, while `loopLength` stays 1000. -/
theorem undo_during_replace_is_overwritten :
    Reachable true demoReplacing ∧
    demoReplacing.currentState = State.Playing ∧ demoReplacing.isReplacing = true ∧
    demoReplacing.performUndo.isReplacing = true ∧
    demoReplacing.performUndo.loopLengthSamples = 1000 ∧
    (∀ j : Int, 0 ≤ j → j < 1000 → demoReplacing.performUndo.loopBuffer.data 0 j = 1) ∧
    (runBlocks true demoReplacing.performUndo [silentArgs 480 0 1000]).isReplacing = false ∧
    (runBlocks true demoReplacing.performUndo [silentArgs 480 0 1000]).loopLengthSamples
      = 1000 ∧
    (∀ j : Int, 0 ≤ j → j < 800 →
      (runBlocks true demoReplacing.performUndo [silentArgs 480 0 1000]).loopBuffer.data 0 j
        = 3) := by
  obtain ⟨d1, d2, d3, d4, d5, d6, d7⟩ := demoReplacing_fields
  have hul : 0 < demoReplacing.undoLoopLengthSamples := by rw [d4]; decide
  obtain ⟨k1, k2, k3⟩ := performUndo_keeps_replace demoReplacing d1 d3 hul
  obtain ⟨r1, r2⟩ := performUndo_restores demoReplacing d3 hul
  have hlen1 : (([silentArgs 480 0 1000].length : Nat) : Int) = 1 := rfl
  obtain ⟨-, b2, -, b4, b5⟩ := runBlocks_replace (patternBuffer 800 (fun _ => 3)) 800 480
    (by decide) true [silentArgs 480 0 1000] demoReplacing.performUndo 0
    (fun b hb => by
      have e : b = silentArgs 480 0 1000 := by simpa using hb
      rw [e]
      rfl)
    k2 (by rw [k1, d2]) (by rw [k1, d2]) (by rw [k1, d2]) (by rw [k1, d2])
    (by rw [k1, d2]; decide) (by decide) (by decide)
    (fun c i _ hi0 hi1 => absurd hi1 (by omega))
    (fun _ => by rw [hlen1]; decide)
  refine ⟨d7, d1, ?_, ?_, ?_, fun j hj0 hj1 => ?_, ?_, ?_, fun j hj0 hj1 => ?_⟩
  · unfold LoopTrack.isReplacing
    rw [d2]
  · unfold LoopTrack.isReplacing
    rw [k1, d2]
  · rw [r1, d4]
  · rw [r2 0 j (by rw [d5]; decide) hj0 (by rw [d4]; exact hj1)]
    exact d6 0 j (by decide) hj0 hj1
  · unfold LoopTrack.isReplacing
    cases h : (runBlocks true demoReplacing.performUndo
      [silentArgs 480 0 1000]).mReplace.active
    · rfl
    · have h2 := b5.mp h
      rw [hlen1] at h2
      exact absurd h2 (by decide)
  · rw [b2, r1, d4]
  · rw [b4 0 j (by rw [k3, d5]; decide) hj0 (by rw [hlen1]; omega)]
    rfl

/-! ## The work buffer while a bounce-started replace is in flight -/

theorem foldl_bounceMix_numSamples (bounceLen : Int) :
    ∀ (tracks : List LoopTrack) (work : AudioBuffer),
      (tracks.foldl (bounceMixTrack bounceLen) work).numSamples = work.numSamples := by
  intro tracks
  induction tracks with
  | nil => intro _; rfl
  | cons t rest ih =>
    intro work
    rw [List.foldl_cons, ih, (bounceMixTrack_data bounceLen work t).2.1]

theorem performBounceBack_work_numSamples (s : Session) :
    s.performBounceBack.mWorkBuffer.numSamples = s.mWorkBuffer.numSamples := by
  unfold Session.performBounceBack
  dsimp only
  split_ifs
  · rfl
  · rfl
  · show (applyCrossfade _ _ _).numSamples = _
    rw [applyCrossfade_numSamples, foldl_bounceMix_numSamples]
    rfl

/-- The bounce does not read the pending flags. -/
theorem performBounceBack_pending (s : Session) (b : Bool) :
    Session.performBounceBack { s with mPendingBounce := b } =
      { s.performBounceBack with mPendingBounce := b } := by
  unfold Session.performBounceBack
  dsimp only
  split_ifs <;> rfl

/-- With a bounce and a capture pending, `executePendingOperations` runs the capture on the
session the bounce leaves. -/
theorem executePendingOperations_both (s : Session) (hb : s.mPendingBounce = true)
    (ha : 0 ≤ s.mPendingAfterLoop) :
    ∃ sB : Session, s.executePendingOperations = sB.performCaptureAfterLoop s.mPendingAfterLoop ∧
      sB.mTracks = s.performBounceBack.mTracks ∧
      sB.mWorkBuffer = s.performBounceBack.mWorkBuffer ∧
      sB.mPrimaryLoopLengthSamples = s.performBounceBack.mPrimaryLoopLengthSamples ∧
      sB.mRetrospectiveBuffer = s.mRetrospectiveBuffer ∧
      sB.mRetroWritePos = s.mRetroWritePos ∧
      sB.mRetroBufferSize = s.mRetroBufferSize ∧
      sB.mGlobalTotalSamples = s.mGlobalTotalSamples := by
  obtain ⟨work, tracks, len, hfr, _⟩ := performBounceBack_frame s
  unfold Session.executePendingOperations
  dsimp only
  rw [if_neg (show ¬ (s.mPendingBounce = false ∧ s.mPendingAfterLoop < 0) by omega),
    if_pos hb, if_pos (show s.mPendingAfterLoop ≥ 0 from ha), performBounceBack_pending]
  refine ⟨_, rfl, rfl, rfl, rfl, ?_, ?_, ?_, ?_⟩
  · show s.performBounceBack.mRetrospectiveBuffer = _
    rw [hfr]
  · show s.performBounceBack.mRetroWritePos = _
    rw [hfr]
  · show s.performBounceBack.mRetroBufferSize = _
    rw [hfr]
  · show s.performBounceBack.mGlobalTotalSamples = _
    rw [hfr]

/-- Storing a new work buffer content re-points every replace source at it and leaves the
rest of the replace state alone. -/
theorem setWorkBuffer_source (s : Session) (work : AudioBuffer) (j : Nat)
    (u : LoopTrack) (src : AudioBuffer) (hu : s.mTracks.get? j = some u)
    (hsrc : u.mReplace.source = some src) :
    ∃ u2, (s.setWorkBuffer work).mTracks.get? j = some u2 ∧
      u2.mReplace.source = some work ∧ u2.mReplace.active = u.mReplace.active ∧
      u2.mReplace.length = u.mReplace.length ∧
      u2.mReplace.remaining = u.mReplace.remaining ∧
      u2.loopLengthSamples = u.loopLengthSamples ∧ u2.currentState = u.currentState := by
  unfold Session.setWorkBuffer
  dsimp only
  rw [List.get?_eq_getElem?] at hu ⊢
  rw [List.getElem?_map, hu, Option.map_some']
  refine ⟨_, rfl, ?_⟩
  split
  · exact ⟨rfl, rfl, rfl, rfl, rfl, rfl⟩
  · rename_i hnone
    rw [hsrc] at hnone
    exact absurd hnone (by simp)

/-- A capture into track `idx` rewrites the work buffer that the replace source of any
other track points at: afterwards that source holds the trailing ring content. -/
theorem performCaptureAfterLoop_rewrites_source (s : Session) (idx : Nat) (tr : LoopTrack)
    (nch : Nat) (fed : Nat → Int → ℚ) (T c : Int)
    (hring : ringHolds s nch fed T)
    (hL : 0 < s.mPrimaryLoopLengthSamples) (hs : 0 < s.mRetroBufferSize)
    (hget : s.mTracks.get? idx = some tr)
    (hc : truncToInt (floatProduct s.mPrimaryLoopLengthSamples (clampMultiplier tr.targetMultiplier))
      = c)
    (hc0 : 0 < c) (hc1 : c ≤ s.mRetroBufferSize) (hc2 : c ≤ s.mWorkBuffer.numSamples)
    (hcT : c ≤ T) (hn1 : nch ≤ 2) (hn2 : nch ≤ s.mRetrospectiveBuffer.numChannels)
    (j : Nat) (hj : j ≠ idx) (u : LoopTrack) (src : AudioBuffer)
    (hu : s.mTracks.get? j = some u) (hsrc : u.mReplace.source = some src) :
    ∃ u2, (s.performCaptureAfterLoop idx).mTracks.get? j = some u2 ∧
      u2.mReplace.source = some (s.performCaptureAfterLoop idx).mWorkBuffer ∧
      u2.mReplace.active = u.mReplace.active ∧
      u2.mReplace.length = u.mReplace.length ∧
      u2.mReplace.remaining = u.mReplace.remaining ∧
      u2.loopLengthSamples = u.loopLengthSamples ∧ u2.currentState = u.currentState ∧
      ∀ (ch : Nat) (i : Int), ch < nch → min CROSSFADE_SAMPLES (c.tdiv 2) ≤ i →
        i < c - min CROSSFADE_SAMPLES (c.tdiv 2) →
        (s.performCaptureAfterLoop idx).mWorkBuffer.data ch i = fed ch (T - c + i) := by
  have hlen := get?_some_lt _ _ _ hget
  have hd : 0 ≤ c.tdiv 2 := by
    rw [Int.tdiv_eq_ediv (by omega) (by omega)]
    omega
  have hf : 0 ≤ min CROSSFADE_SAMPLES (c.tdiv 2) := le_min (by decide) hd
  unfold Session.performCaptureAfterLoop
  dsimp only
  rw [if_neg (show ¬ (s.mPrimaryLoopLengthSamples ≤ 0 ∨ s.mRetroBufferSize ≤ 0) by omega),
    if_neg (show ¬ ((idx : Int) < 0 ∨ (idx : Int) ≥ (s.mTracks.length : Int)) by omega),
    Int.toNat_ofNat, hget]
  dsimp only
  rw [hc, if_neg (show ¬ c ≤ 0 by omega), if_neg (show ¬ c > s.mRetroBufferSize by omega),
    if_neg (show ¬ c > s.mWorkBuffer.numSamples by omega)]
  split
  · rename_i heq
    rw [List.get?_eq_none, setWorkBuffer_length] at heq
    omega
  · rename_i tr1 heq
    have hS := fun (W : AudioBuffer) => setWorkBuffer_source s W j u src hu hsrc
    have hdata : ∀ (W : AudioBuffer) (ch : Nat) (i : Int), ch < nch →
        min CROSSFADE_SAMPLES (c.tdiv 2) ≤ i → i < c - min CROSSFADE_SAMPLES (c.tdiv 2) →
        (applyCrossfade
          (forCh (min 2 s.mRetrospectiveBuffer.numChannels)
            (fun ch acc =>
              if c ≤ s.mRetroBufferSize
                  - (s.mRetroWritePos - c + s.mRetroBufferSize).tmod s.mRetroBufferSize then
                acc.copyFrom ch 0 s.mRetrospectiveBuffer ch
                  ((s.mRetroWritePos - c + s.mRetroBufferSize).tmod s.mRetroBufferSize) c
              else
                (acc.copyFrom ch 0 s.mRetrospectiveBuffer ch
                  ((s.mRetroWritePos - c + s.mRetroBufferSize).tmod s.mRetroBufferSize)
                  (s.mRetroBufferSize
                    - (s.mRetroWritePos - c + s.mRetroBufferSize).tmod
                      s.mRetroBufferSize)).copyFrom
                  ch
                  (s.mRetroBufferSize
                    - (s.mRetroWritePos - c + s.mRetroBufferSize).tmod s.mRetroBufferSize)
                  s.mRetrospectiveBuffer ch 0
                  (c - (s.mRetroBufferSize
                    - (s.mRetroWritePos - c + s.mRetroBufferSize).tmod s.mRetroBufferSize)))
            W) c CROSSFADE_SAMPLES).data ch i = fed ch (T - c + i) := by
      intro W ch i hch hi0 hi1
      rw [applyCrossfade_middle _ _ _ _ _ hi0 hi1]
      exact ring_read_trailing s nch fed T hring hs c hc0 hc1 hcT _ _ ch hch
        (lt_min (by omega) (by omega)) i (by omega) (by omega)
    obtain ⟨u2, q1, q2, q3, q4, q5, q6, q7⟩ := hS _
    refine ⟨u2, ?_, q2, q3, q4, q5, q6, q7, fun ch i hch hi0 hi1 => hdata _ ch i hch hi0 hi1⟩
    show (List.set _ idx _).get? j = some u2
    rw [List.get?_eq_getElem?, List.getElem?_set_ne (Ne.symm hj), ← List.get?_eq_getElem?]
    exact q1

theorem demoBounceCaptureSession_length :
    bounceLength demoBounceCaptureSession.mPrimaryLoopLengthSamples
      demoBounceCaptureSession.mTracks = 1000 := by
  decide

/-- The bounce of the demo session alone: sample 500 of channel 0 of the mix is 1 + 2. -/
theorem demoBounceCaptureSession_mix :
    demoBounceCaptureSession.performBounceBack.mWorkBuffer.data 0 500 = 3 := by
  have hB := demoBounceCaptureSession_length
  rw [performBounceBack_work demoBounceCaptureSession (by decide) (by rw [hB]; decide), hB,
    applyCrossfade_middle _ _ _ 0 500 (by decide) (by decide), bounceMix_fold_data]
  simp [demoBounceCaptureSession, constantLoopTrack, preparedTrack, LoopTrack.fresh,
    patternBuffer, LoopTrack.hasLoop, AudioBuffer.clearRegion, AudioBuffer.allocate]
  norm_num

/-- **C38 fails on the code.** Take the session of `demoBounceCaptureSession`: master loop of
1000 ones, track 1 a loop of 1000 twos, the ring silent, a bounce and an After Loop capture
into track 1 pending in the same cycle.  The bounce alone leaves the master replacing from
the work buffer, whose sample 500 of channel 0 is the mix value 3.  `executePendingOperations`
runs the bounce and then the capture: afterwards the master's replace is still in flight
(active, 1000 of 1000 samples remaining), its source is the work buffer, and sample 500 of
that source, inside `[0, length)`, is the captured silence 0 instead of the mix value 3. -/
theorem capture_overwrites_bounce_source :
    (∃ m1, demoBounceCaptureSession.performBounceBack.mTracks.get? 0 = some m1 ∧
      m1.mReplace.active = true ∧ m1.mReplace.length = 1000 ∧
      m1.mReplace.source = some demoBounceCaptureSession.performBounceBack.mWorkBuffer ∧
      demoBounceCaptureSession.performBounceBack.mWorkBuffer.data 0 500 = 3) ∧
    ∃ master, demoBounceCaptureSession.executePendingOperations.mTracks.get? 0 = some master ∧
      master.mReplace.active = true ∧ master.mReplace.length = 1000 ∧
      master.mReplace.remaining = 1000 ∧
      master.mReplace.source
        = some demoBounceCaptureSession.executePendingOperations.mWorkBuffer ∧
      demoBounceCaptureSession.executePendingOperations.mWorkBuffer.data 0 500 = 0 := by
  have hB := demoBounceCaptureSession_length
  have heq := performBounceBack_eq demoBounceCaptureSession
    (constantLoopTrack 13230000 1000 0 1) [constantLoopTrack 13230000 1000 300 2] rfl
    (by decide) (by rw [hB]; decide)
  rw [hB] at heq
  have hTr : demoBounceCaptureSession.performBounceBack.mTracks =
      [(constantLoopTrack 13230000 1000 0 1).beginProgressiveReplace
        (some demoBounceCaptureSession.performBounceBack.mWorkBuffer) 1000 0 0,
       (constantLoopTrack 13230000 1000 300 2).clear] := congrArg Session.mTracks heq
  have hPr : demoBounceCaptureSession.performBounceBack.mPrimaryLoopLengthSamples = 1000 :=
    congrArg Session.mPrimaryLoopLengthSamples heq
  obtain ⟨f1, _, _, _⟩ := beginProgressiveReplace_fields (constantLoopTrack 13230000 1000 0 1)
    demoBounceCaptureSession.performBounceBack.mWorkBuffer 1000 0 0 (by decide) (by decide)
  refine ⟨⟨_, by rw [hTr]; rfl, by rw [f1], by rw [f1], by rw [f1],
    demoBounceCaptureSession_mix⟩, ?_⟩
  obtain ⟨sB, hex, hT, hW, hP, hR, hwp, hsz, hg⟩ :=
    executePendingOperations_both demoBounceCaptureSession rfl (by decide)
  replace hex : demoBounceCaptureSession.executePendingOperations
      = sB.performCaptureAfterLoop ((1 : Nat) : Int) := hex
  replace hwp : sB.mRetroWritePos = 1500 := hwp
  replace hsz : sB.mRetroBufferSize = 13230000 := hsz
  rw [hTr] at hT
  rw [hPr] at hP
  have hring := ringHolds_start sB 1 (by rw [hwp]; decide) (by rw [hwp, hsz]; decide)
  rw [hwp] at hring
  obtain ⟨u2, g1, g2, g3, g4, g5, _, _, g8⟩ :=
    performCaptureAfterLoop_rewrites_source sB 1 (constantLoopTrack 13230000 1000 300 2).clear
      1 (fun ch k => sB.mRetrospectiveBuffer.data ch k) 1500 1000 hring
      (by rw [hP]; decide) (by rw [hsz]; decide) (by rw [hT]; rfl)
      (by rw [hP]; exact captureLen_unit 1000 (by decide) (by decide))
      (by decide) (by rw [hsz]; decide)
      (by rw [hW, performBounceBack_work_numSamples]; decide) (by decide) (by decide)
      (by rw [hR]; decide) 0 (by decide) _ demoBounceCaptureSession.performBounceBack.mWorkBuffer
      (by rw [hT]; rfl) (by rw [f1])
  rw [hex]
  refine ⟨u2, g1, ?_, ?_, ?_, g2, ?_⟩
  · rw [g3, f1]
  · rw [g4, f1]
  · rw [g5, f1]
  · rw [g8 0 500 (by decide) (by decide) (by decide), hR]
    rfl

/-! ## A slave armed in the first-loop phase -/

theorem slaveTargetLen_zero (m : ℚ) : slaveTargetLen 0 m = 1 := by
  unfold slaveTargetLen truncToInt
  simp [floatProduct_zero]

/-- A Recording slave that has recorded at least one sample and is dispatched with master
length 0 is promoted to Playing with a loop of one sample. -/
theorem slave_finishes_without_master (t : LoopTrack) (out inp sc : AudioBuffer) (g : Int)
    (solo : Bool) (hrec : t.currentState = State.Recording) (hpp : t.playbackPosition ≤ 0)
    (h1 : 1 ≤ t.recordedSamplesCurrent) :
    (t.processBlock out inp sc g false 0 solo).1.currentState = State.Playing ∧
    (t.processBlock out inp sc g false 0 solo).1.loopLengthSamples = 1 := by
  have hT := slaveTargetLen_zero t.targetMultiplier
  have hge : slaveTargetLen 0 t.targetMultiplier ≤ t.recordedSamplesCurrent := by
    rw [hT]; exact h1
  constructor
  · rw [processBlock_promote_eq t out inp sc g 0 solo hrec hpp hge]
    obtain ⟨lb, r, b, w, h⟩ := processBlock_playing_frame
      { t with
        loopLengthSamples := slaveTargetLen 0 t.targetMultiplier
        playbackPosition := 0
        loopBuffer := applyCrossfade t.loopBuffer (slaveTargetLen 0 t.targetMultiplier) 128
        currentState := State.Playing } out inp sc g 0 false solo rfl
    rw [h]
  · rw [processBlock_slave_loopLength t out inp sc g 0 solo hrec hpp, hT]

/-- In a cycle of the first-loop phase without Reset edge in which the master does not
complete its loop, the dispatch runs the first slave, as the parameter handling left it, as a
slave with master length 0. -/
theorem first_loop_dispatch_slave (p : Processor) (c : CycleInput)
    (hreset : paramOn c.paramReset = p.mPrevReset) (hflag : p.mIsFirstLoop = true)
    (hinv : firstLoopInvariant p.toSession)
    (m0 s0 : LoopTrack) (rest : List LoopTrack) (pv0 pv1 : TrackPrev) (pvs : List TrackPrev)
    (pr0 pr1 : TrackParams) (prs : List TrackParams)
    (htracks : p.mTracks = m0 :: s0 :: rest) (hprev : p.mPrev = pv0 :: pv1 :: pvs)
    (hparams : c.params = pr0 :: pr1 :: prs)
    (hno : ¬ ((handleTrackParams m0 pv0 pr0).1.currentState = State.Playing ∧
      0 < (handleTrackParams m0 pv0 pr0).1.loopLengthSamples)) :
    ∃ out g solo, (p.processBlock c).1.mTracks.get? 1 =
      some ((handleTrackParams s0 pv1 pr1).1.processBlock out c.mainInput (fxCache c 1) g
        false 0 solo).1 := by
  obtain ⟨-, hs, -⟩ := enterCycle_session p c
  obtain ⟨e1, e2, -, e4⟩ := hs hreset
  obtain ⟨pd1, hc1⟩ := handleParamsFrom_cons 0 (by decide) m0 (s0 :: rest) pv0 (pv1 :: pvs)
    pr0 (pr1 :: prs) p.mPendingAfterLoop
  obtain ⟨pd2, hc2⟩ := handleParamsFrom_cons 1 (by decide) s0 rest pv1 pvs pr1 prs pd1
  rw [htracks, hprev, hparams, hc1, hc2] at e4
  have hfl : (p.enterCycle c).mIsFirstLoop = true := e1.trans hflag
  have hprim : (p.enterCycle c).mPrimaryLoopLengthSamples = 0 := e2.trans (hinv hflag).1
  obtain ⟨-, d2, -, -, -, d6, -, -⟩ := dispatch_fields (p.enterCycle c) c
  rw [dispatchMasterLength_first _ hfl, hprim] at d2 d6
  obtain ⟨-, -, -, -, x5, -⟩ :=
    executePendingOperations_frame ((p.enterCycle c).dispatch c).1.toSession
  obtain ⟨-, x7⟩ := x5 (le_of_eq d2)
  obtain ⟨out, hget⟩ := dispatchTracks_get c (p.enterCycle c).mGlobalTotalSamples 0
    ((p.enterCycle c).mTracks.any (fun t => t.isSolo)) (p.enterCycle c).mTracks 0
    (initialOutputs c) 1 (handleTrackParams s0 pv1 pr1).1 (by rw [e4]; rfl)
  unfold Processor.processBlock
  rw [firstLoopLogic_idle _ _ _ e4 hno]
  refine ⟨out, (p.enterCycle c).mGlobalTotalSamples,
    (p.enterCycle c).mTracks.any (fun t => t.isSolo), ?_⟩
  show (((p.enterCycle c).dispatch c).1.toSession.executePendingOperations).mTracks.get? 1 = _
  rw [x7]
  show ((p.enterCycle c).dispatch c).1.mTracks.get? 1 = _
  rw [d6, hget]
  rfl

/-- **C35 fails on the code.** A slave prepared at 48 kHz is armed by its Rec/Play trigger
while the session is in its first-loop phase and records the 480 samples of that cycle with
master length 0 (`demoSlaveAfter 1 1 0`: Recording, 480 samples recorded).  In the next
cycle of the first-loop phase (`demoFirstLoopSlaveProcessor`: first-loop flag set, cached
master length 0, no trigger changes) the slave's auto-finish check runs with the target
length `max (1, 0 * multiplier) = 1`: after the cycle the session is still in its first-loop
phase with master length 0 and the slave is Playing with `loopLength = 1`. -/
theorem slave_finishes_in_first_loop_phase :
    Reachable false (demoSlaveAfter 1 1 0) ∧
    (demoSlaveAfter 1 1 0).currentState = State.Recording ∧
    (demoSlaveAfter 1 1 0).recordedSamplesCurrent = 480 ∧
    demoFirstLoopSlaveProcessor.mIsFirstLoop = true ∧
    demoFirstLoopSlaveProcessor.mPrimaryLoopLengthSamples = 0 ∧
    demoFirstLoopSlaveProcessor.mTracks.get? 1 = some (demoSlaveAfter 1 1 0) ∧
    (demoFirstLoopSlaveProcessor.processBlock demoSlaveHoldCycle).1.mIsFirstLoop = true ∧
    (demoFirstLoopSlaveProcessor.processBlock demoSlaveHoldCycle).1.mPrimaryLoopLengthSamples
      = 0 ∧
    ∃ slave,
      (demoFirstLoopSlaveProcessor.processBlock demoSlaveHoldCycle).1.mTracks.get? 1
        = some slave ∧
      slave.currentState = State.Playing ∧ slave.loopLengthSamples = 1 := by
  have hreach := demoSlaveAfter_reachable 1 1 0
  obtain ⟨f1, f2, -, -⟩ := demoSlaveAfter_fields 1 1 0
    (by have := slaveTargetLen_pos 0 (clampMultiplier 1); omega) (by decide)
  have f2n : (demoSlaveAfter 1 1 0).recordedSamplesCurrent = 480 := by
    rw [f2]; decide
  have fpp := reachable_slaveRecordingInvariant _ hreach f1
  have hinv : firstLoopInvariant demoFirstLoopSlaveProcessor.toSession := fun _ => ⟨rfl, rfl⟩
  have hq0 : quietTrack demoPrevIdle demoParamsIdle :=
    ⟨paramOn_zero, paramOn_zero, paramOn_zero, paramOn_zero, paramOn_zero, paramOn_zero,
      paramOn_zero⟩
  have hq1 : quietTrack demoPrevRecOn demoParamsRecOn :=
    ⟨paramOn_zero, paramOn_one, paramOn_zero, paramOn_zero, paramOn_zero, paramOn_zero,
      paramOn_zero⟩
  have hm := handleTrackParams_quiet (LoopTrack.fresh.prepareToPlay 48000) demoPrevIdle
    demoParamsIdle hq0
  have hsl := handleTrackParams_quiet (demoSlaveAfter 1 1 0) demoPrevRecOn demoParamsRecOn hq1
  have hno : ¬ ((handleTrackParams (LoopTrack.fresh.prepareToPlay 48000) demoPrevIdle
        demoParamsIdle).1.currentState = State.Playing ∧
      0 < (handleTrackParams (LoopTrack.fresh.prepareToPlay 48000) demoPrevIdle
        demoParamsIdle).1.loopLengthSamples) := by
    rw [hm]
    intro h
    have h2 : (LoopTrack.fresh.prepareToPlay 48000).loopLengthSamples = 0 := by
      rw [prepared_48000]; rfl
    have h3 : 0 < (LoopTrack.fresh.prepareToPlay 48000).loopLengthSamples := h.2
    omega
  have hpr : paramOn demoSlaveHoldCycle.paramReset = demoFirstLoopSlaveProcessor.mPrevReset :=
    paramOn_zero
  obtain ⟨out, g, solo, hget⟩ := first_loop_dispatch_slave demoFirstLoopSlaveProcessor
    demoSlaveHoldCycle hpr rfl hinv _ _ _ _ _ _ _ _ _ rfl rfl rfl hno
  rw [hsl] at hget
  obtain ⟨c1, c2⟩ := slave_finishes_without_master
    (((LoopTrack.setVolume (demoSlaveAfter 1 1 0) demoParamsRecOn.vol).setMuted
      (paramOn demoParamsRecOn.mute)).setSolo (paramOn demoParamsRecOn.solo))
    out demoSlaveHoldCycle.mainInput (fxCache demoSlaveHoldCycle 1) g solo f1
    (le_of_eq fpp)
    (by
      show 1 ≤ (demoSlaveAfter 1 1 0).recordedSamplesCurrent
      rw [f2n]
      decide)
  obtain ⟨-, hs, -⟩ := enterCycle_session demoFirstLoopSlaveProcessor demoSlaveHoldCycle
  obtain ⟨e1, -, -, e4⟩ := hs hpr
  obtain ⟨rest1, e⟩ := handleParamsFrom_head (LoopTrack.fresh.prepareToPlay 48000)
    (demoSlaveAfter 1 1 0 :: List.replicate 4 (LoopTrack.fresh.prepareToPlay 48000))
    demoPrevIdle (demoPrevRecOn :: List.replicate 4 demoPrevIdle) demoParamsIdle
    (demoParamsRecOn :: List.replicate 4 demoParamsIdle)
    demoFirstLoopSlaveProcessor.mPendingAfterLoop
  obtain ⟨k1, k2, -⟩ := cycle_stays_in_first_loop demoFirstLoopSlaveProcessor
    demoSlaveHoldCycle _ rest1 hinv e1 (e4.trans e) hno
  exact ⟨hreach, f1, f2n, rfl, rfl, rfl, k1, k2, _, hget, c1, c2⟩

/-! ## The global sample counter -/

theorem firstLoopLogic_counter (q : Processor) :
    q.firstLoopLogic.mGlobalTotalSamples = q.mGlobalTotalSamples ∧
    q.firstLoopLogic.mTracks = q.mTracks := by
  cases htr : q.mTracks with
  | nil =>
    have e : q.firstLoopLogic = q := by
      unfold Processor.firstLoopLogic
      rw [htr]
    rw [e, htr]
    exact ⟨rfl, rfl⟩
  | cons master rest =>
    by_cases hc : q.mIsFirstLoop = true ∧ master.currentState = State.Playing ∧
        0 < master.loopLengthSamples
    · rw [firstLoopLogic_complete q master rest htr hc.1 hc.2.1 hc.2.2]
      obtain ⟨b, hb⟩ := calculateBpm_frame
        { q.toSession with mPrimaryLoopLengthSamples := master.loopLengthSamples }
        master.loopLengthSamples q.sampleRate
      constructor
      · show (Session.calculateBpm _ _ _).mGlobalTotalSamples = _
        rw [hb]
      · show (Session.calculateBpm _ _ _).mTracks = _
        rw [hb]
        exact htr
    · have e : q.firstLoopLogic = q := by
        by_cases hf : q.mIsFirstLoop = true
        · exact firstLoopLogic_idle q master rest htr (fun h => hc ⟨hf, h.1, h.2⟩)
        · exact firstLoopLogic_past q (by simpa using hf)
      rw [e, htr]
      exact ⟨rfl, rfl⟩

theorem dispatchMasterLength_pos_iff (q : Processor) :
    0 < q.dispatchMasterLength ↔ 0 < q.mPrimaryLoopLengthSamples := by
  unfold Processor.dispatchMasterLength
  dsimp only
  split
  · exact Iff.rfl
  · split_ifs with h1 h2
    · exact ⟨fun _ => h1.1, fun _ => h2.1⟩
    · exact Iff.rfl
    · exact Iff.rfl

/-- The transport update at the end of the dispatch (`processBlock`, lines 433-440). -/
theorem dispatch_counter (q : Processor) (c : CycleInput) :
    (q.dispatch c).1.mGlobalTotalSamples =
      if q.mIsFirstLoop = false ∧ q.dispatchMasterLength > 0
      then q.mGlobalTotalSamples + c.numSamples else q.mGlobalTotalSamples := by
  unfold Processor.dispatch
  dsimp only
  split_ifs <;> rfl

theorem processBlock_counter (p : Processor) (c : CycleInput) :
    (p.processBlock c).1.mGlobalTotalSamples =
      if (p.enterCycle c).firstLoopLogic.mIsFirstLoop = false ∧
          0 < (p.enterCycle c).firstLoopLogic.mPrimaryLoopLengthSamples
      then (p.enterCycle c).firstLoopLogic.mGlobalTotalSamples + c.numSamples
      else (p.enterCycle c).firstLoopLogic.mGlobalTotalSamples := by
  obtain ⟨-, x2, -⟩ := executePendingOperations_frame
    ((p.enterCycle c).firstLoopLogic.dispatch c).1.toSession
  have hd := dispatch_counter (p.enterCycle c).firstLoopLogic c
  have hiff := dispatchMasterLength_pos_iff (p.enterCycle c).firstLoopLogic
  show (((p.enterCycle c).firstLoopLogic.dispatch c).1.toSession.executePendingOperations
    ).mGlobalTotalSamples = _
  rw [x2]
  show ((p.enterCycle c).firstLoopLogic.dispatch c).1.mGlobalTotalSamples = _
  rw [hd]
  by_cases h : (p.enterCycle c).firstLoopLogic.mIsFirstLoop = false ∧
      0 < (p.enterCycle c).firstLoopLogic.mPrimaryLoopLengthSamples
  · rw [if_pos h, if_pos ⟨h.1, hiff.2 h.2⟩]
  · rw [if_neg h, if_neg (fun hh => h ⟨hh.1, hiff.1 hh.2⟩)]

theorem dispatchCounter_eq (p : Processor) (c : CycleInput) :
    (paramOn c.paramReset = p.mPrevReset →
      (p.enterCycle c).firstLoopLogic.mGlobalTotalSamples = p.mGlobalTotalSamples) ∧
    (paramOn c.paramReset ≠ p.mPrevReset →
      (p.enterCycle c).firstLoopLogic.mGlobalTotalSamples = 0) := by
  obtain ⟨-, hs, hr⟩ := enterCycle_session p c
  have hfc := (firstLoopLogic_counter (p.enterCycle c)).1
  exact ⟨fun h => hfc.trans (hs h).2.2.1, fun h => hfc.trans (hr h).2.2⟩

/-- **C32.** Take any processing cycle `c` of `n ≥ 0` samples on any processor state `p`,
and read the first-loop flag and the cached master length where the code reads them: after
the cycle's parameter handling and first-loop check (`(p.enterCycle c).firstLoopLogic`).
The global sample count at that point is the count the cycle started with, or 0 when the
cycle carries a Reset edge; every track is dispatched with it as `globalTotalSamples`.  After
the cycle the count is that value plus `n` when the flag is clear and the master length is
positive, and that value otherwise; so it never decreases in a cycle without Reset edge, and
the next cycle without Reset edge dispatches its tracks with the count this cycle left:
where the count advances, consecutive cycles present the ranges `[g, g + n)` and
`[g + n, ...)`. -/
theorem global_counter_advances_by_block (p : Processor) (c : CycleInput)
    (hn : 0 ≤ c.numSamples) :
    (paramOn c.paramReset = p.mPrevReset →
      (p.enterCycle c).firstLoopLogic.mGlobalTotalSamples = p.mGlobalTotalSamples) ∧
    (paramOn c.paramReset ≠ p.mPrevReset →
      (p.enterCycle c).firstLoopLogic.mGlobalTotalSamples = 0) ∧
    (∀ (i : Nat) (t : LoopTrack), (p.enterCycle c).firstLoopLogic.mTracks.get? i = some t →
      ∃ out L solo, ((p.enterCycle c).firstLoopLogic.dispatch c).1.mTracks.get? i =
        some (t.processBlock out c.mainInput (fxCache c i)
          (p.enterCycle c).firstLoopLogic.mGlobalTotalSamples (decide (i = 0)) L solo).1) ∧
    ((p.enterCycle c).firstLoopLogic.mIsFirstLoop = false ∧
        0 < (p.enterCycle c).firstLoopLogic.mPrimaryLoopLengthSamples →
      (p.processBlock c).1.mGlobalTotalSamples
        = (p.enterCycle c).firstLoopLogic.mGlobalTotalSamples + c.numSamples) ∧
    (¬ ((p.enterCycle c).firstLoopLogic.mIsFirstLoop = false ∧
        0 < (p.enterCycle c).firstLoopLogic.mPrimaryLoopLengthSamples) →
      (p.processBlock c).1.mGlobalTotalSamples
        = (p.enterCycle c).firstLoopLogic.mGlobalTotalSamples) ∧
    (p.enterCycle c).firstLoopLogic.mGlobalTotalSamples
      ≤ (p.processBlock c).1.mGlobalTotalSamples ∧
    (paramOn c.paramReset = p.mPrevReset →
      p.mGlobalTotalSamples ≤ (p.processBlock c).1.mGlobalTotalSamples) ∧
    (∀ c2 : CycleInput, paramOn c2.paramReset = (p.processBlock c).1.mPrevReset →
      (((p.processBlock c).1.enterCycle c2).firstLoopLogic.mGlobalTotalSamples
        = (p.processBlock c).1.mGlobalTotalSamples)) := by
  obtain ⟨h1, h2⟩ := dispatchCounter_eq p c
  have hpc := processBlock_counter p c
  have hle : (p.enterCycle c).firstLoopLogic.mGlobalTotalSamples
      ≤ (p.processBlock c).1.mGlobalTotalSamples := by
    rw [hpc]
    split_ifs <;> omega
  refine ⟨h1, h2, fun i t ht => ?_, fun h => ?_, fun h => ?_, hle, fun h => ?_,
    fun c2 h => (dispatchCounter_eq (p.processBlock c).1 c2).1 h⟩
  · obtain ⟨-, -, -, -, -, d6, -, -⟩ := dispatch_fields (p.enterCycle c).firstLoopLogic c
    have h := dispatchTracks_get c (p.enterCycle c).firstLoopLogic.mGlobalTotalSamples
      (p.enterCycle c).firstLoopLogic.dispatchMasterLength
      ((p.enterCycle c).firstLoopLogic.mTracks.any (fun t => t.isSolo))
      (p.enterCycle c).firstLoopLogic.mTracks 0 (initialOutputs c) i t ht
    rw [Nat.zero_add] at h
    obtain ⟨out, hout⟩ := h
    exact ⟨out, _, _, by rw [d6]; exact hout⟩
  · rw [hpc, if_pos h]
  · rw [hpc, if_neg h]
  · rw [← h1 h]
    exact hle

/-- Witness for `global_counter_advances_by_block`: the looping example processor (past its
first loop, master length 1000, global sample count 2480) runs a cycle of 480 samples
without Reset edge; the tracks are dispatched with count 2480 and the cycle leaves the count
at 2960. -/
theorem global_counter_advances_by_block_witness :
    0 ≤ demoMultiplyCycle.numSamples ∧
    (demoLoopingProcessor.enterCycle demoMultiplyCycle).firstLoopLogic.mGlobalTotalSamples
      = 2480 ∧
    (demoLoopingProcessor.processBlock demoMultiplyCycle).1.mGlobalTotalSamples = 2960 := by
  have hn : 0 ≤ demoMultiplyCycle.numSamples := by decide
  obtain ⟨w1, -, -, w4, -⟩ :=
    global_counter_advances_by_block demoLoopingProcessor demoMultiplyCycle hn
  obtain ⟨e1, e2, -⟩ := demoMultiplyCycle_enter
  have hq := firstLoopLogic_past (demoLoopingProcessor.enterCycle demoMultiplyCycle) e1
  have hg : (demoLoopingProcessor.enterCycle demoMultiplyCycle).firstLoopLogic.mGlobalTotalSamples
      = 2480 := w1 paramOn_zero
  have hadv := w4 (by rw [hq, e2]; exact ⟨e1, by decide⟩)
  rw [hg] at hadv
  exact ⟨hn, hg, hadv⟩

/-! ## Reachable states: Empty tracks, loops and the undo state -/

theorem emptyInvariant_setRecording (t : LoopTrack) (h : emptyInvariant t) :
    emptyInvariant t.setRecording := by
  unfold emptyInvariant at h ⊢
  unfold LoopTrack.setRecording
  split_ifs <;> (try dsimp only) <;>
  (generalize t.currentState = st at *
   generalize t.hasUndo = hu at *
   generalize t.loopLengthSamples.tdiv 2 = half at *
   generalize t.loopLengthSamples = len at *
   generalize t.playbackPosition = pp at *
   generalize t.recordedSamplesCurrent = rc at *
   generalize t.undoLoopLengthSamples = ul at *
   cases st <;> cases hu <;> simp at *)

theorem emptyInvariant_setOverdubbing (t : LoopTrack) (h : emptyInvariant t) :
    emptyInvariant t.setOverdubbing := by
  unfold emptyInvariant at h ⊢
  unfold LoopTrack.setOverdubbing LoopTrack.saveUndo
  dsimp only
  split_ifs <;> (try dsimp only) <;>
  (generalize t.currentState = st at *
   generalize t.hasUndo = hu at *
   generalize t.loopLengthSamples.tdiv 2 = half at *
   generalize t.loopLengthSamples = len at *
   generalize t.playbackPosition = pp at *
   generalize t.recordedSamplesCurrent = rc at *
   generalize t.undoLoopLengthSamples = ul at *
   cases st <;> cases hu <;> simp at * <;> omega)

theorem emptyInvariant_setPlaying (t : LoopTrack) (h : emptyInvariant t) :
    emptyInvariant t.setPlaying := by
  unfold emptyInvariant at h ⊢
  unfold LoopTrack.setPlaying
  dsimp only
  split_ifs <;> (try dsimp only) <;>
  (generalize t.currentState = st at *
   generalize t.hasUndo = hu at *
   generalize t.loopLengthSamples.tdiv 2 = half at *
   generalize t.loopLengthSamples = len at *
   generalize t.playbackPosition = pp at *
   generalize t.recordedSamplesCurrent = rc at *
   generalize t.undoLoopLengthSamples = ul at *
   cases st <;> cases hu <;> simp at * <;> omega)

theorem emptyInvariant_stop (t : LoopTrack) (h : emptyInvariant t) :
    emptyInvariant t.stop := by
  unfold emptyInvariant at h ⊢
  unfold LoopTrack.stop
  dsimp only
  split_ifs <;> (try dsimp only) <;>
  (generalize t.currentState = st at *
   generalize t.hasUndo = hu at *
   generalize t.loopLengthSamples.tdiv 2 = half at *
   generalize t.loopLengthSamples = len at *
   generalize t.playbackPosition = pp at *
   generalize t.recordedSamplesCurrent = rc at *
   generalize t.undoLoopLengthSamples = ul at *
   cases st <;> cases hu <;> simp at * <;> omega)

theorem emptyInvariant_performUndo (t : LoopTrack) (h : emptyInvariant t) :
    emptyInvariant t.performUndo := by
  unfold emptyInvariant at h ⊢
  unfold LoopTrack.performUndo LoopTrack.setPlaying
  dsimp only
  split_ifs <;> (try dsimp only) <;>
  (generalize t.currentState = st at *
   generalize t.hasUndo = hu at *
   generalize t.loopLengthSamples.tdiv 2 = half at *
   generalize t.loopLengthSamples = len at *
   generalize t.playbackPosition = pp at *
   generalize t.recordedSamplesCurrent = rc at *
   generalize t.undoLoopLengthSamples = ul at *
   cases st <;> cases hu <;> simp at * <;> omega)

theorem emptyInvariant_multiplyLoop (t : LoopTrack) (h : emptyInvariant t) :
    emptyInvariant t.multiplyLoop := by
  unfold emptyInvariant at h ⊢
  unfold LoopTrack.multiplyLoop LoopTrack.saveUndo
  dsimp only
  split_ifs <;> (try dsimp only) <;>
  (generalize t.currentState = st at *
   generalize t.hasUndo = hu at *
   generalize t.loopLengthSamples.tdiv 2 = half at *
   generalize t.loopLengthSamples = len at *
   generalize t.playbackPosition = pp at *
   generalize t.recordedSamplesCurrent = rc at *
   generalize t.undoLoopLengthSamples = ul at *
   (cases st <;> cases hu <;> simp at *)
   omega)

theorem emptyInvariant_divideLoop (t : LoopTrack) (h : emptyInvariant t) :
    emptyInvariant t.divideLoop := by
  unfold emptyInvariant at h ⊢
  unfold LoopTrack.divideLoop LoopTrack.saveUndo
  dsimp only
  split_ifs <;> (try dsimp only) <;>
  (generalize t.currentState = st at *
   generalize t.hasUndo = hu at *
   generalize t.loopLengthSamples.tdiv 2 = half at *
   generalize t.loopLengthSamples = len at *
   generalize t.playbackPosition = pp at *
   generalize t.recordedSamplesCurrent = rc at *
   generalize t.undoLoopLengthSamples = ul at *
   (cases st <;> cases hu <;> simp at *)
   omega)

theorem emptyInvariant_setLoopFromMix (t : LoopTrack) (mixed : AudioBuffer) (length startOffset startGlobalSample : Int) (h : emptyInvariant t) :
    emptyInvariant (t.setLoopFromMix mixed length startOffset startGlobalSample) := by
  unfold emptyInvariant at h ⊢
  unfold LoopTrack.setLoopFromMix LoopTrack.saveUndo
  dsimp only
  split_ifs <;> (try dsimp only) <;>
  (generalize t.currentState = st at *
   generalize t.hasUndo = hu at *
   generalize t.loopLengthSamples.tdiv 2 = half at *
   generalize t.loopLengthSamples = len at *
   generalize t.playbackPosition = pp at *
   generalize t.recordedSamplesCurrent = rc at *
   generalize t.undoLoopLengthSamples = ul at *
   cases st <;> cases hu <;> simp at * <;> omega)

theorem emptyInvariant_overdubFromBuffer (t : LoopTrack) (input : AudioBuffer) (inputLength inputStartGlobalSample : Int) (h : emptyInvariant t) :
    emptyInvariant (t.overdubFromBuffer input inputLength inputStartGlobalSample) := by
  unfold emptyInvariant at h ⊢
  unfold LoopTrack.overdubFromBuffer LoopTrack.saveUndo
  dsimp only
  split_ifs <;> (try dsimp only) <;>
  (generalize t.currentState = st at *
   generalize t.hasUndo = hu at *
   generalize t.loopLengthSamples.tdiv 2 = half at *
   generalize t.loopLengthSamples = len at *
   generalize t.playbackPosition = pp at *
   generalize t.recordedSamplesCurrent = rc at *
   generalize t.undoLoopLengthSamples = ul at *
   (cases st <;> cases hu <;> simp at *)
   omega)

theorem emptyInvariant_applyFxReplace (t : LoopTrack) (h : emptyInvariant t) :
    emptyInvariant t.applyFxReplace := by
  unfold emptyInvariant at h ⊢
  unfold LoopTrack.applyFxReplace LoopTrack.saveUndo
  dsimp only
  split_ifs <;> (try dsimp only) <;>
  (generalize t.currentState = st at *
   generalize t.hasUndo = hu at *
   generalize t.loopLengthSamples.tdiv 2 = half at *
   generalize t.loopLengthSamples = len at *
   generalize t.playbackPosition = pp at *
   generalize t.recordedSamplesCurrent = rc at *
   generalize t.undoLoopLengthSamples = ul at *
   (cases st <;> cases hu <;> simp at *)
   omega)

theorem emptyInvariant_beginProgressiveReplace (t : LoopTrack) (source : Option AudioBuffer)
    (length startOffset startGlobal : Int) (h : emptyInvariant t) :
    emptyInvariant (t.beginProgressiveReplace source length startOffset startGlobal) := by
  cases source with
  | none => exact h
  | some src =>
    unfold emptyInvariant at h ⊢
    unfold LoopTrack.beginProgressiveReplace LoopTrack.saveUndo
    dsimp only
    split_ifs <;> (try dsimp only) <;>
    (generalize t.currentState = st at *
     generalize t.hasUndo = hu at *
     generalize t.loopLengthSamples.tdiv 2 = half at *
     generalize t.loopLengthSamples = len at *
     generalize t.playbackPosition = pp at *
     generalize t.recordedSamplesCurrent = rc at *
     generalize t.undoLoopLengthSamples = ul at *
     cases st <;> cases hu <;> simp at * <;> omega)

theorem emptyInvariant_fresh : emptyInvariant LoopTrack.fresh := by
  unfold emptyInvariant LoopTrack.fresh
  simp

theorem emptyInvariant_clear (t : LoopTrack) : emptyInvariant t.clear := by
  unfold emptyInvariant LoopTrack.clear
  simp

theorem undoInvariantBase_setPlaying (t : LoopTrack) (h : undoInvariantBase t) :
    undoInvariantBase t.setPlaying := by
  unfold undoInvariantBase at h ⊢
  unfold LoopTrack.setPlaying
  dsimp only
  split_ifs <;> (try dsimp only) <;>
  (generalize t.currentState = st at *
   generalize t.hasUndo = hu at *
   generalize t.loopLengthSamples.tdiv 2 = half at *
   generalize t.loopLengthSamples = len at *
   generalize t.playbackPosition = pp at *
   generalize t.recordedSamplesCurrent = rc at *
   generalize t.undoLoopLengthSamples = ul at *
   cases st <;> cases hu <;> simp at * <;> omega)

theorem undoInvariant_setRecording (t : LoopTrack) (h : undoInvariant t) :
    undoInvariant t.setRecording := by
  unfold undoInvariant at h ⊢
  unfold LoopTrack.setRecording
  split_ifs <;> (try dsimp only) <;>
  (generalize t.currentState = st at *
   generalize t.hasUndo = hu at *
   generalize t.loopLengthSamples.tdiv 2 = half at *
   generalize t.loopLengthSamples = len at *
   generalize t.playbackPosition = pp at *
   generalize t.recordedSamplesCurrent = rc at *
   generalize t.undoLoopLengthSamples = ul at *
   cases st <;> cases hu <;> simp at * <;> omega)

theorem undoInvariant_setOverdubbing (t : LoopTrack) (h : undoInvariant t) :
    undoInvariant t.setOverdubbing := by
  unfold undoInvariant at h ⊢
  unfold LoopTrack.setOverdubbing LoopTrack.saveUndo
  dsimp only
  split_ifs <;> (try dsimp only) <;>
  (generalize t.currentState = st at *
   generalize t.hasUndo = hu at *
   generalize t.loopLengthSamples.tdiv 2 = half at *
   generalize t.loopLengthSamples = len at *
   generalize t.playbackPosition = pp at *
   generalize t.recordedSamplesCurrent = rc at *
   generalize t.undoLoopLengthSamples = ul at *
   cases st <;> cases hu <;> simp at * <;> omega)

theorem undoInvariant_setPlaying (t : LoopTrack) (h : undoInvariant t) :
    undoInvariant t.setPlaying := by
  unfold undoInvariant at h ⊢
  unfold LoopTrack.setPlaying
  dsimp only
  split_ifs <;> (try dsimp only) <;>
  (generalize t.currentState = st at *
   generalize t.hasUndo = hu at *
   generalize t.loopLengthSamples.tdiv 2 = half at *
   generalize t.loopLengthSamples = len at *
   generalize t.playbackPosition = pp at *
   generalize t.recordedSamplesCurrent = rc at *
   generalize t.undoLoopLengthSamples = ul at *
   cases st <;> cases hu <;> simp at * <;> omega)

theorem undoInvariant_stop (t : LoopTrack) (h : undoInvariant t) :
    undoInvariant t.stop := by
  unfold undoInvariant at h ⊢
  unfold LoopTrack.stop
  dsimp only
  split_ifs <;> (try dsimp only) <;>
  (generalize t.currentState = st at *
   generalize t.hasUndo = hu at *
   generalize t.loopLengthSamples.tdiv 2 = half at *
   generalize t.loopLengthSamples = len at *
   generalize t.playbackPosition = pp at *
   generalize t.recordedSamplesCurrent = rc at *
   generalize t.undoLoopLengthSamples = ul at *
   cases st <;> cases hu <;> simp at * <;> omega)

theorem undoInvariant_performUndo (t : LoopTrack) (h : undoInvariant t) :
    undoInvariant t.performUndo := by
  unfold undoInvariant at h ⊢
  unfold LoopTrack.performUndo LoopTrack.setPlaying
  dsimp only
  split_ifs <;> (try dsimp only) <;>
  (generalize t.currentState = st at *
   generalize t.hasUndo = hu at *
   generalize t.loopLengthSamples.tdiv 2 = half at *
   generalize t.loopLengthSamples = len at *
   generalize t.playbackPosition = pp at *
   generalize t.recordedSamplesCurrent = rc at *
   generalize t.undoLoopLengthSamples = ul at *
   cases st <;> cases hu <;> simp at * <;> omega)

theorem undoInvariant_multiplyLoop (t : LoopTrack) (h : undoInvariant t) :
    undoInvariant t.multiplyLoop := by
  unfold undoInvariant at h ⊢
  unfold LoopTrack.multiplyLoop LoopTrack.saveUndo
  dsimp only
  split_ifs <;> (try dsimp only) <;>
  (generalize t.currentState = st at *
   generalize t.hasUndo = hu at *
   generalize t.loopLengthSamples.tdiv 2 = half at *
   generalize t.loopLengthSamples = len at *
   generalize t.playbackPosition = pp at *
   generalize t.recordedSamplesCurrent = rc at *
   generalize t.undoLoopLengthSamples = ul at *
   cases st <;> cases hu <;> simp at * <;> omega)

theorem undoInvariant_divideLoop (t : LoopTrack) (h : undoInvariant t) :
    undoInvariant t.divideLoop := by
  unfold undoInvariant at h ⊢
  unfold LoopTrack.divideLoop LoopTrack.saveUndo
  dsimp only
  split_ifs <;> (try dsimp only) <;>
  (generalize t.currentState = st at *
   generalize t.hasUndo = hu at *
   generalize t.loopLengthSamples.tdiv 2 = half at *
   generalize t.loopLengthSamples = len at *
   generalize t.playbackPosition = pp at *
   generalize t.recordedSamplesCurrent = rc at *
   generalize t.undoLoopLengthSamples = ul at *
   cases st <;> cases hu <;> simp at * <;> omega)

theorem undoInvariant_setLoopFromMix (t : LoopTrack) (mixed : AudioBuffer) (length startOffset startGlobalSample : Int) (h : undoInvariant t) :
    undoInvariant (t.setLoopFromMix mixed length startOffset startGlobalSample) := by
  unfold undoInvariant at h ⊢
  unfold LoopTrack.setLoopFromMix LoopTrack.saveUndo
  dsimp only
  split_ifs <;> (try dsimp only) <;>
  (generalize t.currentState = st at *
   generalize t.hasUndo = hu at *
   generalize t.loopLengthSamples.tdiv 2 = half at *
   generalize t.loopLengthSamples = len at *
   generalize t.playbackPosition = pp at *
   generalize t.recordedSamplesCurrent = rc at *
   generalize t.undoLoopLengthSamples = ul at *
   cases st <;> cases hu <;> simp at * <;> omega)

theorem undoInvariant_overdubFromBuffer (t : LoopTrack) (input : AudioBuffer) (inputLength inputStartGlobalSample : Int) (h : undoInvariant t) :
    undoInvariant (t.overdubFromBuffer input inputLength inputStartGlobalSample) := by
  unfold undoInvariant at h ⊢
  unfold LoopTrack.overdubFromBuffer LoopTrack.saveUndo
  dsimp only
  split_ifs <;> (try dsimp only) <;>
  (generalize t.currentState = st at *
   generalize t.hasUndo = hu at *
   generalize t.loopLengthSamples.tdiv 2 = half at *
   generalize t.loopLengthSamples = len at *
   generalize t.playbackPosition = pp at *
   generalize t.recordedSamplesCurrent = rc at *
   generalize t.undoLoopLengthSamples = ul at *
   cases st <;> cases hu <;> simp at * <;> omega)

theorem undoInvariant_applyFxReplace (t : LoopTrack) (h : undoInvariant t) :
    undoInvariant t.applyFxReplace := by
  unfold undoInvariant at h ⊢
  unfold LoopTrack.applyFxReplace LoopTrack.saveUndo
  dsimp only
  split_ifs <;> (try dsimp only) <;>
  (generalize t.currentState = st at *
   generalize t.hasUndo = hu at *
   generalize t.loopLengthSamples.tdiv 2 = half at *
   generalize t.loopLengthSamples = len at *
   generalize t.playbackPosition = pp at *
   generalize t.recordedSamplesCurrent = rc at *
   generalize t.undoLoopLengthSamples = ul at *
   cases st <;> cases hu <;> simp at * <;> omega)

theorem undoInvariant_beginProgressiveReplace (t : LoopTrack) (source : Option AudioBuffer)
    (length startOffset startGlobal : Int) (h : undoInvariant t) :
    undoInvariant (t.beginProgressiveReplace source length startOffset startGlobal) := by
  cases source with
  | none => exact h
  | some src =>
    unfold undoInvariant at h ⊢
    unfold LoopTrack.beginProgressiveReplace LoopTrack.saveUndo
    dsimp only
    split_ifs <;> (try dsimp only) <;>
    (generalize t.currentState = st at *
     generalize t.hasUndo = hu at *
     generalize t.loopLengthSamples.tdiv 2 = half at *
     generalize t.loopLengthSamples = len at *
     generalize t.playbackPosition = pp at *
     generalize t.recordedSamplesCurrent = rc at *
     generalize t.undoLoopLengthSamples = ul at *
     cases st <;> cases hu <;> simp at * <;> omega)

theorem undoInvariant_fresh : undoInvariant LoopTrack.fresh := by
  unfold undoInvariant LoopTrack.fresh
  simp

theorem undoInvariant_clear (t : LoopTrack) : undoInvariant t.clear := by
  unfold undoInvariant LoopTrack.clear
  simp

theorem emptyInvariant_processBlock (t : LoopTrack) (out inp sc : AudioBuffer) (g L : Int)
    (im solo : Bool) (h : emptyInvariant t) :
    emptyInvariant (t.processBlock out inp sc g im L solo).1 := by
  cases hs : t.currentState with
  | Empty => rw [processBlock_idle t out inp sc g L im solo (Or.inl hs)]; exact h
  | Stopped => rw [processBlock_idle t out inp sc g L im solo (Or.inr hs)]; exact h
  | Playing =>
    obtain ⟨lb, r, b, w, e⟩ := processBlock_playing_frame t out inp sc g L im solo hs
    rw [e]
    exact h
  | Overdubbing =>
    obtain ⟨lb, r, b, w, e⟩ := processBlock_overdub_frame t out inp sc g L im solo hs
    rw [e]
    exact h
  | Recording =>
    intro he
    rcases processBlock_recording_state t out inp sc g L im solo hs with h1 | h1 <;>
      rw [h1] at he <;> cases he

theorem reachable_emptyInvariant (im : Bool) (t : LoopTrack) (h : Reachable im t) :
    emptyInvariant t := by
  induction h with
  | constructed => exact emptyInvariant_fresh
  | prepareToPlay sr _ _ => exact emptyInvariant_clear _
  | processBlock out inp sc g L solo _ ih =>
    exact emptyInvariant_processBlock _ out inp sc g L im solo ih
  | clear _ _ => exact emptyInvariant_clear _
  | setRecording _ ih => exact emptyInvariant_setRecording _ ih
  | setOverdubbing _ ih => exact emptyInvariant_setOverdubbing _ ih
  | setPlaying _ ih => exact emptyInvariant_setPlaying _ ih
  | stop _ ih => exact emptyInvariant_stop _ ih
  | setVolume v _ ih => exact ih
  | setMuted b _ ih => exact ih
  | setSolo b _ ih => exact ih
  | setTargetMultiplier m _ ih => exact ih
  | applyFxReplace _ ih => exact emptyInvariant_applyFxReplace _ ih
  | setLoopFromMix mixed len off start _ ih => exact emptyInvariant_setLoopFromMix _ _ _ _ _ ih
  | overdubFromBuffer input len start _ ih =>
    exact emptyInvariant_overdubFromBuffer _ _ _ _ ih
  | multiplyLoop _ ih => exact emptyInvariant_multiplyLoop _ ih
  | divideLoop _ ih => exact emptyInvariant_divideLoop _ ih
  | performUndo _ ih => exact emptyInvariant_performUndo _ ih
  | beginProgressiveReplace source len off start _ ih =>
    exact emptyInvariant_beginProgressiveReplace _ _ _ _ _ ih
  | processReplaceChunk p n _ ih =>
    obtain ⟨lb, r, e⟩ := LoopTrack.processReplaceChunk_frame _ p n
    rw [e]
    exact ih

theorem undoInvariantBase_of (t : LoopTrack) (h : undoInvariant t) : undoInvariantBase t :=
  ⟨h.1, h.2.1, h.2.2.1, h.2.2.2.1, h.2.2.2.2.1, h.2.2.2.2.2.2⟩

theorem undoInvariantBase_handleRecording (u : LoopTrack) (inp : AudioBuffer) (n w : Int)
    (h : undoInvariantBase u) : undoInvariantBase (u.handleRecording inp n w) := by
  unfold LoopTrack.handleRecording
  split
  · exact undoInvariantBase_setPlaying u h
  · exact h

theorem undoInvariantBase_replaceStage (u : LoopTrack) (p n : Int)
    (h : undoInvariantBase u) :
    undoInvariantBase (if u.mReplace.active = true then u.processReplaceChunk p n else u) := by
  obtain ⟨lb, r, e, -, -⟩ := replaceStage_frame u p n
  rw [e]
  exact h

theorem undoInvariantBase_slaveTrack (t : LoopTrack) (g L : Int)
    (hrec : t.currentState = State.Recording) (h : undoInvariantBase t) :
    undoInvariantBase (LoopTrack.blockPositions t State.Recording g false L).track := by
  rw [blockPositions_slave_recording]
  have hT := slaveTargetLen_pos L t.targetMultiplier
  unfold undoInvariantBase at h ⊢
  dsimp only
  split_ifs <;> (try dsimp only) <;>
  (generalize slaveTargetLen L t.targetMultiplier = T at *
   generalize t.currentState = st at *
   generalize t.hasUndo = hu at *
   generalize t.loopLengthSamples = len at *
   generalize t.playbackPosition = pp at *
   generalize t.recordedSamplesCurrent = rc at *
   generalize t.undoLoopLengthSamples = ul at *
   cases st <;> cases hu <;> simp at * <;> omega)

theorem undoInvariant_bump_pp (t : LoopTrack) (n : Int) (hn : 0 < n)
    (h : undoInvariantBase t) :
    undoInvariant { t with playbackPosition := t.playbackPosition + n } := by
  unfold undoInvariantBase at h
  unfold undoInvariant
  dsimp only
  generalize t.currentState = st at *
  generalize t.hasUndo = hu at *
  generalize t.loopLengthSamples = len at *
  generalize t.playbackPosition = pp at *
  generalize t.recordedSamplesCurrent = rc at *
  generalize t.undoLoopLengthSamples = ul at *
  cases st <;> cases hu <;> simp at * <;> omega

theorem undoInvariant_bump_rc (t : LoopTrack) (n : Int) (hn : 0 < n)
    (h : undoInvariantBase t) :
    undoInvariant { t with recordedSamplesCurrent := t.recordedSamplesCurrent + n } := by
  unfold undoInvariantBase at h
  unfold undoInvariant
  dsimp only
  generalize t.currentState = st at *
  generalize t.hasUndo = hu at *
  generalize t.loopLengthSamples = len at *
  generalize t.playbackPosition = pp at *
  generalize t.recordedSamplesCurrent = rc at *
  generalize t.undoLoopLengthSamples = ul at *
  cases st <;> cases hu <;> simp at * <;> omega

theorem undoInvariant_target (t : LoopTrack) (L : Int)
    (hrec : t.currentState = State.Recording)
    (hge : slaveTargetLen L t.targetMultiplier ≤ t.recordedSamplesCurrent)
    (h : undoInvariant t) :
    undoInvariant { t with loopLengthSamples := slaveTargetLen L t.targetMultiplier } := by
  have hT := slaveTargetLen_pos L t.targetMultiplier
  unfold undoInvariant at h ⊢
  dsimp only
  generalize slaveTargetLen L t.targetMultiplier = T at *
  generalize t.currentState = st at *
  generalize t.hasUndo = hu at *
  generalize t.loopLengthSamples = len at *
  generalize t.playbackPosition = pp at *
  generalize t.recordedSamplesCurrent = rc at *
  generalize t.undoLoopLengthSamples = ul at *
  cases st <;> cases hu <;> simp at * <;> omega

/-- A block of at least one sample keeps the invariants behind `canUndo ()`. -/
theorem undoInvariant_processBlock (t : LoopTrack) (out inp sc : AudioBuffer) (g L : Int)
    (im solo : Bool) (hn : 0 < out.numSamples) (h : undoInvariant t) :
    undoInvariant (t.processBlock out inp sc g im L solo).1 := by
  cases hs : t.currentState with
  | Empty => rw [processBlock_idle t out inp sc g L im solo (Or.inl hs)]; exact h
  | Stopped => rw [processBlock_idle t out inp sc g L im solo (Or.inr hs)]; exact h
  | Playing =>
    obtain ⟨lb, r, b, w, e⟩ := processBlock_playing_frame t out inp sc g L im solo hs
    rw [e]
    exact h
  | Overdubbing =>
    obtain ⟨lb, r, b, w, e⟩ := processBlock_overdub_frame t out inp sc g L im solo hs
    rw [e]
    exact h
  | Recording =>
    by_cases hprom : im = false ∧ slaveTargetLen L t.targetMultiplier ≤ t.recordedSamplesCurrent
    · obtain ⟨him, hge⟩ := hprom
      subst him
      obtain ⟨hst, -, e⟩ := processBlock_promote_eq_setPlaying t out inp sc g L solo hs hge
      rw [e]
      obtain ⟨lb, r, b, w, e2⟩ := processBlock_playing_frame _ out inp sc g L false solo hst
      rw [e2]
      exact undoInvariant_setPlaying _ (undoInvariant_target t L hs hge h)
    · have hno : im = true ∨ t.recordedSamplesCurrent < slaveTargetLen L t.targetMultiplier := by
        cases im
        · right
          have : ¬ slaveTargetLen L t.targetMultiplier ≤ t.recordedSamplesCurrent := by
            intro hh; exact hprom ⟨rfl, hh⟩
          omega
        · left; rfl
      have hb : undoInvariantBase (LoopTrack.blockPositions t State.Recording g im L).track := by
        cases im
        · exact undoInvariantBase_slaveTrack t g L hs (undoInvariantBase_of t h)
        · rw [blockPositions_master_recording]
          exact undoInvariantBase_of t h
      have hHR := undoInvariantBase_handleRecording _ inp out.numSamples
        (LoopTrack.blockPositions t State.Recording g im L).writePos
        (undoInvariantBase_replaceStage _
          (LoopTrack.blockPositions t State.Recording g im L).readPos out.numSamples hb)
      rw [processBlock_recording_eq t out inp sc g L im solo hs hno]
      cases im
      · rw [if_neg Bool.false_ne_true]
        exact undoInvariant_bump_rc _ _ hn hHR
      · rw [if_pos rfl]
        exact undoInvariant_bump_pp _ _ hn hHR

theorem reachableNonEmpty_undoInvariant (im : Bool) (t : LoopTrack)
    (h : ReachableNonEmpty im t) : undoInvariant t := by
  induction h with
  | constructed => exact undoInvariant_fresh
  | prepareToPlay sr _ _ => exact undoInvariant_clear _
  | processBlock out inp sc g L solo hn _ ih =>
    exact undoInvariant_processBlock _ out inp sc g L im solo hn ih
  | clear _ _ => exact undoInvariant_clear _
  | setRecording _ ih => exact undoInvariant_setRecording _ ih
  | setOverdubbing _ ih => exact undoInvariant_setOverdubbing _ ih
  | setPlaying _ ih => exact undoInvariant_setPlaying _ ih
  | stop _ ih => exact undoInvariant_stop _ ih
  | setVolume v _ ih => exact ih
  | setMuted b _ ih => exact ih
  | setSolo b _ ih => exact ih
  | setTargetMultiplier m _ ih => exact ih
  | applyFxReplace _ ih => exact undoInvariant_applyFxReplace _ ih
  | setLoopFromMix mixed len off start _ ih => exact undoInvariant_setLoopFromMix _ _ _ _ _ ih
  | overdubFromBuffer input len start _ ih =>
    exact undoInvariant_overdubFromBuffer _ _ _ _ ih
  | multiplyLoop _ ih => exact undoInvariant_multiplyLoop _ ih
  | divideLoop _ ih => exact undoInvariant_divideLoop _ ih
  | performUndo _ ih => exact undoInvariant_performUndo _ ih
  | beginProgressiveReplace source len off start _ ih =>
    exact undoInvariant_beginProgressiveReplace _ _ _ _ _ ih
  | processReplaceChunk p n _ ih =>
    obtain ⟨lb, r, e⟩ := LoopTrack.processReplaceChunk_frame _ p n
    rw [e]
    exact ih

/-- Every state reached with non-empty blocks is a reachable state. -/
theorem reachableNonEmpty_reachable (im : Bool) (t : LoopTrack)
    (h : ReachableNonEmpty im t) : Reachable im t := by
  induction h with
  | constructed => exact Reachable.constructed
  | prepareToPlay sr _ ih => exact Reachable.prepareToPlay sr ih
  | processBlock out inp sc g L solo _ _ ih => exact Reachable.processBlock out inp sc g L solo ih
  | clear _ ih => exact Reachable.clear ih
  | setRecording _ ih => exact Reachable.setRecording ih
  | setOverdubbing _ ih => exact Reachable.setOverdubbing ih
  | setPlaying _ ih => exact Reachable.setPlaying ih
  | stop _ ih => exact Reachable.stop ih
  | setVolume v _ ih => exact Reachable.setVolume v ih
  | setMuted b _ ih => exact Reachable.setMuted b ih
  | setSolo b _ ih => exact Reachable.setSolo b ih
  | setTargetMultiplier m _ ih => exact Reachable.setTargetMultiplier m ih
  | applyFxReplace _ ih => exact Reachable.applyFxReplace ih
  | setLoopFromMix mixed len off start _ ih => exact Reachable.setLoopFromMix mixed len off start ih
  | overdubFromBuffer input len start _ ih => exact Reachable.overdubFromBuffer input len start ih
  | multiplyLoop _ ih => exact Reachable.multiplyLoop ih
  | divideLoop _ ih => exact Reachable.divideLoop ih
  | performUndo _ ih => exact Reachable.performUndo ih
  | beginProgressiveReplace source len off start _ ih =>
    exact Reachable.beginProgressiveReplace source len off start ih
  | processReplaceChunk p n _ ih => exact Reachable.processReplaceChunk p n ih

/-- A Recording track with a loop length but nothing recorded: `multiplyLoop ()` saves an
undo state, `stop ()` sets the loop length to the playback position 0, and `performUndo ()`
swaps that 0 into the saved undo length. -/
theorem performUndo_unrecorded (u : LoopTrack) (hrec : u.currentState = State.Recording)
    (hpp : u.playbackPosition = 0) (hrc : u.recordedSamplesCurrent = 0)
    (hlen : 0 < u.loopLengthSamples)
    (hfit : u.loopLengthSamples * 2 ≤ u.loopBuffer.numSamples) :
    u.multiplyLoop.stop.performUndo.hasUndo = true ∧
    u.multiplyLoop.stop.performUndo.undoLoopLengthSamples = 0 ∧
    u.multiplyLoop.stop.performUndo.currentState = State.Recording ∧
    u.multiplyLoop.stop.performUndo.loopLengthSamples = u.loopLengthSamples := by
  rw [multiplyLoop_eq u hlen hfit]
  unfold LoopTrack.performUndo LoopTrack.stop LoopTrack.setPlaying
  simp [hrec, hpp, hrc, hlen]

/-- C36 (as stated) fails. A slave prepared at 48 kHz is armed by `setRecording ()` and
handed one block of zero samples while the master loop is 1000 samples long (the block sets
its loop length to the target 1000 and records nothing); then `multiplyLoop ()`, `stop ()`
and `performUndo ()`.  The state is reachable, `canUndo ()` is true and the saved undo
length is 0. -/
theorem undo_length_zero_after_empty_block :
    Reachable false demoEmptyBlockUndo ∧
    (silentBlock 0).numSamples = 0 ∧
    demoEmptyBlockUndo.canUndo = true ∧
    demoEmptyBlockUndo.undoLoopLengthSamples = 0 ∧
    demoEmptyBlockUndo.currentState = State.Recording ∧
    demoEmptyBlockUndo.loopLengthSamples = 1000 := by
  have hr : Reachable false (demoArmedSlave 1) := demoSlaveAfter_reachable 1 0 1000
  have hT : slaveTargetLen 1000 (clampMultiplier 1) = 1000 :=
    slaveTargetLen_unit 1000 (by decide) (by decide)
  obtain ⟨f1, f2, f3, f4⟩ := demoSlaveAfter_fields 1 0 1000 (by rw [hT]; decide) (by decide)
  replace f1 : (demoArmedSlave 1).currentState = State.Recording := f1
  replace f2 : (demoArmedSlave 1).recordedSamplesCurrent = 0 := by
    have e : (demoArmedSlave 1).recordedSamplesCurrent = ((0 : Nat) : Int) * 480 := f2
    rw [e]
    decide
  replace f3 : (demoArmedSlave 1).targetMultiplier = clampMultiplier 1 := f3
  replace f4 : (demoArmedSlave 1).loopBuffer.numSamples = 14400000 := f4
  have fpp := reachable_slaveRecordingInvariant _ hr f1
  have hn : (silentBlock 0).numSamples = 0 := rfl
  obtain ⟨c1, c2, c3, c4, -, c6⟩ := processBlock_slave_continue (demoArmedSlave 1)
    (silentBlock 0) (silentBlock 0) (silentBlock 0) 0 1000 false f1
    (by rw [f2, f3, hT]; decide) (by rw [f2, f4, hn]; decide)
  rw [f3, hT] at c2
  rw [f2, hn] at c3
  rw [fpp] at c4
  rw [f4] at c6
  obtain ⟨u1, u2, u3, u4⟩ := performUndo_unrecorded _ c1 c4 (by rw [c3]; decide)
    (by rw [c2]; decide) (by rw [c2, c6]; decide)
  refine ⟨Reachable.performUndo (Reachable.stop (Reachable.multiplyLoop
    (Reachable.processBlock _ _ _ _ _ _ hr))), hn, u1, u2, u3, u4.trans c2⟩

/-- **C36 (amended).** In every track state reachable from construction through
`prepareToPlay`, the public operations and `processBlock`: a track that is Empty has
`loopLength = 0`, and a track that is Playing, Overdubbing or Stopped has `loopLength > 0`.
When in addition every `processBlock` call on the way had a block of at least one sample,
`canUndo ()` implies that the saved undo length is positive. -/
theorem reachable_state_invariants (im : Bool) (t : LoopTrack) (h : Reachable im t) :
    (t.currentState = State.Empty → t.loopLengthSamples = 0) ∧
    (t.currentState = State.Playing ∨ t.currentState = State.Overdubbing ∨
      t.currentState = State.Stopped → 0 < t.loopLengthSamples) ∧
    (ReachableNonEmpty im t → t.canUndo = true → 0 < t.undoLoopLengthSamples) :=
  ⟨fun he => (reachable_emptyInvariant im t h he).1, reachable_loopInvariant im t h,
    fun hne hu => (reachableNonEmpty_undoInvariant im t hne).2.1 hu⟩

/-- Witness for `reachable_state_invariants`: the 1000-sample example loop after
`multiplyLoop ()` is reachable without any block, Playing with `canUndo ()` true; its loop
length and its saved undo length are positive. -/
theorem reachable_state_invariants_witness :
    Reachable true demoMultipliedLoop ∧ ReachableNonEmpty true demoMultipliedLoop ∧
    demoMultipliedLoop.currentState = State.Playing ∧ demoMultipliedLoop.canUndo = true ∧
    0 < demoMultipliedLoop.loopLengthSamples ∧
    0 < demoMultipliedLoop.undoLoopLengthSamples := by
  have hne : ReachableNonEmpty true demoMultipliedLoop :=
    ReachableNonEmpty.multiplyLoop (ReachableNonEmpty.setLoopFromMix _ _ _ _
      (ReachableNonEmpty.prepareToPlay 48000 ReachableNonEmpty.constructed))
  have hr := reachableNonEmpty_reachable true _ hne
  obtain ⟨f1, f2, f3, -⟩ := demoLoop1000_fields
  have e := multiplyLoop_eq demoLoop1000 (by rw [f2]; decide) (by rw [f2, f3]; decide)
  have hst : demoMultipliedLoop.currentState = State.Playing := by
    unfold demoMultipliedLoop
    rw [e]
    exact f1
  have hcu : demoMultipliedLoop.canUndo = true := by
    unfold demoMultipliedLoop
    rw [e]
    rfl
  obtain ⟨-, w2, w3⟩ := reachable_state_invariants true demoMultipliedLoop hr
  exact ⟨hr, hne, hst, hcu, w2 (Or.inl hst), w3 hne hcu⟩

/-! ## Bounce of a master whose anchor is not a multiple of its length -/

theorem demoSeededTrack_channels (mixedBuffer : AudioBuffer) (length anchor : Int) :
    (demoSeededTrack mixedBuffer length anchor).loopBuffer.numChannels = 2 := by
  unfold demoSeededTrack
  rw [prepared_48000]
  unfold LoopTrack.setLoopFromMix
  split
  · rfl
  · dsimp only
    rw [(forCh_copyFrom_shape
      (min (preparedTrack 14400000).saveUndo.loopBuffer.clear.numChannels mixedBuffer.numChannels)
      (preparedTrack 14400000).saveUndo.loopBuffer.clear
      (fun ch acc => acc.copyFrom ch 0 mixedBuffer ch 0 length) (fun ch a => ⟨rfl, rfl⟩)).2]
    obtain ⟨ub, ul, hu, e⟩ := saveUndo_frame (preparedTrack 14400000)
    rw [e]
    rfl

/-- C37 (as stated) fails for a master whose anchor is not a multiple of its length. The
master holds the 1000-sample ramp `0, 1, 2, ...` with anchor 500 (a reachable Playing state;
an After Loop capture into a cleared master installs such an anchor) and is the only track,
so every loop length divides the bounce length 1000. At global sample count 1700 the bounced
mix sample `1700 mod 1000 = 700` is `loopBuffer[(1700 - 500) mod 1000] = 200`, while the
master reads from position `1700 mod 1000 = 700`, where its loop holds 700. -/
theorem bounce_differs_from_master_playback :
    Reachable true demoAnchoredRamp ∧
    demoAnchoredRamp.currentState = State.Playing ∧
    demoAnchoredRamp.loopLengthSamples = 1000 ∧
    demoAnchoredRamp.recordingStartGlobalSample = 500 ∧
    bounceLength demoAnchoredRampSession.mPrimaryLoopLengthSamples
      demoAnchoredRampSession.mTracks = 1000 ∧
    demoAnchoredRampSession.performBounceBack.mWorkBuffer.data 0 (1700 % 1000) = 200 ∧
    specHeardSum demoAnchoredRampSession.mTracks 0 1700 = 200 ∧
    (LoopTrack.blockPositions demoAnchoredRamp demoAnchoredRamp.currentState 1700 true
      1000).readPos = 700 ∧
    demoAnchoredRamp.loopBuffer.data 0 700 = 700 := by
  obtain ⟨f1, f2, f3⟩ := demoSeededTrack_fields (patternBuffer 1000 (fun i => (i : ℚ))) 1000 500
    (by decide) (by decide)
  replace f1 : demoAnchoredRamp.currentState = State.Playing := f1
  replace f2 : demoAnchoredRamp.loopLengthSamples = 1000 := f2
  replace f3 : demoAnchoredRamp.recordingStartGlobalSample = 500 := f3
  have f4 : demoAnchoredRamp.loopBuffer.numChannels = 2 := demoSeededTrack_channels _ _ _
  have hl : demoAnchoredRamp.hasLoop = true := by
    unfold LoopTrack.hasLoop
    rw [f2]
    decide
  have hd : ∀ i : Int, 0 ≤ i → i < 1000 → demoAnchoredRamp.loopBuffer.data 0 i = (i : ℚ) :=
    fun i h0 h1 => demoSeededTrack_data (patternBuffer 1000 (fun i => (i : ℚ))) 1000 500
      (by decide) (by decide) 0 i (by decide) (by decide) h0 h1
  have hB : bounceLength demoAnchoredRampSession.mPrimaryLoopLengthSamples
      demoAnchoredRampSession.mTracks = 1000 := by
    show bounceLength 1000 [demoAnchoredRamp] = 1000
    unfold bounceLength
    rw [List.foldl_cons, List.foldl_nil, if_pos hl, f2]
    decide
  have hmix : demoAnchoredRampSession.performBounceBack.mWorkBuffer.data 0 700 = 200 := by
    rw [performBounceBack_work demoAnchoredRampSession (by decide) (by rw [hB]; decide), hB,
      applyCrossfade_middle _ _ _ 0 700 (by decide) (by decide), bounceMix_fold_data]
    show (demoAnchoredRampSession.mWorkBuffer.clearRegion 0 1000).data 0 700
      + ([demoAnchoredRamp].map _).sum = 200
    rw [List.map_cons, List.map_nil, List.sum_cons, List.sum_nil,
      if_pos ⟨hl, by rw [f4]; decide, by decide, by decide⟩, f2, f3,
      hd _ (by decide) (by decide)]
    have hc : (demoAnchoredRampSession.mWorkBuffer.clearRegion 0 1000).data 0 700 = 0 := by
      unfold AudioBuffer.clearRegion
      simp [demoAnchoredRampSession, sessionWith, AudioBuffer.allocate]
    rw [hc]
    norm_num
  have hne : demoAnchoredRamp.currentState ≠ State.Recording := by rw [f1]; decide
  refine ⟨demoSeededTrack_reachable true _ _ _, f1, f2, f3, hB, hmix, ?_, ?_, ?_⟩
  · show specHeardSum [demoAnchoredRamp] 0 1700 = 200
    unfold specHeardSum
    rw [List.filter_cons_of_pos hl, List.filter_nil, List.map_cons, List.map_nil,
      List.sum_cons, List.sum_nil, f2, f3, hd _ (by decide) (by decide)]
    norm_num
  · rw [LoopTrack.blockPositions_master_loop _ _ 1700 1000 hne (by rw [f2]; decide)]
    show (1700 : Int).tmod demoAnchoredRamp.loopLengthSamples = 700
    rw [f2]
    decide
  · rw [hd 700 (by decide) (by decide)]
    norm_num

end SimpleLooper
